import Mathlib

/-! # Interactive drawing tool of pcbnew

A shallow embedding of `pcbnew/tools/drawing_tool.cpp`: the modal interaction
loops (`drawSegment`, `drawArc`, `DrawDimension`, `drawZone`, `PlaceText`,
`PlaceDXF`), the 45 degree helper `make45DegLine`, and the commit boundary the
loops talk to. Two smaller embeddings follow it: the net of a connected item
(`pcbnew/class_board_connected_item.cpp`) and the footprint handler of the symbol
chooser (`eeschema/dialogs/dialog_choose_component.cpp`).

Conventions of the embedding.

* A blocking `Wait()` loop is a step function folded over the list of events
  still to come; `Wait()` yields no event once the list is exhausted.
* Every event carries the cursor position that `m_controls->GetCursorPosition()`
  reports while the event is handled, the state of the Ctrl modifier, and the
  answers the user gives to a dialog opened while the event is handled.
* Heap objects reached through a pointer are `Option` values (`none` is a null
  or freed pointer); a step that would dereference such a pointer yields `none`.
* A `double` that is stored (the angle of an arc) is a rational. The height of a
  dimension is computed on `double` values as the program does: sums and products are
  rounded to the nearest `double`, the conversion to `int` truncates, and the functions
  of the C library are parameters.
* Coordinates are integers. Where the program adds or subtracts coordinates of items
  it did not shape itself (the items of an import as they are moved, the offset of the
  cursor from a dimension), the result is taken in `int` arithmetic, which wraps
  around at 32 bits.
-/

namespace DrawingTool

/-! ## Geometry and layers -/

/-- Integer point of the board plane (`wxPoint`, `VECTOR2I`). -/
structure Point where
  x : Int
  y : Int
deriving DecidableEq, Repr

instance : Add Point := ⟨fun a b => ⟨a.x + b.x, a.y + b.y⟩⟩
instance : Sub Point := ⟨fun a b => ⟨a.x - b.x, a.y - b.y⟩⟩

/-- Board layers. The enumeration lives outside the translated sources; only the
members the tool names are told apart, the remaining copper layers are
`In_Cu n` and the remaining technical layers `Tech n`. -/
inductive LAYER_ID
  | F_Cu
  | In_Cu (n : Nat)
  | B_Cu
  | F_SilkS
  | B_SilkS
  | Dwgs_User
  | Edge_Cuts
  | Tech (n : Nat)
deriving DecidableEq, Repr

/-- Copper layers are `F_Cu`, the inner layers and `B_Cu`. -/
def IsCopperLayer : LAYER_ID → Bool
  | .F_Cu => true
  | .In_Cu _ => true
  | .B_Cu => true
  | _ => false

/-- Shapes a `DRAWSEGMENT` can take in this tool. -/
inductive STROKE_T
  | S_SEGMENT
  | S_CIRCLE
  | S_ARC
deriving DecidableEq, Repr

/-- Reinterpretation of an `unsigned int` as `int` (two's complement). -/
def toInt32 (n : Int) : Int :=
  if n % 2 ^ 32 < 2 ^ 31 then n % 2 ^ 32 else n % 2 ^ 32 - 2 ^ 32

/-- Conversion of an `int` to `unsigned int`: the value modulo `2 ^ 32`. -/
def toUInt32 (i : Int) : Int := i % 2 ^ 32

/-- The sum of two points as `wxPoint` and `VECTOR2I` compute it: in `int` arithmetic,
which wraps around. -/
def Point.add32 (a b : Point) : Point := ⟨toInt32 (a.x + b.x), toInt32 (a.y + b.y)⟩

/-- The difference of two points in `int` arithmetic, which wraps around. -/
def Point.sub32 (a b : Point) : Point := ⟨toInt32 (a.x - b.x), toInt32 (a.y - b.y)⟩

/-- The coordinates of a point are values of type `int`. -/
def Point.isInt (p : Point) : Prop :=
  -2 ^ 31 ≤ p.x ∧ p.x < 2 ^ 31 ∧ -2 ^ 31 ≤ p.y ∧ p.y < 2 ^ 31

instance (p : Point) : Decidable p.isInt := by
  unfold Point.isInt; infer_instance

/-- The graphic item `DRAWSEGMENT` (an `EDGE_MODULE` when `isModuleEdge`).
For an arc `m_Start` is the centre and `m_End` the arc start. -/
structure DRAWSEGMENT where
  m_Shape : STROKE_T
  m_Width : Int
  m_Start : Point
  m_End : Point
  m_Layer : LAYER_ID
  m_Angle : ℚ
  isModuleEdge : Bool
deriving DecidableEq, Repr

/-- A freshly constructed segment: `new DRAWSEGMENT` or `new EDGE_MODULE`. -/
def DRAWSEGMENT.new (isModuleEdge : Bool) : DRAWSEGMENT :=
  { m_Shape := .S_SEGMENT, m_Width := 0, m_Start := ⟨0, 0⟩, m_End := ⟨0, 0⟩,
    m_Layer := .F_Cu, m_Angle := 0, isModuleEdge := isModuleEdge }

def DRAWSEGMENT.GetStart (s : DRAWSEGMENT) : Point := s.m_Start
def DRAWSEGMENT.GetEnd (s : DRAWSEGMENT) : Point := s.m_End
def DRAWSEGMENT.GetCenter (s : DRAWSEGMENT) : Point := s.m_Start
def DRAWSEGMENT.GetArcStart (s : DRAWSEGMENT) : Point := s.m_End
def DRAWSEGMENT.GetWidth (s : DRAWSEGMENT) : Int := s.m_Width
def DRAWSEGMENT.GetAngle (s : DRAWSEGMENT) : ℚ := s.m_Angle
def DRAWSEGMENT.SetShape (s : DRAWSEGMENT) (a : STROKE_T) : DRAWSEGMENT := { s with m_Shape := a }
def DRAWSEGMENT.SetWidth (s : DRAWSEGMENT) (w : Int) : DRAWSEGMENT := { s with m_Width := w }
def DRAWSEGMENT.SetStart (s : DRAWSEGMENT) (p : Point) : DRAWSEGMENT := { s with m_Start := p }
def DRAWSEGMENT.SetEnd (s : DRAWSEGMENT) (p : Point) : DRAWSEGMENT := { s with m_End := p }
def DRAWSEGMENT.SetCenter (s : DRAWSEGMENT) (p : Point) : DRAWSEGMENT := { s with m_Start := p }
def DRAWSEGMENT.SetArcStart (s : DRAWSEGMENT) (p : Point) : DRAWSEGMENT := { s with m_End := p }
def DRAWSEGMENT.SetLayer (s : DRAWSEGMENT) (a : LAYER_ID) : DRAWSEGMENT := { s with m_Layer := a }
def DRAWSEGMENT.SetAngle (s : DRAWSEGMENT) (a : ℚ) : DRAWSEGMENT := { s with m_Angle := a }

/-! ## Zones, dimensions, texts -/

/-- One corner of a zone outline, with the flag that ends a contour. -/
structure CPolyPt where
  pos : Point
  end_contour : Bool
deriving DecidableEq, Repr

/-- Settings a zone is created from (`ZONE_SETTINGS`). -/
structure ZONE_SETTINGS where
  m_CurrentZone_Layer : LAYER_ID
  m_NetcodeSelection : Int
  isKeepout : Bool
  hatchStyle : Nat
deriving DecidableEq, Repr

/-- Modelled from the spec: `ZONE_CONTAINER` and its outline are declared outside
the translated sources. A zone outline is "an ordered, closable sequence of 2D
points forming one or more contours"; the zone also carries its settings and
whether it is filled. -/
structure ZONE_CONTAINER where
  corners : List CPolyPt
  settings : ZONE_SETTINGS
  m_IsFilled : Bool
  hatched : Bool
deriving DecidableEq, Repr

def ZONE_CONTAINER.GetLayer (z : ZONE_CONTAINER) : LAYER_ID := z.settings.m_CurrentZone_Layer
def ZONE_CONTAINER.GetNumCorners (z : ZONE_CONTAINER) : Nat := z.corners.length
def ZONE_CONTAINER.IsFilled (z : ZONE_CONTAINER) : Bool := z.m_IsFilled

/-- Corner positions in outline order: `GetCornerPosition( ii )` for every `ii`. -/
def ZONE_CONTAINER.cornerPositions (z : ZONE_CONTAINER) : List Point := z.corners.map CPolyPt.pos

/-- Outline start: `Outline()->Start( layer, x, y, hatch )` leaves the single first corner. -/
def ZONE_CONTAINER.Start (z : ZONE_CONTAINER) (p : Point) : ZONE_CONTAINER :=
  { z with corners := [⟨p, false⟩] }

/-- Appending a corner at the end of the corner list. -/
def ZONE_CONTAINER.AppendCorner (z : ZONE_CONTAINER) (p : Point) : ZONE_CONTAINER :=
  { z with corners := z.corners ++ [⟨p, false⟩] }

/-- Marks the last corner of a corner list as the end of its contour. -/
def closeLast : List CPolyPt → List CPolyPt
  | [] => []
  | [c] => [{ c with end_contour := true }]
  | c :: d :: rest => c :: closeLast (d :: rest)

/-- Closing the contour in progress: `Outline()->CloseLastContour()`. -/
def ZONE_CONTAINER.CloseLastContour (z : ZONE_CONTAINER) : ZONE_CONTAINER :=
  { z with corners := closeLast z.corners }

/-- Modelled from the spec: `DIMENSION` is declared outside the translated
sources. The loop reads and writes its origin (`m_featureLineGO`), its end
(`m_featureLineDO`, the point the height is measured from), its height, its
line width, its layer and the size and thickness of its text. -/
structure DIMENSION where
  m_featureLineGO : Point
  m_featureLineDO : Point
  m_Height : Int
  m_Width : Int
  m_Layer : LAYER_ID
  textSize : Point
  textThickness : Int
deriving DecidableEq, Repr

def DIMENSION.new : DIMENSION :=
  { m_featureLineGO := ⟨0, 0⟩, m_featureLineDO := ⟨0, 0⟩, m_Height := 0, m_Width := 0,
    m_Layer := .F_Cu, textSize := ⟨0, 0⟩, textThickness := 0 }

def DIMENSION.GetOrigin (d : DIMENSION) : Point := d.m_featureLineGO
def DIMENSION.GetEnd (d : DIMENSION) : Point := d.m_featureLineDO
def DIMENSION.GetWidth (d : DIMENSION) : Int := d.m_Width
def DIMENSION.SetOrigin (d : DIMENSION) (p : Point) : DIMENSION := { d with m_featureLineGO := p }
def DIMENSION.SetEnd (d : DIMENSION) (p : Point) : DIMENSION := { d with m_featureLineDO := p }
def DIMENSION.SetHeight (d : DIMENSION) (h : Int) : DIMENSION := { d with m_Height := h }
def DIMENSION.SetWidth (d : DIMENSION) (w : Int) : DIMENSION := { d with m_Width := w }
def DIMENSION.SetLayer (d : DIMENSION) (a : LAYER_ID) : DIMENSION := { d with m_Layer := a }

/-- A text item (`TEXTE_PCB`, or `TEXTE_MODULE` when `isModuleText`). -/
structure TEXTE where
  m_Text : String
  m_Pos : Point
  m_Layer : LAYER_ID
  m_Size : Point
  m_Thickness : Int
  m_Mirror : Bool
  isNew : Bool
  isModuleText : Bool
deriving DecidableEq, Repr

/-- Items a commit can hold. -/
inductive BOARD_ITEM
  | segment (s : DRAWSEGMENT)
  | dimension (d : DIMENSION)
  | zone (z : ZONE_CONTAINER)
  | text (t : TEXTE)
deriving DecidableEq, Repr

/-- Position of an item: start point of a segment, text position of a text,
first corner of a zone, origin of a dimension. -/
def BOARD_ITEM.GetPosition : BOARD_ITEM → Point
  | .segment s => s.m_Start
  | .dimension d => d.m_featureLineGO
  | .zone z => (z.cornerPositions.head?).getD ⟨0, 0⟩
  | .text t => t.m_Pos

/-- Translation of an item by a vector: the vector is added to the points of the item
in `int` arithmetic, which wraps around. -/
def BOARD_ITEM.Move (v : Point) : BOARD_ITEM → BOARD_ITEM
  | .segment s => .segment { s with m_Start := s.m_Start.add32 v, m_End := s.m_End.add32 v }
  | .dimension d =>
      .dimension { d with m_featureLineGO := d.m_featureLineGO.add32 v,
                          m_featureLineDO := d.m_featureLineDO.add32 v }
  | .zone z => .zone { z with corners := z.corners.map fun c => { c with pos := c.pos.add32 v } }
  | .text t => .text { t with m_Pos := t.m_Pos.add32 v }

/-- Placing an item at a position. -/
def BOARD_ITEM.SetPosition (p : Point) : BOARD_ITEM → BOARD_ITEM
  | .text t => .text { t with m_Pos := p }
  | i => i.Move (p.sub32 i.GetPosition)

def BOARD_ITEM.SetLayer (a : LAYER_ID) : BOARD_ITEM → BOARD_ITEM
  | .segment s => .segment { s with m_Layer := a }
  | .dimension d => .dimension { d with m_Layer := a }
  | .zone z => .zone { z with settings := { z.settings with m_CurrentZone_Layer := a } }
  | .text t => .text { t with m_Layer := a }

def BOARD_ITEM.GetLayer : BOARD_ITEM → LAYER_ID
  | .segment s => s.m_Layer
  | .dimension d => d.m_Layer
  | .zone z => z.GetLayer
  | .text t => t.m_Layer

/-! ## Events -/

/-- What an event is. The predicates of `TOOL_EVENT` compare one action code, so
the kinds exclude each other. -/
inductive EVENT_KIND
  | motion
  | clickLeft
  | dblClickLeft
  | clickRight
  | cancel
  | activate
  | layerChanged
  | incWidth
  | decWidth
  | arcPosture
  | rotate
  | flip
  | other
deriving DecidableEq, Repr

/-- An event as the loops see it: its kind, the Ctrl modifier, the cursor position
the view controls report while it is handled, and the answers the user gives when
handling it opens the zone settings dialog (`none` is `ZONE_ABORT`) or the text
properties dialog (`none` is a rejected dialog, `some s` accepts with text `s`). -/
structure TOOL_EVENT where
  kind : EVENT_KIND
  ctrl : Bool
  cursor : Point
  zoneDialog : Option ZONE_SETTINGS
  textDialog : Option String
deriving DecidableEq, Repr

def TOOL_EVENT.IsMotion (e : TOOL_EVENT) : Bool := e.kind == .motion
def TOOL_EVENT.IsClickLeft (e : TOOL_EVENT) : Bool := e.kind == .clickLeft
def TOOL_EVENT.IsDblClickLeft (e : TOOL_EVENT) : Bool := e.kind == .dblClickLeft
def TOOL_EVENT.IsClickRight (e : TOOL_EVENT) : Bool := e.kind == .clickRight
def TOOL_EVENT.IsActivate (e : TOOL_EVENT) : Bool := e.kind == .activate
def TOOL_EVENT.IsAction (e : TOOL_EVENT) (k : EVENT_KIND) : Bool := e.kind == k

/-- Commands are the events coming from actions, cancellation and activation. -/
def TOOL_EVENT.IsCommand (e : TOOL_EVENT) : Bool :=
  match e.kind with
  | .motion => false
  | .clickLeft => false
  | .dblClickLeft => false
  | .clickRight => false
  | _ => true

/-- The cancel test of the loops, `TOOL_EVT_UTILS::IsCancelInteractive`: the cancel
command or the activation of another tool. -/
def IsCancelInteractive (e : TOOL_EVENT) : Bool := e.kind == .cancel || e.kind == .activate

def IsRotateToolEvt (e : TOOL_EVENT) : Bool := e.kind == .rotate

/-- An event of a given kind at a cursor position, Ctrl released, dialogs rejected. -/
def eventAt (k : EVENT_KIND) (p : Point) : TOOL_EVENT :=
  { kind := k, ctrl := false, cursor := p, zoneDialog := none, textDialog := none }

/-! ## Preview sets -/

/-- Objects a preview group can point to. Heap objects allocated repeatedly carry
the number of their allocation. -/
inductive PREVIEW_ITEM
  | aGraphic
  | line45
  | helperLine (n : Nat)
  | dimension (n : Nat)
  | text
  | imported (n : Nat)
deriving DecidableEq, Repr

/-- A preview group (`SELECTION` used as a view group): a set of pointers. -/
abbrev SELECTION := List PREVIEW_ITEM

def SELECTION.Add (s : SELECTION) (i : PREVIEW_ITEM) : SELECTION := if i ∈ s then s else s ++ [i]
def SELECTION.Remove (s : SELECTION) (i : PREVIEW_ITEM) : SELECTION := s.filter fun j => j != i
def SELECTION.Clear (_ : SELECTION) : SELECTION := []

/-! ## The tool, its collaborators and the commit boundary -/

/-- Calls made on a `BOARD_COMMIT`. -/
inductive COMMIT_CALL
  | Add (item : BOARD_ITEM)
  | Modify (item : BOARD_ITEM)
  | Push (label : String)
deriving DecidableEq, Repr

/-- Calls made on the view for a preview group. -/
inductive VIEW_CALL
  | Add
  | Update
  | Remove
deriving DecidableEq, Repr

/-- Design settings the tool reads. -/
structure BOARD_DESIGN_SETTINGS where
  m_EdgeSegmentWidth : Int
  m_ModuleSegmentWidth : Int
  m_DrawSegmentWidth : Int
  m_PcbTextWidth : Int
  m_PcbTextSize : Point
  m_ModuleTextWidth : Int
  m_ModuleTextSize : Point
deriving DecidableEq, Repr

/-- View controls (`m_controls`). -/
structure VIEW_CONTROLS where
  showCursor : Bool
  snapping : Bool
  autoPan : Bool
  captureCursor : Bool
  cursor : Point
deriving DecidableEq, Repr

/-- The tool together with the state of the collaborators it drives: frame (active
layer, 45 degree option), board (design settings, items), view, controls, selection
tool, and the commit boundary.

Modelled from the spec: `BOARD_COMMIT` is outside the translated sources. `add` and
`modify` queue an operation, `push` "durably applies all queued operations to the
document as one undoable unit", and "if push is never called the transaction has no
effect". `commitCalls` is the trace of the calls, `pending` the queue, `undo` the
pushed transactions. The loops never hold queued operations in two commit objects at
once, so one queue stands for all of them. -/
structure DRAWING_TOOL where
  m_lineWidth : Int
  m_editModules : Bool
  g_Segments_45_Only : Bool
  activeLayer : LAYER_ID
  dsn : BOARD_DESIGN_SETTINGS
  controls : VIEW_CONTROLS
  view : List VIEW_CALL
  board : List BOARD_ITEM
  selection : List Nat
  commitCalls : List COMMIT_CALL
  pending : List COMMIT_CALL
  undo : List (String × List COMMIT_CALL)
  zoneFillRuns : List Nat
  areaModified : List Nat
deriving DecidableEq, Repr

/-- How much one key press changes the line width. -/
def WIDTH_STEP : Int := 100000

namespace DRAWING_TOOL

def commitAdd (t : DRAWING_TOOL) (i : BOARD_ITEM) : DRAWING_TOOL :=
  { t with commitCalls := t.commitCalls ++ [.Add i], pending := t.pending ++ [.Add i] }

def commitModify (t : DRAWING_TOOL) (i : BOARD_ITEM) : DRAWING_TOOL :=
  { t with commitCalls := t.commitCalls ++ [.Modify i], pending := t.pending ++ [.Modify i] }

/-- Items the queued operations add to the board. -/
def addedItems : List COMMIT_CALL → List BOARD_ITEM
  | [] => []
  | .Add i :: rest => i :: addedItems rest
  | _ :: rest => addedItems rest

def commitPush (t : DRAWING_TOOL) (label : String) : DRAWING_TOOL :=
  { t with commitCalls := t.commitCalls ++ [.Push label],
           board := t.board ++ addedItems t.pending,
           undo := t.undo ++ [(label, t.pending)],
           pending := [] }

def viewCall (t : DRAWING_TOOL) (c : VIEW_CALL) : DRAWING_TOOL := { t with view := t.view ++ [c] }

def ShowCursor (t : DRAWING_TOOL) (b : Bool) : DRAWING_TOOL :=
  { t with controls := { t.controls with showCursor := b } }
def SetSnapping (t : DRAWING_TOOL) (b : Bool) : DRAWING_TOOL :=
  { t with controls := { t.controls with snapping := b } }
def SetAutoPan (t : DRAWING_TOOL) (b : Bool) : DRAWING_TOOL :=
  { t with controls := { t.controls with autoPan := b } }
def CaptureCursor (t : DRAWING_TOOL) (b : Bool) : DRAWING_TOOL :=
  { t with controls := { t.controls with captureCursor := b } }

/-- The action `selectionClear`. -/
def selectionClear (t : DRAWING_TOOL) : DRAWING_TOOL := { t with selection := [] }

/-- Receiving an event from `Wait()`: the controls now report its cursor position. -/
def Wait (t : DRAWING_TOOL) (e : TOOL_EVENT) : DRAWING_TOOL :=
  { t with controls := { t.controls with cursor := e.cursor } }

def GetCursorPosition (t : DRAWING_TOOL) : Point := t.controls.cursor

/-- What every loop does before it waits for events: add the preview group to the
view, clear the selection, show the cursor and snap. -/
def enterLoop (t : DRAWING_TOOL) : DRAWING_TOOL :=
  (((t.viewCall .Add).selectionClear).ShowCursor true).SetSnapping true

/-- What every loop does after its event loop: reset the controls and remove the
preview group from the view. -/
def leaveLoop (t : DRAWING_TOOL) : DRAWING_TOOL :=
  (((((t.ShowCursor false).SetSnapping false).SetAutoPan false).CaptureCursor false)).viewCall .Remove

/-- The statement `m_lineWidth += WIDTH_STEP` in unsigned arithmetic. -/
def incLineWidth (t : DRAWING_TOOL) : DRAWING_TOOL :=
  { t with m_lineWidth := (t.m_lineWidth + WIDTH_STEP) % 2 ^ 32 }

/-- The statement `m_lineWidth -= WIDTH_STEP`, made only when `m_lineWidth > WIDTH_STEP`. -/
def decLineWidth (t : DRAWING_TOOL) : DRAWING_TOOL :=
  { t with m_lineWidth := t.m_lineWidth - WIDTH_STEP }

def getSegmentWidth (t : DRAWING_TOOL) (aLayer : LAYER_ID) : Int :=
  if aLayer = .Edge_Cuts then t.dsn.m_EdgeSegmentWidth
  else if t.m_editModules then t.dsn.m_ModuleSegmentWidth
  else t.dsn.m_DrawSegmentWidth

def getDrawingLayer (t : DRAWING_TOOL) : DRAWING_TOOL × LAYER_ID :=
  let layer := t.activeLayer
  if IsCopperLayer layer then
    let layer :=
      if layer = .F_Cu then LAYER_ID.F_SilkS
      else if layer = .B_Cu then LAYER_ID.B_SilkS
      else LAYER_ID.Dwgs_User
    ({ t with activeLayer := layer }, layer)
  else (t, layer)

end DRAWING_TOOL

/-- Functions of collaborators whose code is outside the translated sources and on
whose result the loops branch or which they store. -/
structure Collaborators where
  /-- Whether `DIRECTION_45( v )` is a diagonal direction. -/
  IsDiagonal : Point → Bool
  /-- The position of a dimension, `DIMENSION::GetPosition`. -/
  GetPosition : DIMENSION → Point
  /-- The largest pen size allowed for a text size. -/
  Clamp_Text_PenSize : Int → Point → Int
  /-- The angle of a vector in radians, `VECTOR2D::Angle`. -/
  Angle : Point → ℚ
  /-- The conversion of radians to tenths of a degree. -/
  RAD2DECIDEG : ℚ → ℚ
  /-- The clean-up `Outline()->RemoveNullSegments()` of a corner list. -/
  RemoveNullSegments : List CPolyPt → List CPolyPt
  /-- The selection left by the interactive action `selectionCursor`. -/
  selectionCursor : DRAWING_TOOL → List Nat
  /-- The normalisation `DRAWSEGMENT::SetAngle` applies to an angle before storing it. -/
  NormalizeAngle : ℚ → ℚ
  /-- Whether a layer is on the back side of the board. -/
  IsBackLayer : LAYER_ID → Bool
  /-- The fill computation `Fill_Zone` runs on a zone. -/
  Fill_Zone : ZONE_CONTAINER → ZONE_CONTAINER
  /-- Rotation of an item about a point by the angle of a rotate event. -/
  Rotate : TOOL_EVENT → Point → BOARD_ITEM → BOARD_ITEM
  /-- Flip of an item about a point. -/
  Flip : Point → BOARD_ITEM → BOARD_ITEM

/-! ## The 45 degree constraint -/

/-- Modelled from the spec: `DIRECTION_45::BuildInitialTrace` is outside the
translated sources. The route leads from `p0` to `p1` over segments whose direction
is a multiple of 45 degrees: a 2-point line when one such segment reaches `p1`,
otherwise a 3-point path with one bend, made of a straight leg along the longer axis
extent and a diagonal leg; `startDiagonal` is the deterministic preference that
decides which of the two legs comes first. -/
def BuildInitialTrace (startDiagonal : Bool) (p0 p1 : Point) : List Point :=
  let w := |p1.x - p0.x|
  let h := |p1.y - p0.y|
  let sw := Int.sign (p1.x - p0.x)
  let sh := Int.sign (p1.y - p0.y)
  let mp0 : Point := if w > h then ⟨(w - h) * sw, 0⟩ else ⟨0, sh * (h - w)⟩
  let mp1 : Point := if w > h then ⟨h * sw, h * sh⟩ else ⟨sw * w, sh * w⟩
  let mid := if startDiagonal then p0 + mp1 else p0 + mp0
  if mid = p0 ∨ mid = p1 then [p0, p1] else [p0, mid, p1]

/-- The body of `make45DegLine` once the trace is known: with more than two points
the segment ends at the second to last point and the helper joins the last two
points; otherwise the segment ends at the cursor and the helper collapses there. -/
def apply45Trace (cursorPos : Point) (newChain : List Point) (aSegment aHelper : DRAWSEGMENT) :
    DRAWSEGMENT × DRAWSEGMENT :=
  match newChain.reverse with
  | last :: prev :: _ :: _ => (aSegment.SetEnd prev, (aHelper.SetStart prev).SetEnd last)
  | _ => (aSegment.SetEnd cursorPos, (aHelper.SetStart cursorPos).SetEnd cursorPos)

/-- `DRAWING_TOOL::make45DegLine`: returns the updated segment and helper. -/
def make45DegLine (E : Collaborators) (t : DRAWING_TOOL) (aSegment aHelper : DRAWSEGMENT) :
    DRAWSEGMENT × DRAWSEGMENT :=
  let cursorPos := t.GetCursorPosition
  let origin := aSegment.GetStart
  let newChain := BuildInitialTrace (E.IsDiagonal (origin - cursorPos)) origin cursorPos
  apply45Trace cursorPos newChain aSegment aHelper

/-! ## `drawSegment` and `DrawLine` -/

/-- Local state of `drawSegment`. `aGraphicNull` records that the graphic was deleted
and the pointer handed back is null. -/
structure SegmentLoop where
  aGraphic : DRAWSEGMENT
  aGraphicNull : Bool
  line45 : DRAWSEGMENT
  preview : SELECTION
  direction45 : Bool
  started : Bool
deriving DecidableEq, Repr

/-- Initialisation of the graphic at a start point, shared by the prologue (with a
starting point handed in) and the first click. -/
def initSegment (aShape : STROKE_T) (t : DRAWING_TOOL) (l : SegmentLoop) (start cursorPos : Point) :
    DRAWING_TOOL × SegmentLoop :=
  let g := l.aGraphic.SetShape aShape
  let g := g.SetWidth (toInt32 t.m_lineWidth)
  let g := g.SetStart start
  let g := g.SetEnd cursorPos
  let (t, layer) := t.getDrawingLayer
  let g := g.SetLayer layer
  let line45 := if aShape = .S_SEGMENT then { g with isModuleEdge := false } else l.line45
  let t := (t.SetAutoPan true).CaptureCursor true
  (t, { l with aGraphic := g, line45 := line45, preview := l.preview.Add .aGraphic,
               started := true })

/-- The 45 degree mode check made at the top of every iteration of `drawSegment`. -/
def segmentModeCheck (E : Collaborators) (aShape : STROKE_T) (t : DRAWING_TOOL) (l : SegmentLoop)
    (evt : TOOL_EVENT) : DRAWING_TOOL × SegmentLoop :=
  let limit45 := (t.g_Segments_45_Only != evt.ctrl)
  if l.direction45 != limit45 && l.started && aShape == .S_SEGMENT then
    if limit45 then
      let (g, h) := make45DegLine E t l.aGraphic l.line45
      (t.viewCall .Update,
        { l with direction45 := true, preview := l.preview.Add .line45, aGraphic := g, line45 := h })
    else
      (t.viewCall .Update,
        { l with direction45 := false, preview := l.preview.Remove .line45,
                 aGraphic := l.aGraphic.SetEnd evt.cursor })
  else (t, l)

/-- One iteration of the event loop of `drawSegment`; the flag tells that the loop is
left by `break`. -/
def drawSegmentStep (E : Collaborators) (aShape : STROKE_T) (t : DRAWING_TOOL) (l : SegmentLoop)
    (evt : TOOL_EVENT) : DRAWING_TOOL × SegmentLoop × Bool :=
  let t := t.Wait evt
  let cursorPos := evt.cursor
  let (t, l) := segmentModeCheck E aShape t l evt
  if IsCancelInteractive evt then
    (t.viewCall .Update, { l with preview := l.preview.Clear, aGraphicNull := true }, true)
  else if evt.IsAction .layerChanged then
    let (t, layer) := t.getDrawingLayer
    (t.viewCall .Update, { l with aGraphic := l.aGraphic.SetLayer layer }, false)
  else if evt.IsClickRight then
    (t, l, false)
  else if evt.IsClickLeft || evt.IsDblClickLeft then
    if !l.started then
      let (t, l) := initSegment aShape t l cursorPos cursorPos
      (t, l, false)
    else if l.aGraphic.GetEnd = l.aGraphic.GetStart
        || (evt.IsDblClickLeft && aShape == .S_SEGMENT) then
      let t :=
        if l.direction45 then
          let seg := { l.line45 with isModuleEdge := t.m_editModules }
          let seg := seg.SetEnd l.aGraphic.GetStart
          (t.commitAdd (.segment seg)).commitPush "Draw a line"
        else t
      (t, { l with aGraphicNull := true, preview := l.preview.Clear }, true)
    else
      (t, { l with preview := l.preview.Clear }, true)
  else if evt.IsMotion then
    if l.direction45 && aShape == .S_SEGMENT then
      let (g, h) := make45DegLine E t l.aGraphic l.line45
      (t.viewCall .Update, { l with aGraphic := g, line45 := h }, false)
    else
      (t.viewCall .Update, { l with aGraphic := l.aGraphic.SetEnd cursorPos }, false)
  else if evt.IsAction .incWidth then
    let t := t.incLineWidth
    (t.viewCall .Update,
      { l with aGraphic := l.aGraphic.SetWidth (toInt32 t.m_lineWidth),
               line45 := l.line45.SetWidth (toInt32 t.m_lineWidth) }, false)
  else if evt.IsAction .decWidth && decide (t.m_lineWidth > WIDTH_STEP) then
    let t := t.decLineWidth
    (t.viewCall .Update,
      { l with aGraphic := l.aGraphic.SetWidth (toInt32 t.m_lineWidth),
               line45 := l.line45.SetWidth (toInt32 t.m_lineWidth) }, false)
  else (t, l, false)

/-- The event loop of `drawSegment`: events are handled until a `break` or until
`Wait()` has no event left. Returns the state at the exit and the events not read. -/
def drawSegmentLoop (E : Collaborators) (aShape : STROKE_T) :
    DRAWING_TOOL → SegmentLoop → List TOOL_EVENT → DRAWING_TOOL × SegmentLoop × List TOOL_EVENT
  | t, l, [] => (t, l, [])
  | t, l, evt :: rest =>
    match drawSegmentStep E aShape t l evt with
    | (t1, l1, true) => (t1, l1, rest)
    | (t1, l1, false) => drawSegmentLoop E aShape t1 l1 rest

/-- What `drawSegment` hands back: the tool, the graphic pointer (null after a cancel
or a finishing click), its return value `started`, the events not read, and the
preview group as it is when the function returns. -/
structure SegmentResult where
  tool : DRAWING_TOOL
  aGraphic : Option DRAWSEGMENT
  started : Bool
  rest : List TOOL_EVENT
  preview : SELECTION
deriving DecidableEq, Repr

/-- `DRAWING_TOOL::drawSegment( aShape, aGraphic, aStartingPoint )`. -/
def drawSegment (E : Collaborators) (aShape : STROKE_T) (t : DRAWING_TOOL) (aGraphic : DRAWSEGMENT)
    (aStartingPoint : Option Point) (evs : List TOOL_EVENT) : SegmentResult :=
  let l : SegmentLoop :=
    { aGraphic := aGraphic, aGraphicNull := false, line45 := DRAWSEGMENT.new false,
      preview := [], direction45 := false, started := false }
  let t := t.enterLoop
  let cursorPos := t.GetCursorPosition
  let (t, l) :=
    match aStartingPoint with
    | some p => initSegment aShape t l p cursorPos
    | none => (t, l)
  let (t, l, rest) := drawSegmentLoop E aShape t l evs
  { tool := t.leaveLoop, aGraphic := if l.aGraphicNull then none else some l.aGraphic,
    started := l.started, rest := rest, preview := l.preview }

/-- One iteration of the `while` loop of `DrawLine`: a call of `drawSegment` on a
fresh segment and, when it reports a started line, the commit of the segment handed
back. Returns whether the loop goes on, the tool, the next starting point and the
events not read. -/
def DrawLineIter (E : Collaborators) (t : DRAWING_TOOL) (startingPoint : Option Point)
    (evs : List TOOL_EVENT) : Bool × DRAWING_TOOL × Option Point × List TOOL_EVENT :=
  let r := drawSegment E .S_SEGMENT t (DRAWSEGMENT.new t.m_editModules) startingPoint evs
  if r.started then
    match r.aGraphic with
    | some line =>
      (true, (r.tool.commitAdd (.segment line)).commitPush "Draw a line segment",
        some line.GetEnd, r.rest)
    | none => (true, r.tool, none, r.rest)
  else (false, r.tool, startingPoint, r.rest)

/-- The `while` loop of `DrawLine`, bounded by the number of iterations allowed. -/
def DrawLineLoop (E : Collaborators) :
    Nat → DRAWING_TOOL → Option Point → List TOOL_EVENT → DRAWING_TOOL
  | 0, t, _, _ => t
  | fuel + 1, t, sp, evs =>
    match DrawLineIter E t sp evs with
    | (true, t1, sp1, rest) => DrawLineLoop E fuel t1 sp1 rest
    | (false, t1, _, _) => t1

/-- `DRAWING_TOOL::DrawLine`: the line width is taken from the design settings, then
the loop runs. -/
def DrawLine (E : Collaborators) (fuel : Nat) (t : DRAWING_TOOL) (evs : List TOOL_EVENT) :
    DRAWING_TOOL :=
  let (t, layer) := t.getDrawingLayer
  let t := { t with m_lineWidth := toUInt32 (t.getSegmentWidth layer) }
  DrawLineLoop E fuel t none evs

/-! ## `drawArc` and `DrawArc` -/

/-- The steps of `drawArc`, numbered as the `enum`. -/
def ARC_SET_ORIGIN : Nat := 0
def ARC_SET_END : Nat := 1
def ARC_SET_ANGLE : Nat := 2
def ARC_FINISHED : Nat := 3

/-- Local state of `drawArc`. -/
structure ArcLoop where
  aGraphic : DRAWSEGMENT
  aGraphicNull : Bool
  helperLine : DRAWSEGMENT
  preview : SELECTION
  step : Nat
  clockwise : Bool
  startAngle : ℚ
deriving DecidableEq, Repr

/-- One iteration of the event loop of `drawArc`; the flag tells that the loop is left. -/
def drawArcStep (E : Collaborators) (t : DRAWING_TOOL) (l : ArcLoop) (evt : TOOL_EVENT) :
    DRAWING_TOOL × ArcLoop × Bool :=
  let t := t.Wait evt
  let cursorPos := evt.cursor
  if IsCancelInteractive evt then
    (t, { l with preview := l.preview.Clear, aGraphicNull := true }, true)
  else if evt.IsClickRight then
    (t, l, false)
  else if evt.IsClickLeft then
    let (t, l) :=
      if l.step = ARC_SET_ORIGIN then
        let (t, layer) := t.getDrawingLayer
        let layer := if layer = .Edge_Cuts then LAYER_ID.Dwgs_User else layer
        let g := l.aGraphic.SetShape .S_ARC
        let g := g.SetAngle (E.NormalizeAngle 0)
        let g := g.SetWidth (toInt32 t.m_lineWidth)
        let g := g.SetCenter cursorPos
        let g := g.SetLayer layer
        let h := (l.helperLine.SetStart g.GetCenter).SetEnd g.GetCenter
        let t := (t.SetAutoPan true).CaptureCursor true
        (t, { l with aGraphic := g, helperLine := h,
                     preview := (l.preview.Add .aGraphic).Add (.helperLine 0) })
      else if l.step = ARC_SET_END then
        if cursorPos ≠ l.aGraphic.GetCenter then
          let startLine := l.aGraphic.GetArcStart - l.aGraphic.GetCenter
          (t, { l with startAngle := E.Angle startLine,
                       aGraphic := l.aGraphic.SetArcStart cursorPos })
        else (t, { l with step := l.step - 1 })
      else if l.step = ARC_SET_ANGLE then
        if cursorPos ≠ l.aGraphic.GetArcStart ∧ l.aGraphic.GetAngle ≠ 0 then
          (t, { l with preview := (l.preview.Remove .aGraphic).Remove (.helperLine 0) })
        else (t, { l with step := l.step - 1 })
      else (t, l)
    let l := { l with step := l.step + 1 }
    (t, l, l.step == ARC_FINISHED)
  else if evt.IsMotion then
    let l :=
      if l.step = ARC_SET_END then
        { l with helperLine := l.helperLine.SetEnd cursorPos,
                 aGraphic := l.aGraphic.SetArcStart cursorPos }
      else if l.step = ARC_SET_ANGLE then
        let endLine := cursorPos - l.aGraphic.GetCenter
        let newAngle := E.RAD2DECIDEG (E.Angle endLine - l.startAngle)
        let newAngle :=
          if l.clockwise ∧ newAngle < 0 then newAngle + 3600
          else if ¬ l.clockwise ∧ newAngle > 0 then newAngle - 3600
          else newAngle
        { l with aGraphic := l.aGraphic.SetAngle (E.NormalizeAngle newAngle) }
      else l
    (t.viewCall .Update, l, false)
  else if evt.IsAction .incWidth then
    let t := t.incLineWidth
    (t.viewCall .Update, { l with aGraphic := l.aGraphic.SetWidth (toInt32 t.m_lineWidth) }, false)
  else if evt.IsAction .decWidth && decide (t.m_lineWidth > WIDTH_STEP) then
    let t := t.decLineWidth
    (t.viewCall .Update, { l with aGraphic := l.aGraphic.SetWidth (toInt32 t.m_lineWidth) }, false)
  else if evt.IsAction .arcPosture then
    let g :=
      if l.clockwise then l.aGraphic.SetAngle (E.NormalizeAngle (l.aGraphic.GetAngle - 3600))
      else l.aGraphic.SetAngle (E.NormalizeAngle (l.aGraphic.GetAngle + 3600))
    (t.viewCall .Update, { l with aGraphic := g, clockwise := !l.clockwise }, false)
  else (t, l, false)

/-- The event loop of `drawArc`. -/
def drawArcLoop (E : Collaborators) :
    DRAWING_TOOL → ArcLoop → List TOOL_EVENT → DRAWING_TOOL × ArcLoop × List TOOL_EVENT
  | t, l, [] => (t, l, [])
  | t, l, evt :: rest =>
    match drawArcStep E t l evt with
    | (t1, l1, true) => (t1, l1, rest)
    | (t1, l1, false) => drawArcLoop E t1 l1 rest

/-- `DRAWING_TOOL::drawArc( aGraphic )`; the return value `started` is `step > SET_ORIGIN`. -/
def drawArc (E : Collaborators) (t : DRAWING_TOOL) (aGraphic : DRAWSEGMENT)
    (evs : List TOOL_EVENT) : SegmentResult :=
  let helperLine := ((DRAWSEGMENT.new false).SetLayer .Dwgs_User).SetWidth 1
  let l : ArcLoop :=
    { aGraphic := aGraphic, aGraphicNull := false, helperLine := helperLine, preview := [],
      step := ARC_SET_ORIGIN, clockwise := true, startAngle := 0 }
  let (t, l, rest) := drawArcLoop E t.enterLoop l evs
  { tool := t.leaveLoop, aGraphic := if l.aGraphicNull then none else some l.aGraphic,
    started := decide (l.step > ARC_SET_ORIGIN), rest := rest, preview := l.preview }

/-- One iteration of the `while` loop of `DrawArc`. -/
def DrawArcIter (E : Collaborators) (t : DRAWING_TOOL) (evs : List TOOL_EVENT) :
    Bool × DRAWING_TOOL × List TOOL_EVENT :=
  let r := drawArc E t (DRAWSEGMENT.new t.m_editModules) evs
  if r.started then
    match r.aGraphic with
    | some arc => (true, (r.tool.commitAdd (.segment arc)).commitPush "Draw an arc", r.rest)
    | none => (true, r.tool, r.rest)
  else (false, r.tool, r.rest)

/-- The `while` loop of `DrawArc`, bounded by the number of iterations allowed. -/
def DrawArcLoop (E : Collaborators) : Nat → DRAWING_TOOL → List TOOL_EVENT → DRAWING_TOOL
  | 0, t, _ => t
  | fuel + 1, t, evs =>
    match DrawArcIter E t evs with
    | (true, t1, rest) => DrawArcLoop E fuel t1 rest
    | (false, t1, _) => t1

/-- `DRAWING_TOOL::DrawArc`. -/
def DrawArc (E : Collaborators) (fuel : Nat) (t : DRAWING_TOOL) (evs : List TOOL_EVENT) :
    DRAWING_TOOL :=
  let (t, layer) := t.getDrawingLayer
  let t := { t with m_lineWidth := toUInt32 (t.getSegmentWidth layer) }
  DrawArcLoop E fuel t evs

/-! ## `double` values -/

/-- A finite `double`: the number `m * 2 ^ e`, kept normalised (`m` is odd, or `m = 0`
and `e = 0`). Infinities, NaN and the sign of zero are not represented. -/
structure Double where
  m : Int
  e : Int
deriving DecidableEq, Repr

namespace Double

/-- Factors of two move from the mantissa to the exponent. -/
def normalize : Nat → Int → Int → Double
  | 0, m, e => ⟨m, e⟩
  | fuel + 1, m, e =>
    if m = 0 then ⟨0, 0⟩
    else if m % 2 = 0 then normalize fuel (m / 2) (e + 1)
    else ⟨m, e⟩

/-- The number of binary digits of a natural number. -/
def bitLength : Nat → Nat → Nat
  | 0, _ => 0
  | fuel + 1, n => if n = 0 then 0 else bitLength fuel (n / 2) + 1

/-- The `double` nearest to `m * 2 ^ e`, ties to the even mantissa: 53 binary digits
are kept, and none below `2 ^ (-1074)`. Overflow to infinity is not represented. -/
def round (m e : Int) : Double :=
  let a := m.natAbs
  let k : Int :=
    if (bitLength 4096 a : Int) - 53 ≤ -1074 - e then -1074 - e else (bitLength 4096 a : Int) - 53
  if k ≤ 0 then normalize 4096 m e
  else
    let d := 2 ^ k.toNat
    let q := a / d
    let r := a % d
    let q := if d < 2 * r ∨ (2 * r = d ∧ q % 2 = 1) then q + 1 else q
    normalize 4096 (if m < 0 then -(q : Int) else (q : Int)) (e + k)

/-- The conversion of an `int` to `double`, which is exact. -/
def ofInt (n : Int) : Double := round n 0

/-- The sum of two `double` values: the exact sum, rounded. -/
def add (x y : Double) : Double :=
  let e := if x.e ≤ y.e then x.e else y.e
  round (x.m * 2 ^ (x.e - e).toNat + y.m * 2 ^ (y.e - e).toNat) e

/-- The product of two `double` values: the exact product, rounded. -/
def mul (x y : Double) : Double := round (x.m * y.m) (x.e + y.e)

/-- The integral part of a `double`: the fraction is discarded (truncation toward
zero). -/
def trunc (x : Double) : Int :=
  if 0 ≤ x.e then x.m * 2 ^ x.e.toNat
  else if x.m < 0 then -((x.m.natAbs / 2 ^ (-x.e).toNat : Nat) : Int)
  else ((x.m.natAbs / 2 ^ (-x.e).toNat : Nat) : Int)

/-- The conversion of a `double` to `int`, as in the call `SetHeight( height )`: the
integral part. C++ leaves the conversion undefined when the integral part is outside
the range of `int`; the embedding gives the smallest `int` then, which is what the
conversion instruction of x86-64 gives. -/
def toInt (x : Double) : Int :=
  if -2 ^ 31 ≤ x.trunc ∧ x.trunc < 2 ^ 31 then x.trunc else -2 ^ 31

end Double

/-- The constant `M_PI / 2` as the compiler folds it: the `double` nearest to pi, whose
division by 2 is exact. -/
def M_PI_2 : Double := ⟨884279719003555, -49⟩

/-- The functions of the C library `DrawDimension` and `DIMENSION::GetAngle` call on
`double` values; their code is outside the translated sources. -/
structure Trig where
  cos : Double → Double
  sin : Double → Double
  atan2 : Double → Double → Double

/-- Modelled from the spec: `DIMENSION::GetAngle` is outside the translated sources.
It is the angle of the dimension axis, which leads from the origin to the end. -/
def DIMENSION.GetAngle (T : Trig) (d : DIMENSION) : Double :=
  let delta := Point.sub32 d.m_featureLineDO d.m_featureLineGO
  T.atan2 (Double.ofInt delta.y) (Double.ofInt delta.x)

/-- The local `height` of the `SET_HEIGHT` motion branch: the cursor offset from
`m_featureLineDO` projected on the direction perpendicular to the axis, every
operation in `double`. -/
def dimensionHeight (T : Trig) (d : DIMENSION) (cursorPos : Point) : Double :=
  let angle := Double.add (d.GetAngle T) M_PI_2
  let delta := Point.sub32 cursorPos d.m_featureLineDO
  Double.add (Double.mul (Double.ofInt delta.x) (T.cos angle))
    (Double.mul (Double.ofInt delta.y) (T.sin angle))

/-! ## `DrawDimension` -/

/-- The steps of `DrawDimension`, numbered as the `enum`. -/
def DIM_SET_ORIGIN : Nat := 0
def DIM_SET_END : Nat := 1
def DIM_SET_HEIGHT : Nat := 2
def DIM_FINISHED : Nat := 3

/-- Local state of `DrawDimension`. `allocated` counts the dimensions created so far;
the one in progress is number `allocated - 1`. -/
structure DimensionLoop where
  dimension : Option DIMENSION
  allocated : Nat
  preview : SELECTION
  step : Nat
  maxThickness : Int
deriving DecidableEq, Repr

/-- The left click branch of `DrawDimension` up to the end of the `switch`. -/
def dimensionClick (E : Collaborators) (t : DRAWING_TOOL) (l : DimensionLoop) (cursorPos : Point) :
    Option (DRAWING_TOOL × DimensionLoop) :=
  if l.step = DIM_SET_ORIGIN then
    let (t, layer) := t.getDrawingLayer
    let d := ((DIMENSION.new.SetLayer layer).SetOrigin cursorPos).SetEnd cursorPos
    let d := { d with textSize := t.dsn.m_PcbTextSize }
    let width := t.dsn.m_PcbTextWidth
    let maxThickness := E.Clamp_Text_PenSize width d.textSize
    let width := if width > maxThickness then maxThickness else width
    let d := { d with textThickness := width }
    let d := d.SetWidth width
    let t := (t.SetAutoPan true).CaptureCursor true
    some (t, { l with dimension := some d, allocated := l.allocated + 1,
                      preview := l.preview.Add (.dimension l.allocated),
                      maxThickness := maxThickness })
  else if l.step = DIM_SET_END then
    match l.dimension with
    | none => none
    | some d =>
      let d := d.SetEnd cursorPos
      let l := { l with dimension := some d }
      if d.GetOrigin = d.GetEnd then some (t, { l with step := l.step - 1 }) else some (t, l)
  else if l.step = DIM_SET_HEIGHT then
    match l.dimension with
    | none => none
    | some d =>
      if cursorPos ≠ E.GetPosition d then
        let l := { l with preview := l.preview.Remove (.dimension (l.allocated - 1)) }
        some ((t.commitAdd (.dimension d)).commitPush "Draw a dimension", l)
      else some (t, l)
  else some (t, l)

/-- One iteration of the event loop of `DrawDimension`; the flag tells that the loop is
left, `none` that a null or deleted dimension would be dereferenced. -/
def DrawDimensionStep (E : Collaborators) (T : Trig) (t : DRAWING_TOOL)
    (l : DimensionLoop) (evt : TOOL_EVENT) : Option (DRAWING_TOOL × DimensionLoop × Bool) :=
  let t := t.Wait evt
  let cursorPos := evt.cursor
  if IsCancelInteractive evt then
    if l.step ≠ DIM_SET_ORIGIN then
      some (t, { l with preview := l.preview.Clear, dimension := none, step := DIM_SET_ORIGIN },
        evt.IsActivate)
    else some (t, l, true)
  else if evt.IsAction .incWidth && decide (l.step ≠ DIM_SET_ORIGIN) then
    match l.dimension with
    | none => none
    | some d =>
      let t := t.incLineWidth
      some (t.viewCall .Update,
        { l with dimension := some (d.SetWidth (toInt32 t.m_lineWidth)) }, false)
  else if evt.IsAction .decWidth && decide (l.step ≠ DIM_SET_ORIGIN) then
    if t.m_lineWidth > WIDTH_STEP then
      match l.dimension with
      | none => none
      | some d =>
        let t := t.decLineWidth
        some (t.viewCall .Update,
          { l with dimension := some (d.SetWidth (toInt32 t.m_lineWidth)) }, false)
    else some (t, l, false)
  else if evt.IsClickRight then
    some (t, l, false)
  else if evt.IsClickLeft then
    match dimensionClick E t l cursorPos with
    | none => none
    | some (t, l) =>
      let l := { l with step := l.step + 1 }
      if l.step = DIM_FINISHED then
        some ((t.SetAutoPan false).CaptureCursor false, { l with step := DIM_SET_ORIGIN }, false)
      else some (t, l, false)
  else if evt.IsMotion then
    if l.step = DIM_SET_END then
      match l.dimension with
      | none => none
      | some d => some (t.viewCall .Update, { l with dimension := some (d.SetEnd cursorPos) }, false)
    else if l.step = DIM_SET_HEIGHT then
      match l.dimension with
      | none => none
      | some d =>
        let height := dimensionHeight T d cursorPos
        some (t.viewCall .Update,
          { l with dimension := some (d.SetHeight (Double.toInt height)) }, false)
    else some (t.viewCall .Update, l, false)
  else some (t, l, false)

/-- The event loop of `DrawDimension`. -/
def DrawDimensionLoop (E : Collaborators) (T : Trig) :
    DRAWING_TOOL → DimensionLoop → List TOOL_EVENT → Option (DRAWING_TOOL × DimensionLoop)
  | t, l, [] => some (t, l)
  | t, l, evt :: rest =>
    match DrawDimensionStep E T t l evt with
    | none => none
    | some (t1, l1, true) => some (t1, l1)
    | some (t1, l1, false) => DrawDimensionLoop E T t1 l1 rest

/-- `DRAWING_TOOL::DrawDimension`: returns the tool and the local state at the return
(a dimension still in progress is deleted). -/
def DrawDimension (E : Collaborators) (T : Trig) (t : DRAWING_TOOL)
    (evs : List TOOL_EVENT) : Option (DRAWING_TOOL × DimensionLoop) :=
  let l : DimensionLoop :=
    { dimension := none, allocated := 0, preview := [], step := DIM_SET_ORIGIN, maxThickness := 0 }
  let t := t.enterLoop
  let (t, layer) := t.getDrawingLayer
  let t := { t with m_lineWidth := toUInt32 (t.getSegmentWidth layer) }
  match DrawDimensionLoop E T t l evs with
  | none => none
  | some (t, l) =>
    let l := if l.step ≠ DIM_SET_ORIGIN then { l with dimension := none } else l
    some (t.leaveLoop, l)

/-! ## `drawZone` -/

/-- What a zone gesture does with its polygon. -/
inductive ZONE_MODE
  | ADD
  | CUTOUT
  | SIMILAR
deriving DecidableEq, Repr

/-- The zone a selected item is, if it is one: `dyn_cast<ZONE_CONTAINER*>`. Items are
named by their index on the board. -/
def zoneAt (t : DRAWING_TOOL) (i : Nat) : Option ZONE_CONTAINER :=
  match t.board[i]? with
  | some (.zone z) => some z
  | _ => none

/-- `DRAWING_TOOL::getSourceZoneForAction( aMode, aZone )`: returns the tool, the
return value and `aZone`. The selection is the live selection of the selection tool,
so the tests see what `selectionCursor` left in it. -/
def getSourceZoneForAction (E : Collaborators) (t : DRAWING_TOOL) (aMode : ZONE_MODE) :
    DRAWING_TOOL × Bool × Option Nat :=
  if aMode = .ADD then (t, true, none)
  else
    let t := if t.selection.isEmpty then { t with selection := E.selectionCursor t } else t
    if t.selection.length ≠ 1 then (t, false, none)
    else
      match t.selection.head? with
      | none => (t, false, none)
      | some i =>
        match zoneAt t i with
        | none => (t, false, none)
        | some _ => (t, true, some i)

/-- `DRAWING_TOOL::performZoneCutout( aExistingZone, aCutout )`, the existing zone
being item `idx` of the board.

Modelled from the spec: `BOARD::OnAreaPolygonModified` and the action `zoneFill` are
outside the translated sources; the first is recorded as the notification "of outline
modification", the second as a run of the fill for the zone. -/
def performZoneCutout (t : DRAWING_TOOL) (idx : Nat) (aCutout : ZONE_CONTAINER) :
    Option DRAWING_TOOL :=
  match zoneAt t idx with
  | none => none
  | some aExistingZone =>
    let z := aCutout.cornerPositions.foldl ZONE_CONTAINER.AppendCorner aExistingZone
    let z := z.CloseLastContour
    let t := { t with board := t.board.set idx (.zone z), areaModified := t.areaModified ++ [idx] }
    if z.IsFilled then
      some { t with selection := [idx], zoneFillRuns := t.zoneFillRuns ++ [idx] }
    else some t

/-- `DRAWING_TOOL::createZoneFromExisting`: a zone with the settings of the source and
an outline of its own. -/
def createZoneFromExisting (aSrcZone : ZONE_CONTAINER) : ZONE_CONTAINER :=
  { corners := [], settings := aSrcZone.settings, m_IsFilled := false, hatched := false }

/-- `DRAWING_TOOL::createNewZone`: auto-pan and cursor capture are switched on, the
settings dialog is shown (`aKeepout` chooses which one), and an aborted dialog switches
them off and yields no zone. The answer of the event is the settings as the dialog
leaves them. -/
def createNewZone (_aKeepout : Bool) (t : DRAWING_TOOL) (evt : TOOL_EVENT) :
    DRAWING_TOOL × Option ZONE_CONTAINER :=
  let t := (t.SetAutoPan true).CaptureCursor true
  match evt.zoneDialog with
  | none => ((t.SetAutoPan false).CaptureCursor false, none)
  | some zoneInfo =>
    (t, some { corners := [], settings := zoneInfo, m_IsFilled := false, hatched := false })

/-- Local state of `drawZone`. `helpers` counts the helper lines allocated so far; the
pointer `helperLine` refers to number `helpers - 1` while it is live. -/
structure ZoneLoop where
  zone : Option ZONE_CONTAINER
  line45 : DRAWSEGMENT
  helperLine : Option DRAWSEGMENT
  helpers : Nat
  sourceZone : Option Nat
  preview : SELECTION
  origin : Point
  numPoints : Nat
  direction45 : Bool
deriving DecidableEq, Repr

/-- The call `preview.FreeItems()`: every item of the preview is deleted. Deleting
`line45`, which is not a heap object, is undefined. -/
def zoneFreeItems (l : ZoneLoop) : Option ZoneLoop :=
  if PREVIEW_ITEM.line45 ∈ l.preview then none
  else
    some { l with preview := [],
                  helperLine :=
                    if PREVIEW_ITEM.helperLine (l.helpers - 1) ∈ l.preview then none
                    else l.helperLine }

/-- The 45 degree mode check made at the top of every iteration of `drawZone`. -/
def zoneModeCheck (E : Collaborators) (t : DRAWING_TOOL) (l : ZoneLoop) (evt : TOOL_EVENT) :
    Option (DRAWING_TOOL × ZoneLoop) :=
  if l.direction45 != (evt.ctrl && decide (l.numPoints > 0)) then
    match l.helperLine with
    | none => none
    | some helperLine =>
      if evt.ctrl then
        let (h, l45) := make45DegLine E t helperLine l.line45
        some (t.viewCall .Update,
          { l with direction45 := true, preview := l.preview.Add .line45,
                   helperLine := some h, line45 := l45 })
      else
        some (t.viewCall .Update,
          { l with direction45 := false, preview := l.preview.Remove .line45,
                   helperLine := some (helperLine.SetEnd evt.cursor) })
  else some (t, l)

/-- The finished polygon handed to the commit: the corner of the 45 degree route is
appended, the contour closed and cleaned, the hatch computed, and the fill run unless
the zone is a keepout. -/
def finishZone (E : Collaborators) (aKeepout : Bool) (l : ZoneLoop) (cursorPos : Point)
    (zone : ZONE_CONTAINER) : ZONE_CONTAINER :=
  let zone :=
    if l.direction45 then
      zone.AppendCorner (if cursorPos = l.origin then l.line45.GetStart else l.line45.GetEnd)
    else zone
  let zone := zone.CloseLastContour
  let zone := { zone with corners := E.RemoveNullSegments zone.corners }
  let zone := { zone with hatched := true }
  if !aKeepout then E.Fill_Zone zone else zone

/-- The commit of a closed contour with more than two points. -/
def commitZone (E : Collaborators) (aKeepout : Bool) (aMode : ZONE_MODE) (t : DRAWING_TOOL)
    (l : ZoneLoop) (cursorPos : Point) : Option DRAWING_TOOL :=
  match l.zone with
  | none => none
  | some zone =>
    let zone := finishZone E aKeepout l cursorPos zone
    if aMode = .CUTOUT then
      match l.sourceZone with
      | none => none
      | some idx =>
        match zoneAt t idx with
        | none => none
        | some sourceZone =>
          match performZoneCutout (t.commitModify (.zone sourceZone)) idx zone with
          | none => none
          | some t => some (t.commitPush "Add a zone cutout")
    else some ((t.commitAdd (.zone zone)).commitPush "Draw a zone")

/-- The closing branch of a click in `drawZone`. -/
def zoneClose (E : Collaborators) (aKeepout : Bool) (aMode : ZONE_MODE) (t : DRAWING_TOOL)
    (l : ZoneLoop) (cursorPos : Point) : Option (DRAWING_TOOL × ZoneLoop) :=
  match (if l.numPoints > 2 then commitZone E aKeepout aMode t l cursorPos else some t) with
  | none => none
  | some t =>
    let l := { l with zone := none, numPoints := 0 }
    let t := (t.SetAutoPan false).CaptureCursor false
    let l :=
      if l.direction45 then { l with preview := l.preview.Remove .line45, direction45 := false }
      else l
    match zoneFreeItems l with
    | none => none
    | some l => some (t.viewCall .Update, l)

/-- The branch of a click in `drawZone` that adds a point. -/
def zoneAddPoint (aKeepout : Bool) (t : DRAWING_TOOL) (l : ZoneLoop) (evt : TOOL_EVENT) :
    Option (DRAWING_TOOL × ZoneLoop) :=
  let cursorPos := evt.cursor
  if l.numPoints = 0 then
    let created : Option (DRAWING_TOOL × Option ZONE_CONTAINER) :=
      match l.sourceZone with
      | some idx =>
        match zoneAt t idx with
        | none => none
        | some sourceZone => some (t, some (createZoneFromExisting sourceZone))
      | none => some (createNewZone aKeepout t evt)
    match created with
    | none => none
    | some (t, none) => some (t, l)
    | some (t, some zone) =>
      let zone := zone.Start cursorPos
      let helperLine := (((((DRAWSEGMENT.new false).SetShape .S_SEGMENT).SetWidth 1).SetLayer
        zone.GetLayer).SetStart cursorPos).SetEnd cursorPos
      some (t.viewCall .Update,
        { l with zone := some zone, origin := cursorPos, helperLine := some helperLine,
                 line45 := helperLine, preview := l.preview.Add (.helperLine l.helpers),
                 helpers := l.helpers + 1, numPoints := l.numPoints + 1 })
  else
    match l.zone, l.helperLine with
    | some zone, some helperLine =>
      let zone := zone.AppendCorner helperLine.GetEnd
      let helperLine := helperLine.SetStart helperLine.GetEnd
      some (t.viewCall .Update,
        { l with zone := some zone, helperLine := some helperLine,
                 preview := l.preview.Add (.helperLine l.helpers),
                 helpers := l.helpers + 1, numPoints := l.numPoints + 1 })
    | _, _ => none

/-- One iteration of the event loop of `drawZone`; the flag tells that the loop is
left, `none` that a null or freed pointer would be used. -/
def drawZoneStep (E : Collaborators) (aKeepout : Bool) (aMode : ZONE_MODE) (t : DRAWING_TOOL)
    (l : ZoneLoop) (evt : TOOL_EVENT) : Option (DRAWING_TOOL × ZoneLoop × Bool) :=
  let t := t.Wait evt
  let cursorPos := evt.cursor
  match zoneModeCheck E t l evt with
  | none => none
  | some (t, l) =>
    if IsCancelInteractive evt then
      if l.numPoints > 0 then
        let l := { l with zone := none }
        let t := (t.SetAutoPan false).CaptureCursor false
        let l :=
          if l.direction45 then { l with preview := l.preview.Remove .line45, direction45 := false }
          else l
        match zoneFreeItems l with
        | none => none
        | some l => some (t.viewCall .Update, { l with numPoints := 0 }, evt.IsActivate)
      else some (t, l, true)
    else if evt.IsClickRight then
      some (t, l, false)
    else if evt.IsClickLeft || evt.IsDblClickLeft then
      if evt.IsDblClickLeft || (decide (l.numPoints > 0) && decide (cursorPos = l.origin)) then
        match zoneClose E aKeepout aMode t l cursorPos with
        | none => none
        | some (t, l) => some (t, l, false)
      else
        match zoneAddPoint aKeepout t l evt with
        | none => none
        | some (t, l) => some (t, l, false)
    else if evt.IsMotion && decide (l.numPoints > 0) then
      match l.helperLine with
      | none => none
      | some helperLine =>
        if l.direction45 then
          let (h, l45) := make45DegLine E t helperLine l.line45
          some (t.viewCall .Update, { l with helperLine := some h, line45 := l45 }, false)
        else
          some (t.viewCall .Update, { l with helperLine := some (helperLine.SetEnd cursorPos) },
            false)
    else some (t, l, false)

/-- The event loop of `drawZone`. -/
def drawZoneLoop (E : Collaborators) (aKeepout : Bool) (aMode : ZONE_MODE) :
    DRAWING_TOOL → ZoneLoop → List TOOL_EVENT → Option (DRAWING_TOOL × ZoneLoop)
  | t, l, [] => some (t, l)
  | t, l, evt :: rest =>
    match drawZoneStep E aKeepout aMode t l evt with
    | none => none
    | some (t1, l1, true) => some (t1, l1)
    | some (t1, l1, false) => drawZoneLoop E aKeepout aMode t1 l1 rest

/-- The local state `drawZone` starts its event loop with. -/
def ZoneLoop.start (sourceZone : Option Nat) : ZoneLoop :=
  { zone := none, line45 := DRAWSEGMENT.new false, helperLine := none, helpers := 0,
    sourceZone := sourceZone, preview := [], origin := ⟨0, 0⟩, numPoints := 0,
    direction45 := false }

/-- `DRAWING_TOOL::drawZone( aKeepout, aMode )`: returns the tool and, when the event
loop was entered, the local state at the return. -/
def drawZone (E : Collaborators) (aKeepout : Bool) (aMode : ZONE_MODE) (t : DRAWING_TOOL)
    (evs : List TOOL_EVENT) : Option (DRAWING_TOOL × Option ZoneLoop) :=
  match getSourceZoneForAction E t aMode with
  | (t, false, _) => some (t, none)
  | (t, true, sourceZone) =>
    match drawZoneLoop E aKeepout aMode t.enterLoop (ZoneLoop.start sourceZone) evs with
    | none => none
    | some (t, l) => some (t.leaveLoop, some l)

/-! ## `PlaceText` -/

/-- Local state of `PlaceText`. -/
structure TextLoop where
  text : Option BOARD_ITEM
  preview : SELECTION
deriving DecidableEq, Repr

/-- The text object the first click constructs and hands to the properties dialog, as
the dialog leaves it, or nothing when it is deleted again. -/
def newText (E : Collaborators) (t : DRAWING_TOOL) (evt : TOOL_EVENT) : Option BOARD_ITEM :=
  if t.m_editModules then
    let textMod : TEXTE :=
      { m_Text := evt.textDialog.getD "", m_Pos := evt.cursor, m_Layer := t.activeLayer,
        m_Size := t.dsn.m_ModuleTextSize, m_Thickness := t.dsn.m_ModuleTextWidth,
        m_Mirror := false, isNew := false, isModuleText := true }
    let placing := evt.textDialog.isSome && decide (textMod.m_Text.length > 0)
    if placing then some (.text textMod) else none
  else
    let layer := t.activeLayer
    let textPcb : TEXTE :=
      { m_Text := evt.textDialog.getD "", m_Pos := evt.cursor, m_Layer := layer,
        m_Size := t.dsn.m_PcbTextSize, m_Thickness := t.dsn.m_PcbTextWidth,
        m_Mirror := E.IsBackLayer layer, isNew := true, isModuleText := false }
    if textPcb.m_Text.isEmpty then none else some (.text textPcb)

/-- `ClearFlags()` on the item being placed. -/
def clearFlags : BOARD_ITEM → BOARD_ITEM
  | .text x => .text { x with isNew := false }
  | i => i

/-- One iteration of the event loop of `PlaceText`; the flag tells that the loop is left. -/
def PlaceTextStep (E : Collaborators) (t : DRAWING_TOOL) (l : TextLoop) (evt : TOOL_EVENT) :
    DRAWING_TOOL × TextLoop × Bool :=
  let t := t.Wait evt
  let cursorPos := evt.cursor
  if IsCancelInteractive evt then
    match l.text with
    | some _ =>
      let t := ((t.SetAutoPan false).CaptureCursor false).ShowCursor true
      (t, { l with text := none, preview := l.preview.Clear }, evt.IsActivate)
    | none => (t, l, true)
  else if l.text.isSome && evt.IsCommand then
    match l.text with
    | some text =>
      if IsRotateToolEvt evt then
        (t.viewCall .Update, { l with text := some (E.Rotate evt text.GetPosition text) }, false)
      else if evt.IsAction .flip then
        (t.viewCall .Update, { l with text := some (E.Flip text.GetPosition text) }, false)
      else (t, l, false)
    | none => (t, l, false)
  else if evt.IsClickRight then
    (t, l, false)
  else if evt.IsClickLeft then
    match l.text with
    | none =>
      match newText E t evt with
      | none => (t, l, false)
      | some text =>
        let t := (t.CaptureCursor true).SetAutoPan true
        (t, { l with text := some text, preview := l.preview.Add .text }, false)
    | some text =>
      let text := clearFlags text
      let l := { l with preview := l.preview.Remove .text }
      let t := (t.commitAdd text).commitPush "Place a text"
      let t := ((t.CaptureCursor false).SetAutoPan false).ShowCursor true
      (t, { l with text := none }, false)
  else if l.text.isSome && evt.IsMotion then
    match l.text with
    | some text =>
      (t.viewCall .Update,
        { l with text := some (text.SetPosition cursorPos) }, false)
    | none => (t, l, false)
  else (t, l, false)

/-- The event loop of `PlaceText`. -/
def PlaceTextLoop (E : Collaborators) :
    DRAWING_TOOL → TextLoop → List TOOL_EVENT → DRAWING_TOOL × TextLoop
  | t, l, [] => (t, l)
  | t, l, evt :: rest =>
    match PlaceTextStep E t l evt with
    | (t1, l1, true) => (t1, l1)
    | (t1, l1, false) => PlaceTextLoop E t1 l1 rest

/-- `DRAWING_TOOL::PlaceText`: returns the tool and the local state at the return. -/
def PlaceText (E : Collaborators) (t : DRAWING_TOOL) (evs : List TOOL_EVENT) :
    DRAWING_TOOL × TextLoop :=
  let (t, l) := PlaceTextLoop E t.enterLoop { text := none, preview := [] } evs
  (t.leaveLoop, l)

/-! ## `PlaceDXF` -/

/-- Local state of `PlaceDXF`: the imported items in the order of the preview group
(the first one is `preview.Front()`), and the group itself. -/
structure DxfLoop where
  items : List BOARD_ITEM
  preview : SELECTION
deriving DecidableEq, Repr

/-- The conversion of an imported item to the class a footprint holds; an item that is
neither a text nor a line is dropped. -/
def convertForModule : BOARD_ITEM → Option BOARD_ITEM
  | .text x => some (.text { x with isModuleText := true })
  | .segment s => some (.segment { s with isModuleEdge := true })
  | _ => none

/-- The `Add` calls of the placing click, one per item kept. -/
def placeItems (m_editModules : Bool) : DRAWING_TOOL → List BOARD_ITEM → DRAWING_TOOL
  | t, [] => t
  | t, item :: rest =>
    let item := if m_editModules then convertForModule item else some item
    match item with
    | some i => placeItems m_editModules (t.commitAdd i) rest
    | none => placeItems m_editModules t rest

/-- One iteration of the event loop of `PlaceDXF`; the flag tells that the loop is left. -/
def PlaceDXFStep (E : Collaborators) (t : DRAWING_TOOL) (l : DxfLoop) (evt : TOOL_EVENT) :
    DRAWING_TOOL × DxfLoop × Bool :=
  let t := t.Wait evt
  let cursorPos := evt.cursor
  if evt.IsMotion then
    match l.items.head? with
    | none => (t.viewCall .Update, l, false)
    | some firstItem =>
      let delta := cursorPos.sub32 firstItem.GetPosition
      (t.viewCall .Update, { l with items := l.items.map (BOARD_ITEM.Move delta) }, false)
  else if evt.IsCommand then
    if IsRotateToolEvt evt then
      (t.viewCall .Update, { l with items := l.items.map (E.Rotate evt cursorPos) }, false)
    else if evt.IsAction .flip then
      (t.viewCall .Update, { l with items := l.items.map (E.Flip cursorPos) }, false)
    else if IsCancelInteractive evt then
      (t, { l with items := [], preview := [] }, true)
    else (t, l, false)
  else if evt.IsClickRight then
    (t, l, false)
  else if evt.IsClickLeft then
    ((placeItems t.m_editModules t l.items).commitPush "Place a DXF drawing", l, true)
  else (t, l, false)

/-- The event loop of `PlaceDXF`. -/
def PlaceDXFLoop (E : Collaborators) :
    DRAWING_TOOL → DxfLoop → List TOOL_EVENT → DRAWING_TOOL × DxfLoop
  | t, l, [] => (t, l)
  | t, l, evt :: rest =>
    match PlaceDXFStep E t l evt with
    | (t1, l1, true) => (t1, l1)
    | (t1, l1, false) => PlaceDXFLoop E t1 l1 rest

/-- `DRAWING_TOOL::PlaceDXF`, given whether the frame has a model, whether the import
dialog was accepted, and the imported items. Returns the tool and, when the event loop
was entered, the local state at the return. -/
def PlaceDXF (E : Collaborators) (t : DRAWING_TOOL) (hasModel dlgOK : Bool)
    (list : List BOARD_ITEM) (evs : List TOOL_EVENT) : DRAWING_TOOL × Option DxfLoop :=
  if !hasModel then (t, none)
  else if !dlgOK || list.isEmpty then (t, none)
  else
    let l : DxfLoop :=
      { items := list, preview := (List.range list.length).map PREVIEW_ITEM.imported }
    let (t, l) := PlaceDXFLoop E t.enterLoop l evs
    (t.leaveLoop, some { l with preview := l.preview.Clear })

/-! ## Connected board items: `pcbnew/class_board_connected_item.cpp` -/

/-- A net class, as far as connected items read it: its name and its clearance. -/
structure NETCLASS where
  m_Name : String
  m_Clearance : Int
deriving DecidableEq, Repr

def NETCLASS.GetName (c : NETCLASS) : String := c.m_Name
def NETCLASS.GetClearance (c : NETCLASS) : Int := c.m_Clearance

/-- A net: its code and the net class it points to (`none` is a null pointer). -/
structure NETINFO_ITEM where
  m_NetCode : Int
  m_NetClass : Option NETCLASS
deriving DecidableEq, Repr

def NETINFO_ITEM.GetNet (n : NETINFO_ITEM) : Int := n.m_NetCode
def NETINFO_ITEM.GetNetClass (n : NETINFO_ITEM) : Option NETCLASS := n.m_NetClass

/-- The two static members of `NETINFO_LIST` the file names. Their values are set
outside the translated sources: the code that stands for "no connection", and the net
an item without a board refers to. -/
structure NETINFO_LIST where
  UNCONNECTED : Int
  ORPHANED : NETINFO_ITEM
deriving DecidableEq, Repr

/-- The board as a connected item reads it: the list of nets `m_NetInfo` and the
default net class `m_NetClasses.GetDefault()`, which is an object of the board and
never null. -/
structure BOARD where
  m_NetInfo : List NETINFO_ITEM
  m_NetClasses_Default : NETCLASS
deriving DecidableEq, Repr

/-- Modelled from the spec: `BOARD::FindNet( aNetcode )` is outside the translated
sources. The net-connectivity bookkeeping is a simple attribute lookup: the net of the
board whose code is `aNetcode`, and a null pointer when the board has no such net. -/
def BOARD.FindNet (board : BOARD) (aNetcode : Int) : Option NETINFO_ITEM :=
  board.m_NetInfo.find? fun n => n.m_NetCode == aNetcode

/-- What the pointer `m_netinfo` refers to: nothing, the static net
`NETINFO_LIST::ORPHANED`, or a net of the board. -/
inductive NETINFO_REF
  | null
  | ORPHANED
  | net (n : NETINFO_ITEM)
deriving DecidableEq, Repr

/-- A pointer handed back by `FindNet`, as a value of `m_netinfo`. -/
def NETINFO_REF.ofFound : Option NETINFO_ITEM → NETINFO_REF
  | none => .null
  | some n => .net n

/-- The net a pointer refers to; `none` for the null pointer. -/
def NETINFO_REF.deref (N : NETINFO_LIST) : NETINFO_REF → Option NETINFO_ITEM
  | .null => none
  | .ORPHANED => some N.ORPHANED
  | .net n => some n

/-- A connected item: the board `GetBoard()` finds for it (`none` when it belongs to
no board), its net pointer and its sub-net numbers. -/
structure BOARD_CONNECTED_ITEM where
  board : Option BOARD
  m_Subnet : Int
  m_ZoneSubnet : Int
  m_netinfo : NETINFO_REF
deriving DecidableEq, Repr

namespace BOARD_CONNECTED_ITEM

def GetBoard (i : BOARD_CONNECTED_ITEM) : Option BOARD := i.board

/-- `BOARD_CONNECTED_ITEM::GetNet`: `m_netinfo->GetNet()`; `none` when the pointer
dereferenced is null. -/
def GetNet (N : NETINFO_LIST) (i : BOARD_CONNECTED_ITEM) : Option Int :=
  match i.m_netinfo.deref N with
  | none => none
  | some n => some n.GetNet

/-- `BOARD_CONNECTED_ITEM::SetNet( aNetCode )`. -/
def SetNet (N : NETINFO_LIST) (i : BOARD_CONNECTED_ITEM) (aNetCode : Int) : BOARD_CONNECTED_ITEM :=
  match i.GetBoard with
  | some board =>
    let m_netinfo := NETINFO_REF.ofFound (board.FindNet aNetCode)
    let m_netinfo :=
      if m_netinfo = .null then NETINFO_REF.ofFound (board.FindNet N.UNCONNECTED)
      else m_netinfo
    { i with m_netinfo := m_netinfo }
  | none => { i with m_netinfo := .ORPHANED }

/-- The constructor `BOARD_CONNECTED_ITEM( aParent, idtype )`, given the board the
parent leads to. -/
def new (N : NETINFO_LIST) (board : Option BOARD) : BOARD_CONNECTED_ITEM :=
  SetNet N { board := board, m_Subnet := 0, m_ZoneSubnet := 0, m_netinfo := .ORPHANED }
    N.UNCONNECTED

/-- `BOARD_CONNECTED_ITEM::GetNetClass`: the outer `none` tells that a null pointer
would be dereferenced, the inner one is the null pointer handed back. -/
def GetNetClass (N : NETINFO_LIST) (i : BOARD_CONNECTED_ITEM) : Option (Option NETCLASS) :=
  match i.GetBoard with
  | none => some none
  | some board =>
    match i.GetNet N with
    | none => none
    | some netcode =>
      let net := board.FindNet netcode
      let netclass : Option NETCLASS :=
        match net with
        | some n => n.GetNetClass
        | none => none
      match netclass with
      | some c => some (some c)
      | none => some (some board.m_NetClasses_Default)

/-- The call `aItem->GetClearance()` made on the other item: `GetClearance` with a
null argument. -/
def GetClearanceAlone (N : NETINFO_LIST) (i : BOARD_CONNECTED_ITEM) : Option Int :=
  match i.GetNetClass N with
  | none => none
  | some (some myclass) => some myclass.GetClearance
  | some none => some 0

/-- `BOARD_CONNECTED_ITEM::GetClearance( aItem )`; `none` when a null pointer would be
dereferenced. -/
def GetClearance (N : NETINFO_LIST) (i : BOARD_CONNECTED_ITEM)
    (aItem : Option BOARD_CONNECTED_ITEM) : Option Int :=
  match i.GetNetClass N with
  | none => none
  | some (some myclass) =>
    let myClearance := myclass.GetClearance
    match aItem with
    | some a =>
      match a.GetClearanceAlone N with
      | none => none
      | some hisClearance => some (max hisClearance myClearance)
    | none => some myClearance
  | some none => some 0

/-- `BOARD_CONNECTED_ITEM::GetNetClassName`; `none` when a null pointer would be
dereferenced. -/
def GetNetClassName (N : NETINFO_LIST) (i : BOARD_CONNECTED_ITEM) : Option String :=
  match i.GetNetClass N with
  | none => none
  | some (some myclass) => some myclass.GetName
  | some none =>
    match i.GetBoard with
    | none => none
    | some board => some board.m_NetClasses_Default.GetName

end BOARD_CONNECTED_ITEM

/-! ## The symbol chooser: `eeschema/dialogs/dialog_choose_component.cpp` -/

/-- The field id `FOOTPRINT` of `enum NumFieldType`, declared outside the translated
sources, where it follows `REFERENCE = 0` and `VALUE`. -/
def FOOTPRINT : Int := 2

/-- Calls the dialog makes on the footprint preview widget. -/
inductive PREVIEW_CALL
  | SetStatusText (s : String)
  | ClearStatus
  | CacheFootprint (id : String)
  | DisplayFootprint (id : String)
deriving DecidableEq, Repr

/-- The footprint preview widget: whether it is initialised, and the calls made on it. -/
structure FOOTPRINT_PREVIEW_WIDGET where
  initialized : Bool
  calls : List PREVIEW_CALL
deriving DecidableEq, Repr

/-- The members of the dialog the footprint handler touches; `m_fp_preview` is `none`
when the dialog has no preview widget. -/
structure DIALOG_CHOOSE_COMPONENT where
  m_fp_override : String
  m_field_edits : List (Int × String)
  m_fp_preview : Option FOOTPRINT_PREVIEW_WIDGET
deriving DecidableEq, Repr

/-- A command event, as far as the handler reads it: its string. -/
structure wxCommandEvent where
  m_cmdString : String
deriving DecidableEq, Repr

def wxCommandEvent.GetString (e : wxCommandEvent) : String := e.m_cmdString

namespace DIALOG_CHOOSE_COMPONENT

/-- `DIALOG_CHOOSE_COMPONENT::ShowFootprint( aName )`; `validId` is the test
`lib_id.Parse( aName, LIB_ID::ID_PCB ) == -1 && lib_id.IsValid()`, whose code is
outside the translated sources. -/
def ShowFootprint (validId : String → Bool) (d : DIALOG_CHOOSE_COMPONENT) (aName : String) :
    DIALOG_CHOOSE_COMPONENT :=
  match d.m_fp_preview with
  | none => d
  | some w =>
    if !w.initialized then d
    else
      let calls : List PREVIEW_CALL :=
        if aName = "" then [.SetStatusText "No footprint specified"]
        else if validId aName then [.ClearStatus, .CacheFootprint aName, .DisplayFootprint aName]
        else [.SetStatusText "Invalid footprint specified"]
      { d with m_fp_preview := some { w with calls := w.calls ++ calls } }

/-- `DIALOG_CHOOSE_COMPONENT::OnFootprintSelected( aEvent )`: the erase-remove idiom
keeps the entries whose field id is not `FOOTPRINT`, in their order. -/
def OnFootprintSelected (validId : String → Bool) (d : DIALOG_CHOOSE_COMPONENT)
    (aEvent : wxCommandEvent) : DIALOG_CHOOSE_COMPONENT :=
  let d := { d with m_fp_override := aEvent.GetString }
  let d := { d with m_field_edits := d.m_field_edits.filter fun i => !(i.1 == FOOTPRINT) }
  let d := { d with m_field_edits := d.m_field_edits ++ [(FOOTPRINT, d.m_fp_override)] }
  ShowFootprint validId d d.m_fp_override

end DIALOG_CHOOSE_COMPONENT

/-! # Predicates the statements use -/
/-! ## The document and what leaves it alone -/

/-- The document as the commit boundary sees it: the board items, the pushed
transactions, and the calls and queued operations of the commit. Two tools have the
same document when all four agree. -/
def sameDocument (t t1 : DRAWING_TOOL) : Prop :=
  t1.commitCalls = t.commitCalls ∧ t1.pending = t.pending ∧ t1.undo = t.undo ∧ t1.board = t.board

instance (t t1 : DRAWING_TOOL) : Decidable (sameDocument t t1) := by
  unfold sameDocument; infer_instance

/-! ## The invariant of the zone loop -/

/-- What holds of the local state of `drawZone` whenever it waits for an event: the
45 degree mode is only on while points are being collected, the zone and the helper
line are live while points are being collected, and `line45` is in the preview group
exactly while the 45 degree mode is on. -/
def ZoneInv (l : ZoneLoop) : Prop :=
  (l.direction45 = true → 0 < l.numPoints)
    ∧ (0 < l.numPoints → l.helperLine.isSome = true ∧ l.zone.isSome = true)
    ∧ (PREVIEW_ITEM.line45 ∈ l.preview ↔ l.direction45 = true)

instance (l : ZoneLoop) : Decidable (ZoneInv l) := by
  unfold ZoneInv; infer_instance

/-- The events of a list are all handled by `drawSegment` without leaving its loop. -/
def segmentGoesOn (E : Collaborators) (aShape : STROKE_T) :
    DRAWING_TOOL → SegmentLoop → List TOOL_EVENT → Bool
  | _, _, [] => true
  | t, l, evt :: rest =>
    !(drawSegmentStep E aShape t l evt).2.2
      && segmentGoesOn E aShape (drawSegmentStep E aShape t l evt).1
          (drawSegmentStep E aShape t l evt).2.1 rest

/-- The events of a list are all handled by `drawArc` without leaving its loop. -/
def arcGoesOn (E : Collaborators) : DRAWING_TOOL → ArcLoop → List TOOL_EVENT → Bool
  | _, _, [] => true
  | t, l, evt :: rest =>
    !(drawArcStep E t l evt).2.2
      && arcGoesOn E (drawArcStep E t l evt).1 (drawArcStep E t l evt).2.1 rest

/-- The local state `drawSegment` enters its event loop with. -/
def segmentEntry (aShape : STROKE_T) (t : DRAWING_TOOL) (aGraphic : DRAWSEGMENT)
    (aStartingPoint : Option Point) : DRAWING_TOOL × SegmentLoop :=
  let l : SegmentLoop :=
    { aGraphic := aGraphic, aGraphicNull := false, line45 := DRAWSEGMENT.new false,
      preview := [], direction45 := false, started := false }
  match aStartingPoint with
  | some p => initSegment aShape t.enterLoop l p t.enterLoop.GetCursorPosition
  | none => (t.enterLoop, l)

/-- The local state `drawArc` enters its event loop with. -/
def arcEntry (aGraphic : DRAWSEGMENT) : ArcLoop :=
  { aGraphic := aGraphic, aGraphicNull := false,
    helperLine := ((DRAWSEGMENT.new false).SetLayer .Dwgs_User).SetWidth 1, preview := [],
    step := ARC_SET_ORIGIN, clockwise := true, startAngle := 0 }


/-! ## Concrete data for worked examples -/

/-- A clean-up for worked examples: a corner at the position of the next corner is
dropped. -/
def dropNullSegments : List CPolyPt → List CPolyPt
  | [] => []
  | [c] => [c]
  | c :: d :: rest =>
    if c.pos = d.pos then dropNullSegments (d :: rest) else c :: dropNullSegments (d :: rest)

/-- Collaborators for worked examples: straight-first routing, a dimension positioned
at its end point, a clean-up that drops repeated corners, identity rotation and flip,
and a fill that marks the zone filled. -/
def exampleCollaborators : Collaborators :=
  { IsDiagonal := fun _ => false
    GetPosition := fun d => d.m_featureLineDO
    Clamp_Text_PenSize := fun w _ => w
    Angle := fun _ => 0
    RAD2DECIDEG := fun a => a
    RemoveNullSegments := dropNullSegments
    selectionCursor := fun _ => []
    NormalizeAngle := fun a => a
    IsBackLayer := fun _ => false
    Fill_Zone := fun z => { z with m_IsFilled := true }
    Rotate := fun _ _ i => i
    Flip := fun _ i => i }

/-- The values the C library returns at the arguments of the worked examples, which are
on a horizontal axis running right: `atan2( 0, x )` is 0 for positive `x`, the cosine
of `M_PI / 2` is the `double` 0x1.1a62633145c07p-54 and its sine is 1. At every other
argument the functions stand still at these values of the angle 0. -/
def exampleTrig : Trig :=
  { cos := fun x => if x = M_PI_2 then ⟨4967757600021511, -106⟩ else ⟨1, 0⟩
    sin := fun x => if x = M_PI_2 then ⟨1, 0⟩ else ⟨0, 0⟩
    atan2 := fun _ _ => ⟨0, 0⟩ }

/-- A tool on an empty board, line width 150000, drawing on `Dwgs_User`. -/
def exampleTool : DRAWING_TOOL :=
  { m_lineWidth := 150000, m_editModules := false, g_Segments_45_Only := false,
    activeLayer := .Dwgs_User,
    dsn := { m_EdgeSegmentWidth := 150000, m_ModuleSegmentWidth := 150000,
             m_DrawSegmentWidth := 150000, m_PcbTextWidth := 300000,
             m_PcbTextSize := ⟨1500000, 1500000⟩, m_ModuleTextWidth := 150000,
             m_ModuleTextSize := ⟨1000000, 1000000⟩ },
    controls := { showCursor := false, snapping := false, autoPan := false,
                  captureCursor := false, cursor := ⟨0, 0⟩ },
    view := [], board := [], selection := [], commitCalls := [], pending := [], undo := [],
    zoneFillRuns := [], areaModified := [] }

/-! ## Clicks in `drawSegment` -/

/-- The state `drawSegment` is in after it has handled a list of events. -/
def segmentAfter (E : Collaborators) (aShape : STROKE_T) :
    DRAWING_TOOL → SegmentLoop → List TOOL_EVENT → DRAWING_TOOL × SegmentLoop
  | t, l, [] => (t, l)
  | t, l, evt :: rest =>
    segmentAfter E aShape (drawSegmentStep E aShape t l evt).1
      (drawSegmentStep E aShape t l evt).2.1 rest

/-- The test `aGraphic->GetEnd() == aGraphic->GetStart() || ( evt->IsDblClick( BUT_LEFT )
&& aShape == S_SEGMENT )` of a click, made on the graphic as the mode check of the
event leaves it. -/
def finishTest (E : Collaborators) (aShape : STROKE_T) (t : DRAWING_TOOL) (l : SegmentLoop)
    (evt : TOOL_EVENT) : Bool :=
  decide ((segmentModeCheck E aShape (t.Wait evt) l evt).2.aGraphic.GetEnd
      = (segmentModeCheck E aShape (t.Wait evt) l evt).2.aGraphic.GetStart)
    || (evt.IsDblClickLeft && aShape == .S_SEGMENT)

/-- A left click or double-click on a started shape that does not finish the gesture:
the shape is accepted and handed back. -/
def segmentAccepts (E : Collaborators) (aShape : STROKE_T) (t : DRAWING_TOOL) (l : SegmentLoop)
    (evt : TOOL_EVENT) : Bool :=
  (evt.IsClickLeft || evt.IsDblClickLeft) && l.started && !finishTest E aShape t l evt

/-- A left click or double-click on a started shape that finishes the gesture. -/
def segmentFinishes (E : Collaborators) (aShape : STROKE_T) (t : DRAWING_TOOL) (l : SegmentLoop)
    (evt : TOOL_EVENT) : Bool :=
  (evt.IsClickLeft || evt.IsDblClickLeft) && l.started && finishTest E aShape t l evt

/-- The segment `drawSegment` commits by itself when a gesture finishes in 45 degree
mode: a copy of `line45` whose end is the start of the graphic. -/
def finishingSegment (t : DRAWING_TOOL) (l : SegmentLoop) : DRAWSEGMENT :=
  ({ l.line45 with isModuleEdge := t.m_editModules } : DRAWSEGMENT).SetEnd l.aGraphic.GetStart

/-! ## Clicks in `drawZone` -/

/-- The closing test of a click in `drawZone`: a double-click, or a click on the first
point while points are being collected. -/
def zoneCloses (l : ZoneLoop) (evt : TOOL_EVENT) : Bool :=
  (evt.IsClickLeft || evt.IsDblClickLeft)
    && (evt.IsDblClickLeft || (decide (l.numPoints > 0) && decide (evt.cursor = l.origin)))

/-- The corner list of the existing zone after a cutout: its corners, then the corners
of the cutout in order, the last one closing the contour. -/
def cutoutCorners (aExistingZone aCutout : ZONE_CONTAINER) : List CPolyPt :=
  closeLast (aExistingZone.corners ++ aCutout.cornerPositions.map fun p => ⟨p, false⟩)

/-- A click at a point that accepts the zone settings dialog with the given settings. -/
def zoneClickAt (p : Point) (s : ZONE_SETTINGS) : TOOL_EVENT :=
  { kind := .clickLeft, ctrl := false, cursor := p, zoneDialog := some s, textDialog := none }

/-- Settings of a copper zone on the front layer. -/
def exampleSettings : ZONE_SETTINGS :=
  { m_CurrentZone_Layer := .F_Cu, m_NetcodeSelection := 1, isKeepout := false, hatchStyle := 0 }

/-- Three clicks that collect the corners (0,0), (100,0), (100,100) of a new zone. -/
def triangleEvents : List TOOL_EVENT :=
  [zoneClickAt ⟨0, 0⟩ exampleSettings, eventAt .motion ⟨100, 0⟩, eventAt .clickLeft ⟨100, 0⟩,
    eventAt .motion ⟨100, 100⟩, eventAt .clickLeft ⟨100, 100⟩]

/-- The state of the event loop of `drawZone` after a list of events, from the state the
loop starts in; the start state again if the loop is left or fails on the way. -/
def zoneStateAfter (E : Collaborators) (aKeepout : Bool) (aMode : ZONE_MODE) (t : DRAWING_TOOL)
    (sourceZone : Option Nat) : List TOOL_EVENT → DRAWING_TOOL × ZoneLoop
  | [] => (t.enterLoop, ZoneLoop.start sourceZone)
  | evs =>
    match evs.foldl
        (fun (s : Option (DRAWING_TOOL × ZoneLoop)) evt =>
          match s with
          | none => none
          | some (t, l) =>
            match drawZoneStep E aKeepout aMode t l evt with
            | some (t1, l1, false) => some (t1, l1)
            | _ => none)
        (some (t.enterLoop, ZoneLoop.start sourceZone)) with
    | some s => s
    | none => (t.enterLoop, ZoneLoop.start sourceZone)

/-- A filled zone with a square outline, for the cutout examples. -/
def exampleZone : ZONE_CONTAINER :=
  { corners := [⟨⟨0, 0⟩, false⟩, ⟨⟨1000, 0⟩, false⟩, ⟨⟨1000, 1000⟩, false⟩, ⟨⟨0, 1000⟩, true⟩],
    settings := exampleSettings, m_IsFilled := true, hatched := true }

/-- The example tool on a board that holds the example zone, which is selected. -/
def exampleZoneTool : DRAWING_TOOL :=
  { exampleTool with board := [.zone exampleZone], selection := [0] }

/-- The events that draw a line from (0,0) to (100,0) and continue it to (100,100). -/
def chainedEvents : List TOOL_EVENT :=
  [eventAt .clickLeft ⟨0, 0⟩, eventAt .motion ⟨100, 0⟩, eventAt .clickLeft ⟨100, 0⟩,
    eventAt .motion ⟨100, 100⟩, eventAt .clickLeft ⟨100, 100⟩]

/-- Clicks at (0,0), at (100,0) and once more at (100,0): three collected points, two
distinct vertices. -/
def degenerateEvents : List TOOL_EVENT :=
  [zoneClickAt ⟨0, 0⟩ exampleSettings, eventAt .motion ⟨100, 0⟩, eventAt .clickLeft ⟨100, 0⟩,
    eventAt .clickLeft ⟨100, 0⟩]

/-! ## Line width -/

/-- The line width after a decrement command: `WIDTH_STEP` less when it exceeds
`WIDTH_STEP`, unchanged otherwise. -/
def decrementedWidth (w : Int) : Int := if WIDTH_STEP < w then w - WIDTH_STEP else w

/-! ## Dimensions -/

/-- The state of the event loop of `DrawDimension` after a list of events, from the
state the loop starts in; the start state again if the loop is left or fails on the way. -/
def dimensionStateAfter (E : Collaborators) (T : Trig) (t : DRAWING_TOOL)
    (evs : List TOOL_EVENT) : DRAWING_TOOL × DimensionLoop :=
  let start : DRAWING_TOOL × DimensionLoop :=
    (t.enterLoop,
      { dimension := none, allocated := 0, preview := [], step := DIM_SET_ORIGIN, maxThickness := 0 })
  match evs.foldl
      (fun (s : Option (DRAWING_TOOL × DimensionLoop)) evt =>
        match s with
        | none => none
        | some (t, l) =>
          match DrawDimensionStep E T t l evt with
          | some (t1, l1, false) => some (t1, l1)
          | _ => none)
      (some start) with
  | some s => s
  | none => start

/-- The clicks that set the origin (0,0) and the end (100,0) of a dimension. -/
def horizontalDimensionEvents : List TOOL_EVENT :=
  [eventAt .clickLeft ⟨0, 0⟩, eventAt .motion ⟨100, 0⟩, eventAt .clickLeft ⟨100, 0⟩]

/-- The dimension in progress after `horizontalDimensionEvents`: origin (0,0), end (100,0). -/
def exampleDimension : DIMENSION :=
  { m_featureLineGO := ⟨0, 0⟩, m_featureLineDO := ⟨100, 0⟩, m_Height := 0, m_Width := 300000,
    m_Layer := .Dwgs_User, textSize := ⟨1500000, 1500000⟩, textThickness := 300000 }

/-! ## The 45 degree constraint -/

/-- A leg from `a` to `b` has zero length or a direction that is a multiple of 45
degrees: it is vertical, horizontal, or on one of the two diagonals. -/
def aligned45 (a b : Point) : Prop :=
  b.x - a.x = 0 ∨ b.y - a.y = 0 ∨ b.x - a.x = b.y - a.y ∨ b.x - a.x = -(b.y - a.y)

instance (a b : Point) : Decidable (aligned45 a b) := by
  unfold aligned45; infer_instance


/-! ## The source zone of a gesture -/

/-- The tool as `getSourceZoneForAction` leaves it for the modes that need a source
zone: an empty selection is replaced by what the action `selectionCursor` selects. -/
def afterSelectionCursor (E : Collaborators) (t : DRAWING_TOOL) : DRAWING_TOOL :=
  if t.selection.isEmpty then { t with selection := E.selectionCursor t } else t

/-- An event of a given kind at a cursor position with Ctrl held, dialogs rejected. -/
def ctrlEventAt (k : EVENT_KIND) (p : Point) : TOOL_EVENT :=
  { kind := k, ctrl := true, cursor := p, zoneDialog := none, textDialog := none }

/-- A line drawn with Ctrl held (45 degree mode): start (0,0), click at (100,30), the
cursor moves on to (101,30), double-click there. -/
def bentLineEvents : List TOOL_EVENT :=
  [ctrlEventAt .clickLeft ⟨0, 0⟩, ctrlEventAt .motion ⟨100, 30⟩, ctrlEventAt .clickLeft ⟨100, 30⟩,
    ctrlEventAt .motion ⟨101, 30⟩, ctrlEventAt .dblClickLeft ⟨101, 30⟩]

/-- A segment of the example tool between two points. -/
def exampleSegment (a b : Point) : DRAWSEGMENT :=
  { m_Shape := .S_SEGMENT, m_Width := 150000, m_Start := a, m_End := b, m_Layer := .Dwgs_User,
    m_Angle := 0, isModuleEdge := false }

/-- The state in which `drawSegment` receives the double-click of `bentLineEvents`: the
second call made by `DrawLine`, started at (70,0), after the motion to (101,30). -/
def bentLineMoment : DRAWING_TOOL × SegmentLoop :=
  segmentAfter exampleCollaborators .S_SEGMENT
    (segmentEntry .S_SEGMENT
      (DrawLineIter exampleCollaborators exampleTool none bentLineEvents).2.1
      (DRAWSEGMENT.new false) (some ⟨70, 0⟩)).1
    (segmentEntry .S_SEGMENT
      (DrawLineIter exampleCollaborators exampleTool none bentLineEvents).2.1
      (DRAWSEGMENT.new false) (some ⟨70, 0⟩)).2
    [ctrlEventAt .motion ⟨101, 30⟩]

/-! ## The end of an accepted segment -/

/-- The end the constrained route gives a segment that starts at `origin` while the
cursor is at `cursorPos`: the second to last point of the trace when it has a bend, the
cursor otherwise. It is what `make45DegLine` hands to `aSegment->SetEnd`. -/
def routeFirstLegEnd (E : Collaborators) (origin cursorPos : Point) : Point :=
  (apply45Trace cursorPos (BuildInitialTrace (E.IsDiagonal (origin - cursorPos)) origin cursorPos)
    (DRAWSEGMENT.new false) (DRAWSEGMENT.new false)).1.GetEnd

/-- The effective 45 degree mode of `drawSegment` for an event: the option
`g_Segments_45_Only` toggled by Ctrl. -/
def limit45 (t : DRAWING_TOOL) (evt : TOOL_EVENT) : Bool := t.g_Segments_45_Only != evt.ctrl

/-- With Ctrl held: a line is started at (0,0), the cursor moves to (100,30), a click
there accepts the segment. -/
def bentClickEvents : List TOOL_EVENT :=
  [ctrlEventAt .clickLeft ⟨0, 0⟩, ctrlEventAt .motion ⟨100, 30⟩, ctrlEventAt .clickLeft ⟨100, 30⟩]

/-- The example tool with the option "limit graphic lines to 45 degrees" switched on. -/
def exampleTool45 : DRAWING_TOOL := { exampleTool with g_Segments_45_Only := true }

/-! ## The corner count of the zone in progress -/

/-- While points are being collected in `drawZone` the zone is live and has one corner
per collected point. -/
def ZoneCorners (l : ZoneLoop) : Prop :=
  0 < l.numPoints → ∃ z, l.zone = some z ∧ z.GetNumCorners = l.numPoints

/-! ## The invariant of the dimension loop -/

/-- The local state `DrawDimension` starts its event loop with. -/
def DimensionLoop.start : DimensionLoop :=
  { dimension := none, allocated := 0, preview := [], step := DIM_SET_ORIGIN, maxThickness := 0 }

/-- What holds of the local state of `DrawDimension` whenever it waits for an event:
the step is one of the three steps, beyond `SET_ORIGIN` the dimension is live, and at
`SET_HEIGHT` its origin and its end differ. -/
def DimensionInv (l : DimensionLoop) : Prop :=
  l.step ≤ DIM_SET_HEIGHT
    ∧ (l.step ≠ DIM_SET_ORIGIN → l.dimension.isSome = true)
    ∧ (l.step = DIM_SET_HEIGHT → ∃ d, l.dimension = some d ∧ d.GetOrigin ≠ d.GetEnd)

/-! ## The preview group when a loop is left -/

/-- The state `drawArc` is in after it has handled a list of events. -/
def arcAfter (E : Collaborators) : DRAWING_TOOL → ArcLoop → List TOOL_EVENT → DRAWING_TOOL × ArcLoop
  | t, l, [] => (t, l)
  | t, l, evt :: rest => arcAfter E (drawArcStep E t l evt).1 (drawArcStep E t l evt).2.1 rest

/-- The preview group of `drawArc` holds nothing but the graphic and the helper line. -/
def ArcPreviewInv (l : ArcLoop) : Prop :=
  ∀ i ∈ l.preview, i = PREVIEW_ITEM.aGraphic ∨ i = PREVIEW_ITEM.helperLine 0

/-- The preview group of `DrawDimension` is empty at `SET_ORIGIN` and holds nothing but
the dimension in progress. -/
def DimensionPreviewInv (l : DimensionLoop) : Prop :=
  (l.step = DIM_SET_ORIGIN → l.preview = [])
    ∧ ∀ i ∈ l.preview, i = PREVIEW_ITEM.dimension (l.allocated - 1)

/-- The preview group of `PlaceText` is empty while no text is in progress and holds
nothing but the text. -/
def TextPreviewInv (l : TextLoop) : Prop :=
  (l.text = none → l.preview = []) ∧ ∀ i ∈ l.preview, i = PREVIEW_ITEM.text

/-- The preview group of `drawZone` is empty while no point is collected. -/
def ZonePreviewInv (l : ZoneLoop) : Prop := l.numPoints = 0 → l.preview = []

/-- A left click at step `SET_HEIGHT` of `DrawDimension` whose cursor position is the
position of the dimension. -/
def heightRetryClick (E : Collaborators) (l : DimensionLoop) (evt : TOOL_EVENT) : Bool :=
  evt.IsClickLeft && decide (l.step = DIM_SET_HEIGHT)
    && (match l.dimension with
        | some d => decide (evt.cursor = E.GetPosition d)
        | none => false)

/-- No event of the list is handled by `DrawDimension` as a left click at step
`SET_HEIGHT` on the position of the dimension. -/
def noHeightRetry (E : Collaborators) (T : Trig) :
    DRAWING_TOOL → DimensionLoop → List TOOL_EVENT → Bool
  | _, _, [] => true
  | t, l, evt :: rest =>
    !heightRetryClick E l evt
      && (match DrawDimensionStep E T t l evt with
          | some (t1, l1, false) => noHeightRetry E T t1 l1 rest
          | _ => true)

/-- The events that set the origin (0,0) and the end (100,0) of a dimension, followed by
a click at (100,0), where the example dimension is positioned, and a cancel command. -/
def heightRetryEvents : List TOOL_EVENT :=
  horizontalDimensionEvents ++ [eventAt .clickLeft ⟨100, 0⟩, eventAt .cancel ⟨100, 0⟩]

/-! ## The end of the event stream in mid-gesture -/

/-- A line in progress when the event stream ends: a click at (0,0) and a motion to
(100,0), then no further event. -/
def unfinishedLineEvents : List TOOL_EVENT :=
  [eventAt .clickLeft ⟨0, 0⟩, eventAt .motion ⟨100, 0⟩]

/-- An arc in progress when the event stream ends: a click at (0,0) that sets the
centre and a motion to (100,0), then no further event. -/
def unfinishedArcEvents : List TOOL_EVENT :=
  [eventAt .clickLeft ⟨0, 0⟩, eventAt .motion ⟨100, 0⟩]

/-! ## The start angle of an arc -/

/-- The angle of a vector along one of the four axis directions, in radians to two
decimals, and 0 for every other vector: a stand-in for `VECTOR2D::Angle` in worked
examples. -/
def axisAngle (v : Point) : ℚ :=
  if v.x = 0 ∧ 0 < v.y then 157 / 100
  else if v.x < 0 ∧ v.y = 0 then 314 / 100
  else if v.x = 0 ∧ v.y < 0 then -157 / 100
  else 0

/-- The example collaborators with `axisAngle` for the angle of a vector. -/
def angleCollaborators : Collaborators := { exampleCollaborators with Angle := axisAngle }

/-- The centre of an arc is set at (0,0) and the cursor moves to (0,100); the next
event is a click at (100,0), a position the cursor was not reported at before. -/
def arcCentreAndMotion : List TOOL_EVENT :=
  [eventAt .clickLeft ⟨0, 0⟩, eventAt .motion ⟨0, 100⟩]

/-! ## The source zone during a gesture of `drawZone` -/

/-- The source zone of a gesture of `drawZone` is usable: a cutout has a source zone,
and a source zone is a zone of the board. -/
def ZoneSourceInv (aMode : ZONE_MODE) (t : DRAWING_TOOL) (l : ZoneLoop) : Prop :=
  (aMode = .CUTOUT → l.sourceZone.isSome = true) ∧
  ∀ idx, l.sourceZone = some idx → (zoneAt t idx).isSome = true

/-- The first corner of a zone is set and the cursor moves to (100,30) with Ctrl held:
the 45 degree mode of `drawZone` is on. -/
def zone45Events : List TOOL_EVENT :=
  [zoneClickAt ⟨0, 0⟩ exampleSettings, ctrlEventAt .motion ⟨100, 30⟩]

/-! ## The items of an import -/

/-- The assertion `PlaceDXF` makes on every imported item: it is a line or a text. -/
def isLineOrText : BOARD_ITEM → Bool
  | .segment _ => true
  | .text _ => true
  | _ => false

/-- The text of the example import, at a position. -/
def exampleText (p : Point) : TEXTE :=
  { m_Text := "A", m_Pos := p, m_Layer := .Dwgs_User, m_Size := ⟨1500000, 1500000⟩,
    m_Thickness := 300000, m_Mirror := false, isNew := false, isModuleText := false }

/-- An import of a line from (10,10) to (30,10) and a text at (20,50). -/
def importedItems : List BOARD_ITEM :=
  [.segment (exampleSegment ⟨10, 10⟩ ⟨30, 10⟩), .text (exampleText ⟨20, 50⟩)]

/-! ## Worked examples for connected items -/

/-- The constants of the net list in the examples: code 0 for "no connection", and an
orphaned net without a net class. -/
def exampleNets : NETINFO_LIST :=
  { UNCONNECTED := 0, ORPHANED := { m_NetCode := 0, m_NetClass := none } }

/-- A board with the unconnected net 0, a net 1 of the class "Power" (clearance
300000) and a net 2 without a net class; the default class has clearance 200000. -/
def exampleBoard : BOARD :=
  { m_NetInfo :=
      [{ m_NetCode := 0, m_NetClass := none },
       { m_NetCode := 1, m_NetClass := some { m_Name := "Power", m_Clearance := 300000 } },
       { m_NetCode := 2, m_NetClass := none }],
    m_NetClasses_Default := { m_Name := "Default", m_Clearance := 200000 } }

/-- An item constructed on the example board, and one constructed without a board. -/
def boardItem : BOARD_CONNECTED_ITEM := BOARD_CONNECTED_ITEM.new exampleNets (some exampleBoard)
def orphanItem : BOARD_CONNECTED_ITEM := BOARD_CONNECTED_ITEM.new exampleNets none

/-! ## Gestures that commit nothing -/

/-- The left click on which `DrawDimension` commits: at step `SET_HEIGHT`, away from the
position of the dimension. -/
def dimensionAcceptClick (E : Collaborators) (l : DimensionLoop) (evt : TOOL_EVENT) : Bool :=
  evt.IsClickLeft && decide (l.step = DIM_SET_HEIGHT)
    && (match l.dimension with
        | some d => decide (evt.cursor ≠ E.GetPosition d)
        | none => false)

/-- No event of the list reaches `DrawDimension` as the click it commits on. -/
def noDimensionAccept (E : Collaborators) (T : Trig) :
    DRAWING_TOOL → DimensionLoop → List TOOL_EVENT → Bool
  | _, _, [] => true
  | t, l, evt :: rest =>
    !dimensionAcceptClick E l evt
      && (match DrawDimensionStep E T t l evt with
          | some (t1, l1, false) => noDimensionAccept E T t1 l1 rest
          | _ => true)

/-- The click on which `drawZone` commits: a closing click on more than two points. -/
def zoneCommitClick (l : ZoneLoop) (evt : TOOL_EVENT) : Bool :=
  zoneCloses l evt && decide (2 < l.numPoints)

/-- No event of the list reaches `drawZone` as the click it commits on. -/
def noZoneCommit (E : Collaborators) (aKeepout : Bool) (aMode : ZONE_MODE) :
    DRAWING_TOOL → ZoneLoop → List TOOL_EVENT → Bool
  | _, _, [] => true
  | t, l, evt :: rest =>
    !zoneCommitClick l evt
      && (match drawZoneStep E aKeepout aMode t l evt with
          | some (t1, l1, false) => noZoneCommit E aKeepout aMode t1 l1 rest
          | _ => true)

/-- The click on which `PlaceText` commits: a left click while a text is being placed. -/
def textPlaceClick (l : TextLoop) (evt : TOOL_EVENT) : Bool :=
  l.text.isSome && evt.IsClickLeft

/-- No event of the list reaches `PlaceText` as the click it commits on. -/
def noTextPlaced (E : Collaborators) : DRAWING_TOOL → TextLoop → List TOOL_EVENT → Bool
  | _, _, [] => true
  | t, l, evt :: rest =>
    !textPlaceClick l evt
      && (match PlaceTextStep E t l evt with
          | (t1, l1, false) => noTextPlaced E t1 l1 rest
          | _ => true)

/-- A left click at a point that accepts the text dialog with the given text. -/
def textClickAt (p : Point) (s : String) : TOOL_EVENT :=
  { kind := .clickLeft, ctrl := false, cursor := p, zoneDialog := none, textDialog := some s }

/-- A line drawn with Ctrl held and finished where the last click was: start (0,0),
click at (100,30), double-click at (100,30). -/
def bentLineSameSpotEvents : List TOOL_EVENT :=
  [ctrlEventAt .clickLeft ⟨0, 0⟩, ctrlEventAt .motion ⟨100, 30⟩, ctrlEventAt .clickLeft ⟨100, 30⟩,
    ctrlEventAt .dblClickLeft ⟨100, 30⟩]

/-! # Lemmas -/

/-! ## Cancel events -/

theorem sameDocument_refl (t : DRAWING_TOOL) : sameDocument t t := ⟨rfl, rfl, rfl, rfl⟩

theorem sameDocument_trans {a b c : DRAWING_TOOL} (h1 : sameDocument a b) (h2 : sameDocument b c) :
    sameDocument a c :=
  ⟨h2.1.trans h1.1, h2.2.1.trans h1.2.1, h2.2.2.1.trans h1.2.2.1, h2.2.2.2.trans h1.2.2.2⟩

theorem sameDocument_Wait (t : DRAWING_TOOL) (e : TOOL_EVENT) : sameDocument t (t.Wait e) :=
  ⟨rfl, rfl, rfl, rfl⟩

theorem sameDocument_viewCall (t : DRAWING_TOOL) (c : VIEW_CALL) : sameDocument t (t.viewCall c) :=
  ⟨rfl, rfl, rfl, rfl⟩

theorem sameDocument_SetAutoPan (t : DRAWING_TOOL) (b : Bool) : sameDocument t (t.SetAutoPan b) :=
  ⟨rfl, rfl, rfl, rfl⟩

theorem sameDocument_CaptureCursor (t : DRAWING_TOOL) (b : Bool) :
    sameDocument t (t.CaptureCursor b) :=
  ⟨rfl, rfl, rfl, rfl⟩

theorem sameDocument_ShowCursor (t : DRAWING_TOOL) (b : Bool) : sameDocument t (t.ShowCursor b) :=
  ⟨rfl, rfl, rfl, rfl⟩

theorem sameDocument_incLineWidth (t : DRAWING_TOOL) : sameDocument t t.incLineWidth :=
  ⟨rfl, rfl, rfl, rfl⟩

theorem sameDocument_decLineWidth (t : DRAWING_TOOL) : sameDocument t t.decLineWidth :=
  ⟨rfl, rfl, rfl, rfl⟩

theorem sameDocument_enterLoop (t : DRAWING_TOOL) : sameDocument t t.enterLoop :=
  ⟨rfl, rfl, rfl, rfl⟩

theorem sameDocument_leaveLoop (t : DRAWING_TOOL) : sameDocument t t.leaveLoop :=
  ⟨rfl, rfl, rfl, rfl⟩

theorem sameDocument_getDrawingLayer (t : DRAWING_TOOL) : sameDocument t t.getDrawingLayer.1 := by
  unfold DRAWING_TOOL.getDrawingLayer
  dsimp only
  split <;> exact ⟨rfl, rfl, rfl, rfl⟩

theorem sameDocument_initSegment (aShape : STROKE_T) (t : DRAWING_TOOL) (l : SegmentLoop)
    (p q : Point) : sameDocument t (initSegment aShape t l p q).1 := by
  have h := sameDocument_getDrawingLayer t
  unfold initSegment
  exact h

theorem sameDocument_segmentModeCheck (E : Collaborators) (aShape : STROKE_T) (t : DRAWING_TOOL)
    (l : SegmentLoop) (evt : TOOL_EVENT) :
    sameDocument t (segmentModeCheck E aShape t l evt).1 := by
  unfold segmentModeCheck
  dsimp only
  split
  · split <;> exact ⟨rfl, rfl, rfl, rfl⟩
  · exact sameDocument_refl t

theorem drawSegmentStep_cancel (E : Collaborators) (aShape : STROKE_T) (t : DRAWING_TOOL)
    (l : SegmentLoop) (c : TOOL_EVENT) (hc : IsCancelInteractive c = true) :
    sameDocument t (drawSegmentStep E aShape t l c).1
      ∧ (drawSegmentStep E aShape t l c).2.1.aGraphicNull = true
      ∧ (drawSegmentStep E aShape t l c).2.1.preview = []
      ∧ (drawSegmentStep E aShape t l c).2.1.started = l.started
      ∧ (drawSegmentStep E aShape t l c).2.2 = true := by
  have h := sameDocument_segmentModeCheck E aShape (t.Wait c) l c
  have hs : (segmentModeCheck E aShape (t.Wait c) l c).2.started = l.started := by
    unfold segmentModeCheck
    dsimp only
    split
    · split <;> rfl
    · rfl
  rcases hm : segmentModeCheck E aShape (t.Wait c) l c with ⟨t1, l1⟩
  rw [hm] at h hs
  simp only [drawSegmentStep, hm, hc, if_true]
  exact ⟨sameDocument_trans (sameDocument_Wait t c) h, trivial, rfl, hs, trivial⟩

theorem cancel_kind {c : TOOL_EVENT} (hc : IsCancelInteractive c = true) :
    c.kind = .cancel ∨ c.kind = .activate := by
  simpa [IsCancelInteractive] using hc

theorem drawArcStep_cancel (E : Collaborators) (t : DRAWING_TOOL) (l : ArcLoop) (c : TOOL_EVENT)
    (hc : IsCancelInteractive c = true) :
    sameDocument t (drawArcStep E t l c).1
      ∧ (drawArcStep E t l c).2.1.aGraphicNull = true
      ∧ (drawArcStep E t l c).2.1.preview = []
      ∧ (drawArcStep E t l c).2.1.step = l.step
      ∧ (drawArcStep E t l c).2.2 = true := by
  simp only [drawArcStep, hc, if_true]
  exact ⟨sameDocument_Wait t c, trivial, rfl, trivial, trivial⟩

theorem DrawDimensionStep_cancel (E : Collaborators) (T : Trig)
    (t : DRAWING_TOOL) (l : DimensionLoop) (c : TOOL_EVENT) (hc : IsCancelInteractive c = true) :
    ∃ t1 l1 b, DrawDimensionStep E T t l c = some (t1, l1, b) ∧ sameDocument t t1
      ∧ l1.step = DIM_SET_ORIGIN ∧ (l.step ≠ DIM_SET_ORIGIN → l1.preview = [] ∧ l1.dimension = none)
      ∧ (l.step = DIM_SET_ORIGIN → b = true ∧ l1 = l) := by
  simp only [DrawDimensionStep, hc, if_true]
  by_cases hs : l.step = DIM_SET_ORIGIN
  · exact ⟨_, _, _, by simp [hs], sameDocument_Wait t c, hs, fun h => absurd hs h,
      fun _ => ⟨rfl, rfl⟩⟩
  · rw [if_pos hs]
    exact ⟨_, _, _, rfl, sameDocument_Wait t c, rfl, fun _ => ⟨rfl, rfl⟩,
      fun h => absurd h hs⟩

theorem PlaceTextStep_cancel (E : Collaborators) (t : DRAWING_TOOL) (l : TextLoop) (c : TOOL_EVENT)
    (hc : IsCancelInteractive c = true) :
    sameDocument t (PlaceTextStep E t l c).1
      ∧ (PlaceTextStep E t l c).2.1.text = none
      ∧ (l.text = none → (PlaceTextStep E t l c).2.2 = true)
      ∧ (l.text ≠ none → (PlaceTextStep E t l c).2.1.preview = []) := by
  simp only [PlaceTextStep, hc, if_true]
  cases h : l.text with
  | none => exact ⟨sameDocument_Wait t c, h, fun _ => rfl, fun h1 => absurd rfl h1⟩
  | some x => exact ⟨⟨rfl, rfl, rfl, rfl⟩, rfl, fun h1 => Option.noConfusion h1, fun _ => rfl⟩

theorem PlaceDXFStep_cancel (E : Collaborators) (t : DRAWING_TOOL) (l : DxfLoop) (c : TOOL_EVENT)
    (hc : IsCancelInteractive c = true) :
    sameDocument t (PlaceDXFStep E t l c).1
      ∧ (PlaceDXFStep E t l c).2.1.preview = []
      ∧ (PlaceDXFStep E t l c).2.2 = true := by
  rcases cancel_kind hc with h | h <;>
    simp [PlaceDXFStep, TOOL_EVENT.IsMotion, TOOL_EVENT.IsCommand, IsRotateToolEvt,
      TOOL_EVENT.IsAction, IsCancelInteractive, h] <;>
    exact sameDocument_Wait t c

theorem mem_SELECTION_Add (s : SELECTION) (i j : PREVIEW_ITEM) :
    j ∈ SELECTION.Add s i ↔ j = i ∨ j ∈ s := by
  unfold SELECTION.Add
  split
  · constructor
    · exact fun h => Or.inr h
    · rintro (h | h)
      · subst h; assumption
      · exact h
  · simp [List.mem_append, or_comm]

theorem mem_SELECTION_Remove (s : SELECTION) (i j : PREVIEW_ITEM) :
    j ∈ SELECTION.Remove s i ↔ j ∈ s ∧ j ≠ i := by
  simp [SELECTION.Remove, List.mem_filter]

theorem zoneModeCheck_inv (E : Collaborators) (t : DRAWING_TOOL) (l : ZoneLoop) (evt : TOOL_EVENT)
    (hl : ZoneInv l) :
    ∃ t1 l1, zoneModeCheck E t l evt = some (t1, l1) ∧ sameDocument t t1 ∧ ZoneInv l1
      ∧ l1.numPoints = l.numPoints ∧ l1.zone = l.zone ∧ l1.sourceZone = l.sourceZone
      ∧ l1.origin = l.origin
      ∧ l1.direction45 = (evt.ctrl && decide (l.numPoints > 0)) := by
  obtain ⟨h1, h2, h3⟩ := hl
  unfold zoneModeCheck
  by_cases hd : (l.direction45 != (evt.ctrl && decide (l.numPoints > 0))) = true
  · rw [if_pos hd]
    have hnp : 0 < l.numPoints := by
      by_contra hn
      have hdf : l.direction45 = false := by
        cases hdd : l.direction45
        · rfl
        · exact absurd (h1 hdd) hn
      simp [hdf, hn] at hd
    obtain ⟨hh, hz⟩ := h2 hnp
    obtain ⟨helper, hhe⟩ := Option.isSome_iff_exists.mp hh
    simp only [hhe]
    by_cases hctrl : evt.ctrl = true
    · simp only [hctrl, if_true]
      refine ⟨_, _, rfl, ⟨rfl, rfl, rfl, rfl⟩, ⟨fun _ => hnp, fun _ => ⟨rfl, hz⟩, ?_⟩, rfl, rfl, rfl,
        rfl, ?_⟩
      · simp [mem_SELECTION_Add]
      · simp [hnp]
    · simp only [hctrl]
      refine ⟨_, _, rfl, ⟨rfl, rfl, rfl, rfl⟩, ⟨fun h => Bool.noConfusion h, fun _ => ⟨rfl, hz⟩, ?_⟩,
        rfl, rfl, rfl, rfl, ?_⟩
      · simp [mem_SELECTION_Remove]
      · simp at hctrl; simp [hctrl]
  · rw [if_neg hd]
    refine ⟨t, l, rfl, sameDocument_refl t, ⟨h1, h2, h3⟩, rfl, rfl, rfl, rfl, ?_⟩
    simpa using hd

/-- Clearing the 45 degree mode before the preview items are freed. -/
theorem zoneFreeItems_after_clear (l : ZoneLoop) (hl : PREVIEW_ITEM.line45 ∈ l.preview ↔ l.direction45 = true) :
    ∃ l1, zoneFreeItems
        (if l.direction45 then
          { l with preview := l.preview.Remove .line45, direction45 := false } else l) = some l1
      ∧ l1.preview = [] ∧ l1.direction45 = false ∧ l1.numPoints = l.numPoints
      ∧ l1.zone = l.zone ∧ l1.sourceZone = l.sourceZone := by
  unfold zoneFreeItems
  by_cases hd : l.direction45 = true
  · simp only [hd, if_true]
    rw [if_neg (by simp [mem_SELECTION_Remove])]
    exact ⟨_, rfl, rfl, rfl, rfl, rfl, rfl⟩
  · simp only [hd]
    rw [if_neg (by simpa [hd] using hl)]
    simp at hd
    exact ⟨_, rfl, rfl, hd, rfl, rfl, rfl⟩

theorem drawZoneStep_cancel (E : Collaborators) (aKeepout : Bool) (aMode : ZONE_MODE)
    (t : DRAWING_TOOL) (l : ZoneLoop) (c : TOOL_EVENT) (hc : IsCancelInteractive c = true)
    (hl : ZoneInv l) :
    ∃ t1 l1 b, drawZoneStep E aKeepout aMode t l c = some (t1, l1, b) ∧ sameDocument t t1
      ∧ l1.numPoints = 0 ∧ (0 < l.numPoints → l1.preview = [] ∧ l1.zone = none)
      ∧ (l.numPoints = 0 → b = true) := by
  obtain ⟨t1, l1, hm, hdoc, hinv, hnp, hz, hs, ho, hd⟩ := zoneModeCheck_inv E (t.Wait c) l c hl
  simp only [drawZoneStep, hm, hc, if_true]
  by_cases hpos : l1.numPoints > 0
  · simp only [hpos, if_true]
    obtain ⟨l2, hf, hp, hd2, hn2, hz2, hs2⟩ :=
      zoneFreeItems_after_clear { l1 with zone := none } hinv.2.2
    simp only [hf]
    refine ⟨_, _, _, rfl, sameDocument_trans (sameDocument_Wait t c) hdoc, rfl, fun _ => ⟨hp, hz2⟩,
      fun h => ?_⟩
    omega
  · simp only [hpos]
    refine ⟨_, _, _, rfl, sameDocument_trans (sameDocument_Wait t c) hdoc, by omega, fun h => ?_,
      fun _ => rfl⟩
    omega

theorem drawSegmentStep_goesOn (E : Collaborators) (aShape : STROKE_T) (t : DRAWING_TOOL)
    (l : SegmentLoop) (evt : TOOL_EVENT) (h : (drawSegmentStep E aShape t l evt).2.2 = false) :
    sameDocument t (drawSegmentStep E aShape t l evt).1
      ∧ (drawSegmentStep E aShape t l evt).2.1.aGraphicNull = l.aGraphicNull := by
  have hd := sameDocument_segmentModeCheck E aShape (t.Wait evt) l evt
  have hs : (segmentModeCheck E aShape (t.Wait evt) l evt).2.aGraphicNull = l.aGraphicNull := by
    unfold segmentModeCheck
    dsimp only
    split
    · split <;> rfl
    · rfl
  have hw := sameDocument_trans (sameDocument_Wait t evt) hd
  rcases hm : segmentModeCheck E aShape (t.Wait evt) l evt with ⟨t1, l1⟩
  rw [hm] at hw hs
  simp only at hw hs
  simp only [drawSegmentStep, hm] at h ⊢
  have hg := sameDocument_getDrawingLayer t1
  have hi := sameDocument_initSegment aShape t1 l1 evt.cursor evt.cursor
  have hin : (initSegment aShape t1 l1 evt.cursor evt.cursor).2.aGraphicNull = l1.aGraphicNull := rfl
  split_ifs at h ⊢
  · exact ⟨sameDocument_trans hw hg, hs⟩
  · exact ⟨hw, hs⟩
  · exact ⟨sameDocument_trans hw hi, hin.trans hs⟩
  · exact ⟨hw, hs⟩
  · exact ⟨hw, hs⟩
  · exact ⟨sameDocument_trans hw
      (sameDocument_trans (sameDocument_incLineWidth t1) (sameDocument_viewCall _ _)), hs⟩
  · exact ⟨sameDocument_trans hw
      (sameDocument_trans (sameDocument_decLineWidth t1) (sameDocument_viewCall _ _)), hs⟩
  · exact ⟨hw, hs⟩

theorem drawSegmentLoop_goesOn_append (E : Collaborators) (aShape : STROKE_T) (pre : List TOOL_EVENT) :
    ∀ (t : DRAWING_TOOL) (l : SegmentLoop) (evs : List TOOL_EVENT),
      segmentGoesOn E aShape t l pre = true →
      ∃ t1 l1, drawSegmentLoop E aShape t l (pre ++ evs) = drawSegmentLoop E aShape t1 l1 evs
        ∧ sameDocument t t1 ∧ l1.aGraphicNull = l.aGraphicNull := by
  induction pre with
  | nil => intro t l evs _; exact ⟨t, l, rfl, sameDocument_refl t, rfl⟩
  | cons e es ih =>
    intro t l evs h
    simp only [segmentGoesOn, Bool.and_eq_true, Bool.not_eq_true'] at h
    obtain ⟨h1, h2⟩ := h
    obtain ⟨hd, hn⟩ := drawSegmentStep_goesOn E aShape t l e h1
    obtain ⟨t1, l1, heq, hdoc, hnull⟩ := ih _ _ evs h2
    refine ⟨t1, l1, ?_, sameDocument_trans hd hdoc, hnull.trans hn⟩
    rw [← heq]
    rcases hstep : drawSegmentStep E aShape t l e with ⟨ta, la, b⟩
    rw [hstep] at h1
    simp only at h1
    subst h1
    simp only [List.cons_append, drawSegmentLoop, hstep]
    rfl

theorem drawSegmentLoop_cancel (E : Collaborators) (aShape : STROKE_T) (t : DRAWING_TOOL)
    (l : SegmentLoop) (c : TOOL_EVENT) (rest : List TOOL_EVENT) (hc : IsCancelInteractive c = true) :
    sameDocument t (drawSegmentLoop E aShape t l (c :: rest)).1
      ∧ (drawSegmentLoop E aShape t l (c :: rest)).2.1.aGraphicNull = true
      ∧ (drawSegmentLoop E aShape t l (c :: rest)).2.1.preview = []
      ∧ (drawSegmentLoop E aShape t l (c :: rest)).2.1.started = l.started
      ∧ (drawSegmentLoop E aShape t l (c :: rest)).2.2 = rest := by
  obtain ⟨h1, h2, h3, h4, h5⟩ := drawSegmentStep_cancel E aShape t l c hc
  rcases hstep : drawSegmentStep E aShape t l c with ⟨ta, la, b⟩
  rw [hstep] at h1 h2 h3 h4 h5
  simp only at h1 h2 h3 h4 h5
  subst h5
  simp only [drawSegmentLoop, hstep]
  exact ⟨h1, h2, h3, h4, trivial⟩

theorem drawSegment_eq (E : Collaborators) (aShape : STROKE_T) (t : DRAWING_TOOL)
    (aGraphic : DRAWSEGMENT) (sp : Option Point) (evs : List TOOL_EVENT) :
    drawSegment E aShape t aGraphic sp evs =
      { tool := (drawSegmentLoop E aShape (segmentEntry aShape t aGraphic sp).1
                  (segmentEntry aShape t aGraphic sp).2 evs).1.leaveLoop,
        aGraphic :=
          if (drawSegmentLoop E aShape (segmentEntry aShape t aGraphic sp).1
                (segmentEntry aShape t aGraphic sp).2 evs).2.1.aGraphicNull then none
          else some (drawSegmentLoop E aShape (segmentEntry aShape t aGraphic sp).1
                (segmentEntry aShape t aGraphic sp).2 evs).2.1.aGraphic,
        started := (drawSegmentLoop E aShape (segmentEntry aShape t aGraphic sp).1
                (segmentEntry aShape t aGraphic sp).2 evs).2.1.started,
        rest := (drawSegmentLoop E aShape (segmentEntry aShape t aGraphic sp).1
                (segmentEntry aShape t aGraphic sp).2 evs).2.2,
        preview := (drawSegmentLoop E aShape (segmentEntry aShape t aGraphic sp).1
                (segmentEntry aShape t aGraphic sp).2 evs).2.1.preview } := by
  cases sp <;> rfl

theorem sameDocument_segmentEntry (aShape : STROKE_T) (t : DRAWING_TOOL) (aGraphic : DRAWSEGMENT)
    (sp : Option Point) : sameDocument t (segmentEntry aShape t aGraphic sp).1 := by
  cases sp with
  | none => exact sameDocument_enterLoop t
  | some p => exact sameDocument_trans (sameDocument_enterLoop t) (sameDocument_initSegment _ _ _ _ _)

theorem DrawLineIter_cancel (E : Collaborators) (t : DRAWING_TOOL) (sp : Option Point)
    (pre : List TOOL_EVENT) (c : TOOL_EVENT) (rest : List TOOL_EVENT)
    (hc : IsCancelInteractive c = true)
    (hpre : segmentGoesOn E .S_SEGMENT
      (segmentEntry .S_SEGMENT t (DRAWSEGMENT.new t.m_editModules) sp).1
      (segmentEntry .S_SEGMENT t (DRAWSEGMENT.new t.m_editModules) sp).2 pre = true) :
    sameDocument t (DrawLineIter E t sp (pre ++ c :: rest)).2.1
      ∧ (DrawLineIter E t sp (pre ++ c :: rest)).2.2.2 = rest := by
  obtain ⟨t1, l1, heq, hdoc, _⟩ :=
    drawSegmentLoop_goesOn_append E .S_SEGMENT pre _ _ (c :: rest) hpre
  obtain ⟨h1, h2, _, _, h5⟩ := drawSegmentLoop_cancel E .S_SEGMENT t1 l1 c rest hc
  have hent := sameDocument_segmentEntry .S_SEGMENT t (DRAWSEGMENT.new t.m_editModules) sp
  have hall := sameDocument_trans hent (sameDocument_trans hdoc h1)
  rw [← heq] at h2 h5 hall
  simp only [DrawLineIter, drawSegment_eq, h2, h5, if_true]
  split
  · exact ⟨sameDocument_trans hall (sameDocument_leaveLoop _), rfl⟩
  · exact ⟨sameDocument_trans hall (sameDocument_leaveLoop _), rfl⟩

theorem sameDocument_drawArcStep (E : Collaborators) (t : DRAWING_TOOL) (l : ArcLoop)
    (evt : TOOL_EVENT) : sameDocument t (drawArcStep E t l evt).1 := by
  have hw := sameDocument_Wait t evt
  have hg := sameDocument_getDrawingLayer (t.Wait evt)
  simp only [drawArcStep]
  split_ifs
  all_goals first
    | exact hw
    | exact sameDocument_trans hw hg

theorem drawArcLoop_goesOn_append (E : Collaborators) (pre : List TOOL_EVENT) :
    ∀ (t : DRAWING_TOOL) (l : ArcLoop) (evs : List TOOL_EVENT),
      arcGoesOn E t l pre = true →
      ∃ t1 l1, drawArcLoop E t l (pre ++ evs) = drawArcLoop E t1 l1 evs ∧ sameDocument t t1 := by
  induction pre with
  | nil => intro t l evs _; exact ⟨t, l, rfl, sameDocument_refl t⟩
  | cons e es ih =>
    intro t l evs h
    simp only [arcGoesOn, Bool.and_eq_true, Bool.not_eq_true'] at h
    obtain ⟨h1, h2⟩ := h
    have hd := sameDocument_drawArcStep E t l e
    obtain ⟨t1, l1, heq, hdoc⟩ := ih _ _ evs h2
    refine ⟨t1, l1, ?_, sameDocument_trans hd hdoc⟩
    rw [← heq]
    rcases hstep : drawArcStep E t l e with ⟨ta, la, b⟩
    rw [hstep] at h1
    simp only at h1
    subst h1
    simp only [List.cons_append, drawArcLoop, hstep]
    rfl

theorem DrawArcIter_cancel (E : Collaborators) (t : DRAWING_TOOL) (pre : List TOOL_EVENT)
    (c : TOOL_EVENT) (rest : List TOOL_EVENT) (hc : IsCancelInteractive c = true)
    (hpre : arcGoesOn E t.enterLoop (arcEntry (DRAWSEGMENT.new t.m_editModules)) pre = true) :
    sameDocument t (DrawArcIter E t (pre ++ c :: rest)).2.1
      ∧ (DrawArcIter E t (pre ++ c :: rest)).2.2 = rest := by
  obtain ⟨t1, l1, heq, hdoc⟩ := drawArcLoop_goesOn_append E pre _ _ (c :: rest) hpre
  obtain ⟨h1, h2, _, _, h5⟩ := drawArcStep_cancel E t1 l1 c hc
  have hloop : drawArcLoop E t1 l1 (c :: rest)
      = ((drawArcStep E t1 l1 c).1, (drawArcStep E t1 l1 c).2.1, rest) := by
    rcases hstep : drawArcStep E t1 l1 c with ⟨ta, la, b⟩
    rw [hstep] at h5
    simp only at h5
    subst h5
    simp only [drawArcLoop, hstep]
  have hall := sameDocument_trans (sameDocument_enterLoop t) (sameDocument_trans hdoc h1)
  have hrun : drawArcLoop E t.enterLoop (arcEntry (DRAWSEGMENT.new t.m_editModules))
      (pre ++ c :: rest) = ((drawArcStep E t1 l1 c).1, (drawArcStep E t1 l1 c).2.1, rest) :=
    heq.trans hloop
  have hdef : drawArc E t (DRAWSEGMENT.new t.m_editModules) (pre ++ c :: rest)
      = { tool := (drawArcStep E t1 l1 c).1.leaveLoop, aGraphic := none,
          started := decide ((drawArcStep E t1 l1 c).2.1.step > ARC_SET_ORIGIN), rest := rest,
          preview := (drawArcStep E t1 l1 c).2.1.preview } := by
    unfold drawArc
    simp only
    rw [show ({ aGraphic := DRAWSEGMENT.new t.m_editModules, aGraphicNull := false,
                helperLine := ((DRAWSEGMENT.new false).SetLayer .Dwgs_User).SetWidth 1,
                preview := [], step := ARC_SET_ORIGIN, clockwise := true, startAngle := 0 } : ArcLoop)
          = arcEntry (DRAWSEGMENT.new t.m_editModules) from rfl, hrun]
    simp only [h2, if_true]
  simp only [DrawArcIter, hdef]
  split
  · exact ⟨sameDocument_trans hall (sameDocument_leaveLoop _), rfl⟩
  · exact ⟨sameDocument_trans hall (sameDocument_leaveLoop _), rfl⟩

/-! ## Clicks in `drawSegment` -/

theorem segmentModeCheck_started (E : Collaborators) (aShape : STROKE_T) (t : DRAWING_TOOL)
    (l : SegmentLoop) (evt : TOOL_EVENT) :
    (segmentModeCheck E aShape t l evt).2.started = l.started
      ∧ (segmentModeCheck E aShape t l evt).2.aGraphicNull = l.aGraphicNull
      ∧ (segmentModeCheck E aShape t l evt).2.aGraphic.m_Start = l.aGraphic.m_Start
      ∧ (segmentModeCheck E aShape t l evt).1.m_editModules = t.m_editModules
      ∧ (segmentModeCheck E aShape t l evt).1.m_lineWidth = t.m_lineWidth := by
  unfold segmentModeCheck
  dsimp only
  split
  · split
    · refine ⟨rfl, rfl, ?_, rfl, rfl⟩
      simp only [make45DegLine, apply45Trace]
      split <;> rfl
    · exact ⟨rfl, rfl, rfl, rfl, rfl⟩
  · exact ⟨rfl, rfl, rfl, rfl, rfl⟩

theorem click_kind {evt : TOOL_EVENT} (h : (evt.IsClickLeft || evt.IsDblClickLeft) = true) :
    IsCancelInteractive evt = false ∧ evt.IsAction .layerChanged = false
      ∧ evt.IsClickRight = false := by
  simp only [TOOL_EVENT.IsClickLeft, TOOL_EVENT.IsDblClickLeft, Bool.or_eq_true, beq_iff_eq] at h
  rcases h with h | h <;>
    simp [IsCancelInteractive, TOOL_EVENT.IsAction, TOOL_EVENT.IsClickRight, h]

theorem drawSegmentStep_accepts (E : Collaborators) (aShape : STROKE_T) (t : DRAWING_TOOL)
    (l : SegmentLoop) (evt : TOOL_EVENT) (h : segmentAccepts E aShape t l evt = true) :
    drawSegmentStep E aShape t l evt =
      ((segmentModeCheck E aShape (t.Wait evt) l evt).1,
        { (segmentModeCheck E aShape (t.Wait evt) l evt).2 with preview := [] }, true) := by
  simp only [segmentAccepts, Bool.and_eq_true, Bool.not_eq_true'] at h
  obtain ⟨⟨hk, hs⟩, hf⟩ := h
  obtain ⟨h1, h2, h3⟩ := click_kind hk
  have hst := (segmentModeCheck_started E aShape (t.Wait evt) l evt).1
  simp only [finishTest] at hf
  rcases hm : segmentModeCheck E aShape (t.Wait evt) l evt with ⟨t1, l1⟩
  rw [hm] at hst hf
  simp only at hst hf
  simp only [drawSegmentStep, hm, h1, h2, h3, hk, hst, hs, hf, Bool.false_eq_true, if_false,
    if_true, Bool.not_true, SELECTION.Clear]

theorem drawSegmentStep_finishes (E : Collaborators) (aShape : STROKE_T) (t : DRAWING_TOOL)
    (l : SegmentLoop) (evt : TOOL_EVENT) (h : segmentFinishes E aShape t l evt = true) :
    drawSegmentStep E aShape t l evt =
      (if (segmentModeCheck E aShape (t.Wait evt) l evt).2.direction45 then
          (((segmentModeCheck E aShape (t.Wait evt) l evt).1.commitAdd
              (.segment (finishingSegment (segmentModeCheck E aShape (t.Wait evt) l evt).1
                (segmentModeCheck E aShape (t.Wait evt) l evt).2))).commitPush "Draw a line")
        else (segmentModeCheck E aShape (t.Wait evt) l evt).1,
        { (segmentModeCheck E aShape (t.Wait evt) l evt).2 with
            aGraphicNull := true, preview := [] }, true) := by
  simp only [segmentFinishes, Bool.and_eq_true] at h
  obtain ⟨⟨hk, hs⟩, hf⟩ := h
  obtain ⟨h1, h2, h3⟩ := click_kind hk
  have hst := (segmentModeCheck_started E aShape (t.Wait evt) l evt).1
  simp only [finishTest] at hf
  rcases hm : segmentModeCheck E aShape (t.Wait evt) l evt with ⟨t1, l1⟩
  rw [hm] at hst hf
  simp only at hst hf
  simp only [drawSegmentStep, hm, h1, h2, h3, hk, hst, hs, hf, Bool.false_eq_true, if_false,
    if_true, Bool.not_true, SELECTION.Clear, finishingSegment]

theorem drawSegmentLoop_append (E : Collaborators) (aShape : STROKE_T) (pre : List TOOL_EVENT) :
    ∀ (t : DRAWING_TOOL) (l : SegmentLoop) (evs : List TOOL_EVENT),
      segmentGoesOn E aShape t l pre = true →
      drawSegmentLoop E aShape t l (pre ++ evs)
          = drawSegmentLoop E aShape (segmentAfter E aShape t l pre).1
              (segmentAfter E aShape t l pre).2 evs
        ∧ sameDocument t (segmentAfter E aShape t l pre).1
        ∧ (segmentAfter E aShape t l pre).2.aGraphicNull = l.aGraphicNull := by
  induction pre with
  | nil => intro t l evs _; exact ⟨rfl, sameDocument_refl t, rfl⟩
  | cons e es ih =>
    intro t l evs h
    simp only [segmentGoesOn, Bool.and_eq_true, Bool.not_eq_true'] at h
    obtain ⟨h1, h2⟩ := h
    obtain ⟨hd, hn⟩ := drawSegmentStep_goesOn E aShape t l e h1
    obtain ⟨heq, hdoc, hnull⟩ := ih _ _ evs h2
    refine ⟨?_, sameDocument_trans hd hdoc, hnull.trans hn⟩
    simp only [segmentAfter]
    rw [← heq]
    rcases hstep : drawSegmentStep E aShape t l e with ⟨ta, la, b⟩
    rw [hstep] at h1
    simp only at h1
    subst h1
    simp only [List.cons_append, drawSegmentLoop, hstep]
    rfl

theorem addedItems_append_Add (p : List COMMIT_CALL) (i : BOARD_ITEM) :
    DRAWING_TOOL.addedItems (p ++ [COMMIT_CALL.Add i]) = DRAWING_TOOL.addedItems p ++ [i] := by
  induction p with
  | nil => rfl
  | cons a as ih => cases a <;> simp [DRAWING_TOOL.addedItems, ih]

theorem addedItems_append_Modify (p : List COMMIT_CALL) (i : BOARD_ITEM) :
    DRAWING_TOOL.addedItems (p ++ [COMMIT_CALL.Modify i]) = DRAWING_TOOL.addedItems p := by
  induction p with
  | nil => rfl
  | cons a as ih => cases a <;> simp [DRAWING_TOOL.addedItems, ih]

/-- One `Add` followed by one `Push`: what the commit, the board and the undo list become. -/
theorem commitAdd_commitPush (t : DRAWING_TOOL) (i : BOARD_ITEM) (label : String) :
    ((t.commitAdd i).commitPush label).commitCalls = t.commitCalls ++ [.Add i, .Push label]
      ∧ ((t.commitAdd i).commitPush label).board
          = t.board ++ DRAWING_TOOL.addedItems t.pending ++ [i]
      ∧ ((t.commitAdd i).commitPush label).undo = t.undo ++ [(label, t.pending ++ [.Add i])]
      ∧ ((t.commitAdd i).commitPush label).pending = [] := by
  refine ⟨?_, ?_, ?_, ?_⟩
  · simp [DRAWING_TOOL.commitAdd, DRAWING_TOOL.commitPush]
  · simp [DRAWING_TOOL.commitAdd, DRAWING_TOOL.commitPush, addedItems_append_Add]
  · simp [DRAWING_TOOL.commitAdd, DRAWING_TOOL.commitPush]
  · simp [DRAWING_TOOL.commitAdd, DRAWING_TOOL.commitPush]

theorem segmentEntry_notNull (aShape : STROKE_T) (t : DRAWING_TOOL) (aGraphic : DRAWSEGMENT)
    (sp : Option Point) : (segmentEntry aShape t aGraphic sp).2.aGraphicNull = false := by
  cases sp <;> rfl

theorem DrawLineIter_accepts (E : Collaborators) (t : DRAWING_TOOL) (sp : Option Point)
    (pre : List TOOL_EVENT) (e : TOOL_EVENT) (rest : List TOOL_EVENT)
    (hpre : segmentGoesOn E .S_SEGMENT
      (segmentEntry .S_SEGMENT t (DRAWSEGMENT.new t.m_editModules) sp).1
      (segmentEntry .S_SEGMENT t (DRAWSEGMENT.new t.m_editModules) sp).2 pre = true)
    (hacc : segmentAccepts E .S_SEGMENT
      (segmentAfter E .S_SEGMENT (segmentEntry .S_SEGMENT t (DRAWSEGMENT.new t.m_editModules) sp).1
        (segmentEntry .S_SEGMENT t (DRAWSEGMENT.new t.m_editModules) sp).2 pre).1
      (segmentAfter E .S_SEGMENT (segmentEntry .S_SEGMENT t (DRAWSEGMENT.new t.m_editModules) sp).1
        (segmentEntry .S_SEGMENT t (DRAWSEGMENT.new t.m_editModules) sp).2 pre).2 e = true) :
    ∃ line t1,
      line = (segmentModeCheck E .S_SEGMENT
        ((segmentAfter E .S_SEGMENT
          (segmentEntry .S_SEGMENT t (DRAWSEGMENT.new t.m_editModules) sp).1
          (segmentEntry .S_SEGMENT t (DRAWSEGMENT.new t.m_editModules) sp).2 pre).1.Wait e)
        (segmentAfter E .S_SEGMENT
          (segmentEntry .S_SEGMENT t (DRAWSEGMENT.new t.m_editModules) sp).1
          (segmentEntry .S_SEGMENT t (DRAWSEGMENT.new t.m_editModules) sp).2 pre).2 e).2.aGraphic
      ∧ DrawLineIter E t sp (pre ++ e :: rest) = (true, t1, some line.GetEnd, rest)
      ∧ t1.commitCalls
          = t.commitCalls ++ [.Add (.segment line), .Push "Draw a line segment"]
      ∧ t1.board = t.board ++ DRAWING_TOOL.addedItems t.pending ++ [.segment line]
      ∧ t1.undo = t.undo ++ [("Draw a line segment", t.pending ++ [.Add (.segment line)])]
      ∧ t1.pending = [] := by
  obtain ⟨heq, hdoc, hnull⟩ := drawSegmentLoop_append E .S_SEGMENT pre _ _ (e :: rest) hpre
  have hent := sameDocument_segmentEntry .S_SEGMENT t (DRAWSEGMENT.new t.m_editModules) sp
  have hentn := segmentEntry_notNull .S_SEGMENT t (DRAWSEGMENT.new t.m_editModules) sp
  rw [hentn] at hnull
  generalize segmentAfter E .S_SEGMENT
      (segmentEntry .S_SEGMENT t (DRAWSEGMENT.new t.m_editModules) sp).1
      (segmentEntry .S_SEGMENT t (DRAWSEGMENT.new t.m_editModules) sp).2 pre = s at *
  have hstep := drawSegmentStep_accepts E .S_SEGMENT s.1 s.2 e hacc
  have hmd := sameDocument_segmentModeCheck E .S_SEGMENT (s.1.Wait e) s.2 e
  obtain ⟨hms, hmn, _⟩ := segmentModeCheck_started E .S_SEGMENT (s.1.Wait e) s.2 e
  have hstarted : s.2.started = true := by
    simp only [segmentAccepts, Bool.and_eq_true] at hacc
    exact hacc.1.2
  rw [hnull] at hmn
  rw [hstarted] at hms
  generalize segmentModeCheck E .S_SEGMENT (s.1.Wait e) s.2 e = mc at *
  have hloop : drawSegmentLoop E .S_SEGMENT s.1 s.2 (e :: rest)
      = (mc.1, { mc.2 with preview := [] }, rest) := by
    simp only [drawSegmentLoop, hstep]
  rw [hloop] at heq
  have hall : sameDocument t mc.1 :=
    sameDocument_trans hent (sameDocument_trans hdoc (sameDocument_trans (sameDocument_Wait _ _) hmd))
  obtain ⟨hc, hp, hu, hb⟩ := hall
  obtain ⟨k1, k2, k3, k4⟩ :=
    commitAdd_commitPush mc.1.leaveLoop (.segment mc.2.aGraphic) "Draw a line segment"
  have hl : sameDocument mc.1 mc.1.leaveLoop := sameDocument_leaveLoop mc.1
  obtain ⟨hlc, hlp, hlu, hlb⟩ := hl
  refine ⟨mc.2.aGraphic, (mc.1.leaveLoop.commitAdd (.segment mc.2.aGraphic)).commitPush
    "Draw a line segment", rfl, ?_, ?_, ?_, ?_, k4⟩
  · simp only [DrawLineIter, drawSegment_eq, heq, hms, hmn, if_true, Bool.false_eq_true, if_false]
  · rw [k1, hlc, hc]
  · rw [k2, hlb, hlp, hb, hp]
  · rw [k3, hlu, hlp, hu, hp]

/-! ## Closing a contour in `drawZone` -/

theorem foldl_AppendCorner (ps : List Point) :
    ∀ z : ZONE_CONTAINER,
      ps.foldl ZONE_CONTAINER.AppendCorner z
        = { z with corners := z.corners ++ ps.map fun p => ⟨p, false⟩ } := by
  induction ps with
  | nil => intro z; simp
  | cons p ps ih =>
    intro z
    simp only [List.foldl_cons, ih, ZONE_CONTAINER.AppendCorner, List.map_cons, List.append_assoc,
      List.singleton_append]

theorem zoneAt_lt {t : DRAWING_TOOL} {i : Nat} {z : ZONE_CONTAINER} (h : zoneAt t i = some z) :
    i < t.board.length ∧ t.board[i]? = some (.zone z) := by
  unfold zoneAt at h
  split at h
  · next z1 hz =>
    simp only [Option.some.injEq] at h
    subst h
    exact ⟨(List.getElem?_eq_some_iff.mp hz).1, hz⟩
  · cases h

theorem zoneClose_few (E : Collaborators) (aKeepout : Bool) (aMode : ZONE_MODE) (t : DRAWING_TOOL)
    (l : ZoneLoop) (c : Point) (hnp : l.numPoints ≤ 2)
    (hl : PREVIEW_ITEM.line45 ∈ l.preview ↔ l.direction45 = true) :
    ∃ t1 l1, zoneClose E aKeepout aMode t l c = some (t1, l1) ∧ sameDocument t t1
      ∧ l1.numPoints = 0 ∧ l1.preview = [] ∧ l1.zone = none ∧ l1.direction45 = false := by
  obtain ⟨l2, hf, hp, hd2, hn2, hz2, _⟩ :=
    zoneFreeItems_after_clear { l with zone := none, numPoints := 0 } hl
  have hn : ¬ (l.numPoints > 2) := by omega
  simp only [zoneClose, hn, if_false, hf]
  exact ⟨_, _, rfl, ⟨rfl, rfl, rfl, rfl⟩, hn2, hp, hz2, hd2⟩

theorem zoneClose_add (E : Collaborators) (aKeepout : Bool) (aMode : ZONE_MODE) (t : DRAWING_TOOL)
    (l : ZoneLoop) (c : Point) (z : ZONE_CONTAINER) (hnp : 2 < l.numPoints)
    (hz : l.zone = some z) (hm : aMode ≠ .CUTOUT)
    (hl : PREVIEW_ITEM.line45 ∈ l.preview ↔ l.direction45 = true) :
    ∃ t1 l1, zoneClose E aKeepout aMode t l c = some (t1, l1)
      ∧ t1.commitCalls
          = t.commitCalls ++ [.Add (.zone (finishZone E aKeepout l c z)), .Push "Draw a zone"]
      ∧ t1.board = t.board ++ DRAWING_TOOL.addedItems t.pending ++ [.zone (finishZone E aKeepout l c z)]
      ∧ t1.pending = []
      ∧ l1.numPoints = 0 ∧ l1.preview = [] ∧ l1.zone = none ∧ l1.direction45 = false := by
  obtain ⟨l2, hf, hp, hd2, hn2, hz2, _⟩ :=
    zoneFreeItems_after_clear { l with zone := none, numPoints := 0 } hl
  obtain ⟨k1, k2, _, k4⟩ :=
    commitAdd_commitPush t (.zone (finishZone E aKeepout l c z)) "Draw a zone"
  have hn : l.numPoints > 2 := hnp
  simp only [zoneClose, hn, if_true, commitZone, hz, hm, if_false, hf]
  exact ⟨_, _, rfl, k1, k2, k4, hn2, hp, hz2, hd2⟩

theorem performZoneCutout_eq (t : DRAWING_TOOL) (idx : Nat) (Z aCutout : ZONE_CONTAINER)
    (hZ : zoneAt t idx = some Z) :
    ∃ t1, performZoneCutout t idx aCutout = some t1
      ∧ t1.board = t.board.set idx (.zone { Z with corners := cutoutCorners Z aCutout })
      ∧ t1.zoneFillRuns = t.zoneFillRuns ++ (if Z.IsFilled then [idx] else [])
      ∧ t1.areaModified = t.areaModified ++ [idx]
      ∧ t1.commitCalls = t.commitCalls ∧ t1.pending = t.pending ∧ t1.undo = t.undo := by
  simp only [performZoneCutout, hZ, foldl_AppendCorner, ZONE_CONTAINER.CloseLastContour,
    ZONE_CONTAINER.IsFilled, cutoutCorners]
  by_cases hfill : Z.m_IsFilled = true
  · simp only [hfill, if_true]
    exact ⟨_, rfl, rfl, rfl, rfl, rfl, rfl, rfl⟩
  · simp only [hfill, if_false]
    exact ⟨_, rfl, rfl, by simp, rfl, rfl, rfl, rfl⟩

theorem zoneClose_cutout (E : Collaborators) (aKeepout : Bool) (t : DRAWING_TOOL) (l : ZoneLoop)
    (c : Point) (z Z : ZONE_CONTAINER) (idx : Nat) (hnp : 2 < l.numPoints) (hz : l.zone = some z)
    (hs : l.sourceZone = some idx) (hZ : zoneAt t idx = some Z)
    (hl : PREVIEW_ITEM.line45 ∈ l.preview ↔ l.direction45 = true) :
    ∃ t1 l1, zoneClose E aKeepout .CUTOUT t l c = some (t1, l1)
      ∧ t1.commitCalls = t.commitCalls ++ [.Modify (.zone Z), .Push "Add a zone cutout"]
      ∧ t1.board
          = t.board.set idx
              (.zone { Z with corners := cutoutCorners Z (finishZone E aKeepout l c z) })
            ++ DRAWING_TOOL.addedItems t.pending
      ∧ t1.zoneFillRuns = t.zoneFillRuns ++ (if Z.IsFilled then [idx] else [])
      ∧ t1.pending = []
      ∧ l1.numPoints = 0 ∧ l1.preview = [] ∧ l1.zone = none ∧ l1.direction45 = false
      ∧ l1.sourceZone = some idx := by
  obtain ⟨l2, hf, hp, hd2, hn2, hz2, hs2⟩ :=
    zoneFreeItems_after_clear { l with zone := none, numPoints := 0 } hl
  have hZ1 : zoneAt (t.commitModify (.zone Z)) idx = some Z := hZ
  obtain ⟨t2, hperf, hb, hfill, _, hcc, hpp, _⟩ :=
    performZoneCutout_eq (t.commitModify (.zone Z)) idx Z (finishZone E aKeepout l c z) hZ1
  have hn : l.numPoints > 2 := hnp
  have hcz : commitZone E aKeepout .CUTOUT t l c = some (t2.commitPush "Add a zone cutout") := by
    simp only [commitZone, hz, hs, hZ, hperf, if_true]
  unfold zoneClose
  rw [if_pos hn, hcz]
  simp only [hf]
  refine ⟨_, _, rfl, ?_, ?_, hfill, rfl, hn2, hp, hz2, hd2, hs2.trans hs⟩
  · show t2.commitCalls ++ [COMMIT_CALL.Push "Add a zone cutout"] = _
    rw [hcc]
    simp [DRAWING_TOOL.commitModify]
  · show t2.board ++ DRAWING_TOOL.addedItems t2.pending = _
    rw [hb, hpp]
    show _ ++ DRAWING_TOOL.addedItems (t.pending ++ [COMMIT_CALL.Modify (.zone Z)]) = _
    rw [addedItems_append_Modify]
    rfl

theorem drawZoneStep_closes (E : Collaborators) (aKeepout : Bool) (aMode : ZONE_MODE)
    (t : DRAWING_TOOL) (l : ZoneLoop) (evt : TOOL_EVENT) (hl : ZoneInv l)
    (hcl : zoneCloses l evt = true) :
    ∃ t1 l1, zoneModeCheck E (t.Wait evt) l evt = some (t1, l1) ∧ sameDocument t t1 ∧ ZoneInv l1
      ∧ l1.numPoints = l.numPoints ∧ l1.zone = l.zone ∧ l1.sourceZone = l.sourceZone
      ∧ t1.zoneFillRuns = t.zoneFillRuns
      ∧ drawZoneStep E aKeepout aMode t l evt
          = (zoneClose E aKeepout aMode t1 l1 evt.cursor).map fun r => (r.1, r.2, false) := by
  obtain ⟨t1, l1, hm, hdoc, hinv, hnp, hz, hs, ho, _⟩ := zoneModeCheck_inv E (t.Wait evt) l evt hl
  have hfill : t1.zoneFillRuns = t.zoneFillRuns := by
    unfold zoneModeCheck at hm
    split at hm
    · split at hm
      · cases hm
      · split at hm <;> (simp only [Option.some.injEq, Prod.mk.injEq] at hm; rw [← hm.1]; rfl)
    · simp only [Option.some.injEq, Prod.mk.injEq] at hm; rw [← hm.1]; rfl
  simp only [zoneCloses, Bool.and_eq_true] at hcl
  obtain ⟨hk, hc2⟩ := hcl
  obtain ⟨h1, _, h3⟩ := click_kind hk
  rw [← hnp, ← ho] at hc2
  refine ⟨t1, l1, hm, sameDocument_trans (sameDocument_Wait t evt) hdoc, hinv, hnp, hz, hs, hfill, ?_⟩
  simp only [drawZoneStep, hm, h1, h3, hk, hc2, Bool.false_eq_true, if_false, if_true]
  cases zoneClose E aKeepout aMode t1 l1 evt.cursor with
  | none => rfl
  | some r => rfl

/-! ## Segments handed back by `drawSegment` -/

theorem drawSegmentStep_notNull (E : Collaborators) (aShape : STROKE_T) (t : DRAWING_TOOL)
    (l : SegmentLoop) (evt : TOOL_EVENT)
    (h : (drawSegmentStep E aShape t l evt).2.1.aGraphicNull = false) :
    sameDocument t (drawSegmentStep E aShape t l evt).1 ∧ l.aGraphicNull = false
      ∧ (l.started = true → (drawSegmentStep E aShape t l evt).2.1.started = true
          ∧ (drawSegmentStep E aShape t l evt).2.1.aGraphic.m_Start = l.aGraphic.m_Start) := by
  have hd := sameDocument_segmentModeCheck E aShape (t.Wait evt) l evt
  obtain ⟨hst, hs, hstart, _, _⟩ := segmentModeCheck_started E aShape (t.Wait evt) l evt
  have hw := sameDocument_trans (sameDocument_Wait t evt) hd
  rcases hm : segmentModeCheck E aShape (t.Wait evt) l evt with ⟨t1, l1⟩
  rw [hm] at hw hs hst hstart
  simp only at hw hs hst hstart
  simp only [drawSegmentStep, hm] at h ⊢
  have hg := sameDocument_getDrawingLayer t1
  have hi := sameDocument_initSegment aShape t1 l1 evt.cursor evt.cursor
  have h45 : (make45DegLine E t1 l1.aGraphic l1.line45).1.m_Start = l1.aGraphic.m_Start := by
    simp only [make45DegLine, apply45Trace]
    split <;> rfl
  have hnull : ∀ b : Bool, l1.aGraphicNull = b → l.aGraphicNull = b := fun b hb => hs ▸ hb
  split_ifs at h ⊢ with c1 c2 c3 c4 c5 c6
  · exact ⟨sameDocument_trans hw hg, hnull _ h, fun hl => ⟨hst.trans hl, hstart⟩⟩
  · exact ⟨hw, hnull _ h, fun hl => ⟨hst.trans hl, hstart⟩⟩
  · refine ⟨sameDocument_trans hw hi, hnull _ h, fun hl => ?_⟩
    rw [hst, hl] at c5
    exact absurd c5 (by simp)
  · exact ⟨hw, hnull _ h, fun hl => ⟨hst.trans hl, hstart⟩⟩
  · exact ⟨hw, hnull _ h, fun hl => ⟨hst.trans hl, h45.trans hstart⟩⟩
  · exact ⟨hw, hnull _ h, fun hl => ⟨hst.trans hl, hstart⟩⟩
  · exact ⟨hw, hnull _ h, fun hl => ⟨hst.trans hl, hstart⟩⟩
  · exact ⟨hw, hnull _ h, fun hl => ⟨hst.trans hl, hstart⟩⟩
  · exact ⟨hw, hnull _ h, fun hl => ⟨hst.trans hl, hstart⟩⟩

theorem drawSegmentLoop_notNull (E : Collaborators) (aShape : STROKE_T) (evs : List TOOL_EVENT) :
    ∀ (t : DRAWING_TOOL) (l : SegmentLoop),
      (drawSegmentLoop E aShape t l evs).2.1.aGraphicNull = false →
      sameDocument t (drawSegmentLoop E aShape t l evs).1 ∧ l.aGraphicNull = false
        ∧ (l.started = true → (drawSegmentLoop E aShape t l evs).2.1.started = true
            ∧ (drawSegmentLoop E aShape t l evs).2.1.aGraphic.m_Start = l.aGraphic.m_Start) := by
  induction evs with
  | nil => intro t l h; exact ⟨sameDocument_refl t, h, fun hl => ⟨hl, rfl⟩⟩
  | cons e es ih =>
    intro t l h
    have hstep := drawSegmentStep_notNull E aShape t l e
    rcases hs : drawSegmentStep E aShape t l e with ⟨ta, la, b⟩
    rw [hs] at hstep
    simp only at hstep
    cases b with
    | true =>
      simp only [drawSegmentLoop, hs] at h ⊢
      exact hstep h
    | false =>
      simp only [drawSegmentLoop, hs] at h ⊢
      obtain ⟨i1, i2, i3⟩ := ih ta la h
      obtain ⟨s1, s2, s3⟩ := hstep i2
      refine ⟨sameDocument_trans s1 i1, s2, fun hl => ?_⟩
      obtain ⟨s4, s5⟩ := s3 hl
      obtain ⟨i4, i5⟩ := i3 s4
      exact ⟨i4, i5.trans s5⟩

theorem segmentEntry_start (aShape : STROKE_T) (t : DRAWING_TOOL) (aGraphic : DRAWSEGMENT)
    (p : Point) :
    (segmentEntry aShape t aGraphic (some p)).2.started = true
      ∧ (segmentEntry aShape t aGraphic (some p)).2.aGraphic.m_Start = p := by
  exact ⟨rfl, rfl⟩

/-- An iteration of `DrawLine` that hands on a starting point has committed exactly one
segment, which ends at that point and, when the iteration was given a starting point,
starts there. -/
theorem DrawLineIter_some (E : Collaborators) (t : DRAWING_TOOL) (sp : Option Point)
    (evs : List TOOL_EVENT) (t1 : DRAWING_TOOL) (p : Point) (rest : List TOOL_EVENT)
    (h : DrawLineIter E t sp evs = (true, t1, some p, rest)) :
    ∃ line : DRAWSEGMENT, line.m_End = p
      ∧ t1.commitCalls = t.commitCalls ++ [.Add (.segment line), .Push "Draw a line segment"]
      ∧ t1.board = t.board ++ DRAWING_TOOL.addedItems t.pending ++ [.segment line]
      ∧ (∀ q, sp = some q → line.m_Start = q) := by
  simp only [DrawLineIter, drawSegment_eq] at h
  have hent := sameDocument_segmentEntry .S_SEGMENT t (DRAWSEGMENT.new t.m_editModules) sp
  generalize hr : drawSegmentLoop E .S_SEGMENT
      (segmentEntry .S_SEGMENT t (DRAWSEGMENT.new t.m_editModules) sp).1
      (segmentEntry .S_SEGMENT t (DRAWSEGMENT.new t.m_editModules) sp).2 evs = r at h
  have hloop := drawSegmentLoop_notNull E .S_SEGMENT evs
      (segmentEntry .S_SEGMENT t (DRAWSEGMENT.new t.m_editModules) sp).1
      (segmentEntry .S_SEGMENT t (DRAWSEGMENT.new t.m_editModules) sp).2
  rw [hr] at hloop
  by_cases hst : r.2.1.started = true
  · by_cases hn : r.2.1.aGraphicNull = true
    · simp [hst, hn] at h
    · simp only [Bool.not_eq_true] at hn
      simp only [hst, hn, if_true, Bool.false_eq_true, if_false, Prod.mk.injEq, true_and,
        Option.some.injEq] at h
      obtain ⟨ht, hp, _⟩ := h
      obtain ⟨hdoc, _, hstart⟩ := hloop hn
      obtain ⟨k1, k2, _, _⟩ :=
        commitAdd_commitPush r.1.leaveLoop (.segment r.2.1.aGraphic) "Draw a line segment"
      obtain ⟨hc, hpd, _, hb⟩ :=
        sameDocument_trans hent (sameDocument_trans hdoc (sameDocument_leaveLoop r.1))
      refine ⟨r.2.1.aGraphic, hp, ?_, ?_, ?_⟩
      · rw [← ht, k1, hc]
      · rw [← ht, k2, hb, hpd]
      · intro q hq
        subst hq
        obtain ⟨e1, e2⟩ := segmentEntry_start .S_SEGMENT t (DRAWSEGMENT.new t.m_editModules) q
        exact ((hstart e1).2).trans e2
  · simp [hst] at h

/-! ## Width commands -/

theorem decWidth_kind {evt : TOOL_EVENT} (h : evt.kind = .decWidth) :
    IsCancelInteractive evt = false ∧ evt.IsAction .layerChanged = false
      ∧ evt.IsClickRight = false ∧ evt.IsClickLeft = false ∧ evt.IsDblClickLeft = false
      ∧ evt.IsMotion = false ∧ evt.IsAction .incWidth = false ∧ evt.IsAction .decWidth = true
      ∧ evt.IsAction .arcPosture = false := by
  simp [IsCancelInteractive, TOOL_EVENT.IsAction, TOOL_EVENT.IsClickRight, TOOL_EVENT.IsClickLeft,
    TOOL_EVENT.IsDblClickLeft, TOOL_EVENT.IsMotion, h]

theorem toInt32_of_small (x : Int) (h0 : 0 ≤ x) (h1 : x < 2 ^ 31) : toInt32 x = x := by
  unfold toInt32
  have hx : x % 2 ^ 32 = x := Int.emod_eq_of_lt h0 (by omega)
  rw [hx, if_pos h1]

theorem drawSegmentStep_decWidth (E : Collaborators) (aShape : STROKE_T) (t : DRAWING_TOOL)
    (l : SegmentLoop) (evt : TOOL_EVENT) (hk : evt.kind = .decWidth) :
    (drawSegmentStep E aShape t l evt).1.m_lineWidth = decrementedWidth t.m_lineWidth
      ∧ (WIDTH_STEP < t.m_lineWidth →
          (drawSegmentStep E aShape t l evt).2.1.aGraphic.m_Width
            = toInt32 (t.m_lineWidth - WIDTH_STEP)) := by
  obtain ⟨h1, h2, h3, h4, h5, h6, h7, h8, h9⟩ := decWidth_kind hk
  obtain ⟨_, _, _, _, hw⟩ := segmentModeCheck_started E aShape (t.Wait evt) l evt
  rcases hm : segmentModeCheck E aShape (t.Wait evt) l evt with ⟨t1, l1⟩
  rw [hm] at hw
  simp only at hw
  have hw1 : t1.m_lineWidth = t.m_lineWidth := hw
  simp only [drawSegmentStep, hm, h1, h2, h3, h4, h5, h6, h7, h8, Bool.false_eq_true, if_false,
    Bool.or_self, Bool.true_and, decide_eq_true_eq, decrementedWidth]
  by_cases hgt : WIDTH_STEP < t.m_lineWidth
  · have hgt1 : t1.m_lineWidth > WIDTH_STEP := by rw [hw1]; exact hgt
    rw [if_pos hgt1, if_pos hgt]
    exact ⟨by rw [← hw1]; rfl, fun _ => by rw [← hw1]; rfl⟩
  · have hgt1 : ¬ t1.m_lineWidth > WIDTH_STEP := by rw [hw1]; exact hgt
    rw [if_neg hgt1, if_neg hgt]
    exact ⟨hw1, fun h => absurd h hgt⟩

theorem drawArcStep_decWidth (E : Collaborators) (t : DRAWING_TOOL) (l : ArcLoop)
    (evt : TOOL_EVENT) (hk : evt.kind = .decWidth) :
    (drawArcStep E t l evt).1.m_lineWidth = decrementedWidth t.m_lineWidth
      ∧ (WIDTH_STEP < t.m_lineWidth →
          (drawArcStep E t l evt).2.1.aGraphic.m_Width = toInt32 (t.m_lineWidth - WIDTH_STEP)) := by
  obtain ⟨h1, h2, h3, h4, h5, h6, h7, h8, h9⟩ := decWidth_kind hk
  have hw1 : (t.Wait evt).m_lineWidth = t.m_lineWidth := rfl
  simp only [drawArcStep, h1, h3, h4, h6, h7, h8, h9, Bool.false_eq_true, if_false,
    Bool.true_and, decide_eq_true_eq, decrementedWidth]
  by_cases hgt : WIDTH_STEP < t.m_lineWidth
  · have hgt1 : (t.Wait evt).m_lineWidth > WIDTH_STEP := hgt
    rw [if_pos hgt1, if_pos hgt]
    exact ⟨rfl, fun _ => rfl⟩
  · have hgt1 : ¬ (t.Wait evt).m_lineWidth > WIDTH_STEP := hgt
    rw [if_neg hgt1, if_neg hgt]
    exact ⟨rfl, fun h => absurd h hgt⟩

theorem DrawDimensionStep_decWidth (E : Collaborators) (T : Trig)
    (t : DRAWING_TOOL) (l : DimensionLoop) (evt : TOOL_EVENT) (d : DIMENSION)
    (hk : evt.kind = .decWidth) (hd : l.dimension = some d) :
    ∃ t1 l1, DrawDimensionStep E T t l evt = some (t1, l1, false)
      ∧ t1.m_lineWidth
          = (if l.step ≠ DIM_SET_ORIGIN then decrementedWidth t.m_lineWidth else t.m_lineWidth)
      ∧ (l.step ≠ DIM_SET_ORIGIN → WIDTH_STEP < t.m_lineWidth →
          l1.dimension = some (d.SetWidth (toInt32 (t.m_lineWidth - WIDTH_STEP)))) := by
  obtain ⟨h1, h2, h3, h4, h5, h6, h7, h8, h9⟩ := decWidth_kind hk
  have hw1 : (t.Wait evt).m_lineWidth = t.m_lineWidth := rfl
  simp only [DrawDimensionStep, h1, h3, h4, h6, h7, h8, Bool.false_eq_true, if_false,
    Bool.true_and, Bool.false_and, decide_eq_true_eq, decrementedWidth, hd]
  by_cases hs : l.step = DIM_SET_ORIGIN
  · simp only [hs, ne_eq, not_true_eq_false, if_false]
    exact ⟨_, _, rfl, rfl, fun h => h.elim⟩
  · simp only [hs, ne_eq, not_false_eq_true, if_true]
    by_cases hgt : WIDTH_STEP < t.m_lineWidth
    · have hgt1 : (t.Wait evt).m_lineWidth > WIDTH_STEP := hgt
      rw [if_pos hgt1, if_pos hgt]
      exact ⟨_, _, rfl, rfl, fun _ _ => rfl⟩
    · have hgt1 : ¬ (t.Wait evt).m_lineWidth > WIDTH_STEP := hgt
      rw [if_neg hgt1, if_neg hgt]
      exact ⟨_, _, rfl, rfl, fun _ h => absurd h hgt⟩

/-! ## The 45 degree constraint -/

theorem Point.add_mk (a b c d : Int) : (⟨a, b⟩ : Point) + ⟨c, d⟩ = ⟨a + c, b + d⟩ := rfl

theorem BuildInitialTrace_cases (startDiagonal : Bool) (p0 p1 : Point) :
    (BuildInitialTrace startDiagonal p0 p1 = [p0, p1] ∧ aligned45 p0 p1)
      ∨ (∃ mid, BuildInitialTrace startDiagonal p0 p1 = [p0, mid, p1]
          ∧ aligned45 p0 mid ∧ aligned45 mid p1) := by
  obtain ⟨a, b⟩ := p0
  obtain ⟨c, d⟩ := p1
  simp only [BuildInitialTrace, aligned45]
  rcases lt_trichotomy (c - a) 0 with hx | hx | hx <;>
  rcases lt_trichotomy (d - b) 0 with hy | hy | hy <;>
  cases startDiagonal <;>
  simp only [abs_of_neg, abs_of_pos, hx, hy, abs_zero, Int.sign_eq_neg_one_of_neg,
    Int.sign_eq_one_of_pos, Int.sign_zero, mul_neg, mul_one, mul_zero, zero_mul, neg_mul, one_mul,
    Bool.false_eq_true, if_false, if_true] <;>
  split_ifs <;>
  simp only [Point.add_mk, Point.mk.injEq] at * <;>
  first
    | (left; refine ⟨trivial, ?_⟩; omega)
    | (right; refine ⟨_, rfl, ?_, ?_⟩ <;> simp only [] <;> omega)
    | (left; exact ⟨trivial, by simp⟩)

theorem apply45Trace_two (c p0 p1 : Point) (seg h : DRAWSEGMENT) :
    apply45Trace c [p0, p1] seg h = (seg.SetEnd c, (h.SetStart c).SetEnd c) := rfl

theorem apply45Trace_three (c p0 mid p1 : Point) (seg h : DRAWSEGMENT) :
    apply45Trace c [p0, mid, p1] seg h = (seg.SetEnd mid, (h.SetStart mid).SetEnd p1) := rfl

theorem make45DegLine_cases (E : Collaborators) (t : DRAWING_TOOL) (seg h : DRAWSEGMENT) :
    (make45DegLine E t seg h
        = (seg.SetEnd t.GetCursorPosition,
            (h.SetStart t.GetCursorPosition).SetEnd t.GetCursorPosition)
      ∧ aligned45 seg.GetStart t.GetCursorPosition)
    ∨ (∃ mid, make45DegLine E t seg h
          = (seg.SetEnd mid, (h.SetStart mid).SetEnd t.GetCursorPosition)
        ∧ aligned45 seg.GetStart mid ∧ aligned45 mid t.GetCursorPosition) := by
  unfold make45DegLine
  rcases BuildInitialTrace_cases (E.IsDiagonal (seg.GetStart - t.GetCursorPosition)) seg.GetStart
      t.GetCursorPosition with ⟨h1, h2⟩ | ⟨mid, h1, h2, h3⟩
  · left
    simp only [h1, apply45Trace_two]
    exact ⟨trivial, h2⟩
  · right
    refine ⟨mid, ?_, h2, h3⟩
    simp only [h1, apply45Trace_three]

/-! ## Finishing clicks -/

theorem DrawLineIter_finishes (E : Collaborators) (t : DRAWING_TOOL) (sp : Option Point)
    (pre : List TOOL_EVENT) (e : TOOL_EVENT) (rest : List TOOL_EVENT)
    (hpre : segmentGoesOn E .S_SEGMENT
      (segmentEntry .S_SEGMENT t (DRAWSEGMENT.new t.m_editModules) sp).1
      (segmentEntry .S_SEGMENT t (DRAWSEGMENT.new t.m_editModules) sp).2 pre = true)
    (hfin : segmentFinishes E .S_SEGMENT
      (segmentAfter E .S_SEGMENT (segmentEntry .S_SEGMENT t (DRAWSEGMENT.new t.m_editModules) sp).1
        (segmentEntry .S_SEGMENT t (DRAWSEGMENT.new t.m_editModules) sp).2 pre).1
      (segmentAfter E .S_SEGMENT (segmentEntry .S_SEGMENT t (DRAWSEGMENT.new t.m_editModules) sp).1
        (segmentEntry .S_SEGMENT t (DRAWSEGMENT.new t.m_editModules) sp).2 pre).2 e = true) :
    ∃ t1 mc,
      mc = segmentModeCheck E .S_SEGMENT
        ((segmentAfter E .S_SEGMENT
          (segmentEntry .S_SEGMENT t (DRAWSEGMENT.new t.m_editModules) sp).1
          (segmentEntry .S_SEGMENT t (DRAWSEGMENT.new t.m_editModules) sp).2 pre).1.Wait e)
        (segmentAfter E .S_SEGMENT
          (segmentEntry .S_SEGMENT t (DRAWSEGMENT.new t.m_editModules) sp).1
          (segmentEntry .S_SEGMENT t (DRAWSEGMENT.new t.m_editModules) sp).2 pre).2 e
      ∧ DrawLineIter E t sp (pre ++ e :: rest) = (true, t1, none, rest)
      ∧ t1.commitCalls
          = t.commitCalls
            ++ (if mc.2.direction45 then
                  [.Add (.segment (finishingSegment mc.1 mc.2)), .Push "Draw a line"]
                else []) := by
  obtain ⟨heq, hdoc, _⟩ := drawSegmentLoop_append E .S_SEGMENT pre _ _ (e :: rest) hpre
  have hent := sameDocument_segmentEntry .S_SEGMENT t (DRAWSEGMENT.new t.m_editModules) sp
  generalize segmentAfter E .S_SEGMENT
      (segmentEntry .S_SEGMENT t (DRAWSEGMENT.new t.m_editModules) sp).1
      (segmentEntry .S_SEGMENT t (DRAWSEGMENT.new t.m_editModules) sp).2 pre = s at *
  have hstep := drawSegmentStep_finishes E .S_SEGMENT s.1 s.2 e hfin
  have hmd := sameDocument_segmentModeCheck E .S_SEGMENT (s.1.Wait e) s.2 e
  obtain ⟨hms, _, _⟩ := segmentModeCheck_started E .S_SEGMENT (s.1.Wait e) s.2 e
  have hstarted : s.2.started = true := by
    simp only [segmentFinishes, Bool.and_eq_true] at hfin
    exact hfin.1.2
  rw [hstarted] at hms
  generalize segmentModeCheck E .S_SEGMENT (s.1.Wait e) s.2 e = mc at *
  have hall : sameDocument t mc.1 :=
    sameDocument_trans hent (sameDocument_trans hdoc (sameDocument_trans (sameDocument_Wait _ _) hmd))
  have hloop : drawSegmentLoop E .S_SEGMENT s.1 s.2 (e :: rest)
      = (if mc.2.direction45 then
            ((mc.1.commitAdd (.segment (finishingSegment mc.1 mc.2))).commitPush "Draw a line")
          else mc.1, { mc.2 with aGraphicNull := true, preview := [] }, rest) := by
    simp only [drawSegmentLoop, hstep]
  rw [hloop] at heq
  refine ⟨(if mc.2.direction45 then
            ((mc.1.commitAdd (.segment (finishingSegment mc.1 mc.2))).commitPush "Draw a line")
          else mc.1).leaveLoop, mc, rfl, ?_, ?_⟩
  · simp only [DrawLineIter, drawSegment_eq, heq, hms, if_true]
  · by_cases hd : mc.2.direction45 = true
    · simp only [hd, if_true]
      rw [(sameDocument_leaveLoop _).1, (commitAdd_commitPush mc.1 _ _).1, hall.1]
    · simp only [hd, if_false, Bool.false_eq_true]
      rw [(sameDocument_leaveLoop _).1, hall.1]; simp

/-! ## The invariant of the zone loop is kept -/

theorem ZoneInv_start (sourceZone : Option Nat) : ZoneInv (ZoneLoop.start sourceZone) := by
  refine ⟨fun h => ?_, fun h => ?_, ?_⟩
  · cases h
  · exact absurd h (Nat.lt_irrefl 0)
  · simp [ZoneLoop.start]

theorem zoneAddPoint_inv (aKeepout : Bool) (t : DRAWING_TOOL) (l : ZoneLoop) (evt : TOOL_EVENT)
    (t1 : DRAWING_TOOL) (l1 : ZoneLoop) (hl : ZoneInv l)
    (h : zoneAddPoint aKeepout t l evt = some (t1, l1)) : ZoneInv l1 := by
  obtain ⟨h1, h2, h3⟩ := hl
  have hne : ∀ n, PREVIEW_ITEM.line45 ≠ PREVIEW_ITEM.helperLine n := fun n hc => by cases hc
  unfold zoneAddPoint at h
  by_cases hn : l.numPoints = 0
  · have hd : l.direction45 = false := by
      cases hdd : l.direction45
      · rfl
      · exact absurd (h1 hdd) (by omega)
    simp only [hn, if_true] at h
    split at h
    · cases h
    · simp only [Option.some.injEq, Prod.mk.injEq] at h
      rw [← h.2]
      exact ⟨h1, h2, h3⟩
    · simp only [Option.some.injEq, Prod.mk.injEq] at h
      rw [← h.2]
      refine ⟨fun hh => by simp, fun _ => ⟨rfl, rfl⟩, ?_⟩
      simp only [mem_SELECTION_Add, hne, false_or]
      exact h3
  · simp only [hn, if_false] at h
    split at h
    · simp only [Option.some.injEq, Prod.mk.injEq] at h
      rw [← h.2]
      refine ⟨fun hh => by simp, fun _ => ⟨rfl, rfl⟩, ?_⟩
      simp only [mem_SELECTION_Add, hne, false_or]
      exact h3
    · cases h

theorem drawZoneStep_inv (E : Collaborators) (aKeepout : Bool) (aMode : ZONE_MODE)
    (t : DRAWING_TOOL) (l : ZoneLoop) (evt : TOOL_EVENT) (t1 : DRAWING_TOOL) (l1 : ZoneLoop)
    (b : Bool) (hl : ZoneInv l)
    (h : drawZoneStep E aKeepout aMode t l evt = some (t1, l1, b)) : ZoneInv l1 := by
  obtain ⟨t0, l0, hm, _, hinv, _⟩ := zoneModeCheck_inv E (t.Wait evt) l evt hl
  have hreset : ∀ l2 : ZoneLoop, l2.numPoints = 0 → l2.preview = [] → l2.direction45 = false →
      ZoneInv l2 := by
    intro l2 a1 a2 a3
    refine ⟨fun hh => ?_, fun hh => ?_, ?_⟩
    · rw [a3] at hh; cases hh
    · omega
    · simp [a2, a3]
  by_cases c1 : IsCancelInteractive evt = true
  · simp only [drawZoneStep, hm, c1, if_true] at h
    by_cases c2 : l0.numPoints > 0
    · simp only [c2, if_true] at h
      obtain ⟨l2, hf, hp, hd2, _, _, _⟩ :=
        zoneFreeItems_after_clear { l0 with zone := none } hinv.2.2
      simp only [hf] at h
      simp only [Option.some.injEq, Prod.mk.injEq] at h
      rw [← h.2.1]
      exact hreset _ rfl hp hd2
    · simp only [c2, if_false] at h
      simp only [Option.some.injEq, Prod.mk.injEq] at h
      rw [← h.2.1]
      exact hinv
  · by_cases c3 : evt.IsClickRight = true
    · simp only [drawZoneStep, hm, c1, c3, if_true, if_false, Bool.false_eq_true] at h
      simp only [Option.some.injEq, Prod.mk.injEq] at h
      rw [← h.2.1]
      exact hinv
    · by_cases c4 : (evt.IsClickLeft || evt.IsDblClickLeft) = true
      · by_cases c5 : (evt.IsDblClickLeft
            || (decide (l0.numPoints > 0) && decide (evt.cursor = l0.origin))) = true
        · simp only [drawZoneStep, hm, c1, c3, c4, c5, if_true, if_false, Bool.false_eq_true] at h
          cases hc : zoneClose E aKeepout aMode t0 l0 evt.cursor with
          | none => rw [hc] at h; cases h
          | some r =>
            rw [hc] at h
            simp only [Option.some.injEq, Prod.mk.injEq] at h
            rw [← h.2.1]
            unfold zoneClose at hc
            obtain ⟨l2, hf, hp, hd2, hn2, _, _⟩ :=
              zoneFreeItems_after_clear { l0 with zone := none, numPoints := 0 } hinv.2.2
            split at hc
            · cases hc
            · simp only [hf, Option.some.injEq] at hc
              rw [← hc]
              exact hreset _ hn2 hp hd2
        · simp only [drawZoneStep, hm, c1, c3, c4, c5, if_true, if_false, Bool.false_eq_true] at h
          cases hc : zoneAddPoint aKeepout t0 l0 evt with
          | none => rw [hc] at h; cases h
          | some r =>
            rw [hc] at h
            simp only [Option.some.injEq, Prod.mk.injEq] at h
            rw [← h.2.1]
            exact zoneAddPoint_inv aKeepout t0 l0 evt r.1 r.2 hinv hc
      · by_cases c6 : (evt.IsMotion && decide (l0.numPoints > 0)) = true
        · simp only [drawZoneStep, hm, c1, c3, c4, c6, if_true, if_false, Bool.false_eq_true] at h
          obtain ⟨i1, i2, i3⟩ := hinv
          cases hh : l0.helperLine with
          | none => rw [hh] at h; cases h
          | some helper =>
            rw [hh] at h
            simp only at h
            by_cases c7 : l0.direction45 = true
            · simp only [c7, if_true] at h
              simp only [Option.some.injEq, Prod.mk.injEq] at h
              rw [← h.2.1]
              exact ⟨fun _ => i1 c7, fun hq => ⟨rfl, (i2 hq).2⟩, by simpa [c7] using i3⟩
            · simp only [c7, if_false, Bool.false_eq_true] at h
              simp only [Option.some.injEq, Prod.mk.injEq] at h
              rw [← h.2.1]
              exact ⟨fun hq => absurd hq (by simp), fun hq => ⟨rfl, (i2 hq).2⟩,
                by simpa [c7] using i3⟩
        · simp only [drawZoneStep, hm, c1, c3, c4, c6, if_false, Bool.false_eq_true] at h
          simp only [Option.some.injEq, Prod.mk.injEq] at h
          rw [← h.2.1]
          exact hinv

theorem drawZoneLoop_inv (E : Collaborators) (aKeepout : Bool) (aMode : ZONE_MODE)
    (evs : List TOOL_EVENT) : ∀ (t : DRAWING_TOOL) (l : ZoneLoop) (t1 : DRAWING_TOOL)
    (l1 : ZoneLoop), ZoneInv l → drawZoneLoop E aKeepout aMode t l evs = some (t1, l1) →
    ZoneInv l1 := by
  induction evs with
  | nil =>
    intro t l t1 l1 hl h
    simp only [drawZoneLoop, Option.some.injEq, Prod.mk.injEq] at h
    rw [← h.2]
    exact hl
  | cons evt rest ih =>
    intro t l t1 l1 hl h
    unfold drawZoneLoop at h
    cases hs : drawZoneStep E aKeepout aMode t l evt with
    | none => rw [hs] at h; cases h
    | some r =>
      obtain ⟨t2, l2, b⟩ := r
      have hl2 := drawZoneStep_inv E aKeepout aMode t l evt t2 l2 b hl hs
      rw [hs] at h
      cases b with
      | true =>
        simp only [Option.some.injEq, Prod.mk.injEq] at h
        rw [← h.2]
        exact hl2
      | false => exact ih t2 l2 t1 l1 hl2 h

/-! ## The graphic an accepting click hands back -/

theorem make45DegLine_end (E : Collaborators) (t : DRAWING_TOOL) (seg h : DRAWSEGMENT) :
    (make45DegLine E t seg h).1.m_End = routeFirstLegEnd E seg.m_Start t.GetCursorPosition
      ∧ (make45DegLine E t seg h).1.m_Start = seg.m_Start := by
  unfold make45DegLine routeFirstLegEnd apply45Trace
  dsimp only [DRAWSEGMENT.GetStart]
  split <;> exact ⟨rfl, rfl⟩

theorem segmentModeCheck_mode (E : Collaborators) (t : DRAWING_TOOL) (l : SegmentLoop)
    (evt : TOOL_EVENT) (hs : l.started = true) :
    (segmentModeCheck E .S_SEGMENT t l evt).2.direction45 = limit45 t evt := by
  unfold segmentModeCheck limit45
  cases hd : l.direction45 <;> cases hg : t.g_Segments_45_Only <;> cases hc : evt.ctrl <;>
    simp [hs, hd]

theorem segmentModeCheck_same (E : Collaborators) (aShape : STROKE_T) (t : DRAWING_TOOL)
    (l : SegmentLoop) (evt : TOOL_EVENT) (h : l.direction45 = limit45 t evt) :
    segmentModeCheck E aShape t l evt = (t, l) := by
  unfold segmentModeCheck
  unfold limit45 at h
  simp [h]

theorem segmentModeCheck_g45 (E : Collaborators) (aShape : STROKE_T) (t : DRAWING_TOOL)
    (l : SegmentLoop) (evt : TOOL_EVENT) :
    (segmentModeCheck E aShape t l evt).1.g_Segments_45_Only = t.g_Segments_45_Only := by
  unfold segmentModeCheck
  dsimp only
  split_ifs <;> rfl
theorem segmentModeCheck_cursor (E : Collaborators) (aShape : STROKE_T) (t : DRAWING_TOOL)
    (l : SegmentLoop) (evt : TOOL_EVENT) :
    (segmentModeCheck E aShape t l evt).1.GetCursorPosition = t.GetCursorPosition := by
  unfold segmentModeCheck
  dsimp only
  split_ifs <;> rfl

theorem motion_kind {evt : TOOL_EVENT} (h : evt.kind = .motion) :
    IsCancelInteractive evt = false ∧ evt.IsAction .layerChanged = false
      ∧ evt.IsClickRight = false ∧ evt.IsClickLeft = false ∧ evt.IsDblClickLeft = false
      ∧ evt.IsMotion = true := by
  simp [IsCancelInteractive, TOOL_EVENT.IsAction, TOOL_EVENT.IsClickRight,
    TOOL_EVENT.IsClickLeft, TOOL_EVENT.IsDblClickLeft, TOOL_EVENT.IsMotion, h]

theorem drawSegmentStep_motion (E : Collaborators) (t : DRAWING_TOOL) (l : SegmentLoop)
    (evt : TOOL_EVENT) (hk : evt.kind = .motion) (hs : l.started = true) :
    (drawSegmentStep E .S_SEGMENT t l evt).2.2 = false
      ∧ (drawSegmentStep E .S_SEGMENT t l evt).2.1.started = true
      ∧ (drawSegmentStep E .S_SEGMENT t l evt).2.1.direction45 = limit45 t evt
      ∧ (drawSegmentStep E .S_SEGMENT t l evt).2.1.aGraphic.m_Start = l.aGraphic.m_Start
      ∧ (drawSegmentStep E .S_SEGMENT t l evt).2.1.aGraphic.m_End
          = (if limit45 t evt then routeFirstLegEnd E l.aGraphic.m_Start evt.cursor
             else evt.cursor)
      ∧ (drawSegmentStep E .S_SEGMENT t l evt).1.g_Segments_45_Only = t.g_Segments_45_Only := by
  obtain ⟨k1, k2, k3, k4, k5, k6⟩ := motion_kind hk
  have hmode := segmentModeCheck_mode E (t.Wait evt) l evt hs
  obtain ⟨m1, _, m3, _, _⟩ := segmentModeCheck_started E .S_SEGMENT (t.Wait evt) l evt
  have hg := segmentModeCheck_g45 E .S_SEGMENT (t.Wait evt) l evt
  rcases hm : segmentModeCheck E .S_SEGMENT (t.Wait evt) l evt with ⟨t1, l1⟩
  rw [hm] at hmode m1 m3 hg
  simp only at hmode m1 m3 hg
  have hlim : limit45 (t.Wait evt) evt = limit45 t evt := rfl
  have hcur : t1.GetCursorPosition = evt.cursor := by
    have := (segmentModeCheck_cursor E .S_SEGMENT (t.Wait evt) l evt)
    rw [hm] at this
    exact this
  simp only [drawSegmentStep, hm, k1, k2, k3, k4, k5, k6, Bool.false_eq_true, if_false, if_true,
    Bool.or_self]
  rw [hlim] at hmode
  by_cases h45 : limit45 t evt = true
  · rw [h45] at hmode
    simp only [hmode, h45, Bool.true_and, beq_self_eq_true, if_true]
    obtain ⟨e1, e2⟩ := make45DegLine_end E t1 l1.aGraphic l1.line45
    refine ⟨trivial, m1.trans hs, trivial, e2.trans m3, ?_, hg⟩
    rw [e1, hcur, m3]
  · have h45f : limit45 t evt = false := by simpa using h45
    rw [h45f] at hmode
    simp only [hmode, h45f, Bool.false_and, Bool.false_eq_true, if_false]
    exact ⟨trivial, m1.trans hs, trivial, m3, rfl, hg⟩

theorem getDrawingLayer_g45 (t : DRAWING_TOOL) :
    t.getDrawingLayer.1.g_Segments_45_Only = t.g_Segments_45_Only := by
  unfold DRAWING_TOOL.getDrawingLayer
  dsimp only
  split_ifs <;> rfl

theorem initSegment_g45 (aShape : STROKE_T) (t : DRAWING_TOOL) (l : SegmentLoop) (a b : Point) :
    (initSegment aShape t l a b).1.g_Segments_45_Only = t.g_Segments_45_Only := by
  unfold initSegment
  exact getDrawingLayer_g45 t

theorem drawSegmentStep_g45 (E : Collaborators) (aShape : STROKE_T) (t : DRAWING_TOOL)
    (l : SegmentLoop) (evt : TOOL_EVENT) :
    (drawSegmentStep E aShape t l evt).1.g_Segments_45_Only = t.g_Segments_45_Only := by
  have hg := segmentModeCheck_g45 E aShape (t.Wait evt) l evt
  rcases hm : segmentModeCheck E aShape (t.Wait evt) l evt with ⟨t1, l1⟩
  rw [hm] at hg
  have hg1 : t1.g_Segments_45_Only = t.g_Segments_45_Only := hg
  simp only [drawSegmentStep, hm]
  split_ifs
  all_goals first
    | exact hg1
    | exact (getDrawingLayer_g45 t1).trans hg1

theorem segmentAfter_g45 (E : Collaborators) (aShape : STROKE_T) (evs : List TOOL_EVENT) :
    ∀ (t : DRAWING_TOOL) (l : SegmentLoop),
      (segmentAfter E aShape t l evs).1.g_Segments_45_Only = t.g_Segments_45_Only := by
  induction evs with
  | nil => intro t l; rfl
  | cons evt rest ih =>
    intro t l
    unfold segmentAfter
    rw [ih]
    exact drawSegmentStep_g45 E aShape t l evt

theorem segmentEntry_g45 (aShape : STROKE_T) (t : DRAWING_TOOL) (aGraphic : DRAWSEGMENT)
    (sp : Option Point) :
    (segmentEntry aShape t aGraphic sp).1.g_Segments_45_Only = t.g_Segments_45_Only := by
  unfold segmentEntry
  cases sp with
  | none => rfl
  | some p => exact initSegment_g45 aShape t.enterLoop _ p _

theorem segmentAfter_append (E : Collaborators) (aShape : STROKE_T) (pre : List TOOL_EVENT) :
    ∀ (t : DRAWING_TOOL) (l : SegmentLoop) (evs : List TOOL_EVENT),
      segmentAfter E aShape t l (pre ++ evs)
        = segmentAfter E aShape (segmentAfter E aShape t l pre).1
            (segmentAfter E aShape t l pre).2 evs := by
  induction pre with
  | nil => intro t l evs; rfl
  | cons evt rest ih =>
    intro t l evs
    simp only [List.cons_append, segmentAfter]
    exact ih _ _ evs

theorem segmentGoesOn_append (E : Collaborators) (aShape : STROKE_T) (pre : List TOOL_EVENT) :
    ∀ (t : DRAWING_TOOL) (l : SegmentLoop) (evs : List TOOL_EVENT),
      segmentGoesOn E aShape t l (pre ++ evs)
        = (segmentGoesOn E aShape t l pre
            && segmentGoesOn E aShape (segmentAfter E aShape t l pre).1
              (segmentAfter E aShape t l pre).2 evs) := by
  induction pre with
  | nil => intro t l evs; simp [segmentGoesOn, segmentAfter]
  | cons evt rest ih =>
    intro t l evs
    simp only [List.cons_append, segmentGoesOn, segmentAfter, List.append_eq, ih, Bool.and_assoc]

theorem drawSegmentStep_motion_started (E : Collaborators) (aShape : STROKE_T) (t : DRAWING_TOOL)
    (l : SegmentLoop) (evt : TOOL_EVENT) (hk : evt.kind = .motion) :
    (drawSegmentStep E aShape t l evt).2.1.started = l.started
      ∧ (drawSegmentStep E aShape t l evt).2.2 = false := by
  obtain ⟨k1, k2, k3, k4, k5, k6⟩ := motion_kind hk
  obtain ⟨m1, _⟩ := segmentModeCheck_started E aShape (t.Wait evt) l evt
  rcases hm : segmentModeCheck E aShape (t.Wait evt) l evt with ⟨t1, l1⟩
  rw [hm] at m1
  simp only [drawSegmentStep, hm, k1, k2, k3, k4, k5, k6, Bool.false_eq_true, if_false, if_true,
    Bool.or_self]
  split_ifs <;> exact ⟨m1, rfl⟩

theorem DrawLineIter_motion_click (E : Collaborators) (t : DRAWING_TOOL) (sp : Option Point)
    (pre : List TOOL_EVENT) (m e : TOOL_EVENT) (rest : List TOOL_EVENT)
    (hpre : segmentGoesOn E .S_SEGMENT
      (segmentEntry .S_SEGMENT t (DRAWSEGMENT.new t.m_editModules) sp).1
      (segmentEntry .S_SEGMENT t (DRAWSEGMENT.new t.m_editModules) sp).2 pre = true)
    (hm : m.kind = .motion) (hcur : e.cursor = m.cursor) (hctrl : e.ctrl = m.ctrl)
    (hacc : segmentAccepts E .S_SEGMENT
      (segmentAfter E .S_SEGMENT (segmentEntry .S_SEGMENT t (DRAWSEGMENT.new t.m_editModules) sp).1
        (segmentEntry .S_SEGMENT t (DRAWSEGMENT.new t.m_editModules) sp).2 (pre ++ [m])).1
      (segmentAfter E .S_SEGMENT (segmentEntry .S_SEGMENT t (DRAWSEGMENT.new t.m_editModules) sp).1
        (segmentEntry .S_SEGMENT t (DRAWSEGMENT.new t.m_editModules) sp).2 (pre ++ [m])).2 e
        = true) :
    ∃ line t1,
      DrawLineIter E t sp (pre ++ m :: e :: rest) = (true, t1, some line.GetEnd, rest)
      ∧ t1.commitCalls = t.commitCalls ++ [.Add (.segment line), .Push "Draw a line segment"]
      ∧ line.GetStart
          = (segmentAfter E .S_SEGMENT
              (segmentEntry .S_SEGMENT t (DRAWSEGMENT.new t.m_editModules) sp).1
              (segmentEntry .S_SEGMENT t (DRAWSEGMENT.new t.m_editModules) sp).2
              pre).2.aGraphic.GetStart
      ∧ line.GetEnd
          = (if limit45 t e then routeFirstLegEnd E line.GetStart e.cursor else e.cursor) := by
  have happ := segmentAfter_append E .S_SEGMENT pre
    (segmentEntry .S_SEGMENT t (DRAWSEGMENT.new t.m_editModules) sp).1
    (segmentEntry .S_SEGMENT t (DRAWSEGMENT.new t.m_editModules) sp).2 [m]
  have hgo : segmentGoesOn E .S_SEGMENT
      (segmentEntry .S_SEGMENT t (DRAWSEGMENT.new t.m_editModules) sp).1
      (segmentEntry .S_SEGMENT t (DRAWSEGMENT.new t.m_editModules) sp).2 (pre ++ [m]) = true := by
    rw [segmentGoesOn_append, hpre]
    simp only [segmentGoesOn, Bool.true_and, Bool.and_true]
    rw [(drawSegmentStep_motion_started E .S_SEGMENT _ _ m hm).2]
    rfl
  obtain ⟨line, t1, hline, hiter, hcalls, _⟩ :=
    DrawLineIter_accepts E t sp (pre ++ [m]) e rest hgo hacc
  have hg0 : (segmentAfter E .S_SEGMENT
      (segmentEntry .S_SEGMENT t (DRAWSEGMENT.new t.m_editModules) sp).1
      (segmentEntry .S_SEGMENT t (DRAWSEGMENT.new t.m_editModules) sp).2
      pre).1.g_Segments_45_Only = t.g_Segments_45_Only := by
    rw [segmentAfter_g45, segmentEntry_g45]
  rw [happ] at hacc hline
  rcases hs0 : segmentAfter E .S_SEGMENT
      (segmentEntry .S_SEGMENT t (DRAWSEGMENT.new t.m_editModules) sp).1
      (segmentEntry .S_SEGMENT t (DRAWSEGMENT.new t.m_editModules) sp).2 pre with ⟨t0, l0⟩
  rw [hs0] at hacc hline hg0
  simp only [segmentAfter] at hacc hline
  simp only at hg0
  have hst : (drawSegmentStep E .S_SEGMENT t0 l0 m).2.1.started = true := by
    unfold segmentAccepts at hacc
    simp only [Bool.and_eq_true] at hacc
    exact hacc.1.2
  have hs : l0.started = true := by
    rw [← (drawSegmentStep_motion_started E .S_SEGMENT t0 l0 m hm).1]; exact hst
  obtain ⟨_, _, s3, s4, s5, s6⟩ := drawSegmentStep_motion E t0 l0 m hm hs
  have hlim : limit45 t0 m = limit45 t e := by
    unfold limit45; rw [hg0, hctrl]
  have hsame : segmentModeCheck E .S_SEGMENT
      ((drawSegmentStep E .S_SEGMENT t0 l0 m).1.Wait e)
      (drawSegmentStep E .S_SEGMENT t0 l0 m).2.1 e
        = ((drawSegmentStep E .S_SEGMENT t0 l0 m).1.Wait e,
            (drawSegmentStep E .S_SEGMENT t0 l0 m).2.1) := by
    apply segmentModeCheck_same
    rw [s3]
    unfold limit45
    show (t0.g_Segments_45_Only != m.ctrl)
      = ((drawSegmentStep E .S_SEGMENT t0 l0 m).1.g_Segments_45_Only != e.ctrl)
    rw [s6, hctrl]
  rw [hsame] at hline
  simp only at hline
  refine ⟨line, t1, ?_, hcalls, ?_, ?_⟩
  · rw [← hiter]; simp
  · rw [hline]; exact s4
  · rw [hline]
    show (drawSegmentStep E .S_SEGMENT t0 l0 m).2.1.aGraphic.m_End = _
    rw [s5, hlim, hcur]
    show _ = if limit45 t e = true then routeFirstLegEnd E
      (drawSegmentStep E .S_SEGMENT t0 l0 m).2.1.aGraphic.m_Start m.cursor else m.cursor
    rw [s4]

/-! ## Width commands in `drawSegment` -/

theorem incWidth_kind {evt : TOOL_EVENT} (h : evt.kind = .incWidth) :
    IsCancelInteractive evt = false ∧ evt.IsAction .layerChanged = false
      ∧ evt.IsClickRight = false ∧ evt.IsClickLeft = false ∧ evt.IsDblClickLeft = false
      ∧ evt.IsMotion = false ∧ evt.IsAction .incWidth = true := by
  simp [IsCancelInteractive, TOOL_EVENT.IsAction, TOOL_EVENT.IsClickRight,
    TOOL_EVENT.IsClickLeft, TOOL_EVENT.IsDblClickLeft, TOOL_EVENT.IsMotion, h]

theorem make45DegLine_width (E : Collaborators) (t : DRAWING_TOOL) (seg h : DRAWSEGMENT) :
    (make45DegLine E t seg h).1.m_Width = seg.m_Width
      ∧ (make45DegLine E t seg h).2.m_Width = h.m_Width := by
  unfold make45DegLine apply45Trace
  dsimp only
  split <;> exact ⟨rfl, rfl⟩

theorem segmentModeCheck_width (E : Collaborators) (aShape : STROKE_T) (t : DRAWING_TOOL)
    (l : SegmentLoop) (evt : TOOL_EVENT) :
    (segmentModeCheck E aShape t l evt).2.aGraphic.m_Width = l.aGraphic.m_Width
      ∧ (segmentModeCheck E aShape t l evt).2.line45.m_Width = l.line45.m_Width := by
  unfold segmentModeCheck
  dsimp only
  split_ifs
  · exact make45DegLine_width E t l.aGraphic l.line45
  · exact ⟨rfl, rfl⟩
  · exact ⟨rfl, rfl⟩

theorem drawSegmentStep_incWidth (E : Collaborators) (aShape : STROKE_T) (t : DRAWING_TOOL)
    (l : SegmentLoop) (evt : TOOL_EVENT) (hk : evt.kind = .incWidth) :
    (drawSegmentStep E aShape t l evt).1.m_lineWidth = (t.m_lineWidth + WIDTH_STEP) % 2 ^ 32
      ∧ (drawSegmentStep E aShape t l evt).2.1.aGraphic.m_Width
          = toInt32 ((t.m_lineWidth + WIDTH_STEP) % 2 ^ 32)
      ∧ (drawSegmentStep E aShape t l evt).2.1.line45.m_Width
          = toInt32 ((t.m_lineWidth + WIDTH_STEP) % 2 ^ 32) := by
  obtain ⟨h1, h2, h3, h4, h5, h6, h7⟩ := incWidth_kind hk
  obtain ⟨_, _, _, _, hw⟩ := segmentModeCheck_started E aShape (t.Wait evt) l evt
  rcases hm : segmentModeCheck E aShape (t.Wait evt) l evt with ⟨t1, l1⟩
  rw [hm] at hw
  have hw1 : t1.m_lineWidth = t.m_lineWidth := hw
  simp only [drawSegmentStep, hm, h1, h2, h3, h4, h5, h6, h7, Bool.false_eq_true, if_false,
    Bool.or_self, if_true]
  refine ⟨?_, ?_, ?_⟩ <;> rw [← hw1] <;> rfl

theorem drawSegmentStep_decWidth_all (E : Collaborators) (aShape : STROKE_T) (t : DRAWING_TOOL)
    (l : SegmentLoop) (evt : TOOL_EVENT) (hk : evt.kind = .decWidth) :
    (WIDTH_STEP < t.m_lineWidth →
        (drawSegmentStep E aShape t l evt).1.m_lineWidth = t.m_lineWidth - WIDTH_STEP
          ∧ (drawSegmentStep E aShape t l evt).2.1.aGraphic.m_Width
              = toInt32 (t.m_lineWidth - WIDTH_STEP)
          ∧ (drawSegmentStep E aShape t l evt).2.1.line45.m_Width
              = toInt32 (t.m_lineWidth - WIDTH_STEP))
      ∧ (¬ WIDTH_STEP < t.m_lineWidth →
        (drawSegmentStep E aShape t l evt).1.m_lineWidth = t.m_lineWidth
          ∧ (drawSegmentStep E aShape t l evt).2.1.aGraphic.m_Width = l.aGraphic.m_Width
          ∧ (drawSegmentStep E aShape t l evt).2.1.line45.m_Width = l.line45.m_Width) := by
  obtain ⟨h1, h2, h3, h4, h5, h6, h7, h8, h9⟩ := decWidth_kind hk
  obtain ⟨_, _, _, _, hw⟩ := segmentModeCheck_started E aShape (t.Wait evt) l evt
  obtain ⟨w1, w2⟩ := segmentModeCheck_width E aShape (t.Wait evt) l evt
  rcases hm : segmentModeCheck E aShape (t.Wait evt) l evt with ⟨t1, l1⟩
  rw [hm] at hw w1 w2
  have hw1 : t1.m_lineWidth = t.m_lineWidth := hw
  simp only [drawSegmentStep, hm, h1, h2, h3, h4, h5, h6, h7, h8, Bool.false_eq_true, if_false,
    Bool.or_self, Bool.true_and, decide_eq_true_eq]
  constructor
  · intro hgt
    have hgt1 : t1.m_lineWidth > WIDTH_STEP := by rw [hw1]; exact hgt
    rw [if_pos hgt1]
    refine ⟨?_, ?_, ?_⟩ <;> rw [← hw1] <;> rfl
  · intro hgt
    have hgt1 : ¬ t1.m_lineWidth > WIDTH_STEP := by rw [hw1]; exact hgt
    rw [if_neg hgt1]
    exact ⟨hw1, w1, w2⟩

theorem drawSegmentStep_firstClick (E : Collaborators) (aShape : STROKE_T) (t : DRAWING_TOOL)
    (l : SegmentLoop) (evt : TOOL_EVENT)
    (hk : (evt.IsClickLeft || evt.IsDblClickLeft) = true) (hs : l.started = false) :
    (drawSegmentStep E aShape t l evt).2.1.started = true
      ∧ (drawSegmentStep E aShape t l evt).2.1.aGraphic.m_Width = toInt32 t.m_lineWidth
      ∧ (drawSegmentStep E aShape t l evt).2.2 = false := by
  obtain ⟨h1, h2, h3⟩ := click_kind hk
  have hsame : segmentModeCheck E aShape (t.Wait evt) l evt = (t.Wait evt, l) := by
    unfold segmentModeCheck
    simp [hs]
  simp only [drawSegmentStep, hsame, h1, h2, h3, hk, hs, Bool.false_eq_true, if_false, if_true,
    Bool.not_false]
  exact ⟨rfl, rfl, trivial⟩

/-! ## Clicks in `DrawDimension` -/

theorem clickLeft_kind {evt : TOOL_EVENT} (h : evt.kind = .clickLeft) :
    IsCancelInteractive evt = false ∧ evt.IsAction .incWidth = false
      ∧ evt.IsAction .decWidth = false ∧ evt.IsClickRight = false ∧ evt.IsClickLeft = true
      ∧ evt.IsMotion = false ∧ evt.IsCommand = false ∧ evt.IsDblClickLeft = false := by
  simp [IsCancelInteractive, TOOL_EVENT.IsAction, TOOL_EVENT.IsClickRight,
    TOOL_EVENT.IsClickLeft, TOOL_EVENT.IsMotion, TOOL_EVENT.IsCommand,
    TOOL_EVENT.IsDblClickLeft, h]

theorem DrawDimensionStep_heightClick (E : Collaborators) (T : Trig)
    (t : DRAWING_TOOL) (l : DimensionLoop) (d : DIMENSION) (evt : TOOL_EVENT)
    (hs : l.step = DIM_SET_HEIGHT) (hd : l.dimension = some d) (hk : evt.kind = .clickLeft) :
    DrawDimensionStep E T t l evt
      = if evt.cursor ≠ E.GetPosition d then
          some (((((t.Wait evt).commitAdd (.dimension d)).commitPush
              "Draw a dimension").SetAutoPan false).CaptureCursor false,
            { l with preview := l.preview.Remove (.dimension (l.allocated - 1)),
                     step := DIM_SET_ORIGIN }, false)
        else
          some (((t.Wait evt).SetAutoPan false).CaptureCursor false,
            { l with step := DIM_SET_ORIGIN }, false) := by
  obtain ⟨h1, h2, h3, h4, h5, _⟩ := clickLeft_kind hk
  have hne1 : DIM_SET_HEIGHT ≠ DIM_SET_ORIGIN := by decide
  have hne2 : DIM_SET_HEIGHT ≠ DIM_SET_END := by decide
  have hfin : DIM_SET_HEIGHT + 1 = DIM_FINISHED := rfl
  simp only [DrawDimensionStep, dimensionClick, h1, h2, h3, h4, h5, hs, hd, hne1, hne2,
    Bool.false_eq_true, if_false, if_true, Bool.false_and]
  by_cases hp : evt.cursor = E.GetPosition d
  · simp only [hp, ne_eq, not_true_eq_false, if_false, hs, hd, hfin, if_true]
  · simp only [hp, ne_eq, not_false_eq_true, if_true, hs, hd, hfin]

/-! ## Cancelling in `drawZone` -/

theorem drawZoneStep_cancel_reset (E : Collaborators) (aKeepout : Bool) (aMode : ZONE_MODE)
    (t : DRAWING_TOOL) (l : ZoneLoop) (c : TOOL_EVENT) (hc : IsCancelInteractive c = true)
    (hl : ZoneInv l) :
    (0 < l.numPoints →
        ∃ t1 l1, drawZoneStep E aKeepout aMode t l c = some (t1, l1, c.IsActivate)
          ∧ sameDocument t t1 ∧ l1.numPoints = 0 ∧ l1.zone = none ∧ l1.direction45 = false
          ∧ l1.preview = [])
      ∧ (l.numPoints = 0 →
        ∃ t1, drawZoneStep E aKeepout aMode t l c = some (t1, l, true) ∧ sameDocument t t1) := by
  obtain ⟨t0, l0, hm, hdoc, hinv, hn, _, _, _, _⟩ := zoneModeCheck_inv E (t.Wait c) l c hl
  have hdoc0 : sameDocument t t0 := sameDocument_trans (sameDocument_Wait t c) hdoc
  constructor
  · intro hpos
    have c2 : l0.numPoints > 0 := by rw [hn]; exact hpos
    obtain ⟨l2, hf, hp, hd2, _, hz, _⟩ :=
      zoneFreeItems_after_clear { l0 with zone := none } hinv.2.2
    simp only [drawZoneStep, hm, hc, if_true, c2, hf]
    exact ⟨_, _, rfl,
      sameDocument_trans hdoc0
        (sameDocument_trans (sameDocument_SetAutoPan _ _)
          (sameDocument_trans (sameDocument_CaptureCursor _ _) (sameDocument_viewCall _ _))),
      rfl, hz, hd2, hp⟩
  · intro hz
    have c2 : ¬ l0.numPoints > 0 := by rw [hn, hz]; exact Nat.lt_irrefl 0
    have hsame : zoneModeCheck E (t.Wait c) l c = some (t.Wait c, l) := by
      unfold zoneModeCheck
      have hd : l.direction45 = false := by
        cases hdd : l.direction45
        · rfl
        · exact absurd (hl.1 hdd) (by omega)
      simp [hd, hz]
    rw [hsame] at hm
    simp only [Option.some.injEq, Prod.mk.injEq] at hm
    have hz0 : ¬ l.numPoints > 0 := by rw [hz]; exact Nat.lt_irrefl 0
    simp only [drawZoneStep, hsame, hc, if_true, hz0, if_false]
    exact ⟨_, rfl, sameDocument_Wait t c⟩

/-! ## The first click of `PlaceText` -/

theorem newText_rejected (E : Collaborators) (t : DRAWING_TOOL) (evt : TOOL_EVENT)
    (hr : evt.textDialog = none ∨ evt.textDialog = some "") : newText E t evt = none := by
  unfold newText
  rcases hr with hr | hr <;> cases t.m_editModules <;> simp [hr] <;> rfl

theorem PlaceTextStep_noText_click (E : Collaborators) (t : DRAWING_TOOL) (l : TextLoop)
    (evt : TOOL_EVENT) (hk : evt.kind = .clickLeft) (hn : l.text = none) :
    PlaceTextStep E t l evt
      = match newText E (t.Wait evt) evt with
        | none => (t.Wait evt, l, false)
        | some text =>
          (((t.Wait evt).CaptureCursor true).SetAutoPan true,
            { l with text := some text, preview := l.preview.Add .text }, false) := by
  obtain ⟨h1, _, _, h4, h5, _, _, _⟩ := clickLeft_kind hk
  simp only [PlaceTextStep, h1, h4, h5, hn, Option.isSome_none, Bool.false_and,
    Bool.false_eq_true, if_false, if_true]

theorem newText_accepted (E : Collaborators) (t : DRAWING_TOOL) (evt : TOOL_EVENT)
    (x : BOARD_ITEM) (h : newText E t evt = some x) :
    ∃ s, evt.textDialog = some s ∧ s ≠ "" := by
  cases hd : evt.textDialog with
  | none => rw [newText_rejected E t evt (Or.inl hd)] at h; cases h
  | some s =>
    refine ⟨s, rfl, fun hs => ?_⟩
    rw [hs] at hd
    rw [newText_rejected E t evt (Or.inr hd)] at h
    cases h

theorem PlaceTextStep_commits (E : Collaborators) (t : DRAWING_TOOL) (l : TextLoop)
    (evt : TOOL_EVENT) :
    sameDocument t (PlaceTextStep E t l evt).1
      ∨ (∃ x, l.text = some x ∧ evt.kind = .clickLeft
          ∧ (PlaceTextStep E t l evt).1.commitCalls
              = t.commitCalls ++ [.Add (clearFlags x), .Push "Place a text"]) := by
  unfold PlaceTextStep
  dsimp only
  cases hx : l.text with
  | none =>
    left
    dsimp only
    split_ifs
    all_goals first
      | exact ⟨rfl, rfl, rfl, rfl⟩
      | (cases newText E (t.Wait evt) evt <;> exact ⟨rfl, rfl, rfl, rfl⟩)
  | some x =>
    dsimp only
    split_ifs with h1 h2 h3 h4 h5 h6
    all_goals first
      | (left; exact ⟨rfl, rfl, rfl, rfl⟩)
      | (right; exact ⟨x, rfl, by simpa [TOOL_EVENT.IsClickLeft] using h6,
          by simp [DRAWING_TOOL.commitAdd, DRAWING_TOOL.commitPush, DRAWING_TOOL.CaptureCursor,
            DRAWING_TOOL.SetAutoPan, DRAWING_TOOL.ShowCursor, DRAWING_TOOL.Wait]⟩)

/-! ## The corner count of the zone in progress is kept -/

theorem ZoneCorners_start (sourceZone : Option Nat) : ZoneCorners (ZoneLoop.start sourceZone) :=
  fun h => absurd h (Nat.lt_irrefl 0)

theorem ZoneCorners_of_zero (l : ZoneLoop) (h : l.numPoints = 0) : ZoneCorners l :=
  fun hp => absurd hp (by omega)

theorem zoneAddPoint_corners (aKeepout : Bool) (t : DRAWING_TOOL) (l : ZoneLoop)
    (evt : TOOL_EVENT) (t1 : DRAWING_TOOL) (l1 : ZoneLoop) (hl : ZoneCorners l)
    (h : zoneAddPoint aKeepout t l evt = some (t1, l1)) :
    ZoneCorners l1 ∧ sameDocument t t1 := by
  unfold zoneAddPoint at h
  by_cases hn : l.numPoints = 0
  · simp only [hn, if_true] at h
    split at h
    · cases h
    · simp only [Option.some.injEq, Prod.mk.injEq] at h
      rename_i t2 heq
      have hdoc : sameDocument t t2 := by
        revert heq
        cases l.sourceZone with
        | none =>
          intro heq
          simp only [createNewZone, Option.some.injEq] at heq
          split at heq
          · simp only [Prod.mk.injEq] at heq
            rw [← heq.1]; exact ⟨rfl, rfl, rfl, rfl⟩
          · simp only [Prod.mk.injEq] at heq
            rw [← heq.1]; exact ⟨rfl, rfl, rfl, rfl⟩
        | some idx =>
          intro heq
          dsimp only at heq
          split at heq
          · cases heq
          · simp only [Option.some.injEq, Prod.mk.injEq] at heq
            rw [← heq.1]; exact ⟨rfl, rfl, rfl, rfl⟩
      rw [← h.2, ← h.1]
      exact ⟨hl, hdoc⟩
    · simp only [Option.some.injEq, Prod.mk.injEq] at h
      rename_i t2 zone heq
      have hdoc : sameDocument t t2 := by
        revert heq
        cases l.sourceZone with
        | none =>
          intro heq
          simp only [createNewZone, Option.some.injEq] at heq
          split at heq
          · simp only [Prod.mk.injEq] at heq
            rw [← heq.1]; exact ⟨rfl, rfl, rfl, rfl⟩
          · simp only [Prod.mk.injEq] at heq
            rw [← heq.1]; exact ⟨rfl, rfl, rfl, rfl⟩
        | some idx =>
          intro heq
          dsimp only at heq
          split at heq
          · cases heq
          · simp only [Option.some.injEq, Prod.mk.injEq] at heq
            rw [← heq.1]; exact ⟨rfl, rfl, rfl, rfl⟩
      rw [← h.2, ← h.1]
      refine ⟨fun _ => ⟨zone.Start evt.cursor, rfl, ?_⟩, sameDocument_trans hdoc ⟨rfl, rfl, rfl, rfl⟩⟩
      simp [ZONE_CONTAINER.GetNumCorners, ZONE_CONTAINER.Start, hn]
  · simp only [hn, if_false] at h
    obtain ⟨z, hz, hc⟩ := hl (by omega)
    split at h
    · simp only [Option.some.injEq, Prod.mk.injEq] at h
      rename_i zone helperLine hzone hhelper
      rw [hz] at hzone
      simp only [Option.some.injEq] at hzone
      rw [← h.2, ← h.1]
      refine ⟨fun _ => ⟨zone.AppendCorner helperLine.GetEnd, rfl, ?_⟩, ⟨rfl, rfl, rfl, rfl⟩⟩
      rw [← hzone]
      simp [ZONE_CONTAINER.GetNumCorners, ZONE_CONTAINER.AppendCorner] at hc ⊢
      exact hc
    · cases h

theorem drawZoneStep_corners (E : Collaborators) (aKeepout : Bool) (aMode : ZONE_MODE)
    (t : DRAWING_TOOL) (l : ZoneLoop) (evt : TOOL_EVENT) (t1 : DRAWING_TOOL) (l1 : ZoneLoop)
    (b : Bool) (hl : ZoneInv l) (hcor : ZoneCorners l)
    (h : drawZoneStep E aKeepout aMode t l evt = some (t1, l1, b)) :
    ZoneCorners l1 ∧ (sameDocument t t1 ∨ (zoneCloses l evt = true ∧ 2 < l.numPoints)) := by
  obtain ⟨t0, l0, hm, hdoc, hinv, hn, hz, _, ho, _⟩ := zoneModeCheck_inv E (t.Wait evt) l evt hl
  have hdoc0 : sameDocument t t0 := sameDocument_trans (sameDocument_Wait t evt) hdoc
  have hcor0 : ZoneCorners l0 := by
    intro hp
    rw [hn] at hp
    obtain ⟨z, h1, h2⟩ := hcor hp
    exact ⟨z, by rw [hz]; exact h1, by rw [hn]; exact h2⟩
  by_cases c1 : IsCancelInteractive evt = true
  · simp only [drawZoneStep, hm, c1, if_true] at h
    by_cases c2 : l0.numPoints > 0
    · simp only [c2, if_true] at h
      obtain ⟨l2, hf, _, _, _, _, _⟩ :=
        zoneFreeItems_after_clear { l0 with zone := none } hinv.2.2
      simp only [hf] at h
      simp only [Option.some.injEq, Prod.mk.injEq] at h
      rw [← h.2.1, ← h.1]
      exact ⟨ZoneCorners_of_zero _ rfl, Or.inl (sameDocument_trans hdoc0 ⟨rfl, rfl, rfl, rfl⟩)⟩
    · simp only [c2, if_false] at h
      simp only [Option.some.injEq, Prod.mk.injEq] at h
      rw [← h.2.1, ← h.1]
      exact ⟨hcor0, Or.inl hdoc0⟩
  · by_cases c3 : evt.IsClickRight = true
    · simp only [drawZoneStep, hm, c1, c3, if_true, if_false, Bool.false_eq_true] at h
      simp only [Option.some.injEq, Prod.mk.injEq] at h
      rw [← h.2.1, ← h.1]
      exact ⟨hcor0, Or.inl hdoc0⟩
    · by_cases c4 : (evt.IsClickLeft || evt.IsDblClickLeft) = true
      · by_cases c5 : (evt.IsDblClickLeft
            || (decide (l0.numPoints > 0) && decide (evt.cursor = l0.origin))) = true
        · simp only [drawZoneStep, hm, c1, c3, c4, c5, if_true, if_false, Bool.false_eq_true] at h
          have hcl : zoneCloses l evt = true := by
            unfold zoneCloses
            rw [c4, ← hn, ← ho, c5]
            rfl
          cases hc : zoneClose E aKeepout aMode t0 l0 evt.cursor with
          | none => rw [hc] at h; cases h
          | some r =>
            rw [hc] at h
            simp only [Option.some.injEq, Prod.mk.injEq] at h
            rw [← h.2.1, ← h.1]
            have hzero : r.2.numPoints = 0 := by
              unfold zoneClose at hc
              obtain ⟨l2, hf, _, _, hn2, _, _⟩ :=
                zoneFreeItems_after_clear { l0 with zone := none, numPoints := 0 } hinv.2.2
              split at hc
              · cases hc
              · simp only [hf, Option.some.injEq] at hc
                rw [← hc]
                exact hn2
            refine ⟨ZoneCorners_of_zero _ hzero, ?_⟩
            by_cases hfew : l0.numPoints ≤ 2
            · left
              obtain ⟨t2, l2, hc2, hd2, _⟩ :=
                zoneClose_few E aKeepout aMode t0 l0 evt.cursor hfew hinv.2.2
              rw [hc2] at hc
              simp only [Option.some.injEq] at hc
              rw [← hc]
              exact sameDocument_trans hdoc0 hd2
            · right
              exact ⟨hcl, by rw [← hn]; omega⟩
        · simp only [drawZoneStep, hm, c1, c3, c4, c5, if_true, if_false, Bool.false_eq_true] at h
          cases hc : zoneAddPoint aKeepout t0 l0 evt with
          | none => rw [hc] at h; cases h
          | some r =>
            rw [hc] at h
            simp only [Option.some.injEq, Prod.mk.injEq] at h
            rw [← h.2.1, ← h.1]
            obtain ⟨a1, a2⟩ := zoneAddPoint_corners aKeepout t0 l0 evt r.1 r.2 hcor0 hc
            exact ⟨a1, Or.inl (sameDocument_trans hdoc0 a2)⟩
      · by_cases c6 : (evt.IsMotion && decide (l0.numPoints > 0)) = true
        · simp only [drawZoneStep, hm, c1, c3, c4, c6, if_true, if_false, Bool.false_eq_true] at h
          cases hh : l0.helperLine with
          | none => rw [hh] at h; cases h
          | some helper =>
            rw [hh] at h
            simp only at h
            by_cases c7 : l0.direction45 = true
            · simp only [c7, if_true] at h
              simp only [Option.some.injEq, Prod.mk.injEq] at h
              rw [← h.2.1, ← h.1]
              exact ⟨hcor0, Or.inl (sameDocument_trans hdoc0 ⟨rfl, rfl, rfl, rfl⟩)⟩
            · simp only [c7, if_false, Bool.false_eq_true] at h
              simp only [Option.some.injEq, Prod.mk.injEq] at h
              rw [← h.2.1, ← h.1]
              exact ⟨hcor0, Or.inl (sameDocument_trans hdoc0 ⟨rfl, rfl, rfl, rfl⟩)⟩
        · simp only [drawZoneStep, hm, c1, c3, c4, c6, if_false, Bool.false_eq_true] at h
          simp only [Option.some.injEq, Prod.mk.injEq] at h
          rw [← h.2.1, ← h.1]
          exact ⟨hcor0, Or.inl hdoc0⟩

theorem drawZoneLoop_corners (E : Collaborators) (aKeepout : Bool) (aMode : ZONE_MODE)
    (evs : List TOOL_EVENT) : ∀ (t : DRAWING_TOOL) (l : ZoneLoop) (t1 : DRAWING_TOOL)
    (l1 : ZoneLoop), ZoneInv l → ZoneCorners l →
    drawZoneLoop E aKeepout aMode t l evs = some (t1, l1) → ZoneInv l1 ∧ ZoneCorners l1 := by
  induction evs with
  | nil =>
    intro t l t1 l1 hl hc h
    simp only [drawZoneLoop, Option.some.injEq, Prod.mk.injEq] at h
    rw [← h.2]
    exact ⟨hl, hc⟩
  | cons evt rest ih =>
    intro t l t1 l1 hl hc h
    unfold drawZoneLoop at h
    cases hs : drawZoneStep E aKeepout aMode t l evt with
    | none => rw [hs] at h; cases h
    | some r =>
      obtain ⟨t2, l2, b⟩ := r
      have hl2 := drawZoneStep_inv E aKeepout aMode t l evt t2 l2 b hl hs
      have hc2 := (drawZoneStep_corners E aKeepout aMode t l evt t2 l2 b hl hc hs).1
      rw [hs] at h
      cases b with
      | true =>
        simp only [Option.some.injEq, Prod.mk.injEq] at h
        rw [← h.2]
        exact ⟨hl2, hc2⟩
      | false => exact ih t2 l2 t1 l1 hl2 hc2 h

/-! ## The invariant of the dimension loop is kept -/

theorem DimensionInv_start : DimensionInv DimensionLoop.start :=
  ⟨by decide, fun h => absurd rfl h, fun h => by cases h⟩

theorem DimensionInv_origin (l : DimensionLoop) (h : l.step = DIM_SET_ORIGIN) :
    DimensionInv l :=
  ⟨by rw [h]; decide, fun hn => absurd h hn, fun hh => by rw [h] at hh; cases hh⟩

theorem DimensionInv_update (l : DimensionLoop) (d d1 : DIMENSION) (hl : DimensionInv l)
    (hd : l.dimension = some d) (ho : d1.GetOrigin = d.GetOrigin) (he : d1.GetEnd = d.GetEnd) :
    DimensionInv { l with dimension := some d1 } := by
  refine ⟨hl.1, fun _ => rfl, fun hs => ⟨d1, rfl, ?_⟩⟩
  obtain ⟨d2, h2, hne⟩ := hl.2.2 hs
  rw [hd] at h2
  cases h2
  rw [ho, he]
  exact hne

theorem motion_kind_width {evt : TOOL_EVENT} (h : evt.kind = .motion) :
    evt.IsAction .incWidth = false ∧ evt.IsAction .decWidth = false := by
  simp [TOOL_EVENT.IsAction, h]

theorem DrawDimensionStep_inv (E : Collaborators) (T : Trig)
    (t : DRAWING_TOOL) (l : DimensionLoop) (evt : TOOL_EVENT) (hl : DimensionInv l) :
    ∃ t1 l1 b, DrawDimensionStep E T t l evt = some (t1, l1, b) ∧ DimensionInv l1
      ∧ (sameDocument t t1
          ∨ ∃ d, l.step = DIM_SET_HEIGHT ∧ l.dimension = some d ∧ evt.kind = .clickLeft
              ∧ evt.cursor ≠ E.GetPosition d
              ∧ t1.commitCalls
                  = t.commitCalls ++ [.Add (.dimension d), .Push "Draw a dimension"]) := by
  have e01 : DIM_SET_ORIGIN ≠ DIM_SET_END := by decide
  have e02 : DIM_SET_ORIGIN ≠ DIM_SET_HEIGHT := by decide
  have e10 : DIM_SET_END ≠ DIM_SET_ORIGIN := by decide
  have e12 : DIM_SET_END ≠ DIM_SET_HEIGHT := by decide
  have e20 : DIM_SET_HEIGHT ≠ DIM_SET_ORIGIN := by decide
  have e21 : DIM_SET_HEIGHT ≠ DIM_SET_END := by decide
  have hsteps : l.step = DIM_SET_ORIGIN ∨ l.step = DIM_SET_END ∨ l.step = DIM_SET_HEIGHT := by
    have h := hl.1
    have h2 : DIM_SET_HEIGHT = 2 := rfl
    have h1 : DIM_SET_END = 1 := rfl
    have h0 : DIM_SET_ORIGIN = 0 := rfl
    omega
  have hdoc0 : sameDocument t (t.Wait evt) := sameDocument_Wait t evt
  by_cases c1 : IsCancelInteractive evt = true
  · simp only [DrawDimensionStep, c1, if_true]
    by_cases c2 : l.step = DIM_SET_ORIGIN
    · simp only [c2, ne_eq, not_true_eq_false, if_false]
      exact ⟨_, _, _, rfl, hl, Or.inl hdoc0⟩
    · simp only [c2, ne_eq, not_false_eq_true, if_true]
      exact ⟨_, _, _, rfl, DimensionInv_origin _ rfl, Or.inl hdoc0⟩
  · by_cases c3 : (evt.IsAction .incWidth && decide (l.step ≠ DIM_SET_ORIGIN)) = true
    · have hso : l.step ≠ DIM_SET_ORIGIN := by
        simp only [Bool.and_eq_true, decide_eq_true_eq] at c3; exact c3.2
      obtain ⟨d, hd⟩ := Option.isSome_iff_exists.mp (hl.2.1 hso)
      simp only [DrawDimensionStep, c1, c3, hd, if_true, if_false, Bool.false_eq_true]
      exact ⟨_, _, _, rfl, DimensionInv_update l d _ hl hd rfl rfl,
        Or.inl (sameDocument_trans hdoc0
          (sameDocument_trans (sameDocument_incLineWidth _) (sameDocument_viewCall _ _)))⟩
    · by_cases c4 : (evt.IsAction .decWidth && decide (l.step ≠ DIM_SET_ORIGIN)) = true
      · have hso : l.step ≠ DIM_SET_ORIGIN := by
          simp only [Bool.and_eq_true, decide_eq_true_eq] at c4; exact c4.2
        obtain ⟨d, hd⟩ := Option.isSome_iff_exists.mp (hl.2.1 hso)
        simp only [DrawDimensionStep, c1, c3, c4, hd, if_true, if_false, Bool.false_eq_true]
        by_cases c5 : (t.Wait evt).m_lineWidth > WIDTH_STEP
        · rw [if_pos c5]
          exact ⟨_, _, _, rfl, DimensionInv_update l d _ hl hd rfl rfl,
            Or.inl (sameDocument_trans hdoc0
              (sameDocument_trans (sameDocument_decLineWidth _) (sameDocument_viewCall _ _)))⟩
        · rw [if_neg c5]
          exact ⟨_, _, _, rfl, hl, Or.inl hdoc0⟩
      · by_cases c6 : evt.IsClickRight = true
        · simp only [DrawDimensionStep, c1, c3, c4, c6, if_true, if_false, Bool.false_eq_true]
          exact ⟨_, _, _, rfl, hl, Or.inl hdoc0⟩
        · by_cases c7 : evt.IsClickLeft = true
          · have hk : evt.kind = .clickLeft := by
              simpa [TOOL_EVENT.IsClickLeft] using c7
            obtain ⟨k1, k2, k3, k4, k5, _⟩ := clickLeft_kind hk
            rcases hsteps with hs | hs | hs
            · simp only [DrawDimensionStep, dimensionClick, k1, k2, k3, k4, k5, hs, if_true,
                if_false, Bool.false_eq_true, Bool.false_and]
              have hfin : ¬ (DIM_SET_ORIGIN + 1 = DIM_FINISHED) := by decide
              simp only [hfin, if_false]
              have le1 : DIM_SET_ORIGIN + 1 ≤ DIM_SET_HEIGHT := by decide
              have ne1 : DIM_SET_ORIGIN + 1 ≠ DIM_SET_HEIGHT := by decide
              refine ⟨_, _, _, rfl, ⟨le1, fun _ => rfl, fun h => ?_⟩, Or.inl ?_⟩
              · exact absurd h ne1
              · exact sameDocument_trans hdoc0
                  (sameDocument_trans (sameDocument_getDrawingLayer _)
                    (sameDocument_trans (sameDocument_SetAutoPan _ _)
                      (sameDocument_CaptureCursor _ _)))
            · obtain ⟨d, hd⟩ := Option.isSome_iff_exists.mp (hl.2.1 (by rw [hs]; exact e10))
              simp only [DrawDimensionStep, dimensionClick, k1, k2, k3, k4, k5, hs, hd, e10,
                if_true, if_false, Bool.false_eq_true, Bool.false_and]
              by_cases c8 : (d.SetEnd evt.cursor).GetOrigin = (d.SetEnd evt.cursor).GetEnd
              · simp only [c8, if_true]
                have hfin : ¬ (DIM_SET_END - 1 + 1 = DIM_FINISHED) := by decide
                simp only [hfin, if_false]
                have le1 : DIM_SET_END - 1 + 1 ≤ DIM_SET_HEIGHT := by decide
                have ne1 : DIM_SET_END - 1 + 1 ≠ DIM_SET_HEIGHT := by decide
                refine ⟨_, _, _, rfl, ⟨le1, fun _ => rfl, fun h => ?_⟩, Or.inl hdoc0⟩
                exact absurd h ne1
              · simp only [c8, if_false]
                have hfin : ¬ (DIM_SET_END + 1 = DIM_FINISHED) := by decide
                simp only [hfin, if_false]
                have le1 : DIM_SET_END + 1 ≤ DIM_SET_HEIGHT := by decide
                exact ⟨_, _, _, rfl,
                  ⟨le1, fun _ => rfl, fun _ => ⟨d.SetEnd evt.cursor, rfl, c8⟩⟩, Or.inl hdoc0⟩
            · obtain ⟨d, hd, _⟩ := hl.2.2 hs
              have hstep := DrawDimensionStep_heightClick E T t l d evt hs hd hk
              by_cases c9 : evt.cursor ≠ E.GetPosition d
              · rw [if_pos c9] at hstep
                refine ⟨_, _, _, hstep, DimensionInv_origin _ rfl, Or.inr ⟨d, hs, hd, hk, c9, ?_⟩⟩
                simp [DRAWING_TOOL.commitAdd, DRAWING_TOOL.commitPush, DRAWING_TOOL.SetAutoPan,
                  DRAWING_TOOL.CaptureCursor, DRAWING_TOOL.Wait]
              · rw [if_neg c9] at hstep
                exact ⟨_, _, _, hstep, DimensionInv_origin _ rfl,
                  Or.inl (sameDocument_trans hdoc0 ⟨rfl, rfl, rfl, rfl⟩)⟩
          · by_cases c10 : evt.IsMotion = true
            · have hkm : evt.kind = .motion := by
                simpa [TOOL_EVENT.IsMotion] using c10
              obtain ⟨m1, _, m3, m4, _, m6⟩ := motion_kind hkm
              obtain ⟨m7, m8⟩ := motion_kind_width hkm
              rcases hsteps with hs | hs | hs
              · simp only [DrawDimensionStep, m1, m3, m4, m6, m7, m8, hs, e01, e02, if_true,
                  if_false, Bool.false_eq_true, Bool.false_and]
                exact ⟨_, _, _, rfl, hl, Or.inl (sameDocument_trans hdoc0 (sameDocument_viewCall _ _))⟩
              · obtain ⟨d, hd⟩ := Option.isSome_iff_exists.mp (hl.2.1 (by rw [hs]; exact e10))
                simp only [DrawDimensionStep, m1, m3, m4, m6, m7, m8, hs, hd, if_true,
                  if_false, Bool.false_eq_true, Bool.false_and]
                have le1 : DIM_SET_END ≤ DIM_SET_HEIGHT := by decide
                refine ⟨_, _, _, rfl, ⟨le1, fun _ => rfl, fun h => ?_⟩,
                  Or.inl (sameDocument_trans hdoc0 (sameDocument_viewCall _ _))⟩
                exact absurd h e12
              · obtain ⟨d, hd, hne⟩ := hl.2.2 hs
                simp only [DrawDimensionStep, m1, m3, m4, m6, m7, m8, hs, hd, e20, e21, if_true,
                  if_false, Bool.false_eq_true, Bool.false_and]
                exact ⟨_, _, _, rfl, ⟨le_refl _, fun _ => rfl, fun _ => ⟨_, rfl, hne⟩⟩,
                  Or.inl (sameDocument_trans hdoc0 (sameDocument_viewCall _ _))⟩
            · simp only [DrawDimensionStep, c1, c3, c4, c6, c7, c10, if_false, Bool.false_eq_true]
              exact ⟨_, _, _, rfl, hl, Or.inl hdoc0⟩

theorem DrawDimensionStep_endClick (E : Collaborators) (T : Trig)
    (t : DRAWING_TOOL) (l : DimensionLoop) (d : DIMENSION) (evt : TOOL_EVENT)
    (hs : l.step = DIM_SET_END) (hd : l.dimension = some d) (hk : evt.kind = .clickLeft) :
    DrawDimensionStep E T t l evt
      = some (t.Wait evt,
          { l with dimension := some (d.SetEnd evt.cursor),
                   step := if d.GetOrigin = evt.cursor then DIM_SET_END else DIM_SET_HEIGHT },
          false) := by
  obtain ⟨k1, k2, k3, k4, k5, _⟩ := clickLeft_kind hk
  have e10 : DIM_SET_END ≠ DIM_SET_ORIGIN := by decide
  have hfin1 : ¬ (DIM_SET_END - 1 + 1 = DIM_FINISHED) := by decide
  have hfin2 : ¬ (DIM_SET_END + 1 = DIM_FINISHED) := by decide
  simp only [DrawDimensionStep, dimensionClick, k1, k2, k3, k4, k5, hs, hd, e10,
    if_true, if_false, Bool.false_eq_true, Bool.false_and]
  by_cases c8 : d.GetOrigin = evt.cursor
  · have c8a : (d.SetEnd evt.cursor).GetOrigin = (d.SetEnd evt.cursor).GetEnd := c8
    simp only [c8a, c8, if_true, hfin1, if_false]
    rfl
  · have c8a : ¬ (d.SetEnd evt.cursor).GetOrigin = (d.SetEnd evt.cursor).GetEnd := c8
    simp only [c8a, c8, if_false, hfin2]
    rfl

theorem DrawDimensionLoop_inv (E : Collaborators) (T : Trig)
    (evs : List TOOL_EVENT) : ∀ (t : DRAWING_TOOL) (l : DimensionLoop), DimensionInv l →
    ∃ t1 l1, DrawDimensionLoop E T t l evs = some (t1, l1) ∧ DimensionInv l1
      ∧ ((∀ d, COMMIT_CALL.Add (.dimension d) ∈ t.commitCalls → d.GetOrigin ≠ d.GetEnd) →
          ∀ d, COMMIT_CALL.Add (.dimension d) ∈ t1.commitCalls → d.GetOrigin ≠ d.GetEnd) := by
  induction evs with
  | nil => intro t l hl; exact ⟨t, l, rfl, hl, fun h => h⟩
  | cons evt rest ih =>
    intro t l hl
    obtain ⟨t2, l2, b, hstep, hl2, hdoc⟩ := DrawDimensionStep_inv E T t l evt hl
    have hcalls : (∀ d, COMMIT_CALL.Add (.dimension d) ∈ t.commitCalls → d.GetOrigin ≠ d.GetEnd) →
        ∀ d, COMMIT_CALL.Add (.dimension d) ∈ t2.commitCalls → d.GetOrigin ≠ d.GetEnd := by
      intro h0 d hmem
      rcases hdoc with hdoc | ⟨d1, hs, hd1, _, _, hc⟩
      · rw [hdoc.1] at hmem; exact h0 d hmem
      · rw [hc] at hmem
        simp only [List.mem_append, List.mem_cons, COMMIT_CALL.Add.injEq,
          BOARD_ITEM.dimension.injEq, List.mem_singleton, reduceCtorEq, or_false,
          List.not_mem_nil] at hmem
        rcases hmem with hmem | hmem
        · exact h0 d hmem
        · obtain ⟨d2, hd2, hne⟩ := hl.2.2 hs
          rw [hd1] at hd2
          cases hd2
          rw [hmem]
          exact hne
    unfold DrawDimensionLoop
    rw [hstep]
    cases b with
    | true => exact ⟨t2, l2, rfl, hl2, hcalls⟩
    | false =>
      obtain ⟨t1, l1, hrun, hl1, hc1⟩ := ih t2 l2 hl2
      exact ⟨t1, l1, hrun, hl1, fun h0 => hc1 (hcalls h0)⟩

theorem DrawDimension_commits (E : Collaborators) (T : Trig)
    (t : DRAWING_TOOL) (evs : List TOOL_EVENT) :
    ∃ t1 l1, DrawDimension E T t evs = some (t1, l1)
      ∧ ((∀ d, COMMIT_CALL.Add (.dimension d) ∈ t.commitCalls → d.GetOrigin ≠ d.GetEnd) →
          ∀ d, COMMIT_CALL.Add (.dimension d) ∈ t1.commitCalls → d.GetOrigin ≠ d.GetEnd) := by
  have hdoc : sameDocument t t.enterLoop.getDrawingLayer.1 :=
    sameDocument_trans (sameDocument_enterLoop t) (sameDocument_getDrawingLayer _)
  obtain ⟨t1, l1, hrun, _, hc⟩ := DrawDimensionLoop_inv E T evs
    { t.enterLoop.getDrawingLayer.1 with
      m_lineWidth := toUInt32
        (t.enterLoop.getDrawingLayer.1.getSegmentWidth t.enterLoop.getDrawingLayer.2) }
    DimensionLoop.start DimensionInv_start
  have hrun1 : DrawDimensionLoop E T
      { t.enterLoop.getDrawingLayer.1 with
        m_lineWidth := toUInt32
          (t.enterLoop.getDrawingLayer.1.getSegmentWidth t.enterLoop.getDrawingLayer.2) }
      { dimension := none, allocated := 0, preview := [], step := DIM_SET_ORIGIN,
        maxThickness := 0 } evs = some (t1, l1) := hrun
  simp only [DrawDimension, hrun1]
  refine ⟨_, _, rfl, fun h0 d hmem => ?_⟩
  have hl : t1.leaveLoop.commitCalls = t1.commitCalls := (sameDocument_leaveLoop t1).1
  rw [hl] at hmem
  refine hc (fun d1 hm1 => h0 d1 ?_) d hmem
  have : t.enterLoop.getDrawingLayer.1.commitCalls = t.commitCalls := hdoc.1
  rw [← this]
  exact hm1

/-! ## The preview group when `drawSegment` or `drawArc` is left -/

theorem drawSegmentStep_break_preview (E : Collaborators) (aShape : STROKE_T) (t : DRAWING_TOOL)
    (l : SegmentLoop) (evt : TOOL_EVENT) (h : (drawSegmentStep E aShape t l evt).2.2 = true) :
    (drawSegmentStep E aShape t l evt).2.1.preview = [] := by
  rcases hm : segmentModeCheck E aShape (t.Wait evt) l evt with ⟨t1, l1⟩
  simp only [drawSegmentStep, hm] at h ⊢
  split_ifs at h ⊢
  all_goals rfl

theorem drawSegment_break_preview (E : Collaborators) (aShape : STROKE_T) (t : DRAWING_TOOL)
    (aGraphic : DRAWSEGMENT) (sp : Option Point) (pre : List TOOL_EVENT) (last : TOOL_EVENT)
    (rest : List TOOL_EVENT)
    (hpre : segmentGoesOn E aShape (segmentEntry aShape t aGraphic sp).1
      (segmentEntry aShape t aGraphic sp).2 pre = true)
    (hlast : (drawSegmentStep E aShape
      (segmentAfter E aShape (segmentEntry aShape t aGraphic sp).1
        (segmentEntry aShape t aGraphic sp).2 pre).1
      (segmentAfter E aShape (segmentEntry aShape t aGraphic sp).1
        (segmentEntry aShape t aGraphic sp).2 pre).2 last).2.2 = true) :
    (drawSegment E aShape t aGraphic sp (pre ++ last :: rest)).preview = [] := by
  rw [drawSegment_eq]
  simp only
  rw [(drawSegmentLoop_append E aShape pre _ _ (last :: rest) hpre).1]
  have hp := drawSegmentStep_break_preview E aShape _ _ last hlast
  rcases hs : drawSegmentStep E aShape
      (segmentAfter E aShape (segmentEntry aShape t aGraphic sp).1
        (segmentEntry aShape t aGraphic sp).2 pre).1
      (segmentAfter E aShape (segmentEntry aShape t aGraphic sp).1
        (segmentEntry aShape t aGraphic sp).2 pre).2 last with ⟨t1, l1, b⟩
  rw [hs] at hlast hp
  simp only at hlast hp
  subst hlast
  simp only [drawSegmentLoop, hs]
  exact hp

theorem ArcPreviewInv_remove (s : SELECTION) (h : ∀ i ∈ s, i = PREVIEW_ITEM.aGraphic
    ∨ i = PREVIEW_ITEM.helperLine 0) :
    (s.Remove .aGraphic).Remove (.helperLine 0) = [] := by
  apply List.eq_nil_iff_forall_not_mem.mpr
  intro i hi
  rw [mem_SELECTION_Remove, mem_SELECTION_Remove] at hi
  rcases h i hi.1.1 with h1 | h1
  · exact hi.1.2 h1
  · exact hi.2 h1

theorem drawArcStep_preview (E : Collaborators) (t : DRAWING_TOOL) (l : ArcLoop)
    (evt : TOOL_EVENT) (hl : ArcPreviewInv l) :
    ArcPreviewInv (drawArcStep E t l evt).2.1
      ∧ ((drawArcStep E t l evt).2.2 = true → (drawArcStep E t l evt).2.1.preview = []) := by
  have a01 : ARC_SET_ORIGIN ≠ ARC_SET_END := by decide
  have a02 : ARC_SET_ORIGIN ≠ ARC_SET_ANGLE := by decide
  have a12 : ARC_SET_END ≠ ARC_SET_ANGLE := by decide
  have a10 : ARC_SET_END ≠ ARC_SET_ORIGIN := by decide
  have a20 : ARC_SET_ANGLE ≠ ARC_SET_ORIGIN := by decide
  have a21 : ARC_SET_ANGLE ≠ ARC_SET_END := by decide
  have f0 : ¬ ((ARC_SET_ORIGIN + 1 == ARC_FINISHED) = true) := by decide
  have f1 : ¬ ((ARC_SET_END + 1 == ARC_FINISHED) = true) := by decide
  have f1m : ¬ ((ARC_SET_END - 1 + 1 == ARC_FINISHED) = true) := by decide
  have f2m : ¬ ((ARC_SET_ANGLE - 1 + 1 == ARC_FINISHED) = true) := by decide
  by_cases c1 : IsCancelInteractive evt = true
  · simp only [drawArcStep, c1, if_true]
    exact ⟨fun i hi => (by cases hi), fun _ => rfl⟩
  · by_cases c2 : evt.IsClickRight = true
    · simp only [drawArcStep, c1, c2, if_true, if_false, Bool.false_eq_true]
      exact ⟨hl, fun h => (by cases h)⟩
    · by_cases c3 : evt.IsClickLeft = true
      · simp only [drawArcStep, c1, c2, c3, if_true, if_false, Bool.false_eq_true]
        by_cases s0 : l.step = ARC_SET_ORIGIN
        · simp only [s0, if_true]
          refine ⟨fun i hi => ?_, fun h => ?_⟩
          · rw [mem_SELECTION_Add, mem_SELECTION_Add] at hi
            rcases hi with hi | hi | hi
            · exact Or.inr hi
            · exact Or.inl hi
            · exact hl i hi
          · exact absurd h f0
        · by_cases s1 : l.step = ARC_SET_END
          · simp only [s1, a10, if_true, if_false]
            split_ifs
            · exact ⟨hl, fun h => absurd h f1⟩
            · exact ⟨hl, fun h => absurd h f1m⟩
          · by_cases s2 : l.step = ARC_SET_ANGLE
            · simp only [s2, a20, a21, if_true, if_false]
              split_ifs
              · refine ⟨fun i hi => ?_, fun _ => ?_⟩
                · rw [show ((l.preview.Remove .aGraphic).Remove (.helperLine 0)) = []
                    from ArcPreviewInv_remove l.preview hl] at hi
                  cases hi
                · exact ArcPreviewInv_remove l.preview hl
              · exact ⟨hl, fun h => absurd h f2m⟩
            · simp only [s0, s1, s2, if_false]
              refine ⟨hl, fun h => ?_⟩
              simp only [beq_iff_eq] at h
              have h3 : ARC_FINISHED = 3 := rfl
              have h2 : ARC_SET_ANGLE = 2 := rfl
              omega
      · simp only [drawArcStep, c1, c2, c3, if_false, Bool.false_eq_true]
        split_ifs
        all_goals first
          | exact ⟨hl, fun h => (by cases h)⟩

theorem arcAfter_preview (E : Collaborators) (pre : List TOOL_EVENT) :
    ∀ (t : DRAWING_TOOL) (l : ArcLoop), ArcPreviewInv l → ArcPreviewInv (arcAfter E t l pre).2 := by
  induction pre with
  | nil => intro t l hl; exact hl
  | cons evt rest ih =>
    intro t l hl
    unfold arcAfter
    exact ih _ _ (drawArcStep_preview E t l evt hl).1

theorem drawArcLoop_append (E : Collaborators) (pre : List TOOL_EVENT) :
    ∀ (t : DRAWING_TOOL) (l : ArcLoop) (evs : List TOOL_EVENT),
      arcGoesOn E t l pre = true →
      drawArcLoop E t l (pre ++ evs)
        = drawArcLoop E (arcAfter E t l pre).1 (arcAfter E t l pre).2 evs := by
  induction pre with
  | nil => intro t l evs _; rfl
  | cons e es ih =>
    intro t l evs h
    simp only [arcGoesOn, Bool.and_eq_true, Bool.not_eq_true'] at h
    obtain ⟨h1, h2⟩ := h
    rw [arcAfter, ← ih _ _ evs h2]
    rcases hstep : drawArcStep E t l e with ⟨ta, la, b⟩
    rw [hstep] at h1
    simp only at h1
    subst h1
    simp only [List.cons_append, drawArcLoop, hstep]
    rfl

theorem drawArc_break_preview (E : Collaborators) (t : DRAWING_TOOL) (aGraphic : DRAWSEGMENT)
    (pre : List TOOL_EVENT) (last : TOOL_EVENT) (rest : List TOOL_EVENT)
    (hpre : arcGoesOn E t.enterLoop (arcEntry aGraphic) pre = true)
    (hlast : (drawArcStep E (arcAfter E t.enterLoop (arcEntry aGraphic) pre).1
      (arcAfter E t.enterLoop (arcEntry aGraphic) pre).2 last).2.2 = true) :
    (drawArc E t aGraphic (pre ++ last :: rest)).preview = [] := by
  have heq : (drawArc E t aGraphic (pre ++ last :: rest)).preview
      = (drawArcLoop E t.enterLoop (arcEntry aGraphic) (pre ++ last :: rest)).2.1.preview := rfl
  rw [heq, drawArcLoop_append E pre _ _ (last :: rest) hpre]
  have hinv : ArcPreviewInv (arcAfter E t.enterLoop (arcEntry aGraphic) pre).2 :=
    arcAfter_preview E pre _ _ (fun i hi => by cases hi)
  have hp := (drawArcStep_preview E _ _ last hinv).2 hlast
  rcases hs : drawArcStep E (arcAfter E t.enterLoop (arcEntry aGraphic) pre).1
      (arcAfter E t.enterLoop (arcEntry aGraphic) pre).2 last with ⟨t1, l1, b⟩
  rw [hs] at hlast hp
  simp only at hlast hp
  subst hlast
  simp only [drawArcLoop, hs]
  exact hp

/-! ## The preview group of `PlaceText` and of `PlaceDXF` -/

theorem TextPreviewInv_remove (s : SELECTION) (h : ∀ i ∈ s, i = PREVIEW_ITEM.text) :
    s.Remove .text = [] := by
  apply List.eq_nil_iff_forall_not_mem.mpr
  intro i hi
  rw [mem_SELECTION_Remove] at hi
  exact hi.2 (h i hi.1)

theorem PlaceTextStep_preview (E : Collaborators) (t : DRAWING_TOOL) (l : TextLoop)
    (evt : TOOL_EVENT) (hl : TextPreviewInv l) :
    TextPreviewInv (PlaceTextStep E t l evt).2.1
      ∧ ((PlaceTextStep E t l evt).2.2 = true → (PlaceTextStep E t l evt).2.1.text = none) := by
  have hempty : TextPreviewInv { text := none, preview := [] } :=
    ⟨fun _ => rfl, fun i hi => (by cases hi)⟩
  cases hx : l.text with
  | none =>
    have hp : l.preview = [] := hl.1 hx
    have hl0 : l = { text := none, preview := [] } := by
      cases l; simp only at hx hp; rw [hx, hp]
    subst hl0
    unfold PlaceTextStep
    dsimp only
    split_ifs
    all_goals first
      | exact ⟨hempty, fun _ => rfl⟩
      | (cases hn : newText E (t.Wait evt) evt with
          | none => exact ⟨hempty, fun _ => rfl⟩
          | some x =>
            refine ⟨⟨fun h => (by cases h), fun i hi => ?_⟩, fun h => (by cases h)⟩
            rw [mem_SELECTION_Add] at hi
            rcases hi with hi | hi
            · exact hi
            · cases hi)
  | some x =>
    have hsome : ∀ (y : BOARD_ITEM), TextPreviewInv { text := some y, preview := l.preview } :=
      fun y => ⟨fun h => (by cases h), hl.2⟩
    unfold PlaceTextStep
    dsimp only
    rw [hx]
    dsimp only
    split_ifs
    all_goals first
      | exact ⟨hempty, fun _ => rfl⟩
      | exact ⟨hsome _, fun h => (by cases h)⟩
      | exact ⟨hl, fun h => (by cases h)⟩
      | (refine ⟨⟨fun _ => TextPreviewInv_remove l.preview hl.2, fun i hi => ?_⟩, fun _ => rfl⟩
         rw [TextPreviewInv_remove l.preview hl.2] at hi
         cases hi)

theorem PlaceTextLoop_preview (E : Collaborators) (evs : List TOOL_EVENT) :
    ∀ (t : DRAWING_TOOL) (l : TextLoop), TextPreviewInv l →
      TextPreviewInv (PlaceTextLoop E t l evs).2 := by
  induction evs with
  | nil => intro t l hl; exact hl
  | cons evt rest ih =>
    intro t l hl
    have hstep := (PlaceTextStep_preview E t l evt hl).1
    unfold PlaceTextLoop
    rcases hs : PlaceTextStep E t l evt with ⟨t1, l1, b⟩
    rw [hs] at hstep
    cases b with
    | true => exact hstep
    | false => exact ih t1 l1 hstep

theorem PlaceText_preview (E : Collaborators) (t : DRAWING_TOOL) (evs : List TOOL_EVENT)
    (h : (PlaceText E t evs).2.text = none) : (PlaceText E t evs).2.preview = [] := by
  have heq : (PlaceText E t evs).2 = (PlaceTextLoop E t.enterLoop { text := none, preview := [] } evs).2 := rfl
  rw [heq] at h ⊢
  exact (PlaceTextLoop_preview E evs t.enterLoop _ ⟨fun _ => rfl, fun i hi => (by cases hi)⟩).1 h

theorem PlaceDXF_preview (E : Collaborators) (t : DRAWING_TOOL) (hasModel dlgOK : Bool)
    (list : List BOARD_ITEM) (evs : List TOOL_EVENT) (l : DxfLoop)
    (h : (PlaceDXF E t hasModel dlgOK list evs).2 = some l) : l.preview = [] := by
  unfold PlaceDXF at h
  split_ifs at h
  all_goals (cases h; rfl)

/-! ## The preview group of `drawZone` -/

theorem zoneModeCheck_idle (E : Collaborators) (t : DRAWING_TOOL) (l : ZoneLoop)
    (evt : TOOL_EVENT) (hl : ZoneInv l) (hz : l.numPoints = 0) :
    zoneModeCheck E t l evt = some (t, l) := by
  unfold zoneModeCheck
  have hd : l.direction45 = false := by
    cases hdd : l.direction45
    · rfl
    · exact absurd (hl.1 hdd) (by omega)
  simp [hd, hz]

theorem zoneAddPoint_numPoints (aKeepout : Bool) (t : DRAWING_TOOL) (l : ZoneLoop)
    (evt : TOOL_EVENT) (t1 : DRAWING_TOOL) (l1 : ZoneLoop)
    (h : zoneAddPoint aKeepout t l evt = some (t1, l1)) : l1 = l ∨ 0 < l1.numPoints := by
  unfold zoneAddPoint at h
  dsimp only at h
  split_ifs at h
  · split at h
    · cases h
    · simp only [Option.some.injEq, Prod.mk.injEq] at h
      exact Or.inl h.2.symm
    · simp only [Option.some.injEq, Prod.mk.injEq] at h
      right
      rw [← h.2]
      exact Nat.succ_pos _
  · split at h
    · simp only [Option.some.injEq, Prod.mk.injEq] at h
      right
      rw [← h.2]
      exact Nat.succ_pos _
    · cases h

theorem drawZoneStep_zonePreview (E : Collaborators) (aKeepout : Bool) (aMode : ZONE_MODE)
    (t : DRAWING_TOOL) (l : ZoneLoop) (evt : TOOL_EVENT) (t1 : DRAWING_TOOL) (l1 : ZoneLoop)
    (b : Bool) (hl : ZoneInv l) (hp : ZonePreviewInv l)
    (h : drawZoneStep E aKeepout aMode t l evt = some (t1, l1, b)) :
    ZonePreviewInv l1 ∧ (b = true → l1.numPoints = 0) := by
  obtain ⟨t0, l0, hm, _, hinv, hn, _, _, _, _⟩ := zoneModeCheck_inv E (t.Wait evt) l evt hl
  have hp0 : ZonePreviewInv l0 := by
    intro hz
    rw [hn] at hz
    have hidle := zoneModeCheck_idle E (t.Wait evt) l evt hl hz
    rw [hidle] at hm
    simp only [Option.some.injEq, Prod.mk.injEq] at hm
    rw [← hm.2]
    exact hp hz
  have hnil : ∀ l2 : ZoneLoop, l2.preview = [] → ZonePreviewInv l2 := fun l2 h2 _ => h2
  have hpos : ∀ l2 : ZoneLoop, 0 < l2.numPoints → ZonePreviewInv l2 :=
    fun l2 h2 hz => absurd hz (by omega)
  by_cases c1 : IsCancelInteractive evt = true
  · simp only [drawZoneStep, hm, c1, if_true] at h
    by_cases c2 : l0.numPoints > 0
    · simp only [c2, if_true] at h
      obtain ⟨l2, hf, hpre, _, _, _, _⟩ :=
        zoneFreeItems_after_clear { l0 with zone := none } hinv.2.2
      simp only [hf] at h
      simp only [Option.some.injEq, Prod.mk.injEq] at h
      rw [← h.2.1]
      exact ⟨hnil _ hpre, fun _ => rfl⟩
    · simp only [c2, if_false] at h
      simp only [Option.some.injEq, Prod.mk.injEq] at h
      rw [← h.2.1]
      exact ⟨hp0, fun _ => by omega⟩
  · by_cases c3 : evt.IsClickRight = true
    · simp only [drawZoneStep, hm, c1, c3, if_true, if_false, Bool.false_eq_true] at h
      simp only [Option.some.injEq, Prod.mk.injEq] at h
      rw [← h.2.1, ← h.2.2]
      exact ⟨hp0, fun hb => (by cases hb)⟩
    · by_cases c4 : (evt.IsClickLeft || evt.IsDblClickLeft) = true
      · by_cases c5 : (evt.IsDblClickLeft
            || (decide (l0.numPoints > 0) && decide (evt.cursor = l0.origin))) = true
        · simp only [drawZoneStep, hm, c1, c3, c4, c5, if_true, if_false, Bool.false_eq_true] at h
          cases hc : zoneClose E aKeepout aMode t0 l0 evt.cursor with
          | none => rw [hc] at h; cases h
          | some r =>
            rw [hc] at h
            simp only [Option.some.injEq, Prod.mk.injEq] at h
            rw [← h.2.1, ← h.2.2]
            refine ⟨hnil _ ?_, fun hb => (by cases hb)⟩
            unfold zoneClose at hc
            obtain ⟨l2, hf, hpre, _, _, _, _⟩ :=
              zoneFreeItems_after_clear { l0 with zone := none, numPoints := 0 } hinv.2.2
            split at hc
            · cases hc
            · simp only [hf, Option.some.injEq] at hc
              rw [← hc]
              exact hpre
        · simp only [drawZoneStep, hm, c1, c3, c4, c5, if_true, if_false, Bool.false_eq_true] at h
          cases hc : zoneAddPoint aKeepout t0 l0 evt with
          | none => rw [hc] at h; cases h
          | some r =>
            rw [hc] at h
            simp only [Option.some.injEq, Prod.mk.injEq] at h
            rw [← h.2.1, ← h.2.2]
            refine ⟨?_, fun hb => (by cases hb)⟩
            rcases zoneAddPoint_numPoints aKeepout t0 l0 evt r.1 r.2 hc with ha | ha
            · rw [ha]; exact hp0
            · exact hpos _ ha
      · by_cases c6 : (evt.IsMotion && decide (l0.numPoints > 0)) = true
        · have hnp : 0 < l0.numPoints := by
            simp only [Bool.and_eq_true, decide_eq_true_eq] at c6; exact c6.2
          simp only [drawZoneStep, hm, c1, c3, c4, c6, if_true, if_false, Bool.false_eq_true] at h
          cases hh : l0.helperLine with
          | none => rw [hh] at h; cases h
          | some helper =>
            rw [hh] at h
            simp only at h
            by_cases c7 : l0.direction45 = true
            · simp only [c7, if_true] at h
              simp only [Option.some.injEq, Prod.mk.injEq] at h
              rw [← h.2.1, ← h.2.2]
              exact ⟨hpos _ hnp, fun hb => (by cases hb)⟩
            · simp only [c7, if_false, Bool.false_eq_true] at h
              simp only [Option.some.injEq, Prod.mk.injEq] at h
              rw [← h.2.1, ← h.2.2]
              exact ⟨hpos _ hnp, fun hb => (by cases hb)⟩
        · simp only [drawZoneStep, hm, c1, c3, c4, c6, if_false, Bool.false_eq_true] at h
          simp only [Option.some.injEq, Prod.mk.injEq] at h
          rw [← h.2.1, ← h.2.2]
          exact ⟨hp0, fun hb => (by cases hb)⟩

theorem drawZoneLoop_zonePreview (E : Collaborators) (aKeepout : Bool) (aMode : ZONE_MODE)
    (evs : List TOOL_EVENT) : ∀ (t : DRAWING_TOOL) (l : ZoneLoop) (t1 : DRAWING_TOOL)
    (l1 : ZoneLoop), ZoneInv l → ZonePreviewInv l →
    drawZoneLoop E aKeepout aMode t l evs = some (t1, l1) → ZonePreviewInv l1 := by
  induction evs with
  | nil =>
    intro t l t1 l1 _ hp h
    simp only [drawZoneLoop, Option.some.injEq, Prod.mk.injEq] at h
    rw [← h.2]
    exact hp
  | cons evt rest ih =>
    intro t l t1 l1 hl hp h
    unfold drawZoneLoop at h
    cases hs : drawZoneStep E aKeepout aMode t l evt with
    | none => rw [hs] at h; cases h
    | some r =>
      obtain ⟨t2, l2, b⟩ := r
      have hl2 := drawZoneStep_inv E aKeepout aMode t l evt t2 l2 b hl hs
      have hp2 := (drawZoneStep_zonePreview E aKeepout aMode t l evt t2 l2 b hl hp hs).1
      rw [hs] at h
      cases b with
      | true =>
        simp only [Option.some.injEq, Prod.mk.injEq] at h
        rw [← h.2]
        exact hp2
      | false => exact ih t2 l2 t1 l1 hl2 hp2 h

/-! ## The preview group of `DrawDimension` -/

theorem DimensionPreviewInv_remove (s : SELECTION) (n : Nat)
    (h : ∀ i ∈ s, i = PREVIEW_ITEM.dimension n) : s.Remove (.dimension n) = [] := by
  apply List.eq_nil_iff_forall_not_mem.mpr
  intro i hi
  rw [mem_SELECTION_Remove] at hi
  exact hi.2 (h i hi.1)

theorem DrawDimensionStep_break (E : Collaborators) (T : Trig)
    (t : DRAWING_TOOL) (l : DimensionLoop) (evt : TOOL_EVENT) (t1 : DRAWING_TOOL)
    (l1 : DimensionLoop) (h : DrawDimensionStep E T t l evt = some (t1, l1, true)) :
    l1.step = DIM_SET_ORIGIN := by
  unfold DrawDimensionStep at h
  dsimp only at h
  split_ifs at h with c1 c2
  · simp only [Option.some.injEq, Prod.mk.injEq] at h
    rw [← h.2.1]
  · simp only [Option.some.injEq, Prod.mk.injEq] at h
    rw [← h.2.1]
    exact not_not.mp c2
  all_goals first
    | (simp only [Option.some.injEq, Prod.mk.injEq, Bool.false_eq_true, and_false] at h)
    | (split at h <;>
        simp only [Option.some.injEq, Prod.mk.injEq, Bool.false_eq_true, and_false,
          reduceCtorEq] at h)
    | (split at h
       · cases h
       · split_ifs at h <;>
          simp only [Option.some.injEq, Prod.mk.injEq, Bool.false_eq_true, and_false] at h)

theorem DrawDimensionStep_preview (E : Collaborators) (T : Trig)
    (t : DRAWING_TOOL) (l : DimensionLoop) (evt : TOOL_EVENT) (hl : DimensionInv l)
    (hp : DimensionPreviewInv l) (hr : heightRetryClick E l evt = false) :
    ∃ t1 l1 b, DrawDimensionStep E T t l evt = some (t1, l1, b) ∧ DimensionPreviewInv l1 := by
  have e01 : DIM_SET_ORIGIN ≠ DIM_SET_END := by decide
  have e02 : DIM_SET_ORIGIN ≠ DIM_SET_HEIGHT := by decide
  have e10 : DIM_SET_END ≠ DIM_SET_ORIGIN := by decide
  have e12 : DIM_SET_END ≠ DIM_SET_HEIGHT := by decide
  have e20 : DIM_SET_HEIGHT ≠ DIM_SET_ORIGIN := by decide
  have e21 : DIM_SET_HEIGHT ≠ DIM_SET_END := by decide
  have hsteps : l.step = DIM_SET_ORIGIN ∨ l.step = DIM_SET_END ∨ l.step = DIM_SET_HEIGHT := by
    have h := hl.1
    have h2 : DIM_SET_HEIGHT = 2 := rfl
    have h1 : DIM_SET_END = 1 := rfl
    have h0 : DIM_SET_ORIGIN = 0 := rfl
    omega
  have hnil : ∀ l2 : DimensionLoop, l2.preview = [] → DimensionPreviewInv l2 :=
    fun l2 h2 => ⟨fun _ => h2, fun i hi => (by rw [h2] at hi; cases hi)⟩
  have hsame : ∀ l2 : DimensionLoop, l2.preview = l.preview → l2.allocated = l.allocated →
      (l2.step = DIM_SET_ORIGIN → l.step = DIM_SET_ORIGIN) → DimensionPreviewInv l2 :=
    fun l2 h1 h2 h3 =>
      ⟨fun h => (by rw [h1]; exact hp.1 (h3 h)), fun i hi => (by rw [h2]; rw [h1] at hi; exact hp.2 i hi)⟩
  by_cases c1 : IsCancelInteractive evt = true
  · simp only [DrawDimensionStep, c1, if_true]
    by_cases c2 : l.step = DIM_SET_ORIGIN
    · simp only [c2, ne_eq, not_true_eq_false, if_false]
      exact ⟨_, _, _, rfl, hp⟩
    · simp only [c2, ne_eq, not_false_eq_true, if_true]
      exact ⟨_, _, _, rfl, hnil _ rfl⟩
  · by_cases c3 : (evt.IsAction .incWidth && decide (l.step ≠ DIM_SET_ORIGIN)) = true
    · have hso : l.step ≠ DIM_SET_ORIGIN := by
        simp only [Bool.and_eq_true, decide_eq_true_eq] at c3; exact c3.2
      obtain ⟨d, hd⟩ := Option.isSome_iff_exists.mp (hl.2.1 hso)
      simp only [DrawDimensionStep, c1, c3, hd, if_true, if_false, Bool.false_eq_true]
      exact ⟨_, _, _, rfl, hsame _ rfl rfl (fun h => h)⟩
    · by_cases c4 : (evt.IsAction .decWidth && decide (l.step ≠ DIM_SET_ORIGIN)) = true
      · have hso : l.step ≠ DIM_SET_ORIGIN := by
          simp only [Bool.and_eq_true, decide_eq_true_eq] at c4; exact c4.2
        obtain ⟨d, hd⟩ := Option.isSome_iff_exists.mp (hl.2.1 hso)
        simp only [DrawDimensionStep, c1, c3, c4, hd, if_true, if_false, Bool.false_eq_true]
        by_cases c5 : (t.Wait evt).m_lineWidth > WIDTH_STEP
        · rw [if_pos c5]
          exact ⟨_, _, _, rfl, hsame _ rfl rfl (fun h => h)⟩
        · rw [if_neg c5]
          exact ⟨_, _, _, rfl, hp⟩
      · by_cases c6 : evt.IsClickRight = true
        · simp only [DrawDimensionStep, c1, c3, c4, c6, if_true, if_false, Bool.false_eq_true]
          exact ⟨_, _, _, rfl, hp⟩
        · by_cases c7 : evt.IsClickLeft = true
          · have hk : evt.kind = .clickLeft := by
              simpa [TOOL_EVENT.IsClickLeft] using c7
            obtain ⟨k1, k2, k3, k4, k5, _⟩ := clickLeft_kind hk
            rcases hsteps with hs | hs | hs
            · simp only [DrawDimensionStep, dimensionClick, k1, k2, k3, k4, k5, hs, if_true,
                if_false, Bool.false_eq_true, Bool.false_and]
              have hfin : ¬ (DIM_SET_ORIGIN + 1 = DIM_FINISHED) := by decide
              simp only [hfin, if_false]
              have ne1 : DIM_SET_ORIGIN + 1 ≠ DIM_SET_ORIGIN := by decide
              refine ⟨_, _, _, rfl, ⟨fun h => absurd h ne1, fun i hi => ?_⟩⟩
              have hpre : l.preview = [] := hp.1 hs
              have hi2 : i ∈ SELECTION.Add l.preview (.dimension l.allocated) := hi
              rw [mem_SELECTION_Add, hpre] at hi2
              rcases hi2 with hi2 | hi2
              · rw [hi2]; rfl
              · cases hi2
            · obtain ⟨d, hd⟩ := Option.isSome_iff_exists.mp (hl.2.1 (by rw [hs]; exact e10))
              have hstep := DrawDimensionStep_endClick E T t l d evt hs hd hk
              refine ⟨_, _, _, hstep, hsame _ rfl rfl (fun h => ?_)⟩
              exfalso
              have h2 : (if d.GetOrigin = evt.cursor then DIM_SET_END else DIM_SET_HEIGHT)
                  = DIM_SET_ORIGIN := h
              split_ifs at h2
              · exact e10 h2
              · exact e20 h2
            · obtain ⟨d, hd, _⟩ := hl.2.2 hs
              have hstep := DrawDimensionStep_heightClick E T t l d evt hs hd hk
              have c9 : evt.cursor ≠ E.GetPosition d := by
                intro hc
                unfold heightRetryClick at hr
                simp [c7, hs, hd, hc] at hr
              rw [if_pos c9] at hstep
              exact ⟨_, _, _, hstep, hnil _ (DimensionPreviewInv_remove l.preview _ hp.2)⟩
          · by_cases c10 : evt.IsMotion = true
            · have hkm : evt.kind = .motion := by
                simpa [TOOL_EVENT.IsMotion] using c10
              obtain ⟨m1, _, m3, m4, _, m6⟩ := motion_kind hkm
              obtain ⟨m7, m8⟩ := motion_kind_width hkm
              rcases hsteps with hs | hs | hs
              · simp only [DrawDimensionStep, m1, m3, m4, m6, m7, m8, hs, e01, e02, if_true,
                  if_false, Bool.false_eq_true, Bool.false_and]
                exact ⟨_, _, _, rfl, hp⟩
              · obtain ⟨d, hd⟩ := Option.isSome_iff_exists.mp (hl.2.1 (by rw [hs]; exact e10))
                simp only [DrawDimensionStep, m1, m3, m4, m6, m7, m8, hs, hd, if_true,
                  if_false, Bool.false_eq_true, Bool.false_and]
                exact ⟨_, _, _, rfl, hsame _ rfl rfl (fun h => absurd h e10)⟩
              · obtain ⟨d, hd, hne⟩ := hl.2.2 hs
                simp only [DrawDimensionStep, m1, m3, m4, m6, m7, m8, hs, hd, e20, e21, if_true,
                  if_false, Bool.false_eq_true, Bool.false_and]
                exact ⟨_, _, _, rfl, hsame _ rfl rfl (fun h => absurd h e20)⟩
            · simp only [DrawDimensionStep, c1, c3, c4, c6, c7, c10, if_false, Bool.false_eq_true]
              exact ⟨_, _, _, rfl, hp⟩

theorem DrawDimensionLoop_preview (E : Collaborators) (T : Trig)
    (evs : List TOOL_EVENT) : ∀ (t : DRAWING_TOOL) (l : DimensionLoop), DimensionInv l →
    DimensionPreviewInv l → noHeightRetry E T t l evs = true →
    ∃ t1 l1, DrawDimensionLoop E T t l evs = some (t1, l1) ∧ DimensionPreviewInv l1 := by
  induction evs with
  | nil => intro t l _ hp _; exact ⟨t, l, rfl, hp⟩
  | cons evt rest ih =>
    intro t l hl hp hn
    simp only [noHeightRetry, Bool.and_eq_true, Bool.not_eq_true'] at hn
    obtain ⟨hr, hrest⟩ := hn
    obtain ⟨t2, l2, b, hstep, hp2⟩ := DrawDimensionStep_preview E T t l evt hl hp hr
    obtain ⟨t3, l3, b3, hstep3, hl3, _⟩ := DrawDimensionStep_inv E T t l evt hl
    rw [hstep] at hstep3
    simp only [Option.some.injEq, Prod.mk.injEq] at hstep3
    rw [← hstep3.2.1] at hl3
    rw [hstep] at hrest
    unfold DrawDimensionLoop
    rw [hstep]
    cases b with
    | true => exact ⟨t2, l2, rfl, hp2⟩
    | false => exact ih t2 l2 hl3 hp2 hrest

theorem DrawDimensionStep_break_preview (E : Collaborators) (T : Trig)
    (t : DRAWING_TOOL) (l : DimensionLoop) (evt : TOOL_EVENT) (t1 : DRAWING_TOOL)
    (l1 : DimensionLoop) (hp : DimensionPreviewInv l)
    (h : DrawDimensionStep E T t l evt = some (t1, l1, true)) :
    l1.preview = [] := by
  unfold DrawDimensionStep at h
  dsimp only at h
  split_ifs at h with c1 c2
  · simp only [Option.some.injEq, Prod.mk.injEq] at h
    rw [← h.2.1]
    rfl
  · simp only [Option.some.injEq, Prod.mk.injEq] at h
    rw [← h.2.1]
    exact hp.1 (not_not.mp c2)
  all_goals first
    | (simp only [Option.some.injEq, Prod.mk.injEq, Bool.false_eq_true, and_false] at h)
    | (split at h <;>
        simp only [Option.some.injEq, Prod.mk.injEq, Bool.false_eq_true, and_false,
          reduceCtorEq] at h)
    | (split at h
       · cases h
       · split_ifs at h <;>
          simp only [Option.some.injEq, Prod.mk.injEq, Bool.false_eq_true, and_false] at h)

theorem DrawDimension_break_preview (E : Collaborators) (T : Trig)
    (pre : List TOOL_EVENT) (last : TOOL_EVENT) (t t1 t2 : DRAWING_TOOL) (l1 l2 : DimensionLoop)
    (hn : noHeightRetry E T t DimensionLoop.start pre = true)
    (hrun : DrawDimensionLoop E T t DimensionLoop.start pre = some (t1, l1))
    (hlast : DrawDimensionStep E T t1 l1 last = some (t2, l2, true)) :
    l2.preview = [] ∧ l2.step = DIM_SET_ORIGIN := by
  obtain ⟨t3, l3, hrun3, hp3⟩ := DrawDimensionLoop_preview E T pre t DimensionLoop.start
    DimensionInv_start ⟨fun _ => rfl, fun i hi => (by cases hi)⟩ hn
  rw [hrun] at hrun3
  simp only [Option.some.injEq, Prod.mk.injEq] at hrun3
  rw [← hrun3.2] at hp3
  exact ⟨DrawDimensionStep_break_preview E T t1 l1 last t2 l2 hp3 hlast,
    DrawDimensionStep_break E T t1 l1 last t2 l2 hlast⟩

theorem drawZone_break_preview (E : Collaborators) (aKeepout : Bool) (aMode : ZONE_MODE)
    (sourceZone : Option Nat) (pre : List TOOL_EVENT) (last : TOOL_EVENT)
    (t t1 t2 : DRAWING_TOOL) (l1 l2 : ZoneLoop)
    (hrun : drawZoneLoop E aKeepout aMode t (ZoneLoop.start sourceZone) pre = some (t1, l1))
    (hlast : drawZoneStep E aKeepout aMode t1 l1 last = some (t2, l2, true)) :
    l2.preview = [] ∧ l2.numPoints = 0 := by
  have hinv := drawZoneLoop_inv E aKeepout aMode pre t (ZoneLoop.start sourceZone) t1 l1
    (ZoneInv_start sourceZone) hrun
  have hp := drawZoneLoop_zonePreview E aKeepout aMode pre t (ZoneLoop.start sourceZone) t1 l1
    (ZoneInv_start sourceZone) (fun _ => rfl) hrun
  obtain ⟨h1, h2⟩ := drawZoneStep_zonePreview E aKeepout aMode t1 l1 last t2 l2 true hinv hp hlast
  exact ⟨h1 (h2 rfl), h2 rfl⟩

theorem PlaceText_break_preview (E : Collaborators) (pre : List TOOL_EVENT) (last : TOOL_EVENT)
    (t : DRAWING_TOOL)
    (hlast : (PlaceTextStep E (PlaceTextLoop E t { text := none, preview := [] } pre).1
      (PlaceTextLoop E t { text := none, preview := [] } pre).2 last).2.2 = true) :
    (PlaceTextStep E (PlaceTextLoop E t { text := none, preview := [] } pre).1
      (PlaceTextLoop E t { text := none, preview := [] } pre).2 last).2.1.preview = [] := by
  have hinv := PlaceTextLoop_preview E pre t { text := none, preview := [] }
    ⟨fun _ => rfl, fun i hi => (by cases hi)⟩
  obtain ⟨h1, h2⟩ := PlaceTextStep_preview E (PlaceTextLoop E t { text := none, preview := [] } pre).1
    (PlaceTextLoop E t { text := none, preview := [] } pre).2 last hinv
  exact h1.1 (h2 hlast)

/-! ## Two clicks in the same spot in 45 degree mode -/

theorem BuildInitialTrace_same (startDiagonal : Bool) (p : Point) :
    BuildInitialTrace startDiagonal p p = [p, p] := by
  obtain ⟨a, b⟩ := p
  simp [BuildInitialTrace, Point.add_mk]

theorem make45DegLine_same (E : Collaborators) (t : DRAWING_TOOL) (seg h : DRAWSEGMENT)
    (hs : seg.GetStart = t.GetCursorPosition) :
    make45DegLine E t seg h
      = (seg.SetEnd t.GetCursorPosition,
          (h.SetStart t.GetCursorPosition).SetEnd t.GetCursorPosition) := by
  unfold make45DegLine
  simp only [hs, BuildInitialTrace_same, apply45Trace_two]

theorem segmentModeCheck_turnOn (E : Collaborators) (t : DRAWING_TOOL) (l : SegmentLoop)
    (evt : TOOL_EVENT) (hs : l.started = true) (hd : l.direction45 = false)
    (h45 : limit45 t evt = true) :
    segmentModeCheck E .S_SEGMENT t l evt
      = (t.viewCall .Update,
          { l with direction45 := true, preview := l.preview.Add .line45,
                   aGraphic := (make45DegLine E t l.aGraphic l.line45).1,
                   line45 := (make45DegLine E t l.aGraphic l.line45).2 }) := by
  unfold limit45 at h45
  simp [segmentModeCheck, hs, hd, h45]

theorem drawSegmentStep_firstClick_eq (E : Collaborators) (aShape : STROKE_T) (t : DRAWING_TOOL)
    (l : SegmentLoop) (evt : TOOL_EVENT)
    (hk : (evt.IsClickLeft || evt.IsDblClickLeft) = true) (hs : l.started = false) :
    drawSegmentStep E aShape t l evt
      = ((initSegment aShape (t.Wait evt) l evt.cursor evt.cursor).1,
          (initSegment aShape (t.Wait evt) l evt.cursor evt.cursor).2, false) := by
  obtain ⟨h1, h2, h3⟩ := click_kind hk
  have hsame : segmentModeCheck E aShape (t.Wait evt) l evt = (t.Wait evt, l) := by
    unfold segmentModeCheck
    simp [hs]
  simp only [drawSegmentStep, hsame, h1, h2, h3, hk, hs, Bool.false_eq_true, if_false, if_true,
    Bool.not_false]

theorem initSegment_fields (t : DRAWING_TOOL) (l : SegmentLoop) (a b : Point) :
    (initSegment .S_SEGMENT t l a b).2.started = true
      ∧ (initSegment .S_SEGMENT t l a b).2.direction45 = l.direction45
      ∧ (initSegment .S_SEGMENT t l a b).2.aGraphic.m_Start = a
      ∧ (initSegment .S_SEGMENT t l a b).2.aGraphic.m_End = b
      ∧ (initSegment .S_SEGMENT t l a b).1.g_Segments_45_Only = t.g_Segments_45_Only := by
  refine ⟨rfl, rfl, rfl, rfl, initSegment_g45 .S_SEGMENT t l a b⟩

theorem DrawLineIter_same_spot (E : Collaborators) (t : DRAWING_TOOL) (e1 e2 : TOOL_EVENT)
    (rest : List TOOL_EVENT) (p : Point) (h1 : e1.kind = .clickLeft) (h2 : e2.kind = .clickLeft)
    (hp1 : e1.cursor = p) (hp2 : e2.cursor = p) (h45 : limit45 t e2 = true) :
    ∃ seg t1, DrawLineIter E t none (e1 :: e2 :: rest) = (true, t1, none, rest)
      ∧ t1.commitCalls = t.commitCalls ++ [.Add (.segment seg), .Push "Draw a line"]
      ∧ seg.GetStart = p ∧ seg.GetEnd = p := by
  have hk1 : (e1.IsClickLeft || e1.IsDblClickLeft) = true := by
    simp [TOOL_EVENT.IsClickLeft, h1]
  have hk2 : (e2.IsClickLeft || e2.IsDblClickLeft) = true := by
    simp [TOOL_EVENT.IsClickLeft, h2]
  have hentry : segmentEntry .S_SEGMENT t (DRAWSEGMENT.new t.m_editModules) none
      = (t.enterLoop,
          { aGraphic := DRAWSEGMENT.new t.m_editModules, aGraphicNull := false,
            line45 := DRAWSEGMENT.new false, preview := [], direction45 := false,
            started := false }) := rfl
  have hstep1 := drawSegmentStep_firstClick_eq E .S_SEGMENT
    (segmentEntry .S_SEGMENT t (DRAWSEGMENT.new t.m_editModules) none).1
    (segmentEntry .S_SEGMENT t (DRAWSEGMENT.new t.m_editModules) none).2 e1 hk1 rfl
  obtain ⟨i1, i2, i3, i4, i5⟩ := initSegment_fields
    ((segmentEntry .S_SEGMENT t (DRAWSEGMENT.new t.m_editModules) none).1.Wait e1)
    (segmentEntry .S_SEGMENT t (DRAWSEGMENT.new t.m_editModules) none).2 e1.cursor e1.cursor
  rcases hinit : initSegment .S_SEGMENT
      ((segmentEntry .S_SEGMENT t (DRAWSEGMENT.new t.m_editModules) none).1.Wait e1)
      (segmentEntry .S_SEGMENT t (DRAWSEGMENT.new t.m_editModules) none).2 e1.cursor e1.cursor
    with ⟨ta, la⟩
  rw [hinit] at hstep1 i1 i2 i3 i4 i5
  simp only at hstep1 i1 i2 i3 i4 i5
  have hga : ta.g_Segments_45_Only = t.g_Segments_45_Only := i5
  have hd : la.direction45 = false := i2
  have hafter : segmentAfter E .S_SEGMENT
      (segmentEntry .S_SEGMENT t (DRAWSEGMENT.new t.m_editModules) none).1
      (segmentEntry .S_SEGMENT t (DRAWSEGMENT.new t.m_editModules) none).2 [e1] = (ta, la) := by
    simp only [segmentAfter, hstep1]
  have hpre : segmentGoesOn E .S_SEGMENT
      (segmentEntry .S_SEGMENT t (DRAWSEGMENT.new t.m_editModules) none).1
      (segmentEntry .S_SEGMENT t (DRAWSEGMENT.new t.m_editModules) none).2 [e1] = true := by
    simp only [segmentGoesOn, hstep1, Bool.not_false, Bool.and_self]
  have hlim : limit45 (ta.Wait e2) e2 = true := by
    unfold limit45 at h45 ⊢
    show (ta.g_Segments_45_Only != e2.ctrl) = true
    rw [hga]; exact h45
  have hmc := segmentModeCheck_turnOn E (ta.Wait e2) la e2 i1 hd hlim
  have hstart : la.aGraphic.GetStart = (ta.Wait e2).GetCursorPosition := by
    show la.aGraphic.m_Start = e2.cursor
    rw [i3, hp1, hp2]
  have hmake := make45DegLine_same E (ta.Wait e2) la.aGraphic la.line45 hstart
  have hcur : (ta.Wait e2).GetCursorPosition = p := hp2
  rw [hmake, hcur] at hmc
  simp only at hmc
  have hfin : segmentFinishes E .S_SEGMENT ta la e2 = true := by
    unfold segmentFinishes finishTest
    rw [hmc]
    simp only [hk2, i1, Bool.true_and, Bool.or_eq_true, decide_eq_true_eq]
    left
    show p = la.aGraphic.m_Start
    rw [i3, hp1]
  have hfin2 : segmentFinishes E .S_SEGMENT
      (segmentAfter E .S_SEGMENT
        (segmentEntry .S_SEGMENT t (DRAWSEGMENT.new t.m_editModules) none).1
        (segmentEntry .S_SEGMENT t (DRAWSEGMENT.new t.m_editModules) none).2 [e1]).1
      (segmentAfter E .S_SEGMENT
        (segmentEntry .S_SEGMENT t (DRAWSEGMENT.new t.m_editModules) none).1
        (segmentEntry .S_SEGMENT t (DRAWSEGMENT.new t.m_editModules) none).2 [e1]).2 e2
        = true := by
    rw [hafter]; exact hfin
  obtain ⟨t1, mc, hmceq, hiter, hcalls⟩ := DrawLineIter_finishes E t none [e1] e2 rest hpre hfin2
  rw [hafter] at hmceq
  simp only at hmceq
  rw [hmc] at hmceq
  rw [hmceq] at hcalls
  simp only [if_true] at hcalls
  refine ⟨_, t1, hiter, hcalls, rfl, ?_⟩
  show la.aGraphic.m_Start = p
  rw [i3, hp1]
/-! ## The trace applied by `make45DegLine` -/

/-- The second to last element of a reversed list with three or more elements. -/
theorem reverse_second_last (a b c : Point) (rest : List Point) :
    ((a :: b :: c :: rest).reverse)[(a :: b :: c :: rest).reverse.length - 2]? = some b := by
  rw [List.getElem?_reverse (by simp)]
  have : (a :: b :: c :: rest).length - 1 - ((a :: b :: c :: rest).reverse.length - 2) = 1 := by
    simp
  rw [this]
  rfl

/-- With more than two points the last two points of the trace are the end of the
segment and the two ends of the helper. -/
theorem apply45Trace_long (cursorPos : Point) (newChain : List Point)
    (aSegment aHelper : DRAWSEGMENT) (h : 2 < newChain.length) :
    newChain[newChain.length - 2]? = some (apply45Trace cursorPos newChain aSegment aHelper).1.GetEnd ∧
    newChain[newChain.length - 2]? = some (apply45Trace cursorPos newChain aSegment aHelper).2.GetStart ∧
    newChain.getLast? = some (apply45Trace cursorPos newChain aSegment aHelper).2.GetEnd := by
  generalize hr : newChain.reverse = rv
  have hl : newChain = rv.reverse := by rw [← hr, List.reverse_reverse]
  subst hl
  unfold apply45Trace
  rw [List.reverse_reverse]
  match rv, h with
  | [], h => simp at h
  | [_], h => simp at h
  | [_, _], h => simp at h
  | a :: b :: c :: rest, _ =>
    rw [reverse_second_last]
    simp [DRAWSEGMENT.GetEnd, DRAWSEGMENT.GetStart, DRAWSEGMENT.SetEnd, DRAWSEGMENT.SetStart]

/-- With at most two points everything collapses on the cursor position. -/
theorem apply45Trace_short (cursorPos : Point) (newChain : List Point)
    (aSegment aHelper : DRAWSEGMENT) (h : newChain.length ≤ 2) :
    apply45Trace cursorPos newChain aSegment aHelper =
      (aSegment.SetEnd cursorPos, (aHelper.SetStart cursorPos).SetEnd cursorPos) := by
  match newChain, h with
  | [], _ => rfl
  | [_], _ => rfl
  | [_, _], _ => rfl
  | _ :: _ :: _ :: _, h => simp at h

/-- The segment keeps its start and ends where the helper starts. -/
theorem apply45Trace_joined (cursorPos : Point) (newChain : List Point)
    (aSegment aHelper : DRAWSEGMENT) :
    (apply45Trace cursorPos newChain aSegment aHelper).1.GetStart = aSegment.GetStart ∧
    (apply45Trace cursorPos newChain aSegment aHelper).1.GetEnd =
      (apply45Trace cursorPos newChain aSegment aHelper).2.GetStart := by
  unfold apply45Trace
  split <;> exact ⟨rfl, rfl⟩

/-! ## The end of the event stream in mid-gesture -/

/-- An event that `drawArc` handles without leaving its loop keeps the graphic. -/
theorem drawArcStep_goesOn_notNull (E : Collaborators) (t : DRAWING_TOOL) (l : ArcLoop)
    (evt : TOOL_EVENT) (h : (drawArcStep E t l evt).2.2 = false) :
    (drawArcStep E t l evt).2.1.aGraphicNull = l.aGraphicNull := by
  by_cases c1 : IsCancelInteractive evt = true
  · simp [drawArcStep, c1] at h
  · simp only [drawArcStep, c1, if_false, Bool.false_eq_true]
    split_ifs <;> rfl

/-- Events handled without leaving the loop of `drawArc` leave the document and the
graphic pointer alone. -/
theorem arcAfter_goesOn (E : Collaborators) (pre : List TOOL_EVENT) :
    ∀ (t : DRAWING_TOOL) (l : ArcLoop), arcGoesOn E t l pre = true →
      sameDocument t (arcAfter E t l pre).1
        ∧ (arcAfter E t l pre).2.aGraphicNull = l.aGraphicNull := by
  induction pre with
  | nil => intro t l _; exact ⟨sameDocument_refl t, rfl⟩
  | cons e es ih =>
    intro t l h
    simp only [arcGoesOn, Bool.and_eq_true, Bool.not_eq_true'] at h
    obtain ⟨h1, h2⟩ := h
    obtain ⟨i1, i2⟩ := ih _ _ h2
    exact ⟨sameDocument_trans (sameDocument_drawArcStep E t l e) i1,
      i2.trans (drawArcStep_goesOn_notNull E t l e h1)⟩

/-- The iteration of `DrawLine` in which the event stream ends on a started line: the
line as it stands is committed and the loop goes on. -/
theorem DrawLineIter_stream_end (E : Collaborators) (t : DRAWING_TOOL) (sp : Option Point)
    (pre : List TOOL_EVENT)
    (hpre : segmentGoesOn E .S_SEGMENT
      (segmentEntry .S_SEGMENT t (DRAWSEGMENT.new t.m_editModules) sp).1
      (segmentEntry .S_SEGMENT t (DRAWSEGMENT.new t.m_editModules) sp).2 pre = true)
    (hst : (segmentAfter E .S_SEGMENT
      (segmentEntry .S_SEGMENT t (DRAWSEGMENT.new t.m_editModules) sp).1
      (segmentEntry .S_SEGMENT t (DRAWSEGMENT.new t.m_editModules) sp).2 pre).2.started = true) :
    ∃ t1,
      DrawLineIter E t sp pre = (true, t1, some (segmentAfter E .S_SEGMENT
        (segmentEntry .S_SEGMENT t (DRAWSEGMENT.new t.m_editModules) sp).1
        (segmentEntry .S_SEGMENT t (DRAWSEGMENT.new t.m_editModules) sp).2 pre).2.aGraphic.GetEnd, [])
      ∧ t1.commitCalls = t.commitCalls ++ [.Add (.segment (segmentAfter E .S_SEGMENT
        (segmentEntry .S_SEGMENT t (DRAWSEGMENT.new t.m_editModules) sp).1
        (segmentEntry .S_SEGMENT t (DRAWSEGMENT.new t.m_editModules) sp).2 pre).2.aGraphic),
          .Push "Draw a line segment"]
      ∧ t1.board = t.board ++ DRAWING_TOOL.addedItems t.pending ++ [.segment (segmentAfter E .S_SEGMENT
        (segmentEntry .S_SEGMENT t (DRAWSEGMENT.new t.m_editModules) sp).1
        (segmentEntry .S_SEGMENT t (DRAWSEGMENT.new t.m_editModules) sp).2 pre).2.aGraphic] := by
  obtain ⟨heq, hdoc, hnull⟩ := drawSegmentLoop_append E .S_SEGMENT pre _ _ [] hpre
  have hent := sameDocument_segmentEntry .S_SEGMENT t (DRAWSEGMENT.new t.m_editModules) sp
  have hentn := segmentEntry_notNull .S_SEGMENT t (DRAWSEGMENT.new t.m_editModules) sp
  rw [hentn] at hnull
  rw [List.append_nil] at heq
  generalize segmentAfter E .S_SEGMENT
      (segmentEntry .S_SEGMENT t (DRAWSEGMENT.new t.m_editModules) sp).1
      (segmentEntry .S_SEGMENT t (DRAWSEGMENT.new t.m_editModules) sp).2 pre = s at *
  have hloop : drawSegmentLoop E .S_SEGMENT s.1 s.2 [] = (s.1, s.2, []) := rfl
  rw [hloop] at heq
  obtain ⟨hc, hp, hu, hb⟩ := sameDocument_trans hent hdoc
  obtain ⟨k1, k2, _, _⟩ :=
    commitAdd_commitPush s.1.leaveLoop (.segment s.2.aGraphic) "Draw a line segment"
  obtain ⟨hlc, hlp, hlu, hlb⟩ := sameDocument_leaveLoop s.1
  refine ⟨(s.1.leaveLoop.commitAdd (.segment s.2.aGraphic)).commitPush "Draw a line segment",
    ?_, ?_, ?_⟩
  · simp only [DrawLineIter, drawSegment_eq, heq, hst, hnull, if_true, Bool.false_eq_true,
      if_false]
  · rw [k1, hlc, hc]
  · rw [k2, hlb, hlp, hb, hp]

/-- The iteration of `DrawArc` in which the event stream ends after the centre of the
arc was set: the arc as it stands is committed and the loop goes on. -/
theorem DrawArcIter_stream_end (E : Collaborators) (t : DRAWING_TOOL) (pre : List TOOL_EVENT)
    (hpre : arcGoesOn E t.enterLoop (arcEntry (DRAWSEGMENT.new t.m_editModules)) pre = true)
    (hst : ARC_SET_ORIGIN <
      (arcAfter E t.enterLoop (arcEntry (DRAWSEGMENT.new t.m_editModules)) pre).2.step) :
    ∃ t1,
      DrawArcIter E t pre = (true, t1, [])
      ∧ t1.commitCalls = t.commitCalls ++ [.Add (.segment
          (arcAfter E t.enterLoop (arcEntry (DRAWSEGMENT.new t.m_editModules)) pre).2.aGraphic),
          .Push "Draw an arc"]
      ∧ t1.board = t.board ++ DRAWING_TOOL.addedItems t.pending ++ [.segment
          (arcAfter E t.enterLoop (arcEntry (DRAWSEGMENT.new t.m_editModules)) pre).2.aGraphic] := by
  have heq := drawArcLoop_append E pre t.enterLoop (arcEntry (DRAWSEGMENT.new t.m_editModules)) [] hpre
  obtain ⟨hdoc, hnull⟩ := arcAfter_goesOn E pre _ _ hpre
  rw [List.append_nil] at heq
  have hentn : (arcEntry (DRAWSEGMENT.new t.m_editModules)).aGraphicNull = false := rfl
  rw [hentn] at hnull
  generalize arcAfter E t.enterLoop (arcEntry (DRAWSEGMENT.new t.m_editModules)) pre = s at *
  have hloop : drawArcLoop E s.1 s.2 [] = (s.1, s.2, []) := rfl
  rw [hloop] at heq
  obtain ⟨hc, hp, hu, hb⟩ := sameDocument_trans (sameDocument_enterLoop t) hdoc
  obtain ⟨k1, k2, _, _⟩ :=
    commitAdd_commitPush s.1.leaveLoop (.segment s.2.aGraphic) "Draw an arc"
  obtain ⟨hlc, hlp, hlu, hlb⟩ := sameDocument_leaveLoop s.1
  have hdef : drawArc E t (DRAWSEGMENT.new t.m_editModules) pre
      = { tool := s.1.leaveLoop, aGraphic := some s.2.aGraphic, started := true, rest := [],
          preview := s.2.preview } := by
    have h0 : drawArc E t (DRAWSEGMENT.new t.m_editModules) pre
        = { tool := (drawArcLoop E t.enterLoop (arcEntry (DRAWSEGMENT.new t.m_editModules)) pre).1.leaveLoop,
            aGraphic := if (drawArcLoop E t.enterLoop (arcEntry (DRAWSEGMENT.new t.m_editModules)) pre).2.1.aGraphicNull then none
              else some (drawArcLoop E t.enterLoop (arcEntry (DRAWSEGMENT.new t.m_editModules)) pre).2.1.aGraphic,
            started := decide ((drawArcLoop E t.enterLoop (arcEntry (DRAWSEGMENT.new t.m_editModules)) pre).2.1.step > ARC_SET_ORIGIN),
            rest := (drawArcLoop E t.enterLoop (arcEntry (DRAWSEGMENT.new t.m_editModules)) pre).2.2,
            preview := (drawArcLoop E t.enterLoop (arcEntry (DRAWSEGMENT.new t.m_editModules)) pre).2.1.preview } := rfl
    rw [h0, heq]
    simp only [hnull, Bool.false_eq_true, if_false, gt_iff_lt, hst, decide_True]
  refine ⟨(s.1.leaveLoop.commitAdd (.segment s.2.aGraphic)).commitPush "Draw an arc", ?_, ?_, ?_⟩
  · simp only [DrawArcIter, hdef, if_true]
  · rw [k1, hlc, hc]
  · rw [k2, hlb, hlp, hb, hp]

/-- Once the event stream has ended, an iteration of `DrawLine` that was handed a
starting point commits one more segment and hands on a starting point again. -/
theorem DrawLineIter_no_events (E : Collaborators) (t : DRAWING_TOOL) (p : Point) :
    ∃ t1 q, DrawLineIter E t (some p) [] = (true, t1, some q, [])
      ∧ t1.commitCalls.length = t.commitCalls.length + 2 := by
  obtain ⟨t1, h1, h2, _⟩ := DrawLineIter_stream_end E t (some p) [] rfl rfl
  exact ⟨t1, _, h1, by rw [h2]; simp⟩

/-- On an ended event stream the loop of `DrawLine` uses every iteration it is allowed:
it commits a segment in each of them. -/
theorem DrawLineLoop_no_events (E : Collaborators) (fuel : Nat) :
    ∀ (t : DRAWING_TOOL) (p : Point),
      (DrawLineLoop E fuel t (some p) []).commitCalls.length = t.commitCalls.length + 2 * fuel := by
  induction fuel with
  | zero => intro t p; rfl
  | succ n ih =>
    intro t p
    obtain ⟨t1, q, h1, h2⟩ := DrawLineIter_no_events E t p
    simp only [DrawLineLoop, h1]
    rw [ih t1 q, h2]
    omega

/-! ## `drawZone` never uses a freed or null pointer -/

theorem zoneAt_of_board {t t1 : DRAWING_TOOL} (h : t1.board = t.board) (i : Nat) :
    zoneAt t1 i = zoneAt t i := by
  unfold zoneAt
  rw [h]

theorem zoneAt_append {t t1 : DRAWING_TOOL} {i : Nat} (xs : List BOARD_ITEM)
    (h : (zoneAt t i).isSome = true) (hb : t1.board = t.board ++ xs) :
    (zoneAt t1 i).isSome = true := by
  obtain ⟨z, hz⟩ := Option.isSome_iff_exists.mp h
  obtain ⟨hlt, hget⟩ := zoneAt_lt hz
  have : t1.board[i]? = some (.zone z) := by
    rw [hb, List.getElem?_append_left hlt, hget]
  simp [zoneAt, this]

theorem zoneAt_set {t t1 : DRAWING_TOOL} {i : Nat} (Z : ZONE_CONTAINER) (xs : List BOARD_ITEM)
    (h : (zoneAt t i).isSome = true) (hb : t1.board = t.board.set i (.zone Z) ++ xs) :
    (zoneAt t1 i).isSome = true := by
  obtain ⟨z, hz⟩ := Option.isSome_iff_exists.mp h
  obtain ⟨hlt, _⟩ := zoneAt_lt hz
  have : t1.board[i]? = some (.zone Z) := by
    rw [hb, List.getElem?_append_left (by simpa using hlt)]
    simp [hlt]
  simp [zoneAt, this]

theorem zoneFreeItems_sourceZone (l l1 : ZoneLoop) (h : zoneFreeItems l = some l1) :
    l1.sourceZone = l.sourceZone := by
  unfold zoneFreeItems at h
  split at h
  · cases h
  · simp only [Option.some.injEq] at h
    rw [← h]

theorem zoneClose_sourceZone (E : Collaborators) (aKeepout : Bool) (aMode : ZONE_MODE)
    (t : DRAWING_TOOL) (l : ZoneLoop) (c : Point) (t1 : DRAWING_TOOL) (l1 : ZoneLoop)
    (h : zoneClose E aKeepout aMode t l c = some (t1, l1)) : l1.sourceZone = l.sourceZone := by
  unfold zoneClose at h
  split at h
  · cases h
  · dsimp only at h
    split at h
    · cases h
    · next l2 hf =>
      simp only [Option.some.injEq, Prod.mk.injEq] at h
      rw [← h.2, zoneFreeItems_sourceZone _ _ hf]
      split <;> rfl

/-- The closing branch of a click succeeds and keeps the source zone usable. -/
theorem zoneClose_total (E : Collaborators) (aKeepout : Bool) (aMode : ZONE_MODE)
    (t : DRAWING_TOOL) (l : ZoneLoop) (c : Point) (hl : ZoneInv l)
    (hs : ZoneSourceInv aMode t l) :
    ∃ t1 l1, zoneClose E aKeepout aMode t l c = some (t1, l1) ∧ ZoneSourceInv aMode t1 l1 := by
  by_cases hn : l.numPoints ≤ 2
  · obtain ⟨t1, l1, h1, hdoc, _⟩ := zoneClose_few E aKeepout aMode t l c hn hl.2.2
    have hsz := zoneClose_sourceZone E aKeepout aMode t l c t1 l1 h1
    refine ⟨t1, l1, h1, fun hm => by rw [hsz]; exact hs.1 hm, fun idx hi => ?_⟩
    rw [hsz] at hi
    rw [zoneAt_of_board hdoc.2.2.2 idx]
    exact hs.2 idx hi
  · have hn2 : 2 < l.numPoints := by omega
    obtain ⟨z, hz⟩ := Option.isSome_iff_exists.mp (hl.2.1 (by omega)).2
    by_cases hm : aMode = .CUTOUT
    · subst hm
      obtain ⟨idx, hidx⟩ := Option.isSome_iff_exists.mp (hs.1 rfl)
      obtain ⟨Z, hZ⟩ := Option.isSome_iff_exists.mp (hs.2 idx hidx)
      obtain ⟨t1, l1, h1, _, hb, _, _, _, _, _, _, hsz⟩ :=
        zoneClose_cutout E aKeepout t l c z Z idx hn2 hz hidx hZ hl.2.2
      refine ⟨t1, l1, h1, fun _ => by rw [hsz]; rfl, fun i hi => ?_⟩
      rw [hsz] at hi
      cases hi
      exact zoneAt_set _ _ (hs.2 idx hidx) hb
    · obtain ⟨t1, l1, h1, _, hb, _, _, _, _, _⟩ :=
        zoneClose_add E aKeepout aMode t l c z hn2 hz hm hl.2.2
      have hsz := zoneClose_sourceZone E aKeepout aMode t l c t1 l1 h1
      refine ⟨t1, l1, h1, fun hm2 => absurd hm2 hm, fun i hi => ?_⟩
      rw [hsz] at hi
      refine zoneAt_append (DRAWING_TOOL.addedItems t.pending ++ [.zone (finishZone E aKeepout l c z)])
        (hs.2 i hi) ?_
      rw [hb, List.append_assoc]

/-- The branch of a click that adds a point succeeds and keeps the source zone usable. -/
theorem zoneAddPoint_total (aKeepout : Bool) (aMode : ZONE_MODE) (t : DRAWING_TOOL)
    (l : ZoneLoop) (evt : TOOL_EVENT) (hl : ZoneInv l) (hs : ZoneSourceInv aMode t l) :
    ∃ t1 l1, zoneAddPoint aKeepout t l evt = some (t1, l1) ∧ ZoneSourceInv aMode t1 l1 := by
  have hs1 : ∀ (t1 : DRAWING_TOOL) (l1 : ZoneLoop), t1.board = t.board →
      l1.sourceZone = l.sourceZone → ZoneSourceInv aMode t1 l1 := by
    intro t1 l1 hb hsz
    refine ⟨fun hm => by rw [hsz]; exact hs.1 hm, fun idx hi => ?_⟩
    rw [hsz] at hi
    rw [zoneAt_of_board hb idx]
    exact hs.2 idx hi
  unfold zoneAddPoint
  by_cases hn : l.numPoints = 0
  · simp only [hn, if_true]
    cases hsz : l.sourceZone with
    | none =>
      simp only [createNewZone]
      cases evt.zoneDialog with
      | none => exact ⟨_, _, rfl, hs1 _ _ rfl rfl⟩
      | some zi => exact ⟨_, _, rfl, hs1 _ _ rfl hsz.symm⟩
    | some idx =>
      obtain ⟨Z, hZ⟩ := Option.isSome_iff_exists.mp (hs.2 idx hsz)
      simp only [hZ]
      exact ⟨_, _, rfl, hs1 _ _ rfl hsz.symm⟩
  · simp only [hn, if_false]
    obtain ⟨hh, hz⟩ := hl.2.1 (by omega)
    obtain ⟨helper, hhe⟩ := Option.isSome_iff_exists.mp hh
    obtain ⟨z, hze⟩ := Option.isSome_iff_exists.mp hz
    simp only [hhe, hze]
    exact ⟨_, _, rfl, hs1 _ _ rfl rfl⟩

/-- An iteration of the event loop of `drawZone` started in a state that satisfies the
invariants uses no freed or null pointer, and the state it leaves satisfies them again. -/
theorem drawZoneStep_total (E : Collaborators) (aKeepout : Bool) (aMode : ZONE_MODE)
    (t : DRAWING_TOOL) (l : ZoneLoop) (evt : TOOL_EVENT) (hl : ZoneInv l)
    (hs : ZoneSourceInv aMode t l) :
    ∃ t1 l1 b, drawZoneStep E aKeepout aMode t l evt = some (t1, l1, b)
      ∧ ZoneInv l1 ∧ ZoneSourceInv aMode t1 l1 := by
  obtain ⟨t0, l0, hm, hdoc, hinv, _, _, hsz, _, _⟩ := zoneModeCheck_inv E (t.Wait evt) l evt hl
  have hs0 : ZoneSourceInv aMode t0 l0 := by
    refine ⟨fun h => by rw [hsz]; exact hs.1 h, fun idx hi => ?_⟩
    rw [hsz] at hi
    rw [zoneAt_of_board hdoc.2.2.2 idx]
    exact hs.2 idx hi
  have key : ∃ t1 l1 b, drawZoneStep E aKeepout aMode t l evt = some (t1, l1, b)
      ∧ ZoneSourceInv aMode t1 l1 := by
    by_cases c1 : IsCancelInteractive evt = true
    · simp only [drawZoneStep, hm, c1, if_true]
      by_cases c2 : l0.numPoints > 0
      · simp only [c2, if_true]
        obtain ⟨l2, hf, _, _, _, _, hs2⟩ :=
          zoneFreeItems_after_clear { l0 with zone := none } hinv.2.2
        simp only [hf]
        exact ⟨_, _, _, rfl, fun h => by rw [hs2]; exact hs0.1 h,
          fun idx hi => hs0.2 idx (hs2 ▸ hi)⟩
      · simp only [c2, if_false]
        exact ⟨_, _, _, rfl, hs0⟩
    · by_cases c3 : evt.IsClickRight = true
      · simp only [drawZoneStep, hm, c1, c3, if_true, if_false, Bool.false_eq_true]
        exact ⟨_, _, _, rfl, hs0⟩
      · by_cases c4 : (evt.IsClickLeft || evt.IsDblClickLeft) = true
        · by_cases c5 : (evt.IsDblClickLeft
              || (decide (l0.numPoints > 0) && decide (evt.cursor = l0.origin))) = true
          · simp only [drawZoneStep, hm, c1, c3, c4, c5, if_true, if_false, Bool.false_eq_true]
            obtain ⟨t1, l1, h1, h2⟩ := zoneClose_total E aKeepout aMode t0 l0 evt.cursor hinv hs0
            simp only [h1]
            exact ⟨_, _, _, rfl, h2⟩
          · simp only [drawZoneStep, hm, c1, c3, c4, c5, if_true, if_false, Bool.false_eq_true]
            obtain ⟨t1, l1, h1, h2⟩ := zoneAddPoint_total aKeepout aMode t0 l0 evt hinv hs0
            simp only [h1]
            exact ⟨_, _, _, rfl, h2⟩
        · by_cases c6 : (evt.IsMotion && decide (l0.numPoints > 0)) = true
          · simp only [drawZoneStep, hm, c1, c3, c4, c6, if_true, if_false, Bool.false_eq_true]
            have hpos : 0 < l0.numPoints := by
              simp only [Bool.and_eq_true, decide_eq_true_eq] at c6
              exact c6.2
            obtain ⟨helper, hhe⟩ := Option.isSome_iff_exists.mp (hinv.2.1 hpos).1
            simp only [hhe]
            by_cases c7 : l0.direction45 = true
            · simp only [c7, if_true]
              exact ⟨_, _, _, rfl, hs0⟩
            · simp only [c7, if_false, Bool.false_eq_true]
              exact ⟨_, _, _, rfl, hs0⟩
          · simp only [drawZoneStep, hm, c1, c3, c4, c6, if_false, Bool.false_eq_true]
            exact ⟨_, _, _, rfl, hs0⟩
  obtain ⟨t1, l1, b, h1, h2⟩ := key
  exact ⟨t1, l1, b, h1, drawZoneStep_inv E aKeepout aMode t l evt t1 l1 b hl h1, h2⟩

/-- The event loop of `drawZone` started in a state that satisfies the invariants
uses no freed or null pointer, whatever the events. -/
theorem drawZoneLoop_total (E : Collaborators) (aKeepout : Bool) (aMode : ZONE_MODE)
    (evs : List TOOL_EVENT) : ∀ (t : DRAWING_TOOL) (l : ZoneLoop), ZoneInv l →
    ZoneSourceInv aMode t l →
    ∃ t1 l1, drawZoneLoop E aKeepout aMode t l evs = some (t1, l1) ∧ ZoneInv l1 := by
  induction evs with
  | nil => intro t l hl _; exact ⟨t, l, rfl, hl⟩
  | cons evt rest ih =>
    intro t l hl hs
    obtain ⟨t1, l1, b, h1, h2, h3⟩ := drawZoneStep_total E aKeepout aMode t l evt hl hs
    cases b with
    | true => exact ⟨t1, l1, by simp only [drawZoneLoop, h1], h2⟩
    | false =>
      obtain ⟨t2, l2, k1, k2⟩ := ih t1 l1 h2 h3
      exact ⟨t2, l2, by simp only [drawZoneLoop, h1, k1], k2⟩

/-- The source zone `getSourceZoneForAction` hands over is usable. -/
theorem getSourceZoneForAction_inv (E : Collaborators) (t : DRAWING_TOOL) (aMode : ZONE_MODE)
    (t1 : DRAWING_TOOL) (sz : Option Nat)
    (h : getSourceZoneForAction E t aMode = (t1, true, sz)) :
    ZoneSourceInv aMode t1.enterLoop (ZoneLoop.start sz) := by
  have aux : ∀ t0 : DRAWING_TOOL,
      (if t0.selection.length ≠ 1 then (t0, false, (none : Option Nat))
        else
          match t0.selection.head? with
          | none => (t0, false, none)
          | some i =>
            match zoneAt t0 i with
            | none => (t0, false, none)
            | some _ => (t0, true, some i)) = (t1, true, sz) →
      ZoneSourceInv aMode t1.enterLoop (ZoneLoop.start sz) := by
    intro t0 h0
    split at h0
    · simp at h0
    · split at h0
      · simp at h0
      · next _ i _ =>
        split at h0
        · simp at h0
        · next _ z hz =>
          simp only [Prod.mk.injEq, true_and] at h0
          rw [← h0.1, ← h0.2]
          refine ⟨fun _ => rfl, fun idx hi => ?_⟩
          have : i = idx := by simpa [ZoneLoop.start] using hi
          subst this
          rw [zoneAt_of_board (show (DRAWING_TOOL.enterLoop t0).board = t0.board from rfl), hz]
          rfl
  unfold getSourceZoneForAction at h
  by_cases hm : aMode = .ADD
  · simp only [hm, if_true, Prod.mk.injEq, true_and] at h
    rw [← h.2]
    exact ⟨fun hc => (by rw [hm] at hc; cases hc), fun idx hi => (by cases hi)⟩
  · rw [if_neg hm] at h
    exact aux _ h

/-- `drawZone` uses no freed or null pointer, whatever the events. -/
theorem drawZone_total (E : Collaborators) (aKeepout : Bool) (aMode : ZONE_MODE)
    (t : DRAWING_TOOL) (evs : List TOOL_EVENT) :
    ∃ r, drawZone E aKeepout aMode t evs = some r := by
  unfold drawZone
  rcases hg : getSourceZoneForAction E t aMode with ⟨t1, ok, sz⟩
  cases ok with
  | false => exact ⟨_, rfl⟩
  | true =>
    obtain ⟨t2, l2, h1, _⟩ := drawZoneLoop_total E aKeepout aMode evs t1.enterLoop
      (ZoneLoop.start sz) (ZoneInv_start sz) (getSourceZoneForAction_inv E t aMode t1 sz hg)
    simp only [h1]
    exact ⟨_, rfl⟩

/-! ## Moving the items of an import -/

theorem Point.add_sub_cancel_left (p c : Point) : p + (c - p) = c := by
  rcases p with ⟨a, b⟩
  rcases c with ⟨u, v⟩
  show (⟨a + (u - a), b + (v - b)⟩ : Point) = ⟨u, v⟩
  congr 1 <;> omega

theorem Point.add_sub_add_right (p q v : Point) : (p + v) - (q + v) = p - q := by
  rcases p with ⟨a, b⟩
  rcases q with ⟨c, d⟩
  rcases v with ⟨u, w⟩
  show (⟨a + u - (c + u), b + w - (d + w)⟩ : Point) = ⟨a - c, b - d⟩
  congr 1 <;> omega

/-- A value of type `int` is what its wrap-around is. -/
theorem toInt32_of_int (x : Int) (h0 : -2 ^ 31 ≤ x) (h1 : x < 2 ^ 31) : toInt32 x = x := by
  unfold toInt32
  norm_num at h0 h1 ⊢
  split_ifs <;> omega

/-- Adding the wrapped difference to `p` gives `c`, when `c` is a value of type `int`. -/
theorem toInt32_add_sub (p c : Int) (h0 : -2 ^ 31 ≤ c) (h1 : c < 2 ^ 31) :
    toInt32 (p + toInt32 (c - p)) = c := by
  unfold toInt32
  norm_num at h0 h1 ⊢
  split_ifs <;> omega

/-- The wrapped difference of two numbers is not changed by a wrapped shift of both. -/
theorem toInt32_sub_add (a b d : Int) :
    toInt32 (toInt32 (a + d) - toInt32 (b + d)) = toInt32 (a - b) := by
  unfold toInt32
  norm_num
  split_ifs <;> omega

theorem Point.add32_sub32_cancel (p c : Point) (hc : c.isInt) : p.add32 (c.sub32 p) = c := by
  rcases p with ⟨a, b⟩
  rcases c with ⟨u, v⟩
  obtain ⟨h1, h2, h3, h4⟩ := hc
  show (⟨toInt32 (a + toInt32 (u - a)), toInt32 (b + toInt32 (v - b))⟩ : Point) = ⟨u, v⟩
  rw [toInt32_add_sub a u h1 h2, toInt32_add_sub b v h3 h4]

theorem Point.sub32_add32 (p q v : Point) : (p.add32 v).sub32 (q.add32 v) = p.sub32 q := by
  rcases p with ⟨a, b⟩
  rcases q with ⟨c, d⟩
  rcases v with ⟨u, w⟩
  show (⟨toInt32 (toInt32 (a + u) - toInt32 (c + u)),
      toInt32 (toInt32 (b + w) - toInt32 (d + w))⟩ : Point) = ⟨toInt32 (a - c), toInt32 (b - d)⟩
  rw [toInt32_sub_add, toInt32_sub_add]

/-- A sum that stays in the range of `int` does not wrap. -/
theorem Point.add32_of_isInt (p v : Point) (h : (p + v).isInt) : p.add32 v = p + v := by
  rcases p with ⟨a, b⟩
  rcases v with ⟨u, w⟩
  obtain ⟨h1, h2, h3, h4⟩ := h
  have k1 : toInt32 (a + u) = a + u := toInt32_of_int _ h1 h2
  have k2 : toInt32 (b + w) = b + w := toInt32_of_int _ h3 h4
  show (⟨toInt32 (a + u), toInt32 (b + w)⟩ : Point) = ⟨a + u, b + w⟩
  rw [k1, k2]

/-- Moving a line or a text shifts its position by the vector, in `int` arithmetic. -/
theorem Move_GetPosition (v : Point) (i : BOARD_ITEM) (h : isLineOrText i = true) :
    (i.Move v).GetPosition = i.GetPosition.add32 v := by
  cases i with
  | segment s => rfl
  | text x => rfl
  | dimension d => cases h
  | zone z => cases h

/-- A motion event of `PlaceDXF` moves every item by the vector from the position of
the first item to the cursor. -/
theorem PlaceDXFStep_motion (E : Collaborators) (t : DRAWING_TOOL) (l : DxfLoop)
    (evt : TOOL_EVENT) (first : BOARD_ITEM) (rest : List BOARD_ITEM)
    (hk : evt.kind = .motion) (hitems : l.items = first :: rest) :
    PlaceDXFStep E t l evt
      = ((t.Wait evt).viewCall .Update,
          { l with items := l.items.map (BOARD_ITEM.Move (evt.cursor.sub32 first.GetPosition)) },
          false) := by
  obtain ⟨_, _, _, _, _, k⟩ := motion_kind hk
  simp only [PlaceDXFStep, k, if_true, hitems, List.head?_cons]

/-! ## The net of a connected item -/

theorem FindNet_some {board : BOARD} {c : Int} {n : NETINFO_ITEM}
    (h : board.FindNet c = some n) : n.m_NetCode = c ∧ n ∈ board.m_NetInfo := by
  unfold BOARD.FindNet at h
  have h1 := List.find?_some h
  exact ⟨by simpa using h1, List.mem_of_find?_eq_some h⟩

theorem FindNet_of_mem {board : BOARD} {c : Int}
    (h : ∃ n ∈ board.m_NetInfo, n.m_NetCode = c) : ∃ n, board.FindNet c = some n := by
  obtain ⟨n, hn, hc⟩ := h
  cases hf : board.FindNet c with
  | some m => exact ⟨m, rfl⟩
  | none =>
    unfold BOARD.FindNet at hf
    have := List.find?_eq_none.mp hf n hn
    simp [hc] at this

theorem FindNet_none {board : BOARD} {c : Int}
    (h : ¬ ∃ n ∈ board.m_NetInfo, n.m_NetCode = c) : board.FindNet c = none := by
  cases hf : board.FindNet c with
  | none => rfl
  | some m =>
    obtain ⟨h1, h2⟩ := FindNet_some hf
    exact absurd ⟨m, h2, h1⟩ h

/-- `SetNet` on an item of a board: the net asked for when the board has it, the
unconnected net of the board otherwise. -/
theorem SetNet_board (N : NETINFO_LIST) (i : BOARD_CONNECTED_ITEM) (board : BOARD) (c : Int)
    (hb : i.GetBoard = some board) :
    (∀ n, board.FindNet c = some n → (i.SetNet N c).m_netinfo = .net n) ∧
    (board.FindNet c = none →
      (i.SetNet N c).m_netinfo = NETINFO_REF.ofFound (board.FindNet N.UNCONNECTED)) := by
  constructor
  · intro n hn
    simp [BOARD_CONNECTED_ITEM.SetNet, hb, hn, NETINFO_REF.ofFound]
  · intro hn
    simp [BOARD_CONNECTED_ITEM.SetNet, hb, hn, NETINFO_REF.ofFound]

/-! ## The footprint chosen in the symbol chooser -/

/-- `ShowFootprint` touches the preview widget only. -/
theorem ShowFootprint_fields (validId : String → Bool) (d : DIALOG_CHOOSE_COMPONENT)
    (aName : String) :
    (d.ShowFootprint validId aName).m_field_edits = d.m_field_edits ∧
    (d.ShowFootprint validId aName).m_fp_override = d.m_fp_override := by
  unfold DIALOG_CHOOSE_COMPONENT.ShowFootprint
  split
  · exact ⟨rfl, rfl⟩
  · split <;> exact ⟨rfl, rfl⟩

/-- What `OnFootprintSelected` leaves in `m_field_edits` and `m_fp_override`. -/
theorem OnFootprintSelected_fields (validId : String → Bool) (d : DIALOG_CHOOSE_COMPONENT)
    (aEvent : wxCommandEvent) :
    (d.OnFootprintSelected validId aEvent).m_field_edits
        = (d.m_field_edits.filter fun i => !(i.1 == FOOTPRINT))
            ++ [(FOOTPRINT, aEvent.GetString)] ∧
    (d.OnFootprintSelected validId aEvent).m_fp_override = aEvent.GetString := by
  unfold DIALOG_CHOOSE_COMPONENT.OnFootprintSelected
  exact ⟨(ShowFootprint_fields _ _ _).1, (ShowFootprint_fields _ _ _).2⟩

theorem filter_not_footprint_idem (l : List (Int × String)) (s : String) :
    ((l.filter fun i => !(i.1 == FOOTPRINT)) ++ [(FOOTPRINT, s)]).filter
        (fun i => !(i.1 == FOOTPRINT))
      = l.filter fun i => !(i.1 == FOOTPRINT) := by
  simp [List.filter_append, List.filter_filter]

theorem filter_footprint_single (l : List (Int × String)) (s : String) :
    ((l.filter fun i => !(i.1 == FOOTPRINT)) ++ [(FOOTPRINT, s)]).filter
        (fun i => i.1 == FOOTPRINT)
      = [(FOOTPRINT, s)] := by
  simp [List.filter_append, List.filter_filter]

/-! ## Gestures that end in a cancel -/

/-- The events of a gesture of `DrawDimension` that holds no accepting click, and then
a cancel: the loop handles them and the document is as it was. -/
theorem DrawDimensionLoop_cancelled (E : Collaborators) (T : Trig) (c : TOOL_EVENT)
    (hc : IsCancelInteractive c = true) (pre : List TOOL_EVENT) :
    ∀ (t : DRAWING_TOOL) (l : DimensionLoop), DimensionInv l →
      noDimensionAccept E T t l pre = true →
      ∃ t1 l1, DrawDimensionLoop E T t l (pre ++ [c]) = some (t1, l1) ∧ sameDocument t t1 := by
  induction pre with
  | nil =>
    intro t l _ _
    obtain ⟨t1, l1, b, h, hd, _⟩ := DrawDimensionStep_cancel E T t l c hc
    cases b with
    | true => exact ⟨t1, l1, by simp only [List.nil_append, DrawDimensionLoop, h], hd⟩
    | false => exact ⟨t1, l1, by simp only [List.nil_append, DrawDimensionLoop, h], hd⟩
  | cons evt rest ih =>
    intro t l hl hno
    obtain ⟨t1, l1, b, h, hl1, hdoc⟩ := DrawDimensionStep_inv E T t l evt hl
    simp only [noDimensionAccept, h, Bool.and_eq_true, Bool.not_eq_true'] at hno
    obtain ⟨hacc, hrest⟩ := hno
    have hd : sameDocument t t1 := by
      rcases hdoc with hd | ⟨d, hs, hdim, hk, hpos, _⟩
      · exact hd
      · obtain ⟨_, _, _, _, k, _⟩ := clickLeft_kind hk
        simp [dimensionAcceptClick, k, hs, hdim, hpos] at hacc
    cases b with
    | true => exact ⟨t1, l1, by simp only [List.cons_append, DrawDimensionLoop, h], hd⟩
    | false =>
      obtain ⟨t2, l2, k1, k2⟩ := ih t1 l1 hl1 hrest
      exact ⟨t2, l2, by simp only [List.cons_append, List.append_eq, DrawDimensionLoop, h, k1],
        sameDocument_trans hd k2⟩

/-- The events of a gesture of `drawZone` that holds no committing click, and then a
cancel: the loop handles them and the document is as it was. -/
theorem drawZoneLoop_cancelled (E : Collaborators) (aKeepout : Bool) (aMode : ZONE_MODE)
    (c : TOOL_EVENT) (hc : IsCancelInteractive c = true) (pre : List TOOL_EVENT) :
    ∀ (t : DRAWING_TOOL) (l : ZoneLoop), ZoneInv l → ZoneCorners l → ZoneSourceInv aMode t l →
      noZoneCommit E aKeepout aMode t l pre = true →
      ∃ t1 l1, drawZoneLoop E aKeepout aMode t l (pre ++ [c]) = some (t1, l1)
        ∧ sameDocument t t1 := by
  induction pre with
  | nil =>
    intro t l hl _ _ _
    obtain ⟨t1, l1, b, h, hd, _⟩ := drawZoneStep_cancel E aKeepout aMode t l c hc hl
    cases b with
    | true => exact ⟨t1, l1, by simp only [List.nil_append, drawZoneLoop, h], hd⟩
    | false => exact ⟨t1, l1, by simp only [List.nil_append, drawZoneLoop, h], hd⟩
  | cons evt rest ih =>
    intro t l hl hcor hsrc hno
    obtain ⟨t1, l1, b, h, hl1, hsrc1⟩ := drawZoneStep_total E aKeepout aMode t l evt hl hsrc
    obtain ⟨hcor1, hdoc⟩ := drawZoneStep_corners E aKeepout aMode t l evt t1 l1 b hl hcor h
    simp only [noZoneCommit, h, Bool.and_eq_true, Bool.not_eq_true'] at hno
    obtain ⟨hacc, hrest⟩ := hno
    have hd : sameDocument t t1 := by
      rcases hdoc with hd | ⟨hcl, hn⟩
      · exact hd
      · simp [zoneCommitClick, hcl, hn] at hacc
    cases b with
    | true => exact ⟨t1, l1, by simp only [List.cons_append, drawZoneLoop, h], hd⟩
    | false =>
      obtain ⟨t2, l2, k1, k2⟩ := ih t1 l1 hl1 hcor1 hsrc1 hrest
      exact ⟨t2, l2, by simp only [List.cons_append, List.append_eq, drawZoneLoop, h, k1],
        sameDocument_trans hd k2⟩

/-- The events of a gesture of `PlaceText` that holds no placing click, and then a
cancel: the document is as it was. -/
theorem PlaceTextLoop_cancelled (E : Collaborators) (c : TOOL_EVENT)
    (hc : IsCancelInteractive c = true) (pre : List TOOL_EVENT) :
    ∀ (t : DRAWING_TOOL) (l : TextLoop), noTextPlaced E t l pre = true →
      sameDocument t (PlaceTextLoop E t l (pre ++ [c])).1 := by
  induction pre with
  | nil =>
    intro t l _
    have hd := (PlaceTextStep_cancel E t l c hc).1
    rcases h : PlaceTextStep E t l c with ⟨t1, l1, b⟩
    rw [h] at hd
    cases b <;> simpa only [List.nil_append, PlaceTextLoop, h] using hd
  | cons evt rest ih =>
    intro t l hno
    have hdoc := PlaceTextStep_commits E t l evt
    rcases h : PlaceTextStep E t l evt with ⟨t1, l1, b⟩
    rw [h] at hdoc
    simp only [noTextPlaced, h, Bool.and_eq_true, Bool.not_eq_true'] at hno
    obtain ⟨hacc, hrest⟩ := hno
    have hd : sameDocument t t1 := by
      rcases hdoc with hd | ⟨x, hx, hk, _⟩
      · exact hd
      · obtain ⟨_, _, _, _, k, _⟩ := clickLeft_kind hk
        simp [textPlaceClick, k, hx] at hacc
    cases b with
    | true => simpa only [List.cons_append, PlaceTextLoop, h] using hd
    | false =>
      have k2 := ih t1 l1 hrest
      simp only [List.cons_append, List.append_eq, PlaceTextLoop, h]
      exact sameDocument_trans hd k2

/-- An event of `PlaceDXF` that is not a left click leaves the document alone. -/
theorem PlaceDXFStep_noClick (E : Collaborators) (t : DRAWING_TOOL) (l : DxfLoop)
    (evt : TOOL_EVENT) (h : evt.IsClickLeft = false) :
    sameDocument t (PlaceDXFStep E t l evt).1 := by
  unfold PlaceDXFStep
  dsimp only
  split_ifs
  all_goals first
    | exact ⟨rfl, rfl, rfl, rfl⟩
    | (split <;> exact ⟨rfl, rfl, rfl, rfl⟩)
    | simp_all

/-- Events of `PlaceDXF` among which there is no left click, and then a cancel: the
document is as it was. -/
theorem PlaceDXFLoop_cancelled (E : Collaborators) (c : TOOL_EVENT)
    (hc : IsCancelInteractive c = true) (pre : List TOOL_EVENT) :
    ∀ (t : DRAWING_TOOL) (l : DxfLoop), (∀ e ∈ pre, e.IsClickLeft = false) →
      sameDocument t (PlaceDXFLoop E t l (pre ++ [c])).1 := by
  induction pre with
  | nil =>
    intro t l _
    have hd := (PlaceDXFStep_cancel E t l c hc).1
    rcases h : PlaceDXFStep E t l c with ⟨t1, l1, b⟩
    rw [h] at hd
    cases b <;> simpa only [List.nil_append, PlaceDXFLoop, h] using hd
  | cons evt rest ih =>
    intro t l hno
    have hd := PlaceDXFStep_noClick E t l evt (hno evt (List.mem_cons_self _ _))
    rcases h : PlaceDXFStep E t l evt with ⟨t1, l1, b⟩
    rw [h] at hd
    cases b with
    | true => simpa only [List.cons_append, PlaceDXFLoop, h] using hd
    | false =>
      have k2 := ih t1 l1 (fun e he => hno e (List.mem_cons_of_mem _ he))
      simp only [List.cons_append, List.append_eq, PlaceDXFLoop, h]
      exact sameDocument_trans hd k2

/-! ## Exact cases of `double` arithmetic -/

theorem Double.bitLength_le (fuel : Nat) : ∀ (n k : Nat), n < 2 ^ k →
    Double.bitLength fuel n ≤ k := by
  induction fuel with
  | zero => intro n k _; exact Nat.zero_le k
  | succ f ih =>
    intro n k h
    unfold Double.bitLength
    by_cases hn : n = 0
    · simp [hn]
    · rw [if_neg hn]
      cases k with
      | zero => simp at h; omega
      | succ k =>
        have h2 : n / 2 < 2 ^ k := by
          rw [pow_succ] at h
          omega
        have := ih (n / 2) k h2
        omega

/-- Normalisation keeps the number, leaves an odd mantissa and a non-negative exponent
non-negative. -/
theorem Double.normalize_spec (fuel : Nat) : ∀ (m e : Int), m ≠ 0 → 0 ≤ e →
    -(2 : Int) ^ fuel < m → m < (2 : Int) ^ fuel →
    (Double.normalize fuel m e).m * 2 ^ (Double.normalize fuel m e).e.toNat = m * 2 ^ e.toNat
      ∧ 0 ≤ (Double.normalize fuel m e).e
      ∧ (Double.normalize fuel m e).m % 2 = 1
      ∧ -(2 : Int) ^ fuel < (Double.normalize fuel m e).m
      ∧ (Double.normalize fuel m e).m < (2 : Int) ^ fuel := by
  induction fuel with
  | zero =>
    intro m e hm _ h1 h2
    simp at h1 h2
    omega
  | succ f ih =>
    intro m e hm he h1 h2
    unfold Double.normalize
    rw [if_neg hm]
    rw [pow_succ] at h1 h2
    by_cases hp : m % 2 = 0
    · rw [if_pos hp]
      have hm2 : m / 2 ≠ 0 := by omega
      obtain ⟨k1, k2, k3, k4, k5⟩ := ih (m / 2) (e + 1) hm2 (by omega) (by omega) (by omega)
      refine ⟨?_, k2, k3, by rw [pow_succ]; omega, by rw [pow_succ]; omega⟩
      rw [k1]
      have he1 : (e + 1).toNat = e.toNat + 1 := by omega
      rw [he1, pow_succ]
      have : m = 2 * (m / 2) := by omega
      nth_rewrite 2 [this]
      ring
    · rw [if_neg hp]
      dsimp only
      refine ⟨rfl, he, by omega, ?_, ?_⟩ <;> rw [pow_succ] <;> omega

/-- A number of at most 53 binary digits with a non-negative exponent is not rounded. -/
theorem Double.round_exact (m e : Int) (he : 0 ≤ e) (hm1 : -(2 : Int) ^ 53 < m)
    (hm2 : m < (2 : Int) ^ 53) : Double.round m e = Double.normalize 4096 m e := by
  have hb : Double.bitLength 4096 m.natAbs ≤ 53 := by
    apply Double.bitLength_le
    have : (m.natAbs : Int) < 2 ^ 53 := by omega
    exact_mod_cast this
  have hk : (if (Double.bitLength 4096 m.natAbs : Int) - 53 ≤ -1074 - e then -1074 - e
      else (Double.bitLength 4096 m.natAbs : Int) - 53) ≤ 0 := by
    split_ifs <;> omega
  unfold Double.round
  dsimp only
  rw [if_pos hk]

/-- The conversion of an `int` to `double` and back gives the `int`; the `double` has
a non-negative exponent and an odd mantissa, unless it is zero. -/
theorem Double.ofInt_spec (n : Int) (h1 : -(2 : Int) ^ 31 ≤ n) (h2 : n < (2 : Int) ^ 31) :
    Double.toInt (Double.ofInt n) = n
      ∧ 0 ≤ (Double.ofInt n).e
      ∧ (Double.ofInt n).m * 2 ^ (Double.ofInt n).e.toNat = n
      ∧ -(2 : Int) ^ 53 < (Double.ofInt n).m ∧ (Double.ofInt n).m < (2 : Int) ^ 53
      ∧ ((Double.ofInt n).m % 2 = 1 ∨ Double.ofInt n = ⟨0, 0⟩) := by
  have hr : Double.ofInt n = Double.normalize 4096 n 0 :=
    Double.round_exact n 0 (le_refl 0) (by norm_num at h1 ⊢; omega) (by norm_num at h2 ⊢; omega)
  rw [hr]
  by_cases hn : n = 0
  · subst hn
    have h0 : Double.normalize 4096 0 0 = ⟨0, 0⟩ := rfl
    rw [h0]
    exact ⟨by decide, le_refl 0, rfl, by norm_num, by norm_num, Or.inr rfl⟩
  · have big1 : -(2 : Int) ^ 4096 < n := by
      have : (2 : Int) ^ 31 ≤ 2 ^ 4096 := pow_le_pow_right₀ (by norm_num) (by norm_num)
      omega
    have big2 : n < (2 : Int) ^ 4096 := by
      have : (2 : Int) ^ 31 ≤ 2 ^ 4096 := pow_le_pow_right₀ (by norm_num) (by norm_num)
      omega
    obtain ⟨k1, k2, k3, _, _⟩ := Double.normalize_spec 4096 n 0 hn (le_refl 0) big1 big2
    simp only [Int.toNat_zero, pow_zero, mul_one] at k1
    have hpos : (0 : Int) < 2 ^ (Double.normalize 4096 n 0).e.toNat := by positivity
    have hge : (1 : Int) ≤ 2 ^ (Double.normalize 4096 n 0).e.toNat := hpos
    have hm1 : -(2 : Int) ^ 53 < (Double.normalize 4096 n 0).m := by
      norm_num at h1 h2 ⊢
      nlinarith
    have hm2 : (Double.normalize 4096 n 0).m < (2 : Int) ^ 53 := by
      norm_num at h1 h2 ⊢
      nlinarith
    refine ⟨?_, k2, k1, hm1, hm2, Or.inl k3⟩
    have ht : Double.trunc (Double.normalize 4096 n 0) = n := by
      unfold Double.trunc
      rw [if_pos k2, k1]
    unfold Double.toInt
    rw [ht, if_pos ⟨h1, h2⟩]

/-- The conversion of a `double` to `int` gives a value of type `int`, and the integral
part when that is one. -/
theorem Double.toInt_spec (x : Double) :
    -(2 : Int) ^ 31 ≤ Double.toInt x ∧ Double.toInt x < (2 : Int) ^ 31
      ∧ (-(2 : Int) ^ 31 ≤ Double.trunc x → Double.trunc x < (2 : Int) ^ 31 →
          Double.toInt x = Double.trunc x) := by
  unfold Double.toInt
  refine ⟨?_, ?_, ?_⟩
  · split_ifs with h
    · exact h.1
    · exact le_refl _
  · split_ifs with h
    · exact h.2
    · norm_num
  · intro h1 h2
    rw [if_pos ⟨h1, h2⟩]

theorem toInt32_range (x : Int) : -(2 : Int) ^ 31 ≤ toInt32 x ∧ toInt32 x < (2 : Int) ^ 31 := by
  unfold toInt32
  norm_num
  split_ifs <;> omega

theorem Double.normalize_zero (e : Int) : Double.normalize 4096 0 e = ⟨0, 0⟩ := rfl

theorem Double.round_zero (e : Int) : Double.round 0 e = ⟨0, 0⟩ := by
  unfold Double.round
  simp only [Int.natAbs_zero, Nat.zero_div, Nat.zero_mod, Nat.mul_zero, Nat.not_lt_zero,
    Nat.zero_ne_one, and_false, or_false, if_false, lt_self_iff_false, Nat.cast_zero,
    ite_self, Double.normalize_zero, false_or]

/-- The product of a converted `int` and 1 is the converted `int`. -/
theorem Double.ofInt_mul_one (n : Int) (h1 : -(2 : Int) ^ 31 ≤ n) (h2 : n < (2 : Int) ^ 31) :
    Double.mul (Double.ofInt n) ⟨1, 0⟩ = Double.ofInt n := by
  obtain ⟨_, k2, _, k4, k5, k6⟩ := Double.ofInt_spec n h1 h2
  unfold Double.mul
  rw [Int.mul_one, Int.add_zero, Double.round_exact _ _ k2 k4 k5]
  rcases k6 with hodd | hz
  · unfold Double.normalize
    have hne : (Double.ofInt n).m ≠ 0 := by omega
    have hne2 : ¬ (Double.ofInt n).m % 2 = 0 := by omega
    rw [if_neg hne, if_neg hne2]
  · rw [hz]
    rfl

/-- The sum of 0 and a converted `int` is the converted `int`. -/
theorem Double.zero_add_ofInt (n : Int) (h1 : -(2 : Int) ^ 31 ≤ n) (h2 : n < (2 : Int) ^ 31) :
    Double.add ⟨0, 0⟩ (Double.ofInt n) = Double.ofInt n := by
  obtain ⟨_, k2, k3, _, _, _⟩ := Double.ofInt_spec n h1 h2
  unfold Double.add
  dsimp only
  rw [if_pos k2]
  simp only [Int.zero_mul, Int.zero_add, Int.sub_zero]
  rw [k3]
  rfl

theorem Double.zero_mul (y : Double) : Double.mul (Double.ofInt 0) y = ⟨0, 0⟩ := by
  have h0 : Double.ofInt 0 = ⟨0, 0⟩ := Double.round_zero 0
  rw [h0]
  unfold Double.mul
  rw [Int.zero_mul]
  exact Double.round_zero _

/-- With the cursor at the `x` of `m_featureLineDO` and the sine 1 at the angle of the
normal, the height computed is the vertical offset of the cursor: the product with the
cosine is 0 whatever the cosine is, and the rest is exact. -/
theorem dimensionHeight_above (T : Trig) (d : DIMENSION) (c : Point)
    (hx : c.x = d.m_featureLineDO.x)
    (hsin : T.sin (Double.add (d.GetAngle T) M_PI_2) = ⟨1, 0⟩) :
    Double.toInt (dimensionHeight T d c) = toInt32 (c.y - d.m_featureLineDO.y) := by
  obtain ⟨r1, r2⟩ := toInt32_range (c.y - d.m_featureLineDO.y)
  have hz : toInt32 (c.x - d.m_featureLineDO.x) = 0 := by
    rw [hx, Int.sub_self]
    rfl
  have h : dimensionHeight T d c = Double.ofInt (toInt32 (c.y - d.m_featureLineDO.y)) := by
    show Double.add
        (Double.mul (Double.ofInt (toInt32 (c.x - d.m_featureLineDO.x)))
          (T.cos (Double.add (d.GetAngle T) M_PI_2)))
        (Double.mul (Double.ofInt (toInt32 (c.y - d.m_featureLineDO.y)))
          (T.sin (Double.add (d.GetAngle T) M_PI_2))) = _
    rw [hz, hsin, Double.zero_mul, Double.ofInt_mul_one _ r1 r2, Double.zero_add_ofInt _ r1 r2]
  rw [h]
  exact (Double.ofInt_spec _ r1 r2).1

/-! # The claims -/

/-- C1. A cancel event records no `Add`, no `Modify` and no `Push` and leaves the board
as it is, and so does the whole gesture it ends, in each drawing loop. In `drawSegment`
and `drawArc` the cancel leaves the loop with the graphic deleted, and the iteration of
`DrawLine` or `DrawArc` that a cancel ends, after any events that kept the loop going,
leaves the document as it was before the iteration. In `DrawDimension`, `drawZone` and
`PlaceText`, started in any state their loops can wait in, events none of which is the
click the loop commits on, followed by a cancel, are all handled and leave the document
as it was before the first of them. In `PlaceDXF` the same holds of events none of
which is a left click. -/
theorem cancel_keeps_document (E : Collaborators) (T : Trig)
    (c : TOOL_EVENT) (hc : IsCancelInteractive c = true) :
    (∀ aShape t l, sameDocument t (drawSegmentStep E aShape t l c).1
        ∧ (drawSegmentStep E aShape t l c).2.1.aGraphicNull = true
        ∧ (drawSegmentStep E aShape t l c).2.2 = true)
    ∧ (∀ t l, sameDocument t (drawArcStep E t l c).1
        ∧ (drawArcStep E t l c).2.1.aGraphicNull = true
        ∧ (drawArcStep E t l c).2.2 = true)
    ∧ (∀ t sp pre rest,
        segmentGoesOn E .S_SEGMENT
          (segmentEntry .S_SEGMENT t (DRAWSEGMENT.new t.m_editModules) sp).1
          (segmentEntry .S_SEGMENT t (DRAWSEGMENT.new t.m_editModules) sp).2 pre = true →
        sameDocument t (DrawLineIter E t sp (pre ++ c :: rest)).2.1)
    ∧ (∀ t pre rest,
        arcGoesOn E t.enterLoop (arcEntry (DRAWSEGMENT.new t.m_editModules)) pre = true →
        sameDocument t (DrawArcIter E t (pre ++ c :: rest)).2.1)
    ∧ (∀ t l pre, DimensionInv l → noDimensionAccept E T t l pre = true →
        ∃ t1 l1, DrawDimensionLoop E T t l (pre ++ [c]) = some (t1, l1) ∧ sameDocument t t1)
    ∧ (∀ aKeepout aMode t l pre, ZoneInv l → ZoneCorners l → ZoneSourceInv aMode t l →
        noZoneCommit E aKeepout aMode t l pre = true →
        ∃ t1 l1, drawZoneLoop E aKeepout aMode t l (pre ++ [c]) = some (t1, l1)
          ∧ sameDocument t t1)
    ∧ (∀ t l pre, noTextPlaced E t l pre = true →
        sameDocument t (PlaceTextLoop E t l (pre ++ [c])).1)
    ∧ (∀ t l pre, (∀ e ∈ pre, e.IsClickLeft = false) →
        sameDocument t (PlaceDXFLoop E t l (pre ++ [c])).1) := by
  refine ⟨?_, ?_, ?_, ?_, ?_, ?_, ?_, ?_⟩
  · intro aShape t l
    obtain ⟨h1, h2, _, _, h5⟩ := drawSegmentStep_cancel E aShape t l c hc
    exact ⟨h1, h2, h5⟩
  · intro t l
    obtain ⟨h1, h2, _, _, h5⟩ := drawArcStep_cancel E t l c hc
    exact ⟨h1, h2, h5⟩
  · intro t sp pre rest hpre
    exact (DrawLineIter_cancel E t sp pre c rest hc hpre).1
  · intro t pre rest hpre
    exact (DrawArcIter_cancel E t pre c rest hc hpre).1
  · intro t l pre hl hno
    exact DrawDimensionLoop_cancelled E T c hc pre t l hl hno
  · intro aKeepout aMode t l pre hl hcor hsrc hno
    exact drawZoneLoop_cancelled E aKeepout aMode c hc pre t l hl hcor hsrc hno
  · intro t l pre hno
    exact PlaceTextLoop_cancelled E c hc pre t l hno
  · intro t l pre hno
    exact PlaceDXFLoop_cancelled E c hc pre t l hno

/-- C1, worked examples, each ended by a cancel at (100,0): a line started at (0,0) with
the cursor moved to (100,0); a dimension with origin (0,0) and end (100,0) waiting for
its height; a zone with the corners (0,0), (100,0), (100,100); a text being placed;
the items of an import being moved. The document is as before in each. -/
theorem cancel_keeps_document_witness :
    IsCancelInteractive (eventAt .cancel ⟨100, 0⟩) = true
      ∧ sameDocument exampleTool
          (DrawLineIter exampleCollaborators exampleTool none
            ([eventAt .clickLeft ⟨0, 0⟩, eventAt .motion ⟨100, 0⟩]
              ++ eventAt .cancel ⟨100, 0⟩ :: [])).2.1
      ∧ (noDimensionAccept exampleCollaborators exampleTrig exampleTool DimensionLoop.start
            horizontalDimensionEvents = true
          ∧ ∃ t1 l1, DrawDimensionLoop exampleCollaborators exampleTrig exampleTool
              DimensionLoop.start (horizontalDimensionEvents ++ [eventAt .cancel ⟨100, 0⟩])
                = some (t1, l1) ∧ sameDocument exampleTool t1)
      ∧ (noZoneCommit exampleCollaborators false .ADD exampleTool (ZoneLoop.start none)
            triangleEvents = true
          ∧ ∃ t1 l1, drawZoneLoop exampleCollaborators false .ADD exampleTool
              (ZoneLoop.start none) (triangleEvents ++ [eventAt .cancel ⟨100, 0⟩])
                = some (t1, l1) ∧ sameDocument exampleTool t1)
      ∧ (noTextPlaced exampleCollaborators exampleTool { text := none, preview := [] }
            [textClickAt ⟨0, 0⟩ "A", eventAt .motion ⟨100, 0⟩] = true
          ∧ sameDocument exampleTool
              (PlaceTextLoop exampleCollaborators exampleTool { text := none, preview := [] }
                ([textClickAt ⟨0, 0⟩ "A", eventAt .motion ⟨100, 0⟩]
                  ++ [eventAt .cancel ⟨100, 0⟩])).1)
      ∧ ((∀ e ∈ [eventAt .motion ⟨100, 0⟩], e.IsClickLeft = false)
          ∧ sameDocument exampleTool
              (PlaceDXFLoop exampleCollaborators exampleTool
                { items := importedItems, preview := [.imported 0, .imported 1] }
                ([eventAt .motion ⟨100, 0⟩] ++ [eventAt .cancel ⟨100, 0⟩])).1) :=
  ⟨rfl,
    (cancel_keeps_document exampleCollaborators exampleTrig (eventAt .cancel ⟨100, 0⟩) rfl).2.2.1
      exampleTool none [eventAt .clickLeft ⟨0, 0⟩, eventAt .motion ⟨100, 0⟩] []
      (by decide),
    ⟨by decide,
      (cancel_keeps_document exampleCollaborators exampleTrig (eventAt .cancel ⟨100, 0⟩)
        rfl).2.2.2.2.1 exampleTool DimensionLoop.start horizontalDimensionEvents
        DimensionInv_start (by decide)⟩,
    ⟨by decide,
      (cancel_keeps_document exampleCollaborators exampleTrig (eventAt .cancel ⟨100, 0⟩)
        rfl).2.2.2.2.2.1 false .ADD exampleTool (ZoneLoop.start none) triangleEvents
        (ZoneInv_start none) (ZoneCorners_start none)
        ⟨fun h => (by cases h), fun _ hi => (by cases hi)⟩ (by decide)⟩,
    ⟨by decide,
      (cancel_keeps_document exampleCollaborators exampleTrig (eventAt .cancel ⟨100, 0⟩)
        rfl).2.2.2.2.2.2.1 exampleTool { text := none, preview := [] }
        [textClickAt ⟨0, 0⟩ "A", eventAt .motion ⟨100, 0⟩] (by decide)⟩,
    ⟨by decide,
      (cancel_keeps_document exampleCollaborators exampleTrig (eventAt .cancel ⟨100, 0⟩)
        rfl).2.2.2.2.2.2.2 exampleTool
        { items := importedItems, preview := [.imported 0, .imported 1] }
        [eventAt .motion ⟨100, 0⟩] (by decide)⟩⟩

/-- C2. Exactly one document mutation is recorded per finished shape or polygon. In
`DrawLine`, the iteration in which a click accepts the segment (after any events that
kept `drawSegment` going) records exactly `Add` of that segment and then `Push`, and
the board gains exactly that segment. In `drawZone`, a closing click on a contour of
more than 2 points records exactly `Add` of the finished zone and `Push` in the modes
`ADD` and `SIMILAR`, and exactly `Modify` of the source zone and `Push` in the mode
`CUTOUT`. -/
theorem commit_exactly_once (E : Collaborators) :
    (∀ t sp pre e rest,
        segmentGoesOn E .S_SEGMENT
          (segmentEntry .S_SEGMENT t (DRAWSEGMENT.new t.m_editModules) sp).1
          (segmentEntry .S_SEGMENT t (DRAWSEGMENT.new t.m_editModules) sp).2 pre = true →
        segmentAccepts E .S_SEGMENT
          (segmentAfter E .S_SEGMENT
            (segmentEntry .S_SEGMENT t (DRAWSEGMENT.new t.m_editModules) sp).1
            (segmentEntry .S_SEGMENT t (DRAWSEGMENT.new t.m_editModules) sp).2 pre).1
          (segmentAfter E .S_SEGMENT
            (segmentEntry .S_SEGMENT t (DRAWSEGMENT.new t.m_editModules) sp).1
            (segmentEntry .S_SEGMENT t (DRAWSEGMENT.new t.m_editModules) sp).2 pre).2 e = true →
        ∃ line t1, DrawLineIter E t sp (pre ++ e :: rest) = (true, t1, some line.GetEnd, rest)
          ∧ t1.commitCalls = t.commitCalls ++ [.Add (.segment line), .Push "Draw a line segment"]
          ∧ t1.board = t.board ++ DRAWING_TOOL.addedItems t.pending ++ [.segment line])
    ∧ (∀ aKeepout aMode t l evt, ZoneInv l → zoneCloses l evt = true → 2 < l.numPoints →
        aMode ≠ .CUTOUT →
        ∃ zone t1 l1, drawZoneStep E aKeepout aMode t l evt = some (t1, l1, false)
          ∧ t1.commitCalls = t.commitCalls ++ [.Add (.zone zone), .Push "Draw a zone"]
          ∧ t1.board = t.board ++ DRAWING_TOOL.addedItems t.pending ++ [.zone zone])
    ∧ (∀ aKeepout t l evt idx Z, ZoneInv l → zoneCloses l evt = true → 2 < l.numPoints →
        l.sourceZone = some idx → zoneAt t idx = some Z →
        ∃ t1 l1, drawZoneStep E aKeepout .CUTOUT t l evt = some (t1, l1, false)
          ∧ t1.commitCalls = t.commitCalls ++ [.Modify (.zone Z), .Push "Add a zone cutout"]
          ∧ t1.board.length = t.board.length + (DRAWING_TOOL.addedItems t.pending).length) := by
  refine ⟨?_, ?_, ?_⟩
  · intro t sp pre e rest hpre hacc
    obtain ⟨line, t1, _, h1, h2, h3, _⟩ := DrawLineIter_accepts E t sp pre e rest hpre hacc
    exact ⟨line, t1, h1, h2, h3⟩
  · intro aKeepout aMode t l evt hl hcl hnp hm
    obtain ⟨t1, l1, _, hdoc, hinv, hn1, hz1, _, _, hstep⟩ :=
      drawZoneStep_closes E aKeepout aMode t l evt hl hcl
    have hzs : l1.zone.isSome = true := (hinv.2.1 (by omega)).2
    obtain ⟨z, hz⟩ := Option.isSome_iff_exists.mp hzs
    obtain ⟨t2, l2, hclose, hc, hb, _⟩ :=
      zoneClose_add E aKeepout aMode t1 l1 evt.cursor z (by omega) hz hm hinv.2.2
    refine ⟨finishZone E aKeepout l1 evt.cursor z, t2, l2, ?_, ?_, ?_⟩
    · rw [hstep, hclose]; rfl
    · rw [hc, hdoc.1]
    · rw [hb, hdoc.2.2.2, hdoc.2.1]
  · intro aKeepout t l evt idx Z hl hcl hnp hs hZ
    obtain ⟨t1, l1, _, hdoc, hinv, hn1, hz1, hs1, _, hstep⟩ :=
      drawZoneStep_closes E aKeepout .CUTOUT t l evt hl hcl
    have hzs : l1.zone.isSome = true := (hinv.2.1 (by omega)).2
    obtain ⟨z, hz⟩ := Option.isSome_iff_exists.mp hzs
    have hZ1 : zoneAt t1 idx = some Z := by
      unfold zoneAt at hZ ⊢
      rw [hdoc.2.2.2]; exact hZ
    obtain ⟨t2, l2, hclose, hc, hb, _⟩ :=
      zoneClose_cutout E aKeepout t1 l1 evt.cursor z Z idx (by omega) hz (hs1.trans hs) hZ1 hinv.2.2
    refine ⟨t2, l2, ?_, ?_, ?_⟩
    · rw [hstep, hclose]; rfl
    · rw [hc, hdoc.1]
    · rw [hb, hdoc.2.2.2, hdoc.2.1]; simp

/-- C2, worked examples: the line from (0,0) accepted by a click at (100,0); a triangle
closed by a double-click in the mode `ADD`; a triangle closed by a double-click in the
mode `CUTOUT` against the example zone. -/
theorem commit_exactly_once_witness :
    (∃ line t1,
        DrawLineIter exampleCollaborators exampleTool none
            ([eventAt .clickLeft ⟨0, 0⟩, eventAt .motion ⟨100, 0⟩]
              ++ eventAt .clickLeft ⟨100, 0⟩ :: [])
          = (true, t1, some line.GetEnd, [])
        ∧ t1.commitCalls
            = exampleTool.commitCalls ++ [.Add (.segment line), .Push "Draw a line segment"]
        ∧ t1.board
            = exampleTool.board ++ DRAWING_TOOL.addedItems exampleTool.pending ++ [.segment line])
    ∧ (∃ zone t1 l1,
        drawZoneStep exampleCollaborators false .ADD
            (zoneStateAfter exampleCollaborators false .ADD exampleTool none triangleEvents).1
            (zoneStateAfter exampleCollaborators false .ADD exampleTool none triangleEvents).2
            (eventAt .dblClickLeft ⟨100, 100⟩) = some (t1, l1, false)
        ∧ t1.commitCalls
            = (zoneStateAfter exampleCollaborators false .ADD exampleTool none
                triangleEvents).1.commitCalls ++ [.Add (.zone zone), .Push "Draw a zone"]
        ∧ t1.board
            = (zoneStateAfter exampleCollaborators false .ADD exampleTool none
                  triangleEvents).1.board
                ++ DRAWING_TOOL.addedItems
                    (zoneStateAfter exampleCollaborators false .ADD exampleTool none
                      triangleEvents).1.pending
                ++ [.zone zone])
    ∧ (∃ t1 l1,
        drawZoneStep exampleCollaborators false .CUTOUT
            (zoneStateAfter exampleCollaborators false .CUTOUT exampleZoneTool (some 0)
              triangleEvents).1
            (zoneStateAfter exampleCollaborators false .CUTOUT exampleZoneTool (some 0)
              triangleEvents).2
            (eventAt .dblClickLeft ⟨100, 100⟩) = some (t1, l1, false)
        ∧ t1.commitCalls
            = (zoneStateAfter exampleCollaborators false .CUTOUT exampleZoneTool (some 0)
                triangleEvents).1.commitCalls
              ++ [.Modify (.zone exampleZone), .Push "Add a zone cutout"]
        ∧ t1.board.length
            = (zoneStateAfter exampleCollaborators false .CUTOUT exampleZoneTool (some 0)
                  triangleEvents).1.board.length
                + (DRAWING_TOOL.addedItems
                    (zoneStateAfter exampleCollaborators false .CUTOUT exampleZoneTool (some 0)
                      triangleEvents).1.pending).length) :=
  ⟨(commit_exactly_once exampleCollaborators).1 exampleTool none
      [eventAt .clickLeft ⟨0, 0⟩, eventAt .motion ⟨100, 0⟩] (eventAt .clickLeft ⟨100, 0⟩) []
      (by decide) (by decide),
    (commit_exactly_once exampleCollaborators).2.1 false .ADD _ _ (eventAt .dblClickLeft ⟨100, 100⟩)
      (by decide) (by decide) (by decide) (by decide),
    (commit_exactly_once exampleCollaborators).2.2 false _ _ (eventAt .dblClickLeft ⟨100, 100⟩) 0
      exampleZone (by decide) (by decide) (by decide) (by decide) (by decide)⟩

/-- C3. Chained drawing. When an iteration of the loop of `DrawLine` commits a segment
and hands on its end point `p1`, the loop calls `drawSegment` again with `p1` as the
starting point; when that second iteration commits a segment too (no cancel and no
finishing click in between), the loop has recorded `Add`, `Push`, `Add`, `Push` of two
segments, the second of which starts where the first one ends, and goes on from the end
point of the second. -/
theorem chained_segments_share_point (E : Collaborators) (fuel : Nat) (t : DRAWING_TOOL)
    (sp : Option Point) (evs : List TOOL_EVENT) (t1 : DRAWING_TOOL) (p1 : Point)
    (evs1 : List TOOL_EVENT) (t2 : DRAWING_TOOL) (p2 : Point) (evs2 : List TOOL_EVENT)
    (h1 : DrawLineIter E t sp evs = (true, t1, some p1, evs1))
    (h2 : DrawLineIter E t1 (some p1) evs1 = (true, t2, some p2, evs2)) :
    DrawLineLoop E (fuel + 1) t sp evs = DrawLineLoop E fuel t1 (some p1) evs1
      ∧ DrawLineLoop E (fuel + 2) t sp evs = DrawLineLoop E fuel t2 (some p2) evs2
      ∧ DrawLineLoop E 2 t sp evs = t2
      ∧ ∃ line1 line2 : DRAWSEGMENT,
          t2.commitCalls = t.commitCalls
              ++ [.Add (.segment line1), .Push "Draw a line segment",
                  .Add (.segment line2), .Push "Draw a line segment"]
            ∧ line2.GetStart = line1.GetEnd ∧ line1.GetEnd = p1 ∧ line2.GetEnd = p2 := by
  obtain ⟨line1, e1, c1, _, _⟩ := DrawLineIter_some E t sp evs t1 p1 evs1 h1
  obtain ⟨line2, e2, c2, _, s2⟩ := DrawLineIter_some E t1 (some p1) evs1 t2 p2 evs2 h2
  refine ⟨?_, ?_, ?_, line1, line2, ?_, ?_, e1, e2⟩
  · simp only [DrawLineLoop, h1]
  · simp only [DrawLineLoop, h1, h2]
  · simp only [DrawLineLoop, h1, h2]
  · rw [c2, c1]; simp
  · exact (s2 p1 rfl).trans e1.symm

/-- C3, worked example: `DrawLine` is given a click at (0,0), a motion and a click at
(100,0), a motion and a click at (100,100). The first iteration hands on (100,0), the
second one (100,100), and the two segments committed are (0,0)-(100,0) and
(100,0)-(100,100). -/
theorem chained_segments_share_point_witness :
    DrawLineIter exampleCollaborators exampleTool none chainedEvents
        = (true, (DrawLineIter exampleCollaborators exampleTool none chainedEvents).2.1,
            some ⟨100, 0⟩, [eventAt .motion ⟨100, 100⟩, eventAt .clickLeft ⟨100, 100⟩])
      ∧ DrawLineIter exampleCollaborators
          (DrawLineIter exampleCollaborators exampleTool none chainedEvents).2.1
          (some ⟨100, 0⟩) [eventAt .motion ⟨100, 100⟩, eventAt .clickLeft ⟨100, 100⟩]
        = (true, DrawLine exampleCollaborators 2 exampleTool chainedEvents,
            some ⟨100, 100⟩, [])
      ∧ DrawLineLoop exampleCollaborators 2 exampleTool none chainedEvents
          = DrawLine exampleCollaborators 2 exampleTool chainedEvents
      ∧ (DrawLine exampleCollaborators 2 exampleTool chainedEvents).commitCalls
          = [.Add (.segment (exampleSegment ⟨0, 0⟩ ⟨100, 0⟩)), .Push "Draw a line segment",
             .Add (.segment (exampleSegment ⟨100, 0⟩ ⟨100, 100⟩)),
             .Push "Draw a line segment"] :=
  ⟨by decide, by decide,
    (chained_segments_share_point exampleCollaborators 0 exampleTool none chainedEvents
      (DrawLineIter exampleCollaborators exampleTool none chainedEvents).2.1 ⟨100, 0⟩
      [eventAt .motion ⟨100, 100⟩, eventAt .clickLeft ⟨100, 100⟩]
      (DrawLine exampleCollaborators 2 exampleTool chainedEvents)
      ⟨100, 100⟩ [] (by decide) (by decide)).2.2.1,
    by decide⟩

/-- C4, as the code has it. A closing action (double-click, or click on the first point)
that arrives while fewer than 3 points are collected (`numPoints` is at most 2) produces
no commit: no `Add`, no `Modify` and no `Push` is recorded, the board is untouched, and
the gesture is discarded. -/
theorem few_points_no_commit (E : Collaborators) (aKeepout : Bool) (aMode : ZONE_MODE)
    (t : DRAWING_TOOL) (l : ZoneLoop) (evt : TOOL_EVENT) (hl : ZoneInv l)
    (hcl : zoneCloses l evt = true) (hnp : l.numPoints ≤ 2) :
    ∃ t1 l1, drawZoneStep E aKeepout aMode t l evt = some (t1, l1, false) ∧ sameDocument t t1
      ∧ l1.numPoints = 0 ∧ l1.zone = none ∧ l1.preview = [] := by
  obtain ⟨t1, l1, _, hdoc, hinv, hn1, _, _, _, hstep⟩ :=
    drawZoneStep_closes E aKeepout aMode t l evt hl hcl
  obtain ⟨t2, l2, hclose, hd2, h0, hp, hz, _⟩ :=
    zoneClose_few E aKeepout aMode t1 l1 evt.cursor (by omega) hinv.2.2
  refine ⟨t2, l2, ?_, sameDocument_trans hdoc hd2, h0, hz, hp⟩
  rw [hstep, hclose]; rfl

/-- C4, worked example: two points are collected and a double-click closes; nothing is
committed. -/
theorem few_points_no_commit_witness :
    ∃ t1 l1,
      drawZoneStep exampleCollaborators false .ADD
          (zoneStateAfter exampleCollaborators false .ADD exampleTool none
            (triangleEvents.take 3)).1
          (zoneStateAfter exampleCollaborators false .ADD exampleTool none
            (triangleEvents.take 3)).2
          (eventAt .dblClickLeft ⟨100, 0⟩) = some (t1, l1, false)
        ∧ sameDocument
            (zoneStateAfter exampleCollaborators false .ADD exampleTool none
              (triangleEvents.take 3)).1 t1
        ∧ l1.numPoints = 0 ∧ l1.zone = none ∧ l1.preview = [] :=
  few_points_no_commit exampleCollaborators false .ADD _ _ (eventAt .dblClickLeft ⟨100, 0⟩)
    (by decide) (by decide) (by decide)

/-- C4, counterexample to the claim as stated: after clicks at (0,0), (100,0) and again
(100,0) the gesture holds only 2 distinct vertices, yet the double-click that closes it
commits a zone (whose cleaned outline has 2 corners). -/
theorem two_distinct_vertices_committed :
    ((zoneStateAfter exampleCollaborators false .ADD exampleTool none degenerateEvents).2.zone.map
        fun z => z.cornerPositions.dedup) = some [⟨0, 0⟩, ⟨100, 0⟩]
      ∧ zoneCloses (zoneStateAfter exampleCollaborators false .ADD exampleTool none
          degenerateEvents).2 (eventAt .dblClickLeft ⟨100, 0⟩) = true
      ∧ (zoneStateAfter exampleCollaborators false .ADD exampleTool none
          degenerateEvents).1.commitCalls = []
      ∧ ((drawZoneStep exampleCollaborators false .ADD
            (zoneStateAfter exampleCollaborators false .ADD exampleTool none degenerateEvents).1
            (zoneStateAfter exampleCollaborators false .ADD exampleTool none degenerateEvents).2
            (eventAt .dblClickLeft ⟨100, 0⟩)).map fun r => r.1.commitCalls)
          = some [.Add (.zone
              { corners := [⟨⟨0, 0⟩, false⟩, ⟨⟨100, 0⟩, true⟩], settings := exampleSettings,
                m_IsFilled := true, hatched := true }), .Push "Draw a zone"] := by
  decide

/-- C5, as the code has it. A decrement command handled by `drawSegment`, `drawArc` or
`DrawDimension` lowers `m_lineWidth` by `WIDTH_STEP` only when it exceeds `WIDTH_STEP`
and leaves it alone otherwise, so a decrement never drives a positive `m_lineWidth` to
zero or below; the shape width set from a lowered `m_lineWidth` below `2 ^ 31` is that
positive value. -/
theorem decrement_keeps_width_positive (E : Collaborators) (T : Trig)
    (evt : TOOL_EVENT) (hk : evt.kind = .decWidth) :
    (∀ aShape t l,
        (drawSegmentStep E aShape t l evt).1.m_lineWidth = decrementedWidth t.m_lineWidth
        ∧ (0 < t.m_lineWidth → 0 < (drawSegmentStep E aShape t l evt).1.m_lineWidth)
        ∧ (WIDTH_STEP < t.m_lineWidth → t.m_lineWidth < 2 ^ 31 →
            (drawSegmentStep E aShape t l evt).2.1.aGraphic.m_Width = t.m_lineWidth - WIDTH_STEP
            ∧ 0 < (drawSegmentStep E aShape t l evt).2.1.aGraphic.m_Width))
    ∧ (∀ t l,
        (drawArcStep E t l evt).1.m_lineWidth = decrementedWidth t.m_lineWidth
        ∧ (0 < t.m_lineWidth → 0 < (drawArcStep E t l evt).1.m_lineWidth)
        ∧ (WIDTH_STEP < t.m_lineWidth → t.m_lineWidth < 2 ^ 31 →
            (drawArcStep E t l evt).2.1.aGraphic.m_Width = t.m_lineWidth - WIDTH_STEP
            ∧ 0 < (drawArcStep E t l evt).2.1.aGraphic.m_Width))
    ∧ (∀ t l d, l.dimension = some d →
        ∃ t1 l1, DrawDimensionStep E T t l evt = some (t1, l1, false)
          ∧ t1.m_lineWidth
              = (if l.step ≠ DIM_SET_ORIGIN then decrementedWidth t.m_lineWidth
                 else t.m_lineWidth)
          ∧ (0 < t.m_lineWidth → 0 < t1.m_lineWidth)
          ∧ (l.step ≠ DIM_SET_ORIGIN → WIDTH_STEP < t.m_lineWidth → t.m_lineWidth < 2 ^ 31 →
              ∃ d1, l1.dimension = some d1 ∧ d1.m_Width = t.m_lineWidth - WIDTH_STEP
                ∧ 0 < d1.m_Width)) := by
  have hpos : ∀ w : Int, 0 < w → 0 < decrementedWidth w := by
    intro w hw
    unfold decrementedWidth
    split <;> omega
  have hsmall : ∀ w : Int, WIDTH_STEP < w → w < 2 ^ 31 →
      toInt32 (w - WIDTH_STEP) = w - WIDTH_STEP ∧ 0 < toInt32 (w - WIDTH_STEP) := by
    intro w h1 h2
    have hs : (0 : Int) < WIDTH_STEP := by decide
    have he := toInt32_of_small (w - WIDTH_STEP) (by omega) (by omega)
    exact ⟨he, by rw [he]; omega⟩
  refine ⟨?_, ?_, ?_⟩
  · intro aShape t l
    obtain ⟨h1, h2⟩ := drawSegmentStep_decWidth E aShape t l evt hk
    refine ⟨h1, fun h => h1 ▸ hpos _ h, fun hg hlt => ?_⟩
    rw [h2 hg]
    exact hsmall _ hg hlt
  · intro t l
    obtain ⟨h1, h2⟩ := drawArcStep_decWidth E t l evt hk
    refine ⟨h1, fun h => h1 ▸ hpos _ h, fun hg hlt => ?_⟩
    rw [h2 hg]
    exact hsmall _ hg hlt
  · intro t l d hd
    obtain ⟨t1, l1, h0, h1, h2⟩ := DrawDimensionStep_decWidth E T t l evt d hk hd
    refine ⟨t1, l1, h0, h1, fun h => ?_, fun hs hg hlt => ?_⟩
    · rw [h1]
      split
      · exact hpos _ h
      · exact h
    · refine ⟨_, h2 hs hg, ?_⟩
      exact hsmall _ hg hlt

/-- C5, worked example: a line is started with width 150000 and one decrement arrives;
the width stays positive. -/
theorem decrement_keeps_width_positive_witness :
    (eventAt .decWidth ⟨0, 0⟩).kind = .decWidth
      ∧ (0 : Int) < exampleTool.m_lineWidth
      ∧ 0 < (drawSegmentStep exampleCollaborators .S_SEGMENT exampleTool
            (segmentEntry .S_SEGMENT exampleTool (DRAWSEGMENT.new false) (some ⟨0, 0⟩)).2
            (eventAt .decWidth ⟨0, 0⟩)).1.m_lineWidth :=
  ⟨rfl, by decide,
    ((decrement_keeps_width_positive exampleCollaborators exampleTrig (eventAt .decWidth ⟨0, 0⟩)
      rfl).1 .S_SEGMENT exampleTool
        (segmentEntry .S_SEGMENT exampleTool (DRAWSEGMENT.new false) (some ⟨0, 0⟩)).2).2.1
      (by decide)⟩

/-- C5, counterexample to the claim as stated: a line started with the width 150000
receives one decrement command; `m_lineWidth` and the width of the shape become 50000,
which is below `WIDTH_STEP`. -/
theorem decrement_goes_below_step :
    (drawSegmentStep exampleCollaborators .S_SEGMENT exampleTool
        (segmentEntry .S_SEGMENT exampleTool (DRAWSEGMENT.new false) (some ⟨0, 0⟩)).2
        (eventAt .decWidth ⟨0, 0⟩)).1.m_lineWidth = 50000
      ∧ (drawSegmentStep exampleCollaborators .S_SEGMENT exampleTool
        (segmentEntry .S_SEGMENT exampleTool (DRAWSEGMENT.new false) (some ⟨0, 0⟩)).2
        (eventAt .decWidth ⟨0, 0⟩)).2.1.aGraphic.m_Width = 50000
      ∧ (50000 : Int) < WIDTH_STEP := by
  decide

/-- C6. Cutout semantics. When a closing click arrives in the mode `CUTOUT` on a contour
of more than 2 points, with source zone `Z` at index `idx` of the board and an empty
commit queue: the commit records `Modify` of `Z` as it was before the change, then
`Push`, and no `Add`; afterwards the board has the same items except that the corner
list of `Z` is its previous corner list followed by all corners of the finished cutout
in order, the last one closing the contour; and the zone fill is run for `Z` exactly
when `Z` was filled. -/
theorem cutout_semantics (E : Collaborators) (aKeepout : Bool) (t : DRAWING_TOOL) (l : ZoneLoop)
    (evt : TOOL_EVENT) (idx : Nat) (Z : ZONE_CONTAINER) (hl : ZoneInv l)
    (hcl : zoneCloses l evt = true) (hnp : 2 < l.numPoints) (hs : l.sourceZone = some idx)
    (hZ : zoneAt t idx = some Z) (hq : t.pending = []) :
    ∃ t0 l0 z t1 l1, zoneModeCheck E (t.Wait evt) l evt = some (t0, l0) ∧ l.zone = some z
      ∧ drawZoneStep E aKeepout .CUTOUT t l evt = some (t1, l1, false)
      ∧ t1.commitCalls = t.commitCalls ++ [.Modify (.zone Z), .Push "Add a zone cutout"]
      ∧ t1.board
          = t.board.set idx
              (.zone { Z with corners := cutoutCorners Z (finishZone E aKeepout l0 evt.cursor z) })
      ∧ zoneAt t1 idx
          = some { Z with corners := cutoutCorners Z (finishZone E aKeepout l0 evt.cursor z) }
      ∧ cutoutCorners Z (finishZone E aKeepout l0 evt.cursor z)
          = closeLast (Z.corners
              ++ (finishZone E aKeepout l0 evt.cursor z).cornerPositions.map fun p => ⟨p, false⟩)
      ∧ t1.zoneFillRuns = t.zoneFillRuns ++ (if Z.IsFilled then [idx] else []) := by
  obtain ⟨t0, l0, hm, hdoc, hinv, hn1, hz1, hs1, hf0, hstep⟩ :=
    drawZoneStep_closes E aKeepout .CUTOUT t l evt hl hcl
  have hzs : l0.zone.isSome = true := (hinv.2.1 (by omega)).2
  obtain ⟨z, hz⟩ := Option.isSome_iff_exists.mp hzs
  have hZ0 : zoneAt t0 idx = some Z := by
    unfold zoneAt at hZ ⊢
    rw [hdoc.2.2.2]; exact hZ
  obtain ⟨t1, l1, hclose, hc, hb, hfill, _⟩ :=
    zoneClose_cutout E aKeepout t0 l0 evt.cursor z Z idx (by omega) hz (hs1.trans hs) hZ0 hinv.2.2
  have hboard : t1.board
      = t.board.set idx
          (.zone { Z with corners := cutoutCorners Z (finishZone E aKeepout l0 evt.cursor z) }) := by
    rw [hb, hdoc.2.2.2, hdoc.2.1, hq]
    simp [DRAWING_TOOL.addedItems]
  refine ⟨t0, l0, z, t1, l1, hm, hz1 ▸ hz, ?_, ?_, hboard, ?_, rfl, ?_⟩
  · rw [hstep, hclose]; rfl
  · rw [hc, hdoc.1]
  · obtain ⟨hlt, _⟩ := zoneAt_lt hZ
    unfold zoneAt
    rw [hboard]
    simp [List.getElem?_set, hlt]
  · rw [hfill, hf0]

/-- C6, worked example: a triangle cut out of the filled example zone. -/
theorem cutout_semantics_witness :
    ∃ t0 l0 z t1 l1,
      zoneModeCheck exampleCollaborators
          ((zoneStateAfter exampleCollaborators false .CUTOUT exampleZoneTool (some 0)
            triangleEvents).1.Wait (eventAt .dblClickLeft ⟨100, 100⟩))
          (zoneStateAfter exampleCollaborators false .CUTOUT exampleZoneTool (some 0)
            triangleEvents).2 (eventAt .dblClickLeft ⟨100, 100⟩) = some (t0, l0)
      ∧ (zoneStateAfter exampleCollaborators false .CUTOUT exampleZoneTool (some 0)
            triangleEvents).2.zone = some z
      ∧ drawZoneStep exampleCollaborators false .CUTOUT
          (zoneStateAfter exampleCollaborators false .CUTOUT exampleZoneTool (some 0)
            triangleEvents).1
          (zoneStateAfter exampleCollaborators false .CUTOUT exampleZoneTool (some 0)
            triangleEvents).2 (eventAt .dblClickLeft ⟨100, 100⟩) = some (t1, l1, false)
      ∧ t1.commitCalls
          = (zoneStateAfter exampleCollaborators false .CUTOUT exampleZoneTool (some 0)
              triangleEvents).1.commitCalls
            ++ [.Modify (.zone exampleZone), .Push "Add a zone cutout"]
      ∧ t1.board
          = (zoneStateAfter exampleCollaborators false .CUTOUT exampleZoneTool (some 0)
              triangleEvents).1.board.set 0
              (.zone { exampleZone with
                corners := cutoutCorners exampleZone
                  (finishZone exampleCollaborators false l0 (eventAt .dblClickLeft ⟨100, 100⟩).cursor z) })
      ∧ zoneAt t1 0
          = some { exampleZone with
              corners := cutoutCorners exampleZone
                (finishZone exampleCollaborators false l0 (eventAt .dblClickLeft ⟨100, 100⟩).cursor z) }
      ∧ cutoutCorners exampleZone
            (finishZone exampleCollaborators false l0 (eventAt .dblClickLeft ⟨100, 100⟩).cursor z)
          = closeLast (exampleZone.corners
              ++ (finishZone exampleCollaborators false l0
                    (eventAt .dblClickLeft ⟨100, 100⟩).cursor z).cornerPositions.map
                  fun p => ⟨p, false⟩)
      ∧ t1.zoneFillRuns
          = (zoneStateAfter exampleCollaborators false .CUTOUT exampleZoneTool (some 0)
              triangleEvents).1.zoneFillRuns
            ++ (if exampleZone.IsFilled then [0] else []) :=
  cutout_semantics exampleCollaborators false _ _ (eventAt .dblClickLeft ⟨100, 100⟩) 0 exampleZone
    (by decide) (by decide) (by decide) (by decide) (by decide) (by decide)

/-- C7, as the code has it. In `DrawDimension` at step `SET_HEIGHT`, a motion event
computes the height on `double` values: `delta.x * cos( angle ) + delta.y * sin( angle )`,
where `angle` is `GetAngle() + M_PI / 2` and `delta` is the cursor offset from
`m_featureLineDO` taken in `int`, every sum and product rounded to the nearest `double`.
The height stored is that value converted to `int`: a value of type `int`, the integral
part of the `double` (its fraction discarded) when that is in the range of `int`. The
step is kept, the loop goes on and the document is not touched. With the cursor at the
`x` of `m_featureLineDO` and the sine of `angle` equal to 1, the height stored is the
vertical offset of the cursor from `m_featureLineDO`, in `int`. -/
theorem dimension_height_truncates_double (E : Collaborators) (T : Trig) (t : DRAWING_TOOL)
    (l : DimensionLoop) (d : DIMENSION) (evt : TOOL_EVENT)
    (hk : evt.kind = .motion) (hstep : l.step = DIM_SET_HEIGHT) (hd : l.dimension = some d) :
    DrawDimensionStep E T t l evt
        = some ((t.Wait evt).viewCall .Update,
            { l with
              dimension := some (d.SetHeight (Double.toInt (dimensionHeight T d evt.cursor))) },
            false)
      ∧ dimensionHeight T d evt.cursor
          = Double.add
              (Double.mul (Double.ofInt (toInt32 (evt.cursor.x - d.m_featureLineDO.x)))
                (T.cos (Double.add (d.GetAngle T) M_PI_2)))
              (Double.mul (Double.ofInt (toInt32 (evt.cursor.y - d.m_featureLineDO.y)))
                (T.sin (Double.add (d.GetAngle T) M_PI_2)))
      ∧ d.GetAngle T
          = T.atan2 (Double.ofInt (toInt32 (d.m_featureLineDO.y - d.m_featureLineGO.y)))
              (Double.ofInt (toInt32 (d.m_featureLineDO.x - d.m_featureLineGO.x)))
      ∧ sameDocument t ((t.Wait evt).viewCall .Update)
      ∧ (evt.cursor.x = d.m_featureLineDO.x →
          T.sin (Double.add (d.GetAngle T) M_PI_2) = ⟨1, 0⟩ →
          Double.toInt (dimensionHeight T d evt.cursor)
            = toInt32 (evt.cursor.y - d.m_featureLineDO.y))
      ∧ -(2 : Int) ^ 31 ≤ Double.toInt (dimensionHeight T d evt.cursor)
      ∧ Double.toInt (dimensionHeight T d evt.cursor) < (2 : Int) ^ 31
      ∧ (-(2 : Int) ^ 31 ≤ Double.trunc (dimensionHeight T d evt.cursor) →
          Double.trunc (dimensionHeight T d evt.cursor) < (2 : Int) ^ 31 →
          Double.toInt (dimensionHeight T d evt.cursor)
            = Double.trunc (dimensionHeight T d evt.cursor)) := by
  refine ⟨?_, rfl, rfl, ⟨rfl, rfl, rfl, rfl⟩, dimensionHeight_above T d evt.cursor,
    Double.toInt_spec _⟩
  simp [DrawDimensionStep, IsCancelInteractive, TOOL_EVENT.IsAction, TOOL_EVENT.IsClickRight,
    TOOL_EVENT.IsClickLeft, TOOL_EVENT.IsMotion, hk, hstep, hd, DIM_SET_HEIGHT, DIM_SET_END]

/-- C7 at work: origin (0,0), end (100,0). With the cursor at (100,50) the height
becomes 50, with the cursor at (100,-50) it becomes -50, and with the cursor at (100,70),
straight above the end, it becomes 70. With the cursor at (-4,50) the `double` computed
is a little less than 50 and its integral part, 49, is stored. -/
theorem dimension_height_truncates_double_witness :
    (dimensionStateAfter exampleCollaborators exampleTrig exampleTool
        horizontalDimensionEvents).2.dimension = some exampleDimension
      ∧ (dimensionStateAfter exampleCollaborators exampleTrig exampleTool
        horizontalDimensionEvents).2.step = DIM_SET_HEIGHT
      ∧ (DrawDimensionStep exampleCollaborators exampleTrig
          (dimensionStateAfter exampleCollaborators exampleTrig exampleTool
            horizontalDimensionEvents).1
          (dimensionStateAfter exampleCollaborators exampleTrig exampleTool
            horizontalDimensionEvents).2 (eventAt .motion ⟨100, 50⟩)).map
            (fun r => r.2.1.dimension)
          = some (some (exampleDimension.SetHeight
              (Double.toInt (dimensionHeight exampleTrig exampleDimension ⟨100, 50⟩))))
      ∧ Double.toInt (dimensionHeight exampleTrig exampleDimension ⟨100, 50⟩) = 50
      ∧ Double.toInt (dimensionHeight exampleTrig exampleDimension ⟨100, -50⟩) = -50
      ∧ Double.toInt (dimensionHeight exampleTrig exampleDimension
          (eventAt .motion ⟨100, 70⟩).cursor)
          = toInt32 ((eventAt .motion ⟨100, 70⟩).cursor.y - exampleDimension.m_featureLineDO.y)
      ∧ toInt32 ((eventAt .motion ⟨100, 70⟩).cursor.y - exampleDimension.m_featureLineDO.y)
          = 70
      ∧ Double.toInt (dimensionHeight exampleTrig exampleDimension
          (eventAt .motion ⟨-4, 50⟩).cursor)
          = Double.trunc (dimensionHeight exampleTrig exampleDimension
              (eventAt .motion ⟨-4, 50⟩).cursor)
      ∧ Double.trunc (dimensionHeight exampleTrig exampleDimension
          (eventAt .motion ⟨-4, 50⟩).cursor) = 49 :=
  ⟨by decide, by decide,
    congrArg (Option.map fun r : DRAWING_TOOL × DimensionLoop × Bool => r.2.1.dimension)
      (dimension_height_truncates_double exampleCollaborators exampleTrig
        (dimensionStateAfter exampleCollaborators exampleTrig exampleTool
          horizontalDimensionEvents).1
        (dimensionStateAfter exampleCollaborators exampleTrig exampleTool
          horizontalDimensionEvents).2 exampleDimension (eventAt .motion ⟨100, 50⟩)
        rfl (by decide) (by decide)).1,
    by set_option maxRecDepth 100000 in decide,
    by set_option maxRecDepth 100000 in decide,
    (dimension_height_truncates_double exampleCollaborators exampleTrig
        (dimensionStateAfter exampleCollaborators exampleTrig exampleTool
          horizontalDimensionEvents).1
        (dimensionStateAfter exampleCollaborators exampleTrig exampleTool
          horizontalDimensionEvents).2 exampleDimension (eventAt .motion ⟨100, 70⟩)
        rfl (by decide) (by decide)).2.2.2.2.1 (by decide)
      (by set_option maxRecDepth 100000 in decide),
    by decide,
    (dimension_height_truncates_double exampleCollaborators exampleTrig
        (dimensionStateAfter exampleCollaborators exampleTrig exampleTool
          horizontalDimensionEvents).1
        (dimensionStateAfter exampleCollaborators exampleTrig exampleTool
          horizontalDimensionEvents).2 exampleDimension (eventAt .motion ⟨-4, 50⟩)
        rfl (by decide) (by decide)).2.2.2.2.2.2.2
      (by set_option maxRecDepth 100000 in decide)
      (by set_option maxRecDepth 100000 in decide),
    by set_option maxRecDepth 100000 in decide⟩

/-- C7 does not hold as stated: for origin (0,0) and end (100,0) the projection of the
cursor (-4,50) is 50 and that of (250,-50) is -50, but the cosine of `M_PI / 2` is not 0
in `double`, the sums come out as 49.99999999999999 and -49.99999999999999, and the
heights stored are 49 and -49. -/
theorem dimension_height_one_short :
    (DrawDimensionStep exampleCollaborators exampleTrig
        (dimensionStateAfter exampleCollaborators exampleTrig exampleTool
          horizontalDimensionEvents).1
        (dimensionStateAfter exampleCollaborators exampleTrig exampleTool
          horizontalDimensionEvents).2 (eventAt .motion ⟨-4, 50⟩)).map
          (fun r => r.2.1.dimension.map fun d => d.m_Height) = some (some 49)
      ∧ (DrawDimensionStep exampleCollaborators exampleTrig
        (dimensionStateAfter exampleCollaborators exampleTrig exampleTool
          horizontalDimensionEvents).1
        (dimensionStateAfter exampleCollaborators exampleTrig exampleTool
          horizontalDimensionEvents).2 (eventAt .motion ⟨250, -50⟩)).map
          (fun r => r.2.1.dimension.map fun d => d.m_Height) = some (some (-49))
      ∧ dimensionHeight exampleTrig exampleDimension ⟨-4, 50⟩ = ⟨7036874417766399, -47⟩
      ∧ dimensionHeight exampleTrig exampleDimension ⟨250, -50⟩ = ⟨-7036874417766399, -47⟩ := by
  set_option maxRecDepth 100000 in decide

/-- C8. The constrained route computed by `make45DegLine`. The segment end, the helper
start and the helper end it produces depend only on the start of the segment and on the
cursor position (two calls with the same segment start and the same cursor produce the
same three points, whatever else the segment, the helper and the tool hold); and both
resulting legs, segment start to segment end and helper start to helper end, are of zero
length or run along a multiple of 45 degrees. The helper starts where the segment ends
and ends at the cursor. -/
theorem constrained_route_deterministic_aligned (E : Collaborators) (t t1 : DRAWING_TOOL)
    (seg seg1 h h1 : DRAWSEGMENT) (hc : t.GetCursorPosition = t1.GetCursorPosition)
    (hs : seg.GetStart = seg1.GetStart) :
    (make45DegLine E t seg h).1.GetEnd = (make45DegLine E t1 seg1 h1).1.GetEnd
      ∧ (make45DegLine E t seg h).2.GetStart = (make45DegLine E t1 seg1 h1).2.GetStart
      ∧ (make45DegLine E t seg h).2.GetEnd = (make45DegLine E t1 seg1 h1).2.GetEnd
      ∧ (make45DegLine E t seg h).1.GetStart = seg.GetStart
      ∧ aligned45 (make45DegLine E t seg h).1.GetStart (make45DegLine E t seg h).1.GetEnd
      ∧ aligned45 (make45DegLine E t seg h).2.GetStart (make45DegLine E t seg h).2.GetEnd
      ∧ (make45DegLine E t seg h).2.GetStart = (make45DegLine E t seg h).1.GetEnd
      ∧ (make45DegLine E t seg h).2.GetEnd = t.GetCursorPosition := by
  have hdet : ∀ (c : Point) (ch : List Point) (s s1 k k1 : DRAWSEGMENT),
      (apply45Trace c ch s k).1.m_End = (apply45Trace c ch s1 k1).1.m_End
        ∧ (apply45Trace c ch s k).2.m_Start = (apply45Trace c ch s1 k1).2.m_Start
        ∧ (apply45Trace c ch s k).2.m_End = (apply45Trace c ch s1 k1).2.m_End := by
    intro c ch s s1 k k1
    unfold apply45Trace
    split <;> exact ⟨rfl, rfl, rfl⟩
  have hsame : make45DegLine E t1 seg1 h1
      = apply45Trace t.GetCursorPosition
          (BuildInitialTrace (E.IsDiagonal (seg.GetStart - t.GetCursorPosition)) seg.GetStart
            t.GetCursorPosition) seg1 h1 := by
    unfold make45DegLine
    rw [← hc, ← hs]
  obtain ⟨d1, d2, d3⟩ := hdet t.GetCursorPosition
    (BuildInitialTrace (E.IsDiagonal (seg.GetStart - t.GetCursorPosition)) seg.GetStart
      t.GetCursorPosition) seg seg1 h h1
  refine ⟨?_, ?_, ?_, ?_⟩
  · rw [hsame]; exact d1
  · rw [hsame]; exact d2
  · rw [hsame]; exact d3
  · rcases make45DegLine_cases E t seg h with ⟨e, a⟩ | ⟨mid, e, a1, a2⟩
    · rw [e]
      refine ⟨rfl, a, ?_, rfl, rfl⟩
      simp [aligned45, DRAWSEGMENT.GetStart, DRAWSEGMENT.GetEnd, DRAWSEGMENT.SetStart,
        DRAWSEGMENT.SetEnd]
    · rw [e]
      exact ⟨rfl, a1, a2, rfl, rfl⟩

/-- C8, worked example: from the start (0,0) with the cursor at (100,30) the segment ends
at the bend (70,0) and the helper runs from (70,0) to (100,30), whatever end and width
the segment had before; both legs are aligned. -/
theorem constrained_route_deterministic_aligned_witness :
    (make45DegLine exampleCollaborators (exampleTool.Wait (eventAt .motion ⟨100, 30⟩))
        (DRAWSEGMENT.new false) (DRAWSEGMENT.new false)).1.GetEnd = ⟨70, 0⟩
      ∧ (make45DegLine exampleCollaborators (exampleTool.Wait (eventAt .motion ⟨100, 30⟩))
        (DRAWSEGMENT.new false) (DRAWSEGMENT.new false)).1.GetEnd
        = (make45DegLine exampleCollaborators
            ((exampleTool.Wait (eventAt .motion ⟨100, 30⟩)).viewCall .Update)
            (((DRAWSEGMENT.new false).SetEnd ⟨5, 5⟩).SetWidth 7)
            ((DRAWSEGMENT.new true).SetStart ⟨9, 9⟩)).1.GetEnd
      ∧ aligned45
          (make45DegLine exampleCollaborators (exampleTool.Wait (eventAt .motion ⟨100, 30⟩))
            (DRAWSEGMENT.new false) (DRAWSEGMENT.new false)).2.GetStart
          (make45DegLine exampleCollaborators (exampleTool.Wait (eventAt .motion ⟨100, 30⟩))
            (DRAWSEGMENT.new false) (DRAWSEGMENT.new false)).2.GetEnd
      ∧ (make45DegLine exampleCollaborators (exampleTool.Wait (eventAt .motion ⟨100, 30⟩))
            (DRAWSEGMENT.new false) (DRAWSEGMENT.new false)).2.GetEnd = ⟨100, 30⟩ :=
  ⟨by decide,
    (constrained_route_deterministic_aligned exampleCollaborators
      (exampleTool.Wait (eventAt .motion ⟨100, 30⟩))
      ((exampleTool.Wait (eventAt .motion ⟨100, 30⟩)).viewCall .Update)
      (DRAWSEGMENT.new false) (((DRAWSEGMENT.new false).SetEnd ⟨5, 5⟩).SetWidth 7)
      (DRAWSEGMENT.new false) ((DRAWSEGMENT.new true).SetStart ⟨9, 9⟩) rfl rfl).1,
    (constrained_route_deterministic_aligned exampleCollaborators
      (exampleTool.Wait (eventAt .motion ⟨100, 30⟩))
      ((exampleTool.Wait (eventAt .motion ⟨100, 30⟩)).viewCall .Update)
      (DRAWSEGMENT.new false) (((DRAWSEGMENT.new false).SetEnd ⟨5, 5⟩).SetWidth 7)
      (DRAWSEGMENT.new false) ((DRAWSEGMENT.new true).SetStart ⟨9, 9⟩) rfl rfl).2.2.2.2.2.1,
    (constrained_route_deterministic_aligned exampleCollaborators
      (exampleTool.Wait (eventAt .motion ⟨100, 30⟩))
      ((exampleTool.Wait (eventAt .motion ⟨100, 30⟩)).viewCall .Update)
      (DRAWSEGMENT.new false) (((DRAWSEGMENT.new false).SetEnd ⟨5, 5⟩).SetWidth 7)
      (DRAWSEGMENT.new false) ((DRAWSEGMENT.new true).SetStart ⟨9, 9⟩) rfl
      rfl).2.2.2.2.2.2.2⟩

/-- C9. `getSourceZoneForAction` returns true with a null zone for the mode `ADD`. For
`CUTOUT` and `SIMILAR` it returns true exactly when the selection (as the selection tool
holds it when the test is made, that is after `selectionCursor` has run on an empty
selection) holds exactly one item and that item is a zone, and then `aZone` is that
zone; in every false case `aZone` is null and `drawZone` returns at once: nothing was
added to the view, no loop state (zone, helper line) was created, and the commit and
the board are untouched. -/
theorem source_zone_precondition (E : Collaborators) (t : DRAWING_TOOL) (aKeepout : Bool)
    (evs : List TOOL_EVENT) :
    getSourceZoneForAction E t .ADD = (t, true, none)
      ∧ ∀ aMode, aMode ≠ ZONE_MODE.ADD →
          (getSourceZoneForAction E t aMode).1 = afterSelectionCursor E t
          ∧ ((getSourceZoneForAction E t aMode).2.1 = true
              ↔ ∃ i, (afterSelectionCursor E t).selection = [i]
                  ∧ (zoneAt (afterSelectionCursor E t) i).isSome = true)
          ∧ (∀ i, (afterSelectionCursor E t).selection = [i] →
              (zoneAt (afterSelectionCursor E t) i).isSome = true →
              (getSourceZoneForAction E t aMode).2.2 = some i)
          ∧ ((getSourceZoneForAction E t aMode).2.1 = false →
              (getSourceZoneForAction E t aMode).2.2 = none
              ∧ drawZone E aKeepout aMode t evs = some (afterSelectionCursor E t, none)
              ∧ (afterSelectionCursor E t).view = t.view
              ∧ sameDocument t (afterSelectionCursor E t)) := by
  refine ⟨rfl, ?_⟩
  intro aMode hm
  have hdoc : sameDocument t (afterSelectionCursor E t) ∧ (afterSelectionCursor E t).view = t.view := by
    unfold afterSelectionCursor
    split <;> exact ⟨⟨rfl, rfl, rfl, rfl⟩, rfl⟩
  have hget : getSourceZoneForAction E t aMode
      = if (afterSelectionCursor E t).selection.length ≠ 1 then (afterSelectionCursor E t, false, none)
        else
          match (afterSelectionCursor E t).selection.head? with
          | none => (afterSelectionCursor E t, false, none)
          | some i =>
            match zoneAt (afterSelectionCursor E t) i with
            | none => (afterSelectionCursor E t, false, none)
            | some _ => (afterSelectionCursor E t, true, some i) := by
    simp only [getSourceZoneForAction, hm, if_false, afterSelectionCursor]
  generalize afterSelectionCursor E t = t1 at *
  have hdz : ∀ b z, getSourceZoneForAction E t aMode = (t1, b, z) → b = false →
      drawZone E aKeepout aMode t evs = some (t1, none) := by
    intro b z h hb
    subst hb
    simp only [drawZone, h]
  rcases hsel : t1.selection with _ | ⟨i, _ | ⟨j, rest⟩⟩
  · rw [hsel] at hget
    simp only [List.length_nil, ne_eq, zero_ne_one, not_false_eq_true, if_true] at hget
    refine ⟨by rw [hget], ?_, ?_, ?_⟩
    · rw [hget]; simp
    · intro i hi; cases hi
    · intro _
      exact ⟨by rw [hget], hdz _ _ hget rfl, hdoc.2, hdoc.1⟩
  · rw [hsel] at hget
    simp only [List.length_singleton, ne_eq, not_true_eq_false, if_false, List.head?_cons] at hget
    cases hz : zoneAt t1 i with
    | none =>
      rw [hz] at hget
      refine ⟨by rw [hget], ?_, ?_, ?_⟩
      · rw [hget]
        simp only [Bool.false_eq_true, false_iff, not_exists, not_and]
        intro k hk
        simp only [List.cons.injEq, and_true] at hk
        subst hk
        simp [hz]
      · intro k hk hks
        simp only [List.cons.injEq, and_true] at hk
        subst hk
        simp [hz] at hks
      · intro _
        exact ⟨by rw [hget], hdz _ _ hget rfl, hdoc.2, hdoc.1⟩
    | some z =>
      rw [hz] at hget
      refine ⟨by rw [hget], ?_, ?_, ?_⟩
      · rw [hget]
        simp only [true_iff]
        exact ⟨i, rfl, by simp [hz]⟩
      · intro k hk _
        simp only [List.cons.injEq, and_true] at hk
        subst hk
        rw [hget]
      · intro hf
        rw [hget] at hf
        cases hf
  · rw [hsel] at hget
    simp only [List.length_cons, ne_eq, add_left_eq_self, add_eq_zero, one_ne_zero, and_false,
      not_false_eq_true, if_true] at hget
    refine ⟨by rw [hget], ?_, ?_, ?_⟩
    · rw [hget]; simp
    · intro k hk; simp at hk
    · intro _
      exact ⟨by rw [hget], hdz _ _ hget rfl, hdoc.2, hdoc.1⟩

/-- C9, worked examples: with the example zone selected the mode `CUTOUT` finds it; with
nothing selected (and nothing under the cursor) the mode `SIMILAR` fails and `drawZone`
returns before its loop. -/
theorem source_zone_precondition_witness :
    (getSourceZoneForAction exampleCollaborators exampleZoneTool .CUTOUT).2.2 = some 0
      ∧ (getSourceZoneForAction exampleCollaborators exampleTool .SIMILAR).2.2 = none
      ∧ drawZone exampleCollaborators false .SIMILAR exampleTool triangleEvents
          = some (afterSelectionCursor exampleCollaborators exampleTool, none)
      ∧ (afterSelectionCursor exampleCollaborators exampleTool).view = exampleTool.view
      ∧ sameDocument exampleTool (afterSelectionCursor exampleCollaborators exampleTool) :=
  ⟨((source_zone_precondition exampleCollaborators exampleZoneTool false []).2 .CUTOUT
      (by decide)).2.2.1 0 (by decide) (by decide),
    ((source_zone_precondition exampleCollaborators exampleTool false triangleEvents).2 .SIMILAR
      (by decide)).2.2.2 (by decide)⟩

/-- C10, what the code does. In `drawSegment` while a line is started, a left click
whose shape end equals its start, or a double-click, finishes the gesture: the loop is
left and the graphic in progress is deleted and handed back null, so the iteration of
`DrawLine` commits nothing for it and hands on no starting point. When 45 degree mode
is active at that moment exactly one shape is committed, by `drawSegment` itself: a copy
of `line45` whose end is replaced by the start of the graphic, that is the segment from
the start of `line45` to the start of the graphic, not `line45` itself; when the mode is
not active nothing is committed. -/
theorem finishing_click_commits (E : Collaborators) (t : DRAWING_TOOL) (sp : Option Point)
    (pre : List TOOL_EVENT) (e : TOOL_EVENT) (rest : List TOOL_EVENT)
    (hpre : segmentGoesOn E .S_SEGMENT
      (segmentEntry .S_SEGMENT t (DRAWSEGMENT.new t.m_editModules) sp).1
      (segmentEntry .S_SEGMENT t (DRAWSEGMENT.new t.m_editModules) sp).2 pre = true)
    (hfin : segmentFinishes E .S_SEGMENT
      (segmentAfter E .S_SEGMENT (segmentEntry .S_SEGMENT t (DRAWSEGMENT.new t.m_editModules) sp).1
        (segmentEntry .S_SEGMENT t (DRAWSEGMENT.new t.m_editModules) sp).2 pre).1
      (segmentAfter E .S_SEGMENT (segmentEntry .S_SEGMENT t (DRAWSEGMENT.new t.m_editModules) sp).1
        (segmentEntry .S_SEGMENT t (DRAWSEGMENT.new t.m_editModules) sp).2 pre).2 e = true) :
    ∃ t1 mc,
      mc = segmentModeCheck E .S_SEGMENT
        ((segmentAfter E .S_SEGMENT
          (segmentEntry .S_SEGMENT t (DRAWSEGMENT.new t.m_editModules) sp).1
          (segmentEntry .S_SEGMENT t (DRAWSEGMENT.new t.m_editModules) sp).2 pre).1.Wait e)
        (segmentAfter E .S_SEGMENT
          (segmentEntry .S_SEGMENT t (DRAWSEGMENT.new t.m_editModules) sp).1
          (segmentEntry .S_SEGMENT t (DRAWSEGMENT.new t.m_editModules) sp).2 pre).2 e
      ∧ (drawSegmentStep E .S_SEGMENT
          (segmentAfter E .S_SEGMENT
            (segmentEntry .S_SEGMENT t (DRAWSEGMENT.new t.m_editModules) sp).1
            (segmentEntry .S_SEGMENT t (DRAWSEGMENT.new t.m_editModules) sp).2 pre).1
          (segmentAfter E .S_SEGMENT
            (segmentEntry .S_SEGMENT t (DRAWSEGMENT.new t.m_editModules) sp).1
            (segmentEntry .S_SEGMENT t (DRAWSEGMENT.new t.m_editModules) sp).2 pre).2 e).2
          = ({ mc.2 with aGraphicNull := true, preview := [] }, true)
      ∧ DrawLineIter E t sp (pre ++ e :: rest) = (true, t1, none, rest)
      ∧ t1.commitCalls
          = t.commitCalls
            ++ (if mc.2.direction45 then
                  [.Add (.segment (finishingSegment mc.1 mc.2)), .Push "Draw a line"]
                else [])
      ∧ (finishingSegment mc.1 mc.2).GetStart = mc.2.line45.GetStart
      ∧ (finishingSegment mc.1 mc.2).GetEnd = mc.2.aGraphic.GetStart := by
  obtain ⟨t1, mc, hmc, h1, h2⟩ := DrawLineIter_finishes E t sp pre e rest hpre hfin
  refine ⟨t1, mc, hmc, ?_, h1, h2, rfl, rfl⟩
  rw [drawSegmentStep_finishes E .S_SEGMENT _ _ e hfin, ← hmc]

/-- C10 at the failing input. With Ctrl held a line is started at (0,0), a click at
(100,30) accepts the first leg (0,0)-(70,0), the cursor moves on to (101,30) and a
double-click finishes there. At that moment the graphic runs from (70,0) to the bend
(71,0) and the helper `line45` from (71,0) to the cursor (101,30). The double-click
commits one shape only, the segment from (71,0) to (70,0): neither the graphic nor the
helper from the bend to the cursor is committed. When the double-click comes where the
last click was, at (100,30), the graphic and `line45` meet at the cursor and the shape
committed is the second leg, from (100,30) to (70,0). -/
theorem finishing_click_commits_witness :
    (∃ t1 mc,
      mc = segmentModeCheck exampleCollaborators .S_SEGMENT
        ((segmentAfter exampleCollaborators .S_SEGMENT
          (segmentEntry .S_SEGMENT
            (DrawLineIter exampleCollaborators exampleTool none bentLineEvents).2.1
            (DRAWSEGMENT.new
              (DrawLineIter exampleCollaborators exampleTool none bentLineEvents).2.1.m_editModules)
            (some ⟨70, 0⟩)).1
          (segmentEntry .S_SEGMENT
            (DrawLineIter exampleCollaborators exampleTool none bentLineEvents).2.1
            (DRAWSEGMENT.new
              (DrawLineIter exampleCollaborators exampleTool none bentLineEvents).2.1.m_editModules)
            (some ⟨70, 0⟩)).2
          [ctrlEventAt .motion ⟨101, 30⟩]).1.Wait (ctrlEventAt .dblClickLeft ⟨101, 30⟩))
        (segmentAfter exampleCollaborators .S_SEGMENT
          (segmentEntry .S_SEGMENT
            (DrawLineIter exampleCollaborators exampleTool none bentLineEvents).2.1
            (DRAWSEGMENT.new
              (DrawLineIter exampleCollaborators exampleTool none bentLineEvents).2.1.m_editModules)
            (some ⟨70, 0⟩)).1
          (segmentEntry .S_SEGMENT
            (DrawLineIter exampleCollaborators exampleTool none bentLineEvents).2.1
            (DRAWSEGMENT.new
              (DrawLineIter exampleCollaborators exampleTool none bentLineEvents).2.1.m_editModules)
            (some ⟨70, 0⟩)).2
          [ctrlEventAt .motion ⟨101, 30⟩]).2 (ctrlEventAt .dblClickLeft ⟨101, 30⟩)
      ∧ (drawSegmentStep exampleCollaborators .S_SEGMENT
          (segmentAfter exampleCollaborators .S_SEGMENT
            (segmentEntry .S_SEGMENT
              (DrawLineIter exampleCollaborators exampleTool none bentLineEvents).2.1
              (DRAWSEGMENT.new
                (DrawLineIter exampleCollaborators exampleTool none bentLineEvents).2.1.m_editModules)
              (some ⟨70, 0⟩)).1
            (segmentEntry .S_SEGMENT
              (DrawLineIter exampleCollaborators exampleTool none bentLineEvents).2.1
              (DRAWSEGMENT.new
                (DrawLineIter exampleCollaborators exampleTool none bentLineEvents).2.1.m_editModules)
              (some ⟨70, 0⟩)).2
            [ctrlEventAt .motion ⟨101, 30⟩]).1
          (segmentAfter exampleCollaborators .S_SEGMENT
            (segmentEntry .S_SEGMENT
              (DrawLineIter exampleCollaborators exampleTool none bentLineEvents).2.1
              (DRAWSEGMENT.new
                (DrawLineIter exampleCollaborators exampleTool none bentLineEvents).2.1.m_editModules)
              (some ⟨70, 0⟩)).1
            (segmentEntry .S_SEGMENT
              (DrawLineIter exampleCollaborators exampleTool none bentLineEvents).2.1
              (DRAWSEGMENT.new
                (DrawLineIter exampleCollaborators exampleTool none bentLineEvents).2.1.m_editModules)
              (some ⟨70, 0⟩)).2
            [ctrlEventAt .motion ⟨101, 30⟩]).2 (ctrlEventAt .dblClickLeft ⟨101, 30⟩)).2
          = ({ mc.2 with aGraphicNull := true, preview := [] }, true)
      ∧ DrawLineIter exampleCollaborators
          (DrawLineIter exampleCollaborators exampleTool none bentLineEvents).2.1 (some ⟨70, 0⟩)
          ([ctrlEventAt .motion ⟨101, 30⟩] ++ ctrlEventAt .dblClickLeft ⟨101, 30⟩ :: [])
          = (true, t1, none, [])
      ∧ t1.commitCalls
          = (DrawLineIter exampleCollaborators exampleTool none bentLineEvents).2.1.commitCalls
            ++ (if mc.2.direction45 then
                  [.Add (.segment (finishingSegment mc.1 mc.2)), .Push "Draw a line"]
                else [])
      ∧ (finishingSegment mc.1 mc.2).GetStart = mc.2.line45.GetStart
      ∧ (finishingSegment mc.1 mc.2).GetEnd = mc.2.aGraphic.GetStart)
    ∧ (DrawLineIter exampleCollaborators exampleTool none bentLineEvents).2.2
        = (some ⟨70, 0⟩, [ctrlEventAt .motion ⟨101, 30⟩, ctrlEventAt .dblClickLeft ⟨101, 30⟩])
    ∧ (segmentModeCheck exampleCollaborators .S_SEGMENT
        (bentLineMoment.1.Wait (ctrlEventAt .dblClickLeft ⟨101, 30⟩)) bentLineMoment.2
        (ctrlEventAt .dblClickLeft ⟨101, 30⟩)).2.direction45 = true
    ∧ (segmentModeCheck exampleCollaborators .S_SEGMENT
        (bentLineMoment.1.Wait (ctrlEventAt .dblClickLeft ⟨101, 30⟩)) bentLineMoment.2
        (ctrlEventAt .dblClickLeft ⟨101, 30⟩)).2.aGraphic = exampleSegment ⟨70, 0⟩ ⟨71, 0⟩
    ∧ (segmentModeCheck exampleCollaborators .S_SEGMENT
        (bentLineMoment.1.Wait (ctrlEventAt .dblClickLeft ⟨101, 30⟩)) bentLineMoment.2
        (ctrlEventAt .dblClickLeft ⟨101, 30⟩)).2.line45 = exampleSegment ⟨71, 0⟩ ⟨101, 30⟩
    ∧ (DrawLineLoop exampleCollaborators 2 exampleTool none bentLineEvents).commitCalls
        = [.Add (.segment (exampleSegment ⟨0, 0⟩ ⟨70, 0⟩)), .Push "Draw a line segment",
           .Add (.segment (exampleSegment ⟨71, 0⟩ ⟨70, 0⟩)), .Push "Draw a line"]
    ∧ (DrawLineLoop exampleCollaborators 2 exampleTool none bentLineSameSpotEvents).commitCalls
        = [.Add (.segment (exampleSegment ⟨0, 0⟩ ⟨70, 0⟩)), .Push "Draw a line segment",
           .Add (.segment (exampleSegment ⟨100, 30⟩ ⟨70, 0⟩)), .Push "Draw a line"] :=
  ⟨finishing_click_commits exampleCollaborators
      (DrawLineIter exampleCollaborators exampleTool none bentLineEvents).2.1 (some ⟨70, 0⟩)
      [ctrlEventAt .motion ⟨101, 30⟩] (ctrlEventAt .dblClickLeft ⟨101, 30⟩) []
      (by decide) (by decide),
    by decide, by decide, by decide, by decide, by decide, by decide⟩

/-- C11, as the code has it. In `drawSegment` while a line is started, a left click that
does not finish the gesture sets no end point: the segment `DrawLine` commits is the
graphic as the mode check of the click's event leaves it, that is as the last preview
update shaped it, and the next segment starts at the end point of the segment handed
back. When the click follows a motion event at the same cursor position with the same
Ctrl state, that end point is the cursor position when the 45 degree mode is off, and
the end of the first leg of the constrained route to that position (the bend point,
when the route has a bend) when it is on. -/
theorem accepted_click_hands_back_preview (E : Collaborators) (t : DRAWING_TOOL)
    (sp : Option Point) :
    (∀ pre e rest,
        segmentGoesOn E .S_SEGMENT
          (segmentEntry .S_SEGMENT t (DRAWSEGMENT.new t.m_editModules) sp).1
          (segmentEntry .S_SEGMENT t (DRAWSEGMENT.new t.m_editModules) sp).2 pre = true →
        segmentAccepts E .S_SEGMENT
          (segmentAfter E .S_SEGMENT
            (segmentEntry .S_SEGMENT t (DRAWSEGMENT.new t.m_editModules) sp).1
            (segmentEntry .S_SEGMENT t (DRAWSEGMENT.new t.m_editModules) sp).2 pre).1
          (segmentAfter E .S_SEGMENT
            (segmentEntry .S_SEGMENT t (DRAWSEGMENT.new t.m_editModules) sp).1
            (segmentEntry .S_SEGMENT t (DRAWSEGMENT.new t.m_editModules) sp).2 pre).2 e = true →
        ∃ line t1,
          DrawLineIter E t sp (pre ++ e :: rest) = (true, t1, some line.GetEnd, rest)
          ∧ t1.commitCalls
              = t.commitCalls ++ [.Add (.segment line), .Push "Draw a line segment"]
          ∧ line = (segmentModeCheck E .S_SEGMENT
              ((segmentAfter E .S_SEGMENT
                (segmentEntry .S_SEGMENT t (DRAWSEGMENT.new t.m_editModules) sp).1
                (segmentEntry .S_SEGMENT t (DRAWSEGMENT.new t.m_editModules) sp).2
                pre).1.Wait e)
              (segmentAfter E .S_SEGMENT
                (segmentEntry .S_SEGMENT t (DRAWSEGMENT.new t.m_editModules) sp).1
                (segmentEntry .S_SEGMENT t (DRAWSEGMENT.new t.m_editModules) sp).2
                pre).2 e).2.aGraphic
          ∧ (segmentEntry .S_SEGMENT t1 (DRAWSEGMENT.new t1.m_editModules)
                (some line.GetEnd)).2.aGraphic.GetStart = line.GetEnd)
      ∧ (∀ pre m e rest,
        segmentGoesOn E .S_SEGMENT
          (segmentEntry .S_SEGMENT t (DRAWSEGMENT.new t.m_editModules) sp).1
          (segmentEntry .S_SEGMENT t (DRAWSEGMENT.new t.m_editModules) sp).2 pre = true →
        m.kind = .motion → e.cursor = m.cursor → e.ctrl = m.ctrl →
        segmentAccepts E .S_SEGMENT
          (segmentAfter E .S_SEGMENT
            (segmentEntry .S_SEGMENT t (DRAWSEGMENT.new t.m_editModules) sp).1
            (segmentEntry .S_SEGMENT t (DRAWSEGMENT.new t.m_editModules) sp).2 (pre ++ [m])).1
          (segmentAfter E .S_SEGMENT
            (segmentEntry .S_SEGMENT t (DRAWSEGMENT.new t.m_editModules) sp).1
            (segmentEntry .S_SEGMENT t (DRAWSEGMENT.new t.m_editModules) sp).2 (pre ++ [m])).2 e
            = true →
        ∃ line t1,
          DrawLineIter E t sp (pre ++ m :: e :: rest) = (true, t1, some line.GetEnd, rest)
          ∧ t1.commitCalls
              = t.commitCalls ++ [.Add (.segment line), .Push "Draw a line segment"]
          ∧ line.GetEnd
              = (if limit45 t e then routeFirstLegEnd E line.GetStart e.cursor else e.cursor)
          ∧ (segmentEntry .S_SEGMENT t1 (DRAWSEGMENT.new t1.m_editModules)
                (some line.GetEnd)).2.aGraphic.GetStart = line.GetEnd) := by
  constructor
  · intro pre e rest hpre hacc
    obtain ⟨line, t1, hline, hiter, hcalls, _⟩ := DrawLineIter_accepts E t sp pre e rest hpre hacc
    exact ⟨line, t1, hiter, hcalls, hline,
      (segmentEntry_start .S_SEGMENT t1 (DRAWSEGMENT.new t1.m_editModules) line.GetEnd).2⟩
  · intro pre m e rest hpre hm hcur hctrl hacc
    obtain ⟨line, t1, h1, h2, _, h4⟩ :=
      DrawLineIter_motion_click E t sp pre m e rest hpre hm hcur hctrl hacc
    exact ⟨line, t1, h1, h2, h4,
      (segmentEntry_start .S_SEGMENT t1 (DRAWSEGMENT.new t1.m_editModules) line.GetEnd).2⟩

/-- C11, worked example: a line started at (0,0) without Ctrl, the cursor at (100,0), a
click there; the committed segment ends at the click position (100,0). -/
theorem accepted_click_hands_back_preview_witness :
    segmentGoesOn exampleCollaborators .S_SEGMENT
        (segmentEntry .S_SEGMENT exampleTool (DRAWSEGMENT.new exampleTool.m_editModules) none).1
        (segmentEntry .S_SEGMENT exampleTool (DRAWSEGMENT.new exampleTool.m_editModules) none).2
        [eventAt .clickLeft ⟨0, 0⟩] = true
      ∧ limit45 exampleTool (eventAt .clickLeft ⟨100, 0⟩) = false
      ∧ ∃ line t1,
        DrawLineIter exampleCollaborators exampleTool none
            ([eventAt .clickLeft ⟨0, 0⟩] ++ eventAt .motion ⟨100, 0⟩
              :: eventAt .clickLeft ⟨100, 0⟩ :: [])
          = (true, t1, some line.GetEnd, [])
        ∧ t1.commitCalls
            = exampleTool.commitCalls ++ [.Add (.segment line), .Push "Draw a line segment"]
        ∧ line.GetEnd
            = (if limit45 exampleTool (eventAt .clickLeft ⟨100, 0⟩) then
                routeFirstLegEnd exampleCollaborators line.GetStart
                  (eventAt .clickLeft ⟨100, 0⟩).cursor
               else (eventAt .clickLeft ⟨100, 0⟩).cursor)
        ∧ (segmentEntry .S_SEGMENT t1 (DRAWSEGMENT.new t1.m_editModules)
              (some line.GetEnd)).2.aGraphic.GetStart = line.GetEnd :=
  ⟨by decide, by decide,
    (accepted_click_hands_back_preview exampleCollaborators exampleTool none).2
      [eventAt .clickLeft ⟨0, 0⟩] (eventAt .motion ⟨100, 0⟩) (eventAt .clickLeft ⟨100, 0⟩) []
      (by decide) rfl rfl rfl (by decide)⟩

/-- C11, counterexample to the claim as stated. With Ctrl held a line is started at
(0,0) and the cursor moves to (100,30); the click at (100,30) does not finish the
gesture, and the segment handed back and committed ends at the bend point (70,0) of
the route, not at the click position; the next segment starts at (70,0). -/
theorem accepted_end_is_bend_point :
    segmentAccepts exampleCollaborators .S_SEGMENT
        (segmentAfter exampleCollaborators .S_SEGMENT
          (segmentEntry .S_SEGMENT exampleTool (DRAWSEGMENT.new false) none).1
          (segmentEntry .S_SEGMENT exampleTool (DRAWSEGMENT.new false) none).2
          [ctrlEventAt .clickLeft ⟨0, 0⟩, ctrlEventAt .motion ⟨100, 30⟩]).1
        (segmentAfter exampleCollaborators .S_SEGMENT
          (segmentEntry .S_SEGMENT exampleTool (DRAWSEGMENT.new false) none).1
          (segmentEntry .S_SEGMENT exampleTool (DRAWSEGMENT.new false) none).2
          [ctrlEventAt .clickLeft ⟨0, 0⟩, ctrlEventAt .motion ⟨100, 30⟩]).2
        (ctrlEventAt .clickLeft ⟨100, 30⟩) = true
      ∧ (DrawLineIter exampleCollaborators exampleTool none bentClickEvents).2.1.commitCalls
          = [.Add (.segment (exampleSegment ⟨0, 0⟩ ⟨70, 0⟩)), .Push "Draw a line segment"]
      ∧ (DrawLineIter exampleCollaborators exampleTool none bentClickEvents).2.2.1
          = some ⟨70, 0⟩
      ∧ (exampleSegment ⟨0, 0⟩ ⟨70, 0⟩).GetEnd ≠ (ctrlEventAt .clickLeft ⟨100, 30⟩).cursor := by
  decide

/-- C12, as the code has it. In `drawSegment` the width commands are handled in every
state of the loop, before the first click as well as while a shape is started: `incWidth`
raises `m_lineWidth` by `WIDTH_STEP` (in unsigned arithmetic) and sets the width of the
shape and of the helper line from it; `decWidth` lowers all three by `WIDTH_STEP` when
`m_lineWidth` exceeds `WIDTH_STEP` and leaves all three unchanged otherwise. The first
click then starts the shape with the width `m_lineWidth` has at that moment. -/
theorem width_commands_in_every_state (E : Collaborators) (aShape : STROKE_T) (t : DRAWING_TOOL)
    (l : SegmentLoop) (evt : TOOL_EVENT) :
    (evt.kind = .incWidth →
        (drawSegmentStep E aShape t l evt).1.m_lineWidth = (t.m_lineWidth + WIDTH_STEP) % 2 ^ 32
          ∧ (drawSegmentStep E aShape t l evt).2.1.aGraphic.GetWidth
              = toInt32 ((t.m_lineWidth + WIDTH_STEP) % 2 ^ 32)
          ∧ (drawSegmentStep E aShape t l evt).2.1.line45.GetWidth
              = toInt32 ((t.m_lineWidth + WIDTH_STEP) % 2 ^ 32))
      ∧ (evt.kind = .decWidth → WIDTH_STEP < t.m_lineWidth →
        (drawSegmentStep E aShape t l evt).1.m_lineWidth = t.m_lineWidth - WIDTH_STEP
          ∧ (drawSegmentStep E aShape t l evt).2.1.aGraphic.GetWidth
              = toInt32 (t.m_lineWidth - WIDTH_STEP)
          ∧ (drawSegmentStep E aShape t l evt).2.1.line45.GetWidth
              = toInt32 (t.m_lineWidth - WIDTH_STEP))
      ∧ (evt.kind = .decWidth → ¬ WIDTH_STEP < t.m_lineWidth →
        (drawSegmentStep E aShape t l evt).1.m_lineWidth = t.m_lineWidth
          ∧ (drawSegmentStep E aShape t l evt).2.1.aGraphic.GetWidth = l.aGraphic.GetWidth
          ∧ (drawSegmentStep E aShape t l evt).2.1.line45.GetWidth = l.line45.GetWidth)
      ∧ ((evt.IsClickLeft || evt.IsDblClickLeft) = true → l.started = false →
        (drawSegmentStep E aShape t l evt).2.1.started = true
          ∧ (drawSegmentStep E aShape t l evt).2.1.aGraphic.GetWidth = toInt32 t.m_lineWidth) := by
  refine ⟨fun hk => drawSegmentStep_incWidth E aShape t l evt hk,
    fun hk => (drawSegmentStep_decWidth_all E aShape t l evt hk).1,
    fun hk => (drawSegmentStep_decWidth_all E aShape t l evt hk).2,
    fun hk hs => ?_⟩
  obtain ⟨h1, h2, _⟩ := drawSegmentStep_firstClick E aShape t l evt hk hs
  exact ⟨h1, h2⟩

/-- C12, worked example: before the first click one increment raises the width of the
example tool from 150000 to 250000, and the line then started has the width 250000. -/
theorem width_commands_in_every_state_witness :
    (segmentEntry .S_SEGMENT exampleTool (DRAWSEGMENT.new false) none).2.started = false
      ∧ (drawSegmentStep exampleCollaborators .S_SEGMENT
            (segmentEntry .S_SEGMENT exampleTool (DRAWSEGMENT.new false) none).1
            (segmentEntry .S_SEGMENT exampleTool (DRAWSEGMENT.new false) none).2
            (eventAt .incWidth ⟨0, 0⟩)).1.m_lineWidth = 250000
      ∧ (segmentAfter exampleCollaborators .S_SEGMENT
            (segmentEntry .S_SEGMENT exampleTool (DRAWSEGMENT.new false) none).1
            (segmentEntry .S_SEGMENT exampleTool (DRAWSEGMENT.new false) none).2
            [eventAt .incWidth ⟨0, 0⟩, eventAt .clickLeft ⟨0, 0⟩]).2.aGraphic.GetWidth = 250000 :=
  ⟨rfl,
    ((width_commands_in_every_state exampleCollaborators .S_SEGMENT
      (segmentEntry .S_SEGMENT exampleTool (DRAWSEGMENT.new false) none).1
      (segmentEntry .S_SEGMENT exampleTool (DRAWSEGMENT.new false) none).2
      (eventAt .incWidth ⟨0, 0⟩)).1 rfl).1.trans (by decide),
    by decide⟩

/-- C12, counterexample to the claim as stated. Before the first click (the loop has
just been entered without a starting point, `started` is false) an `incWidth` command
changes `m_lineWidth`, the width of the shape and the width of the helper line from
150000 to 250000, and a `decWidth` command changes them to 50000. -/
theorem idle_width_command_applies :
    (segmentEntry .S_SEGMENT exampleTool (DRAWSEGMENT.new false) none).2.started = false
      ∧ (segmentEntry .S_SEGMENT exampleTool (DRAWSEGMENT.new false) none).1.m_lineWidth = 150000
      ∧ (drawSegmentStep exampleCollaborators .S_SEGMENT
            (segmentEntry .S_SEGMENT exampleTool (DRAWSEGMENT.new false) none).1
            (segmentEntry .S_SEGMENT exampleTool (DRAWSEGMENT.new false) none).2
            (eventAt .incWidth ⟨0, 0⟩)).1.m_lineWidth = 250000
      ∧ (drawSegmentStep exampleCollaborators .S_SEGMENT
            (segmentEntry .S_SEGMENT exampleTool (DRAWSEGMENT.new false) none).1
            (segmentEntry .S_SEGMENT exampleTool (DRAWSEGMENT.new false) none).2
            (eventAt .incWidth ⟨0, 0⟩)).2.1.aGraphic.GetWidth = 250000
      ∧ (drawSegmentStep exampleCollaborators .S_SEGMENT
            (segmentEntry .S_SEGMENT exampleTool (DRAWSEGMENT.new false) none).1
            (segmentEntry .S_SEGMENT exampleTool (DRAWSEGMENT.new false) none).2
            (eventAt .incWidth ⟨0, 0⟩)).2.1.line45.GetWidth = 250000
      ∧ (drawSegmentStep exampleCollaborators .S_SEGMENT
            (segmentEntry .S_SEGMENT exampleTool (DRAWSEGMENT.new false) none).1
            (segmentEntry .S_SEGMENT exampleTool (DRAWSEGMENT.new false) none).2
            (eventAt .decWidth ⟨0, 0⟩)).1.m_lineWidth = 50000
      ∧ (drawSegmentStep exampleCollaborators .S_SEGMENT
            (segmentEntry .S_SEGMENT exampleTool (DRAWSEGMENT.new false) none).1
            (segmentEntry .S_SEGMENT exampleTool (DRAWSEGMENT.new false) none).2
            (eventAt .decWidth ⟨0, 0⟩)).2.1.aGraphic.GetWidth = 50000
      ∧ (drawSegmentStep exampleCollaborators .S_SEGMENT
            (segmentEntry .S_SEGMENT exampleTool (DRAWSEGMENT.new false) none).1
            (segmentEntry .S_SEGMENT exampleTool (DRAWSEGMENT.new false) none).2
            (eventAt .decWidth ⟨0, 0⟩)).2.1.line45.GetWidth = 50000 := by
  decide

/-- C13, what the code does. In `DrawDimension` at step `SET_HEIGHT` a left click whose
cursor position differs from the position of the dimension records exactly one `Add` of
the dimension and one `Push` and returns to `SET_ORIGIN`. A left click whose cursor
position equals the position of the dimension records nothing, and the step does not
stay at `SET_HEIGHT`: the increment after the `switch` is made all the same, so the step
becomes `SET_ORIGIN` while the dimension, neither committed nor deleted, is still in
the preview group. -/
theorem height_click_on_position_leaves_step (E : Collaborators)
    (T : Trig) (t : DRAWING_TOOL) (l : DimensionLoop) (d : DIMENSION) (evt : TOOL_EVENT)
    (hs : l.step = DIM_SET_HEIGHT) (hd : l.dimension = some d) (hk : evt.kind = .clickLeft) :
    (evt.cursor ≠ E.GetPosition d →
        ∃ t1 l1, DrawDimensionStep E T t l evt = some (t1, l1, false)
          ∧ t1.commitCalls
              = t.commitCalls ++ [.Add (.dimension d), .Push "Draw a dimension"]
          ∧ l1.step = DIM_SET_ORIGIN)
      ∧ (evt.cursor = E.GetPosition d →
        ∃ t1 l1, DrawDimensionStep E T t l evt = some (t1, l1, false)
          ∧ sameDocument t t1
          ∧ l1.step = DIM_SET_ORIGIN ∧ l1.step ≠ DIM_SET_HEIGHT
          ∧ l1.dimension = some d ∧ l1.preview = l.preview) := by
  have h := DrawDimensionStep_heightClick E T t l d evt hs hd hk
  constructor
  · intro hp
    rw [if_pos hp] at h
    exact ⟨_, _, h, by simp [DRAWING_TOOL.commitAdd, DRAWING_TOOL.commitPush,
      DRAWING_TOOL.SetAutoPan, DRAWING_TOOL.CaptureCursor, DRAWING_TOOL.Wait], rfl⟩
  · intro hp
    rw [if_neg (not_not.mpr hp)] at h
    have hne : DIM_SET_ORIGIN ≠ DIM_SET_HEIGHT := by decide
    exact ⟨_, _, h, ⟨rfl, rfl, rfl, rfl⟩, rfl, hne, hd, rfl⟩

/-- C13, worked example: origin (0,0), end (100,0), and a click at (100,0), where the
example dimension is positioned. Nothing is committed, the step is `SET_ORIGIN` again,
and the dimension is still the one member of the preview group. -/
theorem height_click_on_position_leaves_step_witness :
    (dimensionStateAfter exampleCollaborators exampleTrig exampleTool
        horizontalDimensionEvents).2.step = DIM_SET_HEIGHT
      ∧ (dimensionStateAfter exampleCollaborators exampleTrig exampleTool
          horizontalDimensionEvents).2.dimension = some exampleDimension
      ∧ (dimensionStateAfter exampleCollaborators exampleTrig exampleTool
          horizontalDimensionEvents).2.preview = [.dimension 0]
      ∧ (eventAt .clickLeft ⟨100, 0⟩).cursor = exampleCollaborators.GetPosition exampleDimension
      ∧ ∃ t1 l1,
          DrawDimensionStep exampleCollaborators exampleTrig
              (dimensionStateAfter exampleCollaborators exampleTrig exampleTool
                horizontalDimensionEvents).1
              (dimensionStateAfter exampleCollaborators exampleTrig exampleTool
                horizontalDimensionEvents).2 (eventAt .clickLeft ⟨100, 0⟩)
            = some (t1, l1, false)
          ∧ sameDocument
              (dimensionStateAfter exampleCollaborators exampleTrig exampleTool
                horizontalDimensionEvents).1 t1
          ∧ l1.step = DIM_SET_ORIGIN ∧ l1.step ≠ DIM_SET_HEIGHT
          ∧ l1.dimension = some exampleDimension
          ∧ l1.preview
              = (dimensionStateAfter exampleCollaborators exampleTrig exampleTool
                  horizontalDimensionEvents).2.preview :=
  ⟨by decide, by decide, by decide, rfl,
    (height_click_on_position_leaves_step exampleCollaborators exampleTrig
      (dimensionStateAfter exampleCollaborators exampleTrig exampleTool
        horizontalDimensionEvents).1
      (dimensionStateAfter exampleCollaborators exampleTrig exampleTool
        horizontalDimensionEvents).2 exampleDimension (eventAt .clickLeft ⟨100, 0⟩)
      (by decide) (by decide) rfl).2 rfl⟩

/-- C14, as the code has it. In `drawZone` the cancel branch handles the cancel command
and the activation of a tool alike. With `numPoints > 0` it leaves `numPoints = 0`, the
zone null, `direction45` false and the preview group empty, records nothing on the
commit, and the loop goes on waiting for events exactly when the event is not an
activation: an activation then leaves the loop. With `numPoints = 0` the loop exits
with its state unchanged. -/
theorem zone_cancel_resets_or_exits (E : Collaborators) (aKeepout : Bool) (aMode : ZONE_MODE)
    (t : DRAWING_TOOL) (l : ZoneLoop) (c : TOOL_EVENT) (hc : IsCancelInteractive c = true)
    (hl : ZoneInv l) :
    (0 < l.numPoints →
        ∃ t1 l1, drawZoneStep E aKeepout aMode t l c = some (t1, l1, c.IsActivate)
          ∧ sameDocument t t1 ∧ l1.numPoints = 0 ∧ l1.zone = none ∧ l1.direction45 = false
          ∧ l1.preview = [])
      ∧ (l.numPoints = 0 →
        ∃ t1, drawZoneStep E aKeepout aMode t l c = some (t1, l, true) ∧ sameDocument t t1) :=
  drawZoneStep_cancel_reset E aKeepout aMode t l c hc hl

/-- C14, worked example: after the first corner of a zone the cancel command discards
the gesture and the loop goes on; a second cancel command leaves the loop. -/
theorem zone_cancel_resets_or_exits_witness :
    IsCancelInteractive (eventAt .cancel ⟨50, 50⟩) = true
      ∧ (eventAt .cancel ⟨50, 50⟩).IsActivate = false
      ∧ ZoneInv (zoneStateAfter exampleCollaborators false .ADD exampleTool none
          [zoneClickAt ⟨0, 0⟩ exampleSettings]).2
      ∧ (∃ t1 l1,
          drawZoneStep exampleCollaborators false .ADD
              (zoneStateAfter exampleCollaborators false .ADD exampleTool none
                [zoneClickAt ⟨0, 0⟩ exampleSettings]).1
              (zoneStateAfter exampleCollaborators false .ADD exampleTool none
                [zoneClickAt ⟨0, 0⟩ exampleSettings]).2 (eventAt .cancel ⟨50, 50⟩)
            = some (t1, l1, (eventAt .cancel ⟨50, 50⟩).IsActivate)
          ∧ sameDocument
              (zoneStateAfter exampleCollaborators false .ADD exampleTool none
                [zoneClickAt ⟨0, 0⟩ exampleSettings]).1 t1
          ∧ l1.numPoints = 0 ∧ l1.zone = none ∧ l1.direction45 = false ∧ l1.preview = [])
      ∧ (∃ t1,
          drawZoneStep exampleCollaborators false .ADD exampleTool (ZoneLoop.start none)
              (eventAt .cancel ⟨50, 50⟩)
            = some (t1, ZoneLoop.start none, true) ∧ sameDocument exampleTool t1) :=
  ⟨rfl, rfl, by decide,
    (zone_cancel_resets_or_exits exampleCollaborators false .ADD
      (zoneStateAfter exampleCollaborators false .ADD exampleTool none
        [zoneClickAt ⟨0, 0⟩ exampleSettings]).1
      (zoneStateAfter exampleCollaborators false .ADD exampleTool none
        [zoneClickAt ⟨0, 0⟩ exampleSettings]).2 (eventAt .cancel ⟨50, 50⟩) rfl
      (by decide)).1 (by decide),
    (zone_cancel_resets_or_exits exampleCollaborators false .ADD exampleTool (ZoneLoop.start none)
      (eventAt .cancel ⟨50, 50⟩) rfl (by decide)).2 rfl⟩

/-- C14, counterexample to the claim as stated. After the first corner of a zone
(`numPoints = 1`) the activation of a tool arrives. It passes the cancel test of the
loop, the gesture is discarded, and the loop is left instead of waiting for events. -/
theorem zone_activation_leaves_loop :
    IsCancelInteractive (eventAt .activate ⟨50, 50⟩) = true
      ∧ (zoneStateAfter exampleCollaborators false .ADD exampleTool none
          [zoneClickAt ⟨0, 0⟩ exampleSettings]).2.numPoints = 1
      ∧ (drawZoneStep exampleCollaborators false .ADD
            (zoneStateAfter exampleCollaborators false .ADD exampleTool none
              [zoneClickAt ⟨0, 0⟩ exampleSettings]).1
            (zoneStateAfter exampleCollaborators false .ADD exampleTool none
              [zoneClickAt ⟨0, 0⟩ exampleSettings]).2
            (eventAt .activate ⟨50, 50⟩)).map (fun r => (r.2.1.numPoints, r.2.2))
          = some (0, true) := by
  decide

/-- C16, as the code has it. After the mode check of an event the flag `direction45` of
`drawSegment`, for a started line, is the option `g_Segments_45_Only` XOR the Ctrl
state of the event. In `drawZone` with `numPoints > 0` it is the Ctrl state of the
event alone: the mode check of `drawZone` does not read the option. -/
theorem effective_mode_per_loop (E : Collaborators) :
    (∀ t l evt, l.started = true →
        (segmentModeCheck E .S_SEGMENT t l evt).2.direction45
          = xor t.g_Segments_45_Only evt.ctrl)
      ∧ (∀ t l evt, ZoneInv l → 0 < l.numPoints →
        ∃ t1 l1, zoneModeCheck E t l evt = some (t1, l1) ∧ l1.direction45 = evt.ctrl) := by
  constructor
  · intro t l evt hs
    rw [segmentModeCheck_mode E t l evt hs]
    unfold limit45
    cases t.g_Segments_45_Only <;> cases evt.ctrl <;> rfl
  · intro t l evt hl hn
    obtain ⟨t1, l1, hm, _, _, _, _, _, _, hd⟩ := zoneModeCheck_inv E t l evt hl
    refine ⟨t1, l1, hm, ?_⟩
    rw [hd]
    simp [hn]

/-- C16, worked examples: with the option off and Ctrl held, a started line and a zone
with one corner are both in 45 degree mode after the mode check. -/
theorem effective_mode_per_loop_witness :
    (segmentEntry .S_SEGMENT exampleTool (DRAWSEGMENT.new false) (some ⟨0, 0⟩)).2.started = true
      ∧ (segmentModeCheck exampleCollaborators .S_SEGMENT exampleTool
          (segmentEntry .S_SEGMENT exampleTool (DRAWSEGMENT.new false) (some ⟨0, 0⟩)).2
          (ctrlEventAt .motion ⟨100, 30⟩)).2.direction45
          = xor exampleTool.g_Segments_45_Only (ctrlEventAt .motion ⟨100, 30⟩).ctrl
      ∧ (∃ t1 l1,
          zoneModeCheck exampleCollaborators exampleTool
              (zoneStateAfter exampleCollaborators false .ADD exampleTool none
                [zoneClickAt ⟨0, 0⟩ exampleSettings]).2 (ctrlEventAt .motion ⟨100, 30⟩)
            = some (t1, l1)
          ∧ l1.direction45 = (ctrlEventAt .motion ⟨100, 30⟩).ctrl) :=
  ⟨by decide,
    (effective_mode_per_loop exampleCollaborators).1 exampleTool
      (segmentEntry .S_SEGMENT exampleTool (DRAWSEGMENT.new false) (some ⟨0, 0⟩)).2
      (ctrlEventAt .motion ⟨100, 30⟩) (by decide),
    (effective_mode_per_loop exampleCollaborators).2 exampleTool
      (zoneStateAfter exampleCollaborators false .ADD exampleTool none
        [zoneClickAt ⟨0, 0⟩ exampleSettings]).2 (ctrlEventAt .motion ⟨100, 30⟩)
      (by decide) (by decide)⟩

/-- C16, counterexample to the claim as stated. With the option `g_Segments_45_Only`
switched on and Ctrl released, a zone with one corner receives a motion event: after
the mode check `direction45` is false, while the option XOR Ctrl is true. -/
theorem zone_mode_ignores_option :
    exampleTool45.g_Segments_45_Only = true
      ∧ (eventAt .motion ⟨100, 0⟩).ctrl = false
      ∧ (zoneStateAfter exampleCollaborators false .ADD exampleTool45 none
          [zoneClickAt ⟨0, 0⟩ exampleSettings]).2.numPoints = 1
      ∧ ((zoneModeCheck exampleCollaborators
            ((zoneStateAfter exampleCollaborators false .ADD exampleTool45 none
              [zoneClickAt ⟨0, 0⟩ exampleSettings]).1.Wait (eventAt .motion ⟨100, 0⟩))
            (zoneStateAfter exampleCollaborators false .ADD exampleTool45 none
              [zoneClickAt ⟨0, 0⟩ exampleSettings]).2
            (eventAt .motion ⟨100, 0⟩)).map fun r => r.2.direction45) = some false
      ∧ xor exampleTool45.g_Segments_45_Only (eventAt .motion ⟨100, 0⟩).ctrl = true := by
  decide

/-- C17. In `PlaceText`, a left click made while no text is in progress opens the text
properties dialog; when the dialog is rejected or leaves the text empty, the text just
constructed is deleted, and the click changes nothing else: the preview group is as
before, nothing is recorded on the commit, no text is in progress and the loop goes on.
A later click in that state commits nothing either: it constructs a new text, which
is in progress afterwards only if its own dialog is accepted with a text that is not
empty. In every state, what a step commits is the text in progress. -/
theorem rejected_text_is_dropped (E : Collaborators) (t : DRAWING_TOOL) (l : TextLoop)
    (evt : TOOL_EVENT) (hk : evt.kind = .clickLeft) (hn : l.text = none)
    (hr : evt.textDialog = none ∨ evt.textDialog = some "") :
    newText E (t.Wait evt) evt = none
      ∧ PlaceTextStep E t l evt = (t.Wait evt, l, false)
      ∧ sameDocument t (PlaceTextStep E t l evt).1
      ∧ (∀ t2 e2, e2.kind = .clickLeft →
          sameDocument t2 (PlaceTextStep E t2 (PlaceTextStep E t l evt).2.1 e2).1
            ∧ ∀ x, (PlaceTextStep E t2 (PlaceTextStep E t l evt).2.1 e2).2.1.text = some x →
                ∃ s, e2.textDialog = some s ∧ s ≠ "")
      ∧ (∀ t2 l2 e2, sameDocument t2 (PlaceTextStep E t2 l2 e2).1
          ∨ ∃ x, l2.text = some x ∧ e2.kind = .clickLeft
              ∧ (PlaceTextStep E t2 l2 e2).1.commitCalls
                  = t2.commitCalls ++ [.Add (clearFlags x), .Push "Place a text"]) := by
  have hnew := newText_rejected E (t.Wait evt) evt hr
  have hstep : PlaceTextStep E t l evt = (t.Wait evt, l, false) := by
    rw [PlaceTextStep_noText_click E t l evt hk hn, hnew]
  refine ⟨hnew, hstep, ?_, ?_, fun t2 l2 e2 => PlaceTextStep_commits E t2 l2 e2⟩
  · rw [hstep]; exact sameDocument_Wait t evt
  · intro t2 e2 hk2
    rw [hstep]
    have h2 := PlaceTextStep_noText_click E t2 l e2 hk2 hn
    cases hx : newText E (t2.Wait e2) e2 with
    | none =>
      rw [hx] at h2
      rw [h2]
      exact ⟨sameDocument_Wait t2 e2, fun x hsome => by rw [hn] at hsome; cases hsome⟩
    | some y =>
      rw [hx] at h2
      rw [h2]
      exact ⟨⟨rfl, rfl, rfl, rfl⟩, fun _ _ => newText_accepted E (t2.Wait e2) e2 y hx⟩

/-- C17, worked example: the first click of the example tool with the dialog rejected
leaves the loop as it was, with nothing recorded on the commit. -/
theorem rejected_text_is_dropped_witness :
    (eventAt .clickLeft ⟨10, 20⟩).textDialog = none
      ∧ PlaceTextStep exampleCollaborators exampleTool { text := none, preview := [] }
          (eventAt .clickLeft ⟨10, 20⟩)
        = (exampleTool.Wait (eventAt .clickLeft ⟨10, 20⟩), { text := none, preview := [] }, false)
      ∧ (exampleTool.Wait (eventAt .clickLeft ⟨10, 20⟩)).commitCalls = [] :=
  ⟨rfl,
    (rejected_text_is_dropped exampleCollaborators exampleTool { text := none, preview := [] }
      (eventAt .clickLeft ⟨10, 20⟩) rfl rfl (Or.inl rfl)).2.1,
    rfl⟩

/-- C18, what the code does. The segment `DrawLine` commits for a click that accepts it
has a start that differs from its end. But when a line is started by a click and the
next click is in the same spot while the 45 degree mode is in effect, the gesture
finishes and `drawSegment` itself commits the copy of `line45` with its end set to the
start of the graphic: a segment that starts and ends at the clicked point, of zero
length, is recorded by `Add` and `Push`. -/
theorem zero_length_helper_committed (E : Collaborators) (t : DRAWING_TOOL) :
    (∀ sp pre e rest,
        segmentGoesOn E .S_SEGMENT
          (segmentEntry .S_SEGMENT t (DRAWSEGMENT.new t.m_editModules) sp).1
          (segmentEntry .S_SEGMENT t (DRAWSEGMENT.new t.m_editModules) sp).2 pre = true →
        segmentAccepts E .S_SEGMENT
          (segmentAfter E .S_SEGMENT
            (segmentEntry .S_SEGMENT t (DRAWSEGMENT.new t.m_editModules) sp).1
            (segmentEntry .S_SEGMENT t (DRAWSEGMENT.new t.m_editModules) sp).2 pre).1
          (segmentAfter E .S_SEGMENT
            (segmentEntry .S_SEGMENT t (DRAWSEGMENT.new t.m_editModules) sp).1
            (segmentEntry .S_SEGMENT t (DRAWSEGMENT.new t.m_editModules) sp).2 pre).2 e = true →
        ∃ line t1, DrawLineIter E t sp (pre ++ e :: rest) = (true, t1, some line.GetEnd, rest)
          ∧ t1.commitCalls = t.commitCalls ++ [.Add (.segment line), .Push "Draw a line segment"]
          ∧ line.GetStart ≠ line.GetEnd)
      ∧ (∀ e1 e2 rest p, e1.kind = .clickLeft → e2.kind = .clickLeft → e1.cursor = p →
        e2.cursor = p → limit45 t e2 = true →
        ∃ seg t1, DrawLineIter E t none (e1 :: e2 :: rest) = (true, t1, none, rest)
          ∧ t1.commitCalls = t.commitCalls ++ [.Add (.segment seg), .Push "Draw a line"]
          ∧ seg.GetStart = p ∧ seg.GetEnd = p) := by
  constructor
  · intro sp pre e rest hpre hacc
    obtain ⟨line, t1, hline, hiter, hcalls, _⟩ := DrawLineIter_accepts E t sp pre e rest hpre hacc
    refine ⟨line, t1, hiter, hcalls, fun heq => ?_⟩
    unfold segmentAccepts finishTest at hacc
    simp only [Bool.and_eq_true, Bool.not_eq_true', Bool.or_eq_false_iff,
      decide_eq_false_iff_not] at hacc
    apply hacc.2.1
    rw [← hline]
    exact heq.symm
  · intro e1 e2 rest p h1 h2 hp1 hp2 h45
    exact DrawLineIter_same_spot E t e1 e2 rest p h1 h2 hp1 hp2 h45

/-- C18, the failing input evaluated: with the option `g_Segments_45_Only` switched on,
a click at (0,0) followed by a second click at (0,0) commits the segment from (0,0) to
(0,0), which is on the board afterwards; the same happens with the option off and Ctrl
held at the second click. -/
theorem zero_length_helper_committed_witness :
    limit45 exampleTool45 (eventAt .clickLeft ⟨0, 0⟩) = true
      ∧ (∃ seg t1,
          DrawLineIter exampleCollaborators exampleTool45 none
              (eventAt .clickLeft ⟨0, 0⟩ :: eventAt .clickLeft ⟨0, 0⟩ :: [])
            = (true, t1, none, [])
          ∧ t1.commitCalls
              = exampleTool45.commitCalls ++ [.Add (.segment seg), .Push "Draw a line"]
          ∧ seg.GetStart = ⟨0, 0⟩ ∧ seg.GetEnd = ⟨0, 0⟩)
      ∧ (DrawLineIter exampleCollaborators exampleTool45 none
          [eventAt .clickLeft ⟨0, 0⟩, eventAt .clickLeft ⟨0, 0⟩]).2.1.commitCalls
        = [.Add (.segment (exampleSegment ⟨0, 0⟩ ⟨0, 0⟩)), .Push "Draw a line"]
      ∧ (DrawLineIter exampleCollaborators exampleTool45 none
          [eventAt .clickLeft ⟨0, 0⟩, eventAt .clickLeft ⟨0, 0⟩]).2.1.board
        = [.segment (exampleSegment ⟨0, 0⟩ ⟨0, 0⟩)]
      ∧ (DrawLineIter exampleCollaborators exampleTool none
          [eventAt .clickLeft ⟨0, 0⟩, ctrlEventAt .clickLeft ⟨0, 0⟩]).2.1.commitCalls
        = [.Add (.segment (exampleSegment ⟨0, 0⟩ ⟨0, 0⟩)), .Push "Draw a line"] :=
  ⟨by decide,
    (zero_length_helper_committed exampleCollaborators exampleTool45).2
      (eventAt .clickLeft ⟨0, 0⟩) (eventAt .clickLeft ⟨0, 0⟩) [] ⟨0, 0⟩ rfl rfl rfl rfl
      (by decide),
    by decide, by decide, by decide⟩

/-- C19. In `drawZone`, after any sequence of events handled from the start of the loop,
if `numPoints > 0` then the zone is not null and its corner count equals `numPoints`.
Hence on the closing path, which is guarded by `numPoints > 2`, the assertion
`zone->GetNumCorners() > 2` holds, and a step records something on the commit (`Add` of
the zone, or `Modify` and the cutout of the source zone) only for a closing click that
finds a zone with at least 3 corners. -/
theorem zone_corner_count_invariant (E : Collaborators) (aKeepout : Bool) (aMode : ZONE_MODE)
    (sourceZone : Option Nat) (evs : List TOOL_EVENT) (t t1 : DRAWING_TOOL) (l1 : ZoneLoop)
    (hrun : drawZoneLoop E aKeepout aMode t (ZoneLoop.start sourceZone) evs = some (t1, l1)) :
    (0 < l1.numPoints → ∃ z, l1.zone = some z ∧ z.GetNumCorners = l1.numPoints)
      ∧ (∀ evt, zoneCloses l1 evt = true → 2 < l1.numPoints →
          ∃ z, l1.zone = some z ∧ 2 < z.GetNumCorners)
      ∧ (∀ evt t2 l2 b, drawZoneStep E aKeepout aMode t1 l1 evt = some (t2, l2, b) →
          t2.commitCalls ≠ t1.commitCalls →
          zoneCloses l1 evt = true ∧ ∃ z, l1.zone = some z ∧ 3 ≤ z.GetNumCorners) := by
  obtain ⟨hinv, hcor⟩ := drawZoneLoop_corners E aKeepout aMode evs t (ZoneLoop.start sourceZone)
    t1 l1 (ZoneInv_start sourceZone) (ZoneCorners_start sourceZone) hrun
  refine ⟨hcor, ?_, ?_⟩
  · intro evt _ hn
    obtain ⟨z, hz, hc⟩ := hcor (by omega)
    exact ⟨z, hz, by omega⟩
  · intro evt t2 l2 b hstep hne
    rcases (drawZoneStep_corners E aKeepout aMode t1 l1 evt t2 l2 b hinv hcor hstep).2 with hd | hd
    · exact absurd hd.1 hne
    · obtain ⟨z, hz, hc⟩ := hcor (by omega)
      exact ⟨hd.1, z, hz, by omega⟩

/-- C19, worked example: after the three clicks of the triangle the zone in progress has
3 corners and `numPoints` is 3. -/
theorem zone_corner_count_invariant_witness :
    drawZoneLoop exampleCollaborators false .ADD exampleTool.enterLoop (ZoneLoop.start none)
        triangleEvents
      = some (zoneStateAfter exampleCollaborators false .ADD exampleTool none triangleEvents)
    ∧ (zoneStateAfter exampleCollaborators false .ADD exampleTool none
        triangleEvents).2.numPoints = 3
    ∧ ∃ z, (zoneStateAfter exampleCollaborators false .ADD exampleTool none
              triangleEvents).2.zone = some z
          ∧ z.GetNumCorners
              = (zoneStateAfter exampleCollaborators false .ADD exampleTool none
                  triangleEvents).2.numPoints :=
  ⟨by decide, by decide,
    (zone_corner_count_invariant exampleCollaborators false .ADD none triangleEvents
      exampleTool.enterLoop
      (zoneStateAfter exampleCollaborators false .ADD exampleTool none triangleEvents).1
      (zoneStateAfter exampleCollaborators false .ADD exampleTool none triangleEvents).2
      (by decide)).1 (by decide)⟩

/-- C20. In `DrawDimension` a click at step `SET_END` whose cursor equals the origin of
the dimension does not advance the step: it stays `SET_END` and nothing is committed.
From the start of the loop every sequence of events is handled without dereferencing a
null dimension, the step `SET_HEIGHT` is only ever reached with an origin that differs
from the end, and every dimension the loop adds to the commit has an origin that differs
from its end, so the assertion `GetOrigin() != GetEnd()` holds at every commit; the
same holds of `DrawDimension` as a whole. -/
theorem dimension_origin_differs_from_end (E : Collaborators) (T : Trig) :
    (∀ t l d evt, l.step = DIM_SET_END → l.dimension = some d → evt.kind = .clickLeft →
        evt.cursor = d.GetOrigin →
        ∃ t1 l1, DrawDimensionStep E T t l evt = some (t1, l1, false)
          ∧ l1.step = DIM_SET_END ∧ sameDocument t t1)
      ∧ (∀ evs t,
        ∃ t1 l1, DrawDimensionLoop E T t DimensionLoop.start evs = some (t1, l1)
          ∧ (l1.step = DIM_SET_HEIGHT → ∃ d, l1.dimension = some d ∧ d.GetOrigin ≠ d.GetEnd)
          ∧ ((∀ d, COMMIT_CALL.Add (.dimension d) ∈ t.commitCalls → d.GetOrigin ≠ d.GetEnd) →
              ∀ d, COMMIT_CALL.Add (.dimension d) ∈ t1.commitCalls → d.GetOrigin ≠ d.GetEnd))
      ∧ (∀ evs t,
        ∃ t1 l1, DrawDimension E T t evs = some (t1, l1)
          ∧ ((∀ d, COMMIT_CALL.Add (.dimension d) ∈ t.commitCalls → d.GetOrigin ≠ d.GetEnd) →
              ∀ d, COMMIT_CALL.Add (.dimension d) ∈ t1.commitCalls → d.GetOrigin ≠ d.GetEnd)) := by
  refine ⟨?_, ?_, fun evs t => DrawDimension_commits E T t evs⟩
  · intro t l d evt hs hd hk hc
    have h := DrawDimensionStep_endClick E T t l d evt hs hd hk
    rw [if_pos hc.symm] at h
    exact ⟨_, _, h, rfl, sameDocument_Wait t evt⟩
  · intro evs t
    obtain ⟨t1, l1, hrun, hl1, hc⟩ :=
      DrawDimensionLoop_inv E T evs t DimensionLoop.start DimensionInv_start
    exact ⟨t1, l1, hrun, hl1.2.2, hc⟩

/-- C20, worked example: after the origin is set at (0,0) a click at (0,0) leaves the
step at `SET_END`. -/
theorem dimension_origin_differs_from_end_witness :
    (dimensionStateAfter exampleCollaborators exampleTrig exampleTool
        [eventAt .clickLeft ⟨0, 0⟩]).2.step = DIM_SET_END
      ∧ ((dimensionStateAfter exampleCollaborators exampleTrig exampleTool
          [eventAt .clickLeft ⟨0, 0⟩]).2.dimension.map fun d => d.GetOrigin) = some ⟨0, 0⟩
      ∧ ∃ t1 l1,
          DrawDimensionStep exampleCollaborators exampleTrig
              (dimensionStateAfter exampleCollaborators exampleTrig exampleTool
                [eventAt .clickLeft ⟨0, 0⟩]).1
              (dimensionStateAfter exampleCollaborators exampleTrig exampleTool
                [eventAt .clickLeft ⟨0, 0⟩]).2 (eventAt .clickLeft ⟨0, 0⟩)
            = some (t1, l1, false)
          ∧ l1.step = DIM_SET_END
          ∧ sameDocument
              (dimensionStateAfter exampleCollaborators exampleTrig exampleTool
                [eventAt .clickLeft ⟨0, 0⟩]).1 t1 :=
  ⟨by decide, by decide,
    (dimension_origin_differs_from_end exampleCollaborators exampleTrig).1
      (dimensionStateAfter exampleCollaborators exampleTrig exampleTool
        [eventAt .clickLeft ⟨0, 0⟩]).1
      (dimensionStateAfter exampleCollaborators exampleTrig exampleTool
        [eventAt .clickLeft ⟨0, 0⟩]).2
      { m_featureLineGO := ⟨0, 0⟩, m_featureLineDO := ⟨0, 0⟩, m_Height := 0, m_Width := 300000,
        m_Layer := .Dwgs_User, textSize := ⟨1500000, 1500000⟩, textThickness := 300000 }
      (eventAt .clickLeft ⟨0, 0⟩) (by decide) (by decide) rfl rfl⟩

/-- C15, as the code has it. Whenever one of the loops is left by a `break` (a cancel
command or an activation, or the click that accepts or finishes the shape), after any
events handled before, its preview group is empty: for `drawSegment` and `drawArc` at
the return of the function; for `DrawDimension`, provided no earlier event was a click
at step `SET_HEIGHT` on the position of the dimension; for `drawZone`; for `PlaceText`.
`PlaceDXF` clears its preview group after the loop, on every exit. What the preview
group holds when `Wait()` yields no event while a shape is in progress is not stated. -/
theorem preview_empty_when_loop_breaks (E : Collaborators) (T : Trig) :
    (∀ aShape t aGraphic sp pre last rest,
        segmentGoesOn E aShape (segmentEntry aShape t aGraphic sp).1
          (segmentEntry aShape t aGraphic sp).2 pre = true →
        (drawSegmentStep E aShape
          (segmentAfter E aShape (segmentEntry aShape t aGraphic sp).1
            (segmentEntry aShape t aGraphic sp).2 pre).1
          (segmentAfter E aShape (segmentEntry aShape t aGraphic sp).1
            (segmentEntry aShape t aGraphic sp).2 pre).2 last).2.2 = true →
        (drawSegment E aShape t aGraphic sp (pre ++ last :: rest)).preview = [])
      ∧ (∀ t aGraphic pre last rest,
        arcGoesOn E t.enterLoop (arcEntry aGraphic) pre = true →
        (drawArcStep E (arcAfter E t.enterLoop (arcEntry aGraphic) pre).1
          (arcAfter E t.enterLoop (arcEntry aGraphic) pre).2 last).2.2 = true →
        (drawArc E t aGraphic (pre ++ last :: rest)).preview = [])
      ∧ (∀ pre last t t1 t2 l1 l2,
        noHeightRetry E T t DimensionLoop.start pre = true →
        DrawDimensionLoop E T t DimensionLoop.start pre = some (t1, l1) →
        DrawDimensionStep E T t1 l1 last = some (t2, l2, true) →
        l2.preview = [])
      ∧ (∀ aKeepout aMode sourceZone pre last t t1 t2 l1 l2,
        drawZoneLoop E aKeepout aMode t (ZoneLoop.start sourceZone) pre = some (t1, l1) →
        drawZoneStep E aKeepout aMode t1 l1 last = some (t2, l2, true) →
        l2.preview = [])
      ∧ (∀ pre last t,
        (PlaceTextStep E (PlaceTextLoop E t { text := none, preview := [] } pre).1
          (PlaceTextLoop E t { text := none, preview := [] } pre).2 last).2.2 = true →
        (PlaceTextStep E (PlaceTextLoop E t { text := none, preview := [] } pre).1
          (PlaceTextLoop E t { text := none, preview := [] } pre).2 last).2.1.preview = [])
      ∧ (∀ t hasModel dlgOK list evs l,
        (PlaceDXF E t hasModel dlgOK list evs).2 = some l → l.preview = []) := by
  refine ⟨?_, ?_, ?_, ?_, ?_, ?_⟩
  · intro aShape t aGraphic sp pre last rest hpre hlast
    exact drawSegment_break_preview E aShape t aGraphic sp pre last rest hpre hlast
  · intro t aGraphic pre last rest hpre hlast
    exact drawArc_break_preview E t aGraphic pre last rest hpre hlast
  · intro pre last t t1 t2 l1 l2 hn hrun hlast
    exact (DrawDimension_break_preview E T pre last t t1 t2 l1 l2 hn hrun hlast).1
  · intro aKeepout aMode sourceZone pre last t t1 t2 l1 l2 hrun hlast
    exact (drawZone_break_preview E aKeepout aMode sourceZone pre last t t1 t2 l1 l2 hrun hlast).1
  · intro pre last t hlast
    exact PlaceText_break_preview E pre last t hlast
  · intro t hasModel dlgOK list evs l h
    exact PlaceDXF_preview E t hasModel dlgOK list evs l h

/-- C15, worked examples: a line started at (0,0) and cancelled with the cursor at
(100,0) leaves `drawSegment` with an empty preview group; so does the zone loop left by
a cancel command before the first corner, and the dimension loop left at step
`SET_HEIGHT` by the activation of a tool. -/
theorem preview_empty_when_loop_breaks_witness :
    segmentGoesOn exampleCollaborators .S_SEGMENT
        (segmentEntry .S_SEGMENT exampleTool (DRAWSEGMENT.new false) none).1
        (segmentEntry .S_SEGMENT exampleTool (DRAWSEGMENT.new false) none).2
        [eventAt .clickLeft ⟨0, 0⟩, eventAt .motion ⟨100, 0⟩] = true
      ∧ (drawSegment exampleCollaborators .S_SEGMENT exampleTool (DRAWSEGMENT.new false) none
          ([eventAt .clickLeft ⟨0, 0⟩, eventAt .motion ⟨100, 0⟩]
            ++ eventAt .cancel ⟨100, 0⟩ :: [])).preview = []
      ∧ drawZoneStep exampleCollaborators false .ADD exampleTool (ZoneLoop.start none)
          (eventAt .cancel ⟨0, 0⟩)
        = some (exampleTool.Wait (eventAt .cancel ⟨0, 0⟩), ZoneLoop.start none, true)
      ∧ (ZoneLoop.start none).preview = []
      ∧ noHeightRetry exampleCollaborators exampleTrig exampleTool.enterLoop DimensionLoop.start
          horizontalDimensionEvents = true
      ∧ DrawDimensionStep exampleCollaborators exampleTrig
          (dimensionStateAfter exampleCollaborators exampleTrig exampleTool
            horizontalDimensionEvents).1
          (dimensionStateAfter exampleCollaborators exampleTrig exampleTool
            horizontalDimensionEvents).2 (eventAt .activate ⟨100, 0⟩)
        = some ((dimensionStateAfter exampleCollaborators exampleTrig exampleTool
                  horizontalDimensionEvents).1.Wait (eventAt .activate ⟨100, 0⟩),
                { dimension := none, allocated := 1, preview := [], step := DIM_SET_ORIGIN,
                  maxThickness := 300000 }, true)
      ∧ ({ dimension := none, allocated := 1, preview := [], step := DIM_SET_ORIGIN,
           maxThickness := 300000 } : DimensionLoop).preview = [] :=
  ⟨by decide,
    (preview_empty_when_loop_breaks exampleCollaborators exampleTrig).1 .S_SEGMENT exampleTool
      (DRAWSEGMENT.new false) none [eventAt .clickLeft ⟨0, 0⟩, eventAt .motion ⟨100, 0⟩]
      (eventAt .cancel ⟨100, 0⟩) [] (by decide) (by decide),
    by decide,
    (preview_empty_when_loop_breaks exampleCollaborators exampleTrig).2.2.2.1 false .ADD none []
      (eventAt .cancel ⟨0, 0⟩) exampleTool exampleTool
      (exampleTool.Wait (eventAt .cancel ⟨0, 0⟩)) (ZoneLoop.start none) (ZoneLoop.start none)
      rfl (by decide),
    by decide, by decide,
    (preview_empty_when_loop_breaks exampleCollaborators exampleTrig).2.2.1
      horizontalDimensionEvents (eventAt .activate ⟨100, 0⟩) exampleTool.enterLoop
      (dimensionStateAfter exampleCollaborators exampleTrig exampleTool
        horizontalDimensionEvents).1
      ((dimensionStateAfter exampleCollaborators exampleTrig exampleTool
        horizontalDimensionEvents).1.Wait (eventAt .activate ⟨100, 0⟩))
      (dimensionStateAfter exampleCollaborators exampleTrig exampleTool
        horizontalDimensionEvents).2
      { dimension := none, allocated := 1, preview := [], step := DIM_SET_ORIGIN,
        maxThickness := 300000 }
      (by decide) (by decide) (by decide)⟩

/-- C15, counterexample to the claim as stated. A line is started by a click at (0,0)
and `Wait()` yields no further event: `drawSegment` has read every event and returns
with the graphic still in its preview group. (In `DrawDimension`, after a click at step
`SET_HEIGHT` on the position of the dimension, even a cancel command leaves the loop
with the dimension in the preview group.) -/
theorem preview_kept_when_events_end :
    (drawSegment exampleCollaborators .S_SEGMENT exampleTool (DRAWSEGMENT.new false) none
        [eventAt .clickLeft ⟨0, 0⟩]).preview = [.aGraphic]
      ∧ (drawSegment exampleCollaborators .S_SEGMENT exampleTool (DRAWSEGMENT.new false) none
          [eventAt .clickLeft ⟨0, 0⟩]).rest = []
      ∧ ((DrawDimension exampleCollaborators exampleTrig exampleTool heightRetryEvents).map
          fun r => r.2.preview) = some [.dimension 0] := by
  decide

/-- C21. After `make45DegLine` the segment keeps its start and ends where the helper
starts. `make45DegLine` applies the trace computed from the start of the segment to
the cursor, and for every trace: with more than two points the joint is the second
to last point of the trace and the helper ends at its last point; with at most two
points the end of the segment and both ends of the helper are the cursor position. -/
theorem make45DegLine_joins_two_legs (E : Collaborators) (t : DRAWING_TOOL)
    (aSegment aHelper : DRAWSEGMENT) :
    (make45DegLine E t aSegment aHelper).1.GetStart = aSegment.GetStart ∧
    (make45DegLine E t aSegment aHelper).1.GetEnd = (make45DegLine E t aSegment aHelper).2.GetStart ∧
    make45DegLine E t aSegment aHelper =
      apply45Trace t.GetCursorPosition
        (BuildInitialTrace (E.IsDiagonal (aSegment.GetStart - t.GetCursorPosition))
          aSegment.GetStart t.GetCursorPosition) aSegment aHelper ∧
    ∀ newChain : List Point,
      (2 < newChain.length →
        newChain[newChain.length - 2]? =
          some (apply45Trace t.GetCursorPosition newChain aSegment aHelper).1.GetEnd ∧
        newChain[newChain.length - 2]? =
          some (apply45Trace t.GetCursorPosition newChain aSegment aHelper).2.GetStart ∧
        newChain.getLast? =
          some (apply45Trace t.GetCursorPosition newChain aSegment aHelper).2.GetEnd) ∧
      (newChain.length ≤ 2 →
        (apply45Trace t.GetCursorPosition newChain aSegment aHelper).1.GetEnd = t.GetCursorPosition ∧
        (apply45Trace t.GetCursorPosition newChain aSegment aHelper).2.GetStart = t.GetCursorPosition ∧
        (apply45Trace t.GetCursorPosition newChain aSegment aHelper).2.GetEnd = t.GetCursorPosition) := by
  refine ⟨(apply45Trace_joined _ _ _ _).1, (apply45Trace_joined _ _ _ _).2, rfl, ?_⟩
  intro newChain
  refine ⟨fun h => apply45Trace_long _ _ _ _ h, fun h => ?_⟩
  rw [apply45Trace_short _ _ _ _ h]
  exact ⟨rfl, rfl, rfl⟩

/-- C21 at work: from (0,0) towards the cursor at (100,30) the trace has three points,
the segment ends at the bend (70,0) and the helper runs from there to (100,30); with
the cursor at (100,0) the trace has two points and the helper collapses on the cursor. -/
theorem make45DegLine_joins_two_legs_witness :
    (2 < [(⟨0, 0⟩ : Point), ⟨70, 0⟩, ⟨100, 30⟩].length ∧
      [(⟨0, 0⟩ : Point), ⟨70, 0⟩, ⟨100, 30⟩].length - 2 = 1 ∧
      (apply45Trace ⟨100, 30⟩ [⟨0, 0⟩, ⟨70, 0⟩, ⟨100, 30⟩]
        (exampleSegment ⟨0, 0⟩ ⟨5, 5⟩) (exampleSegment ⟨1, 1⟩ ⟨2, 2⟩)).1.GetEnd = ⟨70, 0⟩ ∧
      (apply45Trace ⟨100, 30⟩ [⟨0, 0⟩, ⟨70, 0⟩, ⟨100, 30⟩]
        (exampleSegment ⟨0, 0⟩ ⟨5, 5⟩) (exampleSegment ⟨1, 1⟩ ⟨2, 2⟩)).2.GetEnd = ⟨100, 30⟩) ∧
    ([(⟨0, 0⟩ : Point), ⟨100, 0⟩].length ≤ 2 ∧
      (apply45Trace ⟨100, 0⟩ [⟨0, 0⟩, ⟨100, 0⟩]
        (exampleSegment ⟨0, 0⟩ ⟨5, 5⟩) (exampleSegment ⟨1, 1⟩ ⟨2, 2⟩)).2.GetStart = ⟨100, 0⟩) :=
  ⟨⟨by decide, by decide,
    Option.some.inj (((make45DegLine_joins_two_legs exampleCollaborators
      { exampleTool with controls := { exampleTool.controls with cursor := ⟨100, 30⟩ } }
      (exampleSegment ⟨0, 0⟩ ⟨5, 5⟩) (exampleSegment ⟨1, 1⟩ ⟨2, 2⟩)).2.2.2
        [⟨0, 0⟩, ⟨70, 0⟩, ⟨100, 30⟩]).1 (by decide)).1.symm,
    by decide⟩,
   by decide,
    (((make45DegLine_joins_two_legs exampleCollaborators
      { exampleTool with controls := { exampleTool.controls with cursor := ⟨100, 0⟩ } }
      (exampleSegment ⟨0, 0⟩ ⟨5, 5⟩) (exampleSegment ⟨1, 1⟩ ⟨2, 2⟩)).2.2.2
        [⟨0, 0⟩, ⟨100, 0⟩]).2 (by decide)).2.1⟩

/-- C22. `getDrawingLayer` hands back the active layer and leaves the frame alone when
that layer is not a copper layer; it maps `F_Cu` to `F_SilkS`, `B_Cu` to `B_SilkS` and
every other copper layer to `Dwgs_User` and makes the result the active layer. The
layer handed back is the active layer afterwards, it is never a copper layer, and a
second call hands back the same layer and changes nothing. -/
theorem getDrawingLayer_leaves_copper (t : DRAWING_TOOL) :
    (IsCopperLayer t.activeLayer = false → t.getDrawingLayer = (t, t.activeLayer)) ∧
    (t.activeLayer = .F_Cu →
      t.getDrawingLayer = ({ t with activeLayer := .F_SilkS }, .F_SilkS)) ∧
    (t.activeLayer = .B_Cu →
      t.getDrawingLayer = ({ t with activeLayer := .B_SilkS }, .B_SilkS)) ∧
    (IsCopperLayer t.activeLayer = true → t.activeLayer ≠ .F_Cu → t.activeLayer ≠ .B_Cu →
      t.getDrawingLayer = ({ t with activeLayer := .Dwgs_User }, .Dwgs_User)) ∧
    t.getDrawingLayer.1.activeLayer = t.getDrawingLayer.2 ∧
    IsCopperLayer t.getDrawingLayer.2 = false ∧
    t.getDrawingLayer.1.getDrawingLayer = (t.getDrawingLayer.1, t.getDrawingLayer.2) := by
  rcases t with ⟨w, em, g45, layer, dsn, controls, view, board, sel, cc, pend, undo, zf, am⟩
  cases layer <;>
    simp [DRAWING_TOOL.getDrawingLayer, IsCopperLayer]

/-- C22 at work: on the inner copper layer 2 the layer handed back is `Dwgs_User`, on
`Edge_Cuts` it is `Edge_Cuts` and the frame is as before. -/
theorem getDrawingLayer_leaves_copper_witness :
    (IsCopperLayer (LAYER_ID.In_Cu 2) = true ∧ LAYER_ID.In_Cu 2 ≠ .F_Cu ∧
      LAYER_ID.In_Cu 2 ≠ .B_Cu ∧
      ({ exampleTool with activeLayer := .In_Cu 2 } : DRAWING_TOOL).getDrawingLayer =
        ({ exampleTool with activeLayer := .Dwgs_User }, .Dwgs_User)) ∧
    (IsCopperLayer LAYER_ID.Edge_Cuts = false ∧
      ({ exampleTool with activeLayer := .Edge_Cuts } : DRAWING_TOOL).getDrawingLayer =
        ({ exampleTool with activeLayer := .Edge_Cuts }, .Edge_Cuts)) :=
  ⟨⟨by decide, by decide, by decide,
    (getDrawingLayer_leaves_copper { exampleTool with activeLayer := .In_Cu 2 }).2.2.2.1
      (by decide) (by decide) (by decide)⟩,
   by decide,
    (getDrawingLayer_leaves_copper { exampleTool with activeLayer := .Edge_Cuts }).1 (by decide)⟩

/-- C23, what the code does when the event stream ends in mid-gesture. When
`drawSegment` has handled events without leaving its loop and the line is started, the
iteration of `DrawLine` ends with the line as it stands added to the commit and pushed,
and the loop goes on; from then on every iteration commits one more segment, so that
the loop uses up every iteration it is allowed. When `drawArc` has handled events
without leaving its loop and is past the step `SET_ORIGIN`, the iteration of `DrawArc`
ends with the arc as it stands added to the commit and pushed. -/
theorem stream_end_commits_unfinished_shape (E : Collaborators) (t : DRAWING_TOOL) :
    (∀ (sp : Option Point) (pre : List TOOL_EVENT),
      segmentGoesOn E .S_SEGMENT
        (segmentEntry .S_SEGMENT t (DRAWSEGMENT.new t.m_editModules) sp).1
        (segmentEntry .S_SEGMENT t (DRAWSEGMENT.new t.m_editModules) sp).2 pre = true →
      (segmentAfter E .S_SEGMENT
        (segmentEntry .S_SEGMENT t (DRAWSEGMENT.new t.m_editModules) sp).1
        (segmentEntry .S_SEGMENT t (DRAWSEGMENT.new t.m_editModules) sp).2 pre).2.started = true →
      ∃ t1,
        DrawLineIter E t sp pre = (true, t1, some (segmentAfter E .S_SEGMENT
          (segmentEntry .S_SEGMENT t (DRAWSEGMENT.new t.m_editModules) sp).1
          (segmentEntry .S_SEGMENT t (DRAWSEGMENT.new t.m_editModules) sp).2 pre).2.aGraphic.GetEnd,
          [])
        ∧ t1.commitCalls = t.commitCalls ++ [.Add (.segment (segmentAfter E .S_SEGMENT
            (segmentEntry .S_SEGMENT t (DRAWSEGMENT.new t.m_editModules) sp).1
            (segmentEntry .S_SEGMENT t (DRAWSEGMENT.new t.m_editModules) sp).2 pre).2.aGraphic),
            .Push "Draw a line segment"]) ∧
    (∀ (fuel : Nat) (p : Point),
      (DrawLineLoop E fuel t (some p) []).commitCalls.length
        = t.commitCalls.length + 2 * fuel) ∧
    (∀ pre : List TOOL_EVENT,
      arcGoesOn E t.enterLoop (arcEntry (DRAWSEGMENT.new t.m_editModules)) pre = true →
      ARC_SET_ORIGIN <
        (arcAfter E t.enterLoop (arcEntry (DRAWSEGMENT.new t.m_editModules)) pre).2.step →
      ∃ t1,
        DrawArcIter E t pre = (true, t1, [])
        ∧ t1.commitCalls = t.commitCalls ++ [.Add (.segment
            (arcAfter E t.enterLoop (arcEntry (DRAWSEGMENT.new t.m_editModules)) pre).2.aGraphic),
            .Push "Draw an arc"]) := by
  refine ⟨fun sp pre hpre hst => ?_, fun fuel p => DrawLineLoop_no_events E fuel t p,
    fun pre hpre hst => ?_⟩
  · obtain ⟨t1, h1, h2, _⟩ := DrawLineIter_stream_end E t sp pre hpre hst
    exact ⟨t1, h1, h2⟩
  · obtain ⟨t1, h1, h2, _⟩ := DrawArcIter_stream_end E t pre hpre hst
    exact ⟨t1, h1, h2⟩

/-- C23 at the failing input: after a click at (0,0) and a motion to (100,0) the event
stream ends; `DrawLine` commits the line from (0,0) to (100,0) and goes on from
(100,0), and `DrawArc` commits the arc with centre (0,0) and start (100,0). -/
theorem stream_end_commits_unfinished_shape_witness :
    (segmentGoesOn exampleCollaborators .S_SEGMENT
        (segmentEntry .S_SEGMENT exampleTool (DRAWSEGMENT.new false) none).1
        (segmentEntry .S_SEGMENT exampleTool (DRAWSEGMENT.new false) none).2
        unfinishedLineEvents = true ∧
      (segmentAfter exampleCollaborators .S_SEGMENT
        (segmentEntry .S_SEGMENT exampleTool (DRAWSEGMENT.new false) none).1
        (segmentEntry .S_SEGMENT exampleTool (DRAWSEGMENT.new false) none).2
        unfinishedLineEvents).2.started = true ∧
      ∃ t1, DrawLineIter exampleCollaborators exampleTool none unfinishedLineEvents
          = (true, t1, some ⟨100, 0⟩, [])
        ∧ t1.commitCalls = [.Add (.segment (exampleSegment ⟨0, 0⟩ ⟨100, 0⟩)),
            .Push "Draw a line segment"]) ∧
    (arcGoesOn exampleCollaborators exampleTool.enterLoop (arcEntry (DRAWSEGMENT.new false))
        unfinishedArcEvents = true ∧
      ARC_SET_ORIGIN < (arcAfter exampleCollaborators exampleTool.enterLoop
        (arcEntry (DRAWSEGMENT.new false)) unfinishedArcEvents).2.step ∧
      ∃ t1, DrawArcIter exampleCollaborators exampleTool unfinishedArcEvents = (true, t1, [])
        ∧ t1.commitCalls = [.Add (.segment
            { exampleSegment ⟨0, 0⟩ ⟨100, 0⟩ with m_Shape := .S_ARC }), .Push "Draw an arc"]) :=
  ⟨⟨by decide, by decide,
    (stream_end_commits_unfinished_shape exampleCollaborators exampleTool).1 none
      unfinishedLineEvents (by decide) (by decide)⟩,
   by decide, by decide,
    (stream_end_commits_unfinished_shape exampleCollaborators exampleTool).2.2
      unfinishedArcEvents (by decide) (by decide)⟩

/-- C24, what the code does. A left click at the step `SET_END` away from the centre
computes `startAngle` from the arc start the graphic has before the click, which is
the position of the last motion event, and only then stores the cursor position as
arc start; `startAngle` is the angle of the stored arc start when the two agree. -/
theorem arc_start_angle_precedes_start (E : Collaborators) (t : DRAWING_TOOL) (l : ArcLoop)
    (evt : TOOL_EVENT) (hk : evt.kind = .clickLeft) (hs : l.step = ARC_SET_END)
    (hp : evt.cursor ≠ l.aGraphic.GetCenter) :
    (drawArcStep E t l evt).2.1.startAngle
        = E.Angle (l.aGraphic.GetArcStart - l.aGraphic.GetCenter) ∧
    (drawArcStep E t l evt).2.1.aGraphic.GetArcStart = evt.cursor ∧
    (drawArcStep E t l evt).2.1.aGraphic.GetCenter = l.aGraphic.GetCenter ∧
    (drawArcStep E t l evt).2.1.step = ARC_SET_ANGLE ∧
    (drawArcStep E t l evt).2.2 = false ∧
    (l.aGraphic.GetArcStart = evt.cursor →
      (drawArcStep E t l evt).2.1.startAngle = E.Angle (evt.cursor - l.aGraphic.GetCenter)) := by
  obtain ⟨k1, _, _, k2, k3, _⟩ := clickLeft_kind hk
  have h0 : ARC_SET_END ≠ ARC_SET_ORIGIN := by decide
  simp only [drawArcStep, k1, k2, k3, hs, h0, hp, Bool.false_eq_true, if_false, if_true,
    ne_eq, not_false_eq_true]
  refine ⟨trivial, rfl, rfl, rfl, rfl, fun h => ?_⟩
  rw [h]

/-- C24 at the failing input: the centre is set at (0,0), the cursor moves to (0,100),
and the click comes at (100,0). The arc start stored is (100,0), and `startAngle` is
the angle of the vector to (0,100), not of the vector to (100,0). -/
theorem arc_start_angle_precedes_start_witness :
    (eventAt .clickLeft ⟨100, 0⟩).kind = .clickLeft ∧
    (arcAfter angleCollaborators exampleTool.enterLoop (arcEntry (DRAWSEGMENT.new false))
      arcCentreAndMotion).2.step = ARC_SET_END ∧
    (eventAt .clickLeft ⟨100, 0⟩).cursor ≠
      (arcAfter angleCollaborators exampleTool.enterLoop (arcEntry (DRAWSEGMENT.new false))
        arcCentreAndMotion).2.aGraphic.GetCenter ∧
    (drawArcStep angleCollaborators
      (arcAfter angleCollaborators exampleTool.enterLoop (arcEntry (DRAWSEGMENT.new false))
        arcCentreAndMotion).1
      (arcAfter angleCollaborators exampleTool.enterLoop (arcEntry (DRAWSEGMENT.new false))
        arcCentreAndMotion).2 (eventAt .clickLeft ⟨100, 0⟩)).2.1.startAngle
      = axisAngle ⟨0, 100⟩ ∧
    (drawArcStep angleCollaborators
      (arcAfter angleCollaborators exampleTool.enterLoop (arcEntry (DRAWSEGMENT.new false))
        arcCentreAndMotion).1
      (arcAfter angleCollaborators exampleTool.enterLoop (arcEntry (DRAWSEGMENT.new false))
        arcCentreAndMotion).2 (eventAt .clickLeft ⟨100, 0⟩)).2.1.aGraphic.GetArcStart
      = ⟨100, 0⟩ ∧
    axisAngle ⟨0, 100⟩ = 157 / 100 ∧ axisAngle (⟨100, 0⟩ - ⟨0, 0⟩) = axisAngle ⟨100, 0⟩ ∧
    axisAngle ⟨100, 0⟩ = 0 :=
  ⟨rfl, by decide, by decide,
    (arc_start_angle_precedes_start angleCollaborators _ _ (eventAt .clickLeft ⟨100, 0⟩) rfl
      (by decide) (by decide)).1,
    (arc_start_angle_precedes_start angleCollaborators _ _ (eventAt .clickLeft ⟨100, 0⟩) rfl
      (by decide) (by decide)).2.1,
    by simp [axisAngle], rfl, by simp [axisAngle]⟩

/-- C25. Whatever the events, `drawZone` never frees `line45` and never uses a null or
freed helper line, zone or source zone (the embedding yields `none` for such a use).
In every state the event loop reaches from its start state, `direction45` implies
`numPoints > 0`, `line45` is in the preview group exactly when `direction45` is true,
and the helper line is live while `numPoints > 0`. The two uses the invariant guards
are flagged by the embedding: `FreeItems` on a preview group that holds `line45`, and
the mode check that switches the mode with a helper line that is not live. -/
theorem zone_loop_guards_line45_and_helper (E : Collaborators) (aKeepout : Bool)
    (aMode : ZONE_MODE) (t : DRAWING_TOOL) :
    (∀ evs : List TOOL_EVENT, ∃ r, drawZone E aKeepout aMode t evs = some r) ∧
    (∀ (sourceZone : Option Nat) (pre : List TOOL_EVENT) (t1 : DRAWING_TOOL) (l1 : ZoneLoop),
      drawZoneLoop E aKeepout aMode t (ZoneLoop.start sourceZone) pre = some (t1, l1) →
      (l1.direction45 = true → 0 < l1.numPoints) ∧
      (PREVIEW_ITEM.line45 ∈ l1.preview ↔ l1.direction45 = true) ∧
      (0 < l1.numPoints → l1.helperLine.isSome = true)) ∧
    (∀ l : ZoneLoop, PREVIEW_ITEM.line45 ∈ l.preview → zoneFreeItems l = none) ∧
    (∀ (l : ZoneLoop) (evt : TOOL_EVENT), l.helperLine = none →
      (l.direction45 != (evt.ctrl && decide (l.numPoints > 0))) = true →
      zoneModeCheck E t l evt = none) := by
  refine ⟨fun evs => drawZone_total E aKeepout aMode t evs, ?_, ?_, ?_⟩
  · intro sourceZone pre t1 l1 h
    obtain ⟨h1, h2, h3⟩ :=
      drawZoneLoop_inv E aKeepout aMode pre t _ t1 l1 (ZoneInv_start sourceZone) h
    exact ⟨h1, h3, fun hp => (h2 hp).1⟩
  · intro l hl
    simp only [zoneFreeItems, hl, if_true]
  · intro l evt hh hd
    simp only [zoneModeCheck, hd, if_true, hh]

/-- C25 at work: after the first corner of a zone and a motion with Ctrl held, the
45 degree mode is on, one point is collected, `line45` is in the preview group and the
helper line is live. -/
theorem zone_loop_guards_line45_and_helper_witness :
    drawZoneLoop exampleCollaborators false .ADD exampleTool.enterLoop (ZoneLoop.start none)
        zone45Events
      = some (zoneStateAfter exampleCollaborators false .ADD exampleTool none zone45Events) ∧
    (zoneStateAfter exampleCollaborators false .ADD exampleTool none zone45Events).2.direction45
      = true ∧
    0 < (zoneStateAfter exampleCollaborators false .ADD exampleTool none zone45Events).2.numPoints ∧
    PREVIEW_ITEM.line45 ∈
      (zoneStateAfter exampleCollaborators false .ADD exampleTool none zone45Events).2.preview ∧
    (zoneStateAfter exampleCollaborators false .ADD exampleTool none
      zone45Events).2.helperLine.isSome = true :=
  ⟨by decide, by decide,
    ((zone_loop_guards_line45_and_helper exampleCollaborators false .ADD
      exampleTool.enterLoop).2.1 none zone45Events
      (zoneStateAfter exampleCollaborators false .ADD exampleTool none zone45Events).1
      (zoneStateAfter exampleCollaborators false .ADD exampleTool none zone45Events).2
      (by decide)).1 (by decide),
    ((zone_loop_guards_line45_and_helper exampleCollaborators false .ADD
      exampleTool.enterLoop).2.1 none zone45Events
      (zoneStateAfter exampleCollaborators false .ADD exampleTool none zone45Events).1
      (zoneStateAfter exampleCollaborators false .ADD exampleTool none zone45Events).2
      (by decide)).2.1.mpr (by decide),
    ((zone_loop_guards_line45_and_helper exampleCollaborators false .ADD
      exampleTool.enterLoop).2.1 none zone45Events
      (zoneStateAfter exampleCollaborators false .ADD exampleTool none zone45Events).1
      (zoneStateAfter exampleCollaborators false .ADD exampleTool none zone45Events).2
      (by decide)).2.2 (by decide)⟩

/-- C27. `SetNet` leaves the board of an item alone. For an item of a board, `GetNet`
after `SetNet( c )` is `c` when the board has a net with code `c`, and the code
`UNCONNECTED` when it has none but has the unconnected net; when the board has the
unconnected net, `m_netinfo` is not null afterwards and `GetNet` dereferences no null
pointer. For an item without a board, `m_netinfo` refers to `NETINFO_LIST::ORPHANED`
afterwards, whatever `c`. The constructor leaves `m_netinfo` non-null under the same
condition. -/
theorem setNet_then_getNet (N : NETINFO_LIST) (i : BOARD_CONNECTED_ITEM) (c : Int) :
    (i.SetNet N c).GetBoard = i.GetBoard ∧
    (∀ board, i.GetBoard = some board →
      ((∃ n ∈ board.m_NetInfo, n.m_NetCode = c) → (i.SetNet N c).GetNet N = some c) ∧
      ((¬ ∃ n ∈ board.m_NetInfo, n.m_NetCode = c) →
        (∃ n ∈ board.m_NetInfo, n.m_NetCode = N.UNCONNECTED) →
        (i.SetNet N c).GetNet N = some N.UNCONNECTED) ∧
      ((∃ n ∈ board.m_NetInfo, n.m_NetCode = N.UNCONNECTED) →
        (i.SetNet N c).m_netinfo ≠ .null ∧ ((i.SetNet N c).GetNet N).isSome = true)) ∧
    (i.GetBoard = none →
      (i.SetNet N c).m_netinfo = .ORPHANED ∧
      (i.SetNet N c).GetNet N = some N.ORPHANED.GetNet) ∧
    (∀ board : Option BOARD,
      (∀ b, board = some b → ∃ n ∈ b.m_NetInfo, n.m_NetCode = N.UNCONNECTED) →
      (BOARD_CONNECTED_ITEM.new N board).m_netinfo ≠ .null) := by
  have hset : ∀ (j : BOARD_CONNECTED_ITEM) (board : BOARD) (d : Int), j.GetBoard = some board →
      ((∃ n ∈ board.m_NetInfo, n.m_NetCode = d) → (j.SetNet N d).GetNet N = some d) ∧
      ((¬ ∃ n ∈ board.m_NetInfo, n.m_NetCode = d) →
        (∃ n ∈ board.m_NetInfo, n.m_NetCode = N.UNCONNECTED) →
        (j.SetNet N d).GetNet N = some N.UNCONNECTED) ∧
      ((∃ n ∈ board.m_NetInfo, n.m_NetCode = N.UNCONNECTED) →
        (j.SetNet N d).m_netinfo ≠ .null ∧ ((j.SetNet N d).GetNet N).isSome = true) := by
    intro j board d hb
    obtain ⟨s1, s2⟩ := SetNet_board N j board d hb
    have hyes : (∃ n ∈ board.m_NetInfo, n.m_NetCode = d) →
        (j.SetNet N d).GetNet N = some d ∧ (j.SetNet N d).m_netinfo ≠ .null := by
      intro h
      obtain ⟨n, hn⟩ := FindNet_of_mem h
      have hc := (FindNet_some hn).1
      rw [BOARD_CONNECTED_ITEM.GetNet, s1 n hn]
      exact ⟨by simp [NETINFO_REF.deref, NETINFO_ITEM.GetNet, hc], by simp⟩
    have hno : (¬ ∃ n ∈ board.m_NetInfo, n.m_NetCode = d) →
        (∃ n ∈ board.m_NetInfo, n.m_NetCode = N.UNCONNECTED) →
        (j.SetNet N d).GetNet N = some N.UNCONNECTED ∧ (j.SetNet N d).m_netinfo ≠ .null := by
      intro h hu
      obtain ⟨n, hn⟩ := FindNet_of_mem hu
      have hc := (FindNet_some hn).1
      rw [BOARD_CONNECTED_ITEM.GetNet, s2 (FindNet_none h), hn]
      exact ⟨by simp [NETINFO_REF.ofFound, NETINFO_REF.deref, NETINFO_ITEM.GetNet, hc],
        by simp [NETINFO_REF.ofFound]⟩
    refine ⟨fun h => (hyes h).1, fun h hu => (hno h hu).1, fun hu => ?_⟩
    by_cases h : ∃ n ∈ board.m_NetInfo, n.m_NetCode = d
    · exact ⟨(hyes h).2, by rw [(hyes h).1]; rfl⟩
    · exact ⟨(hno h hu).2, by rw [(hno h hu).1]; rfl⟩
  refine ⟨?_, fun board hb => hset i board c hb, fun hb => ?_, fun board hu => ?_⟩
  · unfold BOARD_CONNECTED_ITEM.SetNet
    split <;> rfl
  · simp [BOARD_CONNECTED_ITEM.SetNet, hb, BOARD_CONNECTED_ITEM.GetNet, NETINFO_REF.deref]
  · cases board with
    | none => simp [BOARD_CONNECTED_ITEM.new, BOARD_CONNECTED_ITEM.SetNet,
        BOARD_CONNECTED_ITEM.GetBoard]
    | some b =>
      exact ((hset { board := some b, m_Subnet := 0, m_ZoneSubnet := 0, m_netinfo := .ORPHANED }
        b N.UNCONNECTED rfl).2.2 (hu b rfl)).1

/-- C27 at work on the example board: net 1 exists and is found, net 7 does not exist
and the item ends on the unconnected net 0; an item without a board is orphaned. -/
theorem setNet_then_getNet_witness :
    boardItem.GetBoard = some exampleBoard ∧
    (∃ n ∈ exampleBoard.m_NetInfo, n.m_NetCode = 1) ∧
    (boardItem.SetNet exampleNets 1).GetNet exampleNets = some 1 ∧
    (¬ ∃ n ∈ exampleBoard.m_NetInfo, n.m_NetCode = 7) ∧
    (∃ n ∈ exampleBoard.m_NetInfo, n.m_NetCode = exampleNets.UNCONNECTED) ∧
    (boardItem.SetNet exampleNets 7).GetNet exampleNets = some 0 ∧
    orphanItem.GetBoard = none ∧
    (orphanItem.SetNet exampleNets 1).m_netinfo = .ORPHANED :=
  ⟨rfl, by decide,
    ((setNet_then_getNet exampleNets boardItem 1).2.1 exampleBoard rfl).1 (by decide),
    by decide, by decide,
    ((setNet_then_getNet exampleNets boardItem 7).2.1 exampleBoard rfl).2.1 (by decide)
      (by decide),
    rfl, ((setNet_then_getNet exampleNets orphanItem 1).2.2.1 rfl).1⟩

/-- C28, as the code has it. An item has no net class exactly when it has no board.
For an item `a` with a net class, `a.GetClearance( b )` is the larger of the clearance
of that class and of `b.GetClearance()`, so it is smaller than neither; for an item `a`
without a net class both `a.GetClearance( b )` and `a.GetClearance()` are 0, whatever
the clearance of `b`. -/
theorem pairwise_clearance_with_net_class (N : NETINFO_LIST) (a b : BOARD_CONNECTED_ITEM) :
    (a.GetNetClass N = some none ↔ a.GetBoard = none) ∧
    b.GetClearance N none = b.GetClearanceAlone N ∧
    (∀ (myclass : NETCLASS) (cb : Int), a.GetNetClass N = some (some myclass) →
      b.GetClearance N none = some cb →
      a.GetClearance N none = some myclass.GetClearance ∧
      a.GetClearance N (some b) = some (max cb myclass.GetClearance) ∧
      myclass.GetClearance ≤ max cb myclass.GetClearance ∧
      cb ≤ max cb myclass.GetClearance) ∧
    (a.GetNetClass N = some none →
      a.GetClearance N (some b) = some 0 ∧ a.GetClearance N none = some 0) := by
  have hb : b.GetClearance N none = b.GetClearanceAlone N := by
    unfold BOARD_CONNECTED_ITEM.GetClearance BOARD_CONNECTED_ITEM.GetClearanceAlone
    rcases b.GetNetClass N with _ | _ | _ <;> rfl
  refine ⟨?_, hb, ?_, ?_⟩
  · unfold BOARD_CONNECTED_ITEM.GetNetClass
    cases hbd : a.GetBoard with
    | none => simp
    | some board =>
      simp only [false_iff, reduceCtorEq]
      cases a.GetNet N with
      | none => simp
      | some netcode =>
        simp only
        split <;> simp
  · intro myclass cb hc hcb
    rw [hb] at hcb
    refine ⟨?_, ?_, le_max_right _ _, le_max_left _ _⟩
    · simp only [BOARD_CONNECTED_ITEM.GetClearance, hc]
    · simp only [BOARD_CONNECTED_ITEM.GetClearance, hc, hcb]
  · intro hc
    exact ⟨by simp only [BOARD_CONNECTED_ITEM.GetClearance, hc],
      by simp only [BOARD_CONNECTED_ITEM.GetClearance, hc]⟩

/-- C28 at work: two items of the example board, `a` on net 1 (class "Power",
clearance 300000) and `b` on net 2 (default class, clearance 200000); the pairwise
clearance is 300000 in both directions. -/
theorem pairwise_clearance_with_net_class_witness :
    (boardItem.SetNet exampleNets 1).GetNetClass exampleNets
      = some (some { m_Name := "Power", m_Clearance := 300000 }) ∧
    (boardItem.SetNet exampleNets 2).GetClearance exampleNets none = some 200000 ∧
    (boardItem.SetNet exampleNets 1).GetClearance exampleNets
      (some (boardItem.SetNet exampleNets 2)) = some (max 200000 300000) :=
  ⟨by decide, by decide,
    ((pairwise_clearance_with_net_class exampleNets (boardItem.SetNet exampleNets 1)
      (boardItem.SetNet exampleNets 2)).2.2.1 { m_Name := "Power", m_Clearance := 300000 } 200000
      (by decide) (by decide)).2.1⟩

/-- C28 does not hold as stated: for an item `a` without a board and an item `b` on
net 1 of the example board, `a.GetClearance( b )` is 0 while `b.GetClearance()` is
300000. -/
theorem orphan_pairwise_clearance_is_zero :
    orphanItem.GetClearance exampleNets (some (boardItem.SetNet exampleNets 1)) = some 0 ∧
    (boardItem.SetNet exampleNets 1).GetClearance exampleNets none = some 300000 ∧
    ¬ ((300000 : Int) ≤ 0) := by
  decide

/-- C29, what the code does. For an item without a board `GetNetClass` hands back a null
pointer and `GetNetClassName` goes on to read `board->m_NetClasses` through the null
board pointer. For an item of a board whose `m_netinfo` is not null, `GetNetClass` is
never null and `GetNetClassName` is the name of that class, so the fall-back branch
runs for items without a board only. -/
theorem net_class_name_reads_null_board (N : NETINFO_LIST) (i : BOARD_CONNECTED_ITEM) :
    (i.GetBoard = none → i.GetNetClass N = some none ∧ i.GetNetClassName N = none) ∧
    (∀ board : BOARD, i.GetBoard = some board → i.m_netinfo ≠ .null →
      ∃ c : NETCLASS, i.GetNetClass N = some (some c) ∧ i.GetNetClassName N = some c.GetName) := by
  constructor
  · intro hb
    have hc : i.GetNetClass N = some none := by
      simp only [BOARD_CONNECTED_ITEM.GetNetClass, hb]
    exact ⟨hc, by simp only [BOARD_CONNECTED_ITEM.GetNetClassName, hc, hb]⟩
  · intro board hb hn
    have hnet : ∃ code, i.GetNet N = some code := by
      unfold BOARD_CONNECTED_ITEM.GetNet
      cases hm : i.m_netinfo with
      | null => exact absurd hm hn
      | ORPHANED => exact ⟨_, rfl⟩
      | net n => exact ⟨_, rfl⟩
    obtain ⟨code, hcode⟩ := hnet
    have hc : ∃ c : NETCLASS, i.GetNetClass N = some (some c) := by
      simp only [BOARD_CONNECTED_ITEM.GetNetClass, hb, hcode]
      split
      · exact ⟨_, rfl⟩
      · exact ⟨_, rfl⟩
    obtain ⟨c, hcc⟩ := hc
    exact ⟨c, hcc, by simp only [BOARD_CONNECTED_ITEM.GetNetClassName, hcc]⟩

/-- C29 at the failing input: an item constructed without a board has no net class, and
`GetNetClassName` dereferences the null board pointer; the item constructed on the
example board is on net 0 and has the default class. -/
theorem net_class_name_reads_null_board_witness :
    orphanItem.GetBoard = none ∧
    orphanItem.GetNetClass exampleNets = some none ∧
    orphanItem.GetNetClassName exampleNets = none ∧
    boardItem.GetNetClassName exampleNets = some "Default" :=
  ⟨rfl, ((net_class_name_reads_null_board exampleNets orphanItem).1 rfl).1,
    ((net_class_name_reads_null_board exampleNets orphanItem).1 rfl).2, by decide⟩

/-- C30. After `OnFootprintSelected` has handled an event that carries the string `s`,
`m_fp_override` is `s`, and `m_field_edits` is the entries it held for other field ids,
in their order, followed by `(FOOTPRINT, s)`: that entry is the last one and the only
one with the field id `FOOTPRINT`. Handling the same event once more leaves the list
and `m_fp_override` as they are. -/
theorem footprint_selection_replaces_entry (validId : String → Bool)
    (d : DIALOG_CHOOSE_COMPONENT) (aEvent : wxCommandEvent) :
    (d.OnFootprintSelected validId aEvent).m_fp_override = aEvent.GetString ∧
    (d.OnFootprintSelected validId aEvent).m_field_edits.getLast?
      = some (FOOTPRINT, aEvent.GetString) ∧
    ((d.OnFootprintSelected validId aEvent).m_field_edits.filter fun i => i.1 == FOOTPRINT)
      = [(FOOTPRINT, aEvent.GetString)] ∧
    ((d.OnFootprintSelected validId aEvent).m_field_edits.filter fun i => !(i.1 == FOOTPRINT))
      = (d.m_field_edits.filter fun i => !(i.1 == FOOTPRINT)) ∧
    (d.OnFootprintSelected validId aEvent).m_field_edits
      = (d.m_field_edits.filter fun i => !(i.1 == FOOTPRINT))
          ++ [(FOOTPRINT, aEvent.GetString)] ∧
    ((d.OnFootprintSelected validId aEvent).OnFootprintSelected validId aEvent).m_field_edits
      = (d.OnFootprintSelected validId aEvent).m_field_edits ∧
    ((d.OnFootprintSelected validId aEvent).OnFootprintSelected validId aEvent).m_fp_override
      = (d.OnFootprintSelected validId aEvent).m_fp_override := by
  obtain ⟨h1, h2⟩ := OnFootprintSelected_fields validId d aEvent
  obtain ⟨k1, k2⟩ :=
    OnFootprintSelected_fields validId (d.OnFootprintSelected validId aEvent) aEvent
  refine ⟨h2, ?_, ?_, ?_, h1, ?_, k2.trans h2.symm⟩
  · rw [h1]; simp
  · rw [h1]; exact filter_footprint_single _ _
  · rw [h1]; exact filter_not_footprint_idem _ _
  · rw [k1, h1, filter_not_footprint_idem]

end DrawingTool
